import Mathlib

/-!
# Lustre ptlrpc client engine (lustre/ptlrpc/client.c)

A shallow embedding of the request lifecycle engine: request phases and flags,
request sets, the import replay list, and the functions of `client.c` that
drive them.  C `int` values are `Int`, `__u64` values are `Nat`, one-bit flags
are `Bool`.  Pointers to requests, imports and sets are addresses (`Nat`) into
an explicit memory `Mem`; an intrusive list is the ordered list of the addresses
linked on it.  `LASSERT`/`LBUG` failures are the result `none`.
Functions of other files (transport, security, recovery, adaptive-timeout
helpers, inline helpers of the headers) are fields of `Collab`.
-/

namespace Lustre

/-! ## Constants of the C library and of the Lustre headers -/

/-- Linux errno values used by `client.c`. -/
def EINTR : Int := 4
def EIO : Int := 5
def EAGAIN : Int := 11
def EWOULDBLOCK : Int := 11
def ENOMEM : Int := 12
def EINVAL : Int := 22
def EBADR : Int := 53
def EPROTO : Int := 71
def EOVERFLOW : Int := 75
def ENOTCONN : Int := 107
def ESHUTDOWN : Int := 108
def ETIMEDOUT : Int := 110

/-- Truncation of a `long` value to a 32-bit C `int` (two's complement). -/
def wrap32 (x : Int) : Int := (x + 2147483648) % 4294967296 - 2147483648

/-- Reduction of a value to an unsigned 64-bit `__u64`. -/
def wrap64 (x : Nat) : Nat := x % 18446744073709551616

/-- Request phases, `enum rq_phase`. -/
inductive rq_phase where
  | RQ_PHASE_NEW
  | RQ_PHASE_RPC
  | RQ_PHASE_BULK
  | RQ_PHASE_INTERPRET
  | RQ_PHASE_COMPLETE
  | RQ_PHASE_UNREGISTERING
  | RQ_PHASE_UNDEFINED
  deriving DecidableEq, Repr

/-- Import connection states, `enum lustre_imp_state`. -/
inductive lustre_imp_state where
  | LUSTRE_IMP_CLOSED
  | LUSTRE_IMP_NEW
  | LUSTRE_IMP_DISCON
  | LUSTRE_IMP_CONNECTING
  | LUSTRE_IMP_REPLAY
  | LUSTRE_IMP_REPLAY_LOCKS
  | LUSTRE_IMP_REPLAY_WAIT
  | LUSTRE_IMP_RECOVER
  | LUSTRE_IMP_FULL
  | LUSTRE_IMP_EVICTED
  deriving DecidableEq, Repr

/-- Message types carried in a reply header. -/
inductive msg_type where
  | PTL_RPC_MSG_REQUEST
  | PTL_RPC_MSG_ERR
  | PTL_RPC_MSG_REPLY
  | other (code : Nat)
  deriving DecidableEq, Repr

open rq_phase lustre_imp_state msg_type

/-! ## Data model -/

/-- The fields of a `struct lustre_msg` header that `client.c` reads or writes
through the `lustre_msg_get_*`/`lustre_msg_set_*` accessors. -/
structure lustre_msg where
  lm_type : msg_type := PTL_RPC_MSG_REQUEST
  lm_opc : Nat := 0
  lm_status : Int := 0
  lm_transno : Nat := 0
  lm_last_committed : Nat := 0
  lm_timeout : Int := 0
  lm_service_time : Int := 0
  lm_conn_cnt : Int := 0
  lm_handle : Nat := 0
  lm_versions : Option (List Nat) := some []
  flag_MSG_REPLAY : Bool := false
  flag_MSG_RESENT : Bool := false

/-- Bulk descriptor, `struct ptlrpc_bulk_desc`; a segment of `bd_iov` is its
(offset, length) pair. -/
structure ptlrpc_bulk_desc where
  bd_success : Bool := false
  bd_network_rw : Bool := false
  bd_max_iov : Int := 0
  bd_iov_count : Int := 0
  bd_nob : Int := 0
  bd_iov : List (Int × Int) := []
  bd_type : Nat := 0
  bd_portal : Int := 0
  deriving DecidableEq

/-- The list heads of `client.c` on which a request can be linked: through
`rq_list` on the sending or delayed list of an import or on the free list of a
pool, through `rq_replay_list` on the replay list of an import, through
`rq_set_chain` on the member list or the new-request list of a set. -/
inductive list_head where
  | imp_sending_list (imp : Nat)
  | imp_delayed_list (imp : Nat)
  | imp_replay_list (imp : Nat)
  | set_requests (set : Nat)
  | set_new_requests (set : Nat)
  | prp_req_list (pool : Nat)
  deriving DecidableEq, Repr

/-- Client request, `struct ptlrpc_request`.  `rq_interpret_reply` and
`rq_commit_cb` are function pointers: the first is the identifier of a callback
whose result `Collab.req_interpret` gives, the second records only whether a
callback is set.  `rq_import` and `rq_set` are addresses.  The list nodes
`rq_list`, `rq_replay_list` and `rq_set_chain` hold the head of the list they
are linked on, `none` being the empty (self-linked) node. -/
structure ptlrpc_request where
  rq_phase : Lustre.rq_phase := RQ_PHASE_NEW
  rq_next_phase : Lustre.rq_phase := RQ_PHASE_UNDEFINED
  rq_status : Int := 0
  rq_timeout : Int := 0
  rq_sent : Int := 0
  rq_real_sent : Int := 0
  rq_deadline : Int := 0
  rq_reply_deadline : Int := 0
  rq_xid : Nat := 0
  rq_transno : Nat := 0
  rq_import_generation : Int := 0
  rq_send_state : lustre_imp_state := LUSTRE_IMP_FULL
  rq_refcount : Int := 1
  rq_replen : Int := 0
  rq_nob_received : Int := 0
  rq_repbuf_len : Int := 0
  rq_request_portal : Int := 0
  rq_early_count : Int := 0
  rq_intr : Bool := false
  rq_replied : Bool := false
  rq_err : Bool := false
  rq_timedout : Bool := false
  rq_resend : Bool := false
  rq_restart : Bool := false
  rq_replay : Bool := false
  rq_no_resend : Bool := false
  rq_waiting : Bool := false
  rq_receiving_reply : Bool := false
  rq_no_delay : Bool := false
  rq_net_err : Bool := false
  rq_wait_ctx : Bool := false
  rq_early : Bool := false
  rq_must_unlink : Bool := false
  rq_fake : Bool := false
  rq_ctx_init : Bool := false
  rq_ctx_fini : Bool := false
  rq_reply_truncate : Bool := false
  rq_invalid_rqset : Bool := false
  rq_list : Option list_head := none
  rq_replay_list : Option list_head := none
  rq_set_chain : Option list_head := none
  rq_import : Option Nat := none
  rq_set : Option Nat := none
  rq_bulk : Option ptlrpc_bulk_desc := none
  rq_interpret_reply : Option Nat := none
  rq_commit_cb : Bool := false
  rq_pool : Option Nat := none
  rq_cli_ctx : Bool := true
  rq_repbuf : Bool := false
  rq_reqbuf : Bool := false
  rq_reqbuf_len : Int := 0
  rq_reqmsg : lustre_msg := {}
  rq_repmsg : lustre_msg := {}

/-- Adaptive timeout estimate, `struct adaptive_timeout`. -/
structure adaptive_timeout where
  at_current : Int := 0
  at_worst_ever : Int := 0
  at_binstart : Int := 0
  at_hist : List Int := []

/-- Import, `struct obd_import`, with the one field of its `obd_device` that
`client.c` reads (`obd_no_recov`).  The three lists hold request addresses in
list order (head first); `imp_sending_list` and `imp_delayed_list` are linked
through `rq_list`, `imp_replay_list` through `rq_replay_list`.  The service
estimates of `imp_at` are indexed by the request portal itself (the result of
`import_at_get_index`). -/
structure obd_import where
  imp_state : lustre_imp_state := LUSTRE_IMP_NEW
  imp_generation : Int := 0
  imp_invalid : Bool := false
  imp_deactive : Bool := false
  imp_dlm_fake : Bool := false
  imp_replayable : Bool := false
  imp_server_timeout : Bool := false
  obd_no_recov : Bool := false
  imp_inval_count : Int := 0
  imp_inflight : Int := 0
  imp_timeouts : Int := 0
  imp_unregistering : Int := 0
  imp_connect_error : Int := 0
  imp_peer_committed_transno : Nat := 0
  imp_last_transno_checked : Nat := 0
  imp_last_generation_checked : Int := 0
  imp_sending_list : List Nat := []
  imp_delayed_list : List Nat := []
  imp_replay_list : List Nat := []
  iat_net_latency : adaptive_timeout := {}
  iat_service_estimate : Int → adaptive_timeout := fun _ => {}

/-- Request set, `struct ptlrpc_request_set`.  `set_requests` holds the member
addresses in list order; `set_interpret` and the entries of `set_cblist` are
callback identifiers. -/
structure ptlrpc_request_set where
  set_requests : List Nat := []
  set_remaining : Int := 0
  set_new_requests : List Nat := []
  set_interpret : Option Nat := none
  set_cblist : List Nat := []

/-- The memory the engine works on: the objects behind each address, the wall
clock in seconds (`cfs_time_current_sec`), the global xid counter, whether a
signal is pending for the caller (`cfs_signal_pending`), and traces:
`commit_log` of the requests whose `rq_commit_cb` was called, `interpret_log` of
the requests whose `rq_interpret_reply` was called with which status, `freed` of
the requests whose memory was released, `replay_unlink_log` of the requests
unlinked from a replay list, `wake_log` of the requests whose waiter was woken,
each in order of occurrence, and `sets_freed` of the sets whose memory was
released.  A request pool (`struct ptlrpc_request_pool`) at address `p` is its
free list `prp_req_list p` and its buffer size `prp_rq_size p`. -/
structure Mem where
  now : Int := 0
  reqs : Nat → ptlrpc_request := fun _ => {}
  imps : Nat → obd_import := fun _ => {}
  sets : Nat → ptlrpc_request_set := fun _ => {}
  ptlrpc_last_xid : Nat := 0
  commit_log : List Nat := []
  interpret_log : List (Nat × Int) := []
  sigpending : Bool := false
  freed : List Nat := []
  replay_unlink_log : List Nat := []
  prp_req_list : Nat → List Nat := fun _ => []
  wake_log : List Nat := []
  sets_freed : List Nat := []
  prp_rq_size : Nat → Int := fun _ => 0

/-- Store `v` at address `a`. -/
def upd {α : Type} (f : Nat → α) (a : Nat) (v : α) : Nat → α :=
  fun b => if b = a then v else f b

/-- Apply `f` to the request at address `a`. -/
def Mem.modReq (m : Mem) (a : Nat) (f : ptlrpc_request → ptlrpc_request) : Mem :=
  { m with reqs := upd m.reqs a (f (m.reqs a)) }

/-- Apply `f` to the import at address `i`. -/
def Mem.modImp (m : Mem) (i : Nat) (f : obd_import → obd_import) : Mem :=
  { m with imps := upd m.imps i (f (m.imps i)) }

/-- Apply `f` to the set at address `s`. -/
def Mem.modSet (m : Mem) (s : Nat) (f : ptlrpc_request_set → ptlrpc_request_set) : Mem :=
  { m with sets := upd m.sets s (f (m.sets s)) }

/-! ## Intrusive lists -/

/-- The addresses linked on list head `h`, in list order. -/
def Mem.list_of (m : Mem) : list_head → List Nat
  | .imp_sending_list i => (m.imps i).imp_sending_list
  | .imp_delayed_list i => (m.imps i).imp_delayed_list
  | .imp_replay_list i => (m.imps i).imp_replay_list
  | .set_requests s => (m.sets s).set_requests
  | .set_new_requests s => (m.sets s).set_new_requests
  | .prp_req_list p => m.prp_req_list p

/-- Replace the addresses linked on list head `h` by `l`. -/
def Mem.set_list (m : Mem) (h : list_head) (l : List Nat) : Mem :=
  match h with
  | .imp_sending_list i => m.modImp i (fun x => { x with imp_sending_list := l })
  | .imp_delayed_list i => m.modImp i (fun x => { x with imp_delayed_list := l })
  | .imp_replay_list i => m.modImp i (fun x => { x with imp_replay_list := l })
  | .set_requests s => m.modSet s (fun x => { x with set_requests := l })
  | .set_new_requests s => m.modSet s (fun x => { x with set_new_requests := l })
  | .prp_req_list p => { m with prp_req_list := upd m.prp_req_list p l }

/-- Reset the node `rq_list` of a request to the empty node. -/
def unlink_rq_list (r : ptlrpc_request) : ptlrpc_request := { r with rq_list := none }

/-- Reset the node `rq_replay_list` of a request to the empty node. -/
def unlink_rq_replay_list (r : ptlrpc_request) : ptlrpc_request :=
  { r with rq_replay_list := none }

/-- Reset the node `rq_set_chain` of a request to the empty node. -/
def unlink_rq_set_chain (r : ptlrpc_request) : ptlrpc_request := { r with rq_set_chain := none }

/-- Link the node `rq_list` of a request on the list `h`. -/
def link_rq_list (h : list_head) (r : ptlrpc_request) : ptlrpc_request :=
  { r with rq_list := some h }

/-- Link the node `rq_set_chain` of a request on the list `h`. -/
def link_rq_set_chain (h : list_head) (r : ptlrpc_request) : ptlrpc_request :=
  { r with rq_set_chain := some h }

/-- Append `a` to the trace of requests unlinked from a replay list. -/
def Mem.log_replay_unlink (m : Mem) (a : Nat) : Mem :=
  { m with replay_unlink_log := m.replay_unlink_log ++ [a] }

/-- Append `a` to the trace of commit callbacks called. -/
def Mem.log_commit (m : Mem) (a : Nat) : Mem :=
  { m with commit_log := m.commit_log ++ [a] }

/-- Record the release of the memory of request `a`. -/
def Mem.log_freed (m : Mem) (a : Nat) : Mem :=
  { m with freed := a :: m.freed }

/-- `cfs_list_del_init(&req->rq_list)`. -/
def del_init_rq_list (m : Mem) (a : Nat) : Mem :=
  match (m.reqs a).rq_list with
  | none => m
  | some h => (m.set_list h ((m.list_of h).erase a)).modReq a unlink_rq_list

/-- `cfs_list_add_tail(&req->rq_list, head)`. -/
def add_tail_rq_list (m : Mem) (a : Nat) (h : list_head) : Mem :=
  (m.set_list h (m.list_of h ++ [a])).modReq a (link_rq_list h)

/-- `cfs_list_del_init(&req->rq_replay_list)`; the unlinking of a linked node is
recorded in `replay_unlink_log`. -/
def del_init_rq_replay_list (m : Mem) (a : Nat) : Mem :=
  match (m.reqs a).rq_replay_list with
  | none => m
  | some h =>
    ((m.set_list h ((m.list_of h).erase a)).modReq a unlink_rq_replay_list).log_replay_unlink a

/-- `cfs_list_del_init(&req->rq_set_chain)`. -/
def del_init_rq_set_chain (m : Mem) (a : Nat) : Mem :=
  match (m.reqs a).rq_set_chain with
  | none => m
  | some h => (m.set_list h ((m.list_of h).erase a)).modReq a unlink_rq_set_chain

/-- `cfs_list_add_tail(&req->rq_set_chain, head)`. -/
def add_tail_rq_set_chain (m : Mem) (a : Nat) (h : list_head) : Mem :=
  (m.set_list h (m.list_of h ++ [a])).modReq a (link_rq_set_chain h)

/-! ## Reference counting and release -/

/-- Add `d` to the reference count of a request. -/
def add_refcount (d : Int) (r : ptlrpc_request) : ptlrpc_request :=
  { r with rq_refcount := r.rq_refcount + d }

/-- `ptlrpc_request_addref(req)`. -/
def ptlrpc_request_addref (m : Mem) (a : Nat) : Mem :=
  m.modReq a (add_refcount 1)

/-- `__ptlrpc_free_req_to_pool(request)`; `none` is a failed `LASSERT`. -/
def __ptlrpc_free_req_to_pool (m : Mem) (a : Nat) (pool : Nat) : Option Mem :=
  if (m.reqs a).rq_list ≠ none then none
  else if (m.reqs a).rq_receiving_reply then none
  else some (add_tail_rq_list m a (.prp_req_list pool))

/-- The release of the reply buffer and of the import reference in
`__ptlrpc_free_req`. -/
def release_buffers (r : ptlrpc_request) : ptlrpc_request :=
  { r with rq_repbuf := false, rq_import := none }

/-- The second half of `__ptlrpc_free_req`, once the request is off the replay
list: the remaining assertions, the release of the buffers, and the return of
the request to its pool or the release of its memory. -/
def free_req_release (m : Mem) (a : Nat) : Option Mem :=
  if (m.reqs a).rq_replay_list ≠ none then none
  else if (m.reqs a).rq_refcount ≠ 0 then none
  else if (match (m.reqs a).rq_bulk with
           | some desc => desc.bd_network_rw
           | none => false) = true then none
  else
    match (m.reqs a).rq_pool with
    | some pool => __ptlrpc_free_req_to_pool (m.modReq a release_buffers) a pool
    | none => some ((m.modReq a release_buffers).log_freed a)

/-- `__ptlrpc_free_req(request, locked)` for a non-NULL request; `none` is a
failed `LASSERT` or `LBUG()`.  The assertions on the server-side fields
`rq_rqbd` and `rq_exp_list`, which a client request never sets, are left out.
The release of the buffers, of the import and export references and of the
security context has no effect on the other modelled fields; the request ends
on the free list of its pool or, when it has none, in the trace `freed` of
released memory. -/
def __ptlrpc_free_req (m : Mem) (a : Nat) : Option Mem :=
  if (m.reqs a).rq_receiving_reply = true then none
  else if (m.reqs a).rq_list ≠ none then none
  else if (m.reqs a).rq_set_chain ≠ none then none
  else if (m.reqs a).rq_replay = true then none
  else if ((m.reqs a).rq_cli_ctx || (m.reqs a).rq_fake) = false then none
  else if (m.reqs a).rq_import ≠ none then free_req_release (del_init_rq_replay_list m a) a
  else free_req_release m a

/-- `__ptlrpc_req_finished(request, locked)` for a non-NULL request: drop one
reference and free the request when the count reaches zero.  The result holds
the return value (1 when the request was freed).  (The test for the poison
pattern of freed memory is a matter of memory layout and is left out.) -/
def __ptlrpc_req_finished (m : Mem) (a : Nat) : Option (Mem × Int) :=
  let m1 := m.modReq a (add_refcount (-1))
  if (m1.reqs a).rq_refcount = 0 then
    (__ptlrpc_free_req m1 a).map (fun m2 => (m2, 1))
  else some (m1, 0)

/-! ## The replay list -/

/-- The `cfs_list_for_each_prev` loop of `ptlrpc_retain_replayable_request`
together with the final `cfs_list_add` at the list head.  The argument is the
part of the replay list not yet visited, last element first; the result is the
new list, last element first, or `none` when the `LASSERT` on equal xids
fails. -/
def replay_list_insert (reqs : Nat → ptlrpc_request) (a : Nat) : List Nat → Option (List Nat)
  | [] => some [a]
  | iter :: rest =>
    if (reqs iter).rq_transno > (reqs a).rq_transno then
      (replay_list_insert reqs a rest).map (fun l => iter :: l)
    else if (reqs iter).rq_transno = (reqs a).rq_transno then
      if (reqs iter).rq_xid = (reqs a).rq_xid then none
      else if (reqs iter).rq_xid > (reqs a).rq_xid then
        (replay_list_insert reqs a rest).map (fun l => iter :: l)
      else some (a :: iter :: rest)
    else some (a :: iter :: rest)

/-- `lustre_msg_clear_flags(req->rq_reqmsg, MSG_RESENT)`. -/
def clear_MSG_RESENT (r : ptlrpc_request) : ptlrpc_request :=
  { r with rq_reqmsg := { r.rq_reqmsg with flag_MSG_RESENT := false } }

/-- `lustre_msg_add_flags(req->rq_reqmsg, MSG_REPLAY)`. -/
def add_MSG_REPLAY (r : ptlrpc_request) : ptlrpc_request :=
  { r with rq_reqmsg := { r.rq_reqmsg with flag_MSG_REPLAY := true } }

/-- Link the node `rq_replay_list` of a request on the replay list of `imp`. -/
def link_rq_replay_list (imp : Nat) (r : ptlrpc_request) : ptlrpc_request :=
  { r with rq_replay_list := some (.imp_replay_list imp) }

/-- Replace the replay list of an import. -/
def with_replay_list (l : List Nat) (x : obd_import) : obd_import :=
  { x with imp_replay_list := l }

/-- `ptlrpc_retain_replayable_request(req, imp)`: add a request to the import
replay list; `none` is the `LBUG()` on a zero transno or a failed `LASSERT`. -/
def ptlrpc_retain_replayable_request (m : Mem) (a : Nat) (imp : Nat) : Option Mem :=
  if (m.reqs a).rq_transno = 0 then none
  else
    let m1 := m.modReq a clear_MSG_RESENT
    if (m1.reqs a).rq_replay_list ≠ none then some m1
    else
      let m2 := m1.modReq a add_MSG_REPLAY
      if (m2.imps imp).imp_replayable = false then none
      else
        let m3 := ptlrpc_request_addref m2 a
        match replay_list_insert m3.reqs a (m3.imps imp).imp_replay_list.reverse with
        | none => none
        | some l =>
          some ((m3.modImp imp (with_replay_list l.reverse)).modReq a (link_rq_replay_list imp))

/-- Clear the flag `rq_replay` of a request. -/
def clear_rq_replay (r : ptlrpc_request) : ptlrpc_request := { r with rq_replay := false }

/-- The code at label `free_req` of `ptlrpc_free_committed`: clear `rq_replay`,
run the commit callback if there is one, unlink the request from the replay
list and drop the reference the list held. -/
def free_committed_free_req (m : Mem) (a : Nat) : Option Mem :=
  let m1 := m.modReq a clear_rq_replay
  let m2 := if (m1.reqs a).rq_commit_cb then m1.log_commit a else m1
  let m3 := del_init_rq_replay_list m2 a
  (__ptlrpc_req_finished m3 a).map (fun x => x.1)

/-- The `cfs_list_for_each_safe` loop of `ptlrpc_free_committed` over the
entries of the replay list not yet visited; `last_req` is the entry visited
before. -/
def free_committed_loop (imp : Nat) : Mem → Option Nat → List Nat → Option Mem
  | m, _, [] => some m
  | m, last_req, a :: rest =>
    if last_req = some a then none
    else if (m.reqs a).rq_transno = 0 then none
    else if (m.reqs a).rq_import_generation < (m.imps imp).imp_generation then
      match free_committed_free_req m a with
      | none => none
      | some m1 => free_committed_loop imp m1 (some a) rest
    else if (m.reqs a).rq_replay then free_committed_loop imp m (some a) rest
    else if (m.reqs a).rq_transno > (m.imps imp).imp_peer_committed_transno then some m
    else
      match free_committed_free_req m a with
      | none => none
      | some m1 => free_committed_loop imp m1 (some a) rest

/-- Record the watermark and generation for which the replay list is checked. -/
def record_last_checked (x : obd_import) : obd_import :=
  { x with imp_last_transno_checked := x.imp_peer_committed_transno
           imp_last_generation_checked := x.imp_generation }

/-- `ptlrpc_free_committed(imp)`: prune the replay list of the import. -/
def ptlrpc_free_committed (m : Mem) (imp : Nat) : Option Mem :=
  if (m.imps imp).imp_peer_committed_transno = (m.imps imp).imp_last_transno_checked ∧
     (m.imps imp).imp_generation = (m.imps imp).imp_last_generation_checked then some m
  else
    let m1 := m.modImp imp record_last_checked
    free_committed_loop imp m1 none (m1.imps imp).imp_replay_list

/-! ## Collaborators -/

/-- One wake-up of a thread sleeping in `l_wait_event`: whether the sleep ended
because its time budget ran out, and the identifier of what the environment did
meanwhile (completion events, clock advance, signals), see `Collab.async`. -/
structure wake where
  timed_out : Bool := false
  ev : Nat := 0

/-- The functions and constants that `client.c` uses and that other files
define: inline helpers of the headers, the adaptive-timeout helpers, the
security layer, the transport, recovery, fault injection, and the callbacks
stored in requests and sets.  A function that works on one request takes and
returns the request; `now` is passed where the function reads the clock. -/
structure Collab where
  /-- `ptlrpc_send_limit_expired(req)` (lustre_net.h). -/
  ptlrpc_send_limit_expired : Int → ptlrpc_request → Bool
  /-- `ptlrpc_no_resend(req)` (lustre_net.h): may set `rq_no_resend`. -/
  ptlrpc_no_resend : Int → ptlrpc_request → ptlrpc_request × Bool
  /-- `ptlrpc_client_recv_or_unlink(req)` (lustre_net.h). -/
  ptlrpc_client_recv_or_unlink : Int → ptlrpc_request → Bool
  /-- `ptlrpc_client_bulk_active(req)` (lustre_net.h). -/
  ptlrpc_client_bulk_active : Int → ptlrpc_request → Bool
  /-- `ptlrpc_client_early(req)` (lustre_net.h). -/
  ptlrpc_client_early : ptlrpc_request → Bool
  /-- `ptlrpc_client_recv(req)` (lustre_net.h). -/
  ptlrpc_client_recv : ptlrpc_request → Bool
  /-- `ptlrpc_client_replied(req)` (lustre_net.h). -/
  ptlrpc_client_replied : ptlrpc_request → Bool
  /-- `ll_rpc_recoverable_error(rc)` (lustre_ha.h). -/
  ll_rpc_recoverable_error : Int → Bool
  /-- `at_measured(at, val)`: feed a sample, return the old estimate or 0. -/
  at_measured : Int → adaptive_timeout → Int → adaptive_timeout × Int
  /-- `at_get(at)`. -/
  at_get : adaptive_timeout → Int
  /-- `at_est2timeout(val)`. -/
  at_est2timeout : Int → Int
  /-- `AT_OFF`: adaptive timeouts are disabled. -/
  AT_OFF : Bool
  /-- The tunable `obd_timeout`. -/
  obd_timeout : Int
  /-- `cfs_curproc_pid()`. -/
  cfs_curproc_pid : Int
  /-- `LONG_UNLINK`, the safety timeout of an unlink in seconds. -/
  LONG_UNLINK : Int
  /-- `OBD_FAIL_CHECK(OBD_FAIL_PTLRPC_LONG_REPL_UNLINK)`. -/
  fail_long_repl_unlink : Bool
  /-- `sptlrpc_req_refresh_ctx(req, timeout)`. -/
  sptlrpc_req_refresh_ctx : Int → ptlrpc_request → ptlrpc_request × Int
  /-- `sptlrpc_cli_unwrap_reply(req)`. -/
  sptlrpc_cli_unwrap_reply : ptlrpc_request → ptlrpc_request × Int
  /-- `sptlrpc_cli_unwrap_early_reply(req, &early_req)`: the early request and
  the return code. -/
  sptlrpc_cli_unwrap_early_reply : ptlrpc_request → ptlrpc_request × Int
  /-- `SPTLRPC_FLVR_POLICY(req->rq_flvr.sf_rpc) != SPTLRPC_POLICY_NULL`. -/
  flvr_policy_not_null : ptlrpc_request → Bool
  /-- `ptlrpc_unpack_rep_msg(req, len)`. -/
  ptlrpc_unpack_rep_msg : ptlrpc_request → ptlrpc_request × Int
  /-- `lustre_unpack_rep_ptlrpc_body(req, offset)`. -/
  lustre_unpack_rep_ptlrpc_body : ptlrpc_request → ptlrpc_request × Int
  /-- `ptl_send_rpc(req, noreply)`. -/
  ptl_send_rpc : Int → ptlrpc_request → ptlrpc_request × Int
  /-- `LNetMDUnlink(req->rq_reply_md_h)`: the unlink may complete at once. -/
  LNetMDUnlink : ptlrpc_request → ptlrpc_request
  /-- `ptlrpc_unregister_bulk(req, async)`. -/
  ptlrpc_unregister_bulk : Int → ptlrpc_request → Bool → ptlrpc_request × Int
  /-- The end of a synchronous wait for the unlink of the reply buffer. -/
  reply_unlinked : ptlrpc_request → ptlrpc_request
  /-- `ptlrpc_request_handle_notconn(req)` (recover.c). -/
  ptlrpc_request_handle_notconn : Mem → Nat → Mem
  /-- `ptlrpc_fail_import(imp, conn_cnt)` (recover.c). -/
  ptlrpc_fail_import : Mem → Nat → Int → Mem
  /-- The callback `rq_interpret_reply` with identifier `cb`, called on the
  request with a status: the request as the callback leaves it, and the value
  the callback returns. -/
  req_interpret : Nat → ptlrpc_request → Int → ptlrpc_request × Int
  /-- The set callback with identifier `cb` (`set_interpret` or an entry of
  `set_cblist`), called with a status: the value it returns. -/
  set_interpret : Nat → Int → Int
  /-- What the environment does while the caller sleeps, by identifier. -/
  async : Nat → Mem → Mem

/-! ## Inline helpers and adaptive timeouts -/

/-- Modelled from the spec: `ptlrpc_rqphase_move` is defined in a header that is
not part of the sources.  The request enters the new phase; on entry to
`UNREGISTERING` the phase to continue with (the phase it comes from) is
recorded in `rq_next_phase`. -/
def ptlrpc_rqphase_move (r : ptlrpc_request) (new_phase : rq_phase) : ptlrpc_request :=
  if r.rq_phase = new_phase then r
  else if new_phase = RQ_PHASE_UNREGISTERING then
    { r with rq_next_phase := r.rq_phase, rq_phase := new_phase }
  else { r with rq_phase := new_phase }

/-- Modelled from the spec: `ptlrpc_req_interpret` is defined in a header that is
not part of the sources.  The completion callback of the request, if any, runs
with the status, and its return value becomes the status of the request; the
call is recorded in `interpret_log`. -/
def ptlrpc_req_interpret (c : Collab) (m : Mem) (a : Nat) (rc : Int) : Mem :=
  match (m.reqs a).rq_interpret_reply with
  | none => m
  | some cb =>
    let res := c.req_interpret cb (m.reqs a) rc
    { m.modReq a (fun _ => { res.1 with rq_status := res.2 }) with
      interpret_log := m.interpret_log ++ [(a, rc)] }

/-- Modelled from the spec: `ptlrpc_client_wake_req` is defined in a header that
is not part of the sources.  The call wakes the thread that waits for the
request (the waiter of its set when it is in one); it is recorded in
`wake_log` and changes nothing else. -/
def ptlrpc_client_wake_req (m : Mem) (a : Nat) : Mem :=
  { m with wake_log := m.wake_log ++ [a] }

/-- `ptlrpc_next_xid()`: increase the global xid and return the new value. -/
def ptlrpc_next_xid (m : Mem) : Mem × Nat :=
  ({ m with ptlrpc_last_xid := wrap64 (m.ptlrpc_last_xid + 1) }, wrap64 (m.ptlrpc_last_xid + 1))

/-- `ptlrpc_at_set_req_timeout(req)`; `none` is the failed `LASSERT` on a
NULL import. -/
def ptlrpc_at_set_req_timeout (c : Collab) (m : Mem) (a : Nat) : Option Mem :=
  match (m.reqs a).rq_import with
  | none => none
  | some imp =>
    let timeout :=
      if c.AT_OFF then
        (if (m.imps imp).imp_server_timeout then c.obd_timeout / 2 else c.obd_timeout)
      else
        c.at_est2timeout
          (c.at_get ((m.imps imp).iat_service_estimate (m.reqs a).rq_request_portal))
    some (m.modReq a (fun r =>
      { r with rq_timeout := timeout, rq_reqmsg := { r.rq_reqmsg with lm_timeout := timeout } }))

/-- `ptlrpc_at_adj_service(req, serv_est)`. -/
def ptlrpc_at_adj_service (c : Collab) (m : Mem) (a : Nat) (serv_est : Int) : Option Mem :=
  match (m.reqs a).rq_import with
  | none => none
  | some imp =>
    let portal := (m.reqs a).rq_request_portal
    let res := c.at_measured m.now ((m.imps imp).iat_service_estimate portal) serv_est
    some (m.modImp imp (fun x =>
      { x with iat_service_estimate := fun p =>
          if p = portal then res.1 else x.iat_service_estimate p }))

/-- `ptlrpc_at_get_net_latency(req)`. -/
def ptlrpc_at_get_net_latency (c : Collab) (m : Mem) (a : Nat) : Option Int :=
  if c.AT_OFF then some 0
  else match (m.reqs a).rq_import with
    | none => none
    | some imp => some (c.at_get (m.imps imp).iat_net_latency)

/-- The sample `nl` that `ptlrpc_at_adj_net_latency` computes:
`max_t(int, now - req->rq_sent - service_time, 0) + 1`. -/
def net_latency_sample (now sent service_time : Int) : Int :=
  max (wrap32 (now - sent - service_time)) 0 + 1

/-- `ptlrpc_at_adj_net_latency(req, service_time)`. -/
def ptlrpc_at_adj_net_latency (c : Collab) (m : Mem) (a : Nat) (service_time : Int) :
    Option Mem :=
  match (m.reqs a).rq_import with
  | none => none
  | some imp =>
    let nl := net_latency_sample m.now (m.reqs a).rq_sent service_time
    let res := c.at_measured m.now (m.imps imp).iat_net_latency nl
    some (m.modImp imp (fun x => { x with iat_net_latency := res.1 }))

/-- `unpack_reply(req)`: the request as the unpacking leaves it and the return
code. -/
def unpack_reply (c : Collab) (r : ptlrpc_request) : ptlrpc_request × Int :=
  let r1 : ptlrpc_request × Int :=
    if c.flvr_policy_not_null r then c.ptlrpc_unpack_rep_msg r else (r, 0)
  if c.flvr_policy_not_null r ∧ r1.2 ≠ 0 then (r1.1, - EPROTO)
  else
    let r2 := c.lustre_unpack_rep_ptlrpc_body r1.1
    if r2.2 ≠ 0 then (r2.1, - EPROTO) else (r2.1, 0)

/-- `ptlrpc_check_status(req)`: the processing status carried by the reply. -/
def ptlrpc_check_status (r : ptlrpc_request) : Int :=
  let err := r.rq_repmsg.lm_status
  if r.rq_repmsg.lm_type = PTL_RPC_MSG_ERR then
    (if err < 0 then err else - EINVAL)
  else err

/-- `ptlrpc_save_versions(req)`; `none` is the failed `LASSERT(versions)`. -/
def ptlrpc_save_versions (m : Mem) (a : Nat) : Option Mem :=
  if (m.reqs a).rq_reqmsg.flag_MSG_REPLAY then some m
  else match (m.reqs a).rq_repmsg.lm_versions with
    | none => none
    | some v =>
      some (m.modReq a (fun r => { r with rq_reqmsg := { r.rq_reqmsg with lm_versions := some v } }))

/-! ## `after_reply` -/

/-- The resend preparation of `after_reply` for a truncated reply: free the
reply buffer, ask for a buffer of the received size, flag the resend. -/
def truncate_resend (r : ptlrpc_request) : ptlrpc_request :=
  { r with rq_repbuf := false, rq_replen := r.rq_nob_received, rq_nob_received := 0,
           rq_resend := true }

/-- Store the transno of the reply in the request and in its message, unless
the request message carries the flag `MSG_REPLAY`. -/
def store_transno (r : ptlrpc_request) : ptlrpc_request :=
  if r.rq_reqmsg.flag_MSG_REPLAY = false then
    { r with rq_transno := r.rq_repmsg.lm_transno,
             rq_reqmsg := { r.rq_reqmsg with lm_transno := r.rq_repmsg.lm_transno } }
  else r

/-- Set the committed watermark of an import. -/
def set_peer_committed (t : Nat) (x : obd_import) : obd_import :=
  { x with imp_peer_committed_transno := t }

/-- Set `imp_connect_error` of an import. -/
def set_connect_error (rc : Int) (x : obd_import) : obd_import :=
  { x with imp_connect_error := rc }

/-- The first step of the block of `after_reply` for a replayable import: retain
the request for replay when it has a transno that is not yet committed or is
flagged for forced replay, otherwise call its commit callback if it has one. -/
def after_reply_retain (m : Mem) (a imp : Nat) : Option Mem :=
  if (m.reqs a).rq_transno ≠ 0 ∧
     ((m.reqs a).rq_transno > (m.reqs a).rq_repmsg.lm_last_committed ∨
      (m.reqs a).rq_replay = true) then
    match ptlrpc_save_versions m a with
    | none => none
    | some m0 => ptlrpc_retain_replayable_request m0 a imp
  else if (m.reqs a).rq_commit_cb then some (m.log_commit a)
  else some m

/-- The block of `after_reply` under `if (imp->imp_replayable)`: retain or
commit the request, take the commit status of the reply as the new watermark
when it is non-zero, and prune the replay list.  (`ptlrpc_pinger_commit_expected`
changes no modelled field.) -/
def after_reply_replayable (m : Mem) (a imp : Nat) : Option Mem :=
  match after_reply_retain m a imp with
  | none => none
  | some m1 =>
    let m2 :=
      if (m1.reqs a).rq_repmsg.lm_last_committed ≠ 0 then
        m1.modImp imp (set_peer_committed (m1.reqs a).rq_repmsg.lm_last_committed)
      else m1
    ptlrpc_free_committed m2 imp

/-- The part of `after_reply` that follows the unpacking of the reply, for a
reply of type `REPLY` or `ERR`: feed the timeout estimators, check the status,
and do the replay bookkeeping.  (`ldlm_cli_update_pool` changes no modelled
field.) -/
def after_reply_unpacked (c : Collab) (m : Mem) (a imp : Nat) : Option (Mem × Int) :=
  match ptlrpc_at_adj_service c m a (m.reqs a).rq_repmsg.lm_timeout with
  | none => none
  | some m3 =>
    match ptlrpc_at_adj_net_latency c m3 a (m3.reqs a).rq_repmsg.lm_service_time with
    | none => none
    | some m4 =>
      let rc := ptlrpc_check_status (m4.reqs a)
      let m5 := m4.modImp imp (set_connect_error rc)
      if rc ≠ 0 ∧ c.ll_rpc_recoverable_error rc = true then
        if (m5.reqs a).rq_send_state ≠ LUSTRE_IMP_FULL ∨ (m5.imps imp).obd_no_recov = true ∨
           (m5.imps imp).imp_dlm_fake = true then some (m5, rc)
        else some (c.ptlrpc_request_handle_notconn m5 a, rc)
      else
        let m6 := m5.modReq a store_transno
        if (m6.imps imp).imp_replayable = true then
          match after_reply_replayable m6 a imp with
          | none => none
          | some m7 => some (m7, rc)
        else some (m6, rc)

/-- `after_reply(req)`: the memory after the call and the value returned (the
processing status of the request); `none` is a failed `LASSERT`. -/
def after_reply (c : Collab) (m : Mem) (a : Nat) : Option (Mem × Int) :=
  match (m.reqs a).rq_import with
  | none => none
  | some imp =>
    if (m.reqs a).rq_receiving_reply = true ∨ (m.reqs a).rq_must_unlink = true then none
    else if (m.reqs a).rq_reply_truncate = true then
      if (c.ptlrpc_no_resend m.now (m.reqs a)).2 = true then
        some (m.modReq a (fun _ => (c.ptlrpc_no_resend m.now (m.reqs a)).1), - EOVERFLOW)
      else
        some (m.modReq a (fun _ => truncate_resend (c.ptlrpc_no_resend m.now (m.reqs a)).1), 0)
    else
      let m1 := m.modReq a (fun r => (c.sptlrpc_cli_unwrap_reply r).1)
      if (c.sptlrpc_cli_unwrap_reply (m.reqs a)).2 ≠ 0 then
        some (m1, (c.sptlrpc_cli_unwrap_reply (m.reqs a)).2)
      else if (m1.reqs a).rq_resend = true then some (m1, 0)
      else
        let m2 := m1.modReq a (fun r => (unpack_reply c r).1)
        if (unpack_reply c (m1.reqs a)).2 ≠ 0 then some (m2, (unpack_reply c (m1.reqs a)).2)
        else if (m2.reqs a).rq_repmsg.lm_type ≠ PTL_RPC_MSG_REPLY ∧
                (m2.reqs a).rq_repmsg.lm_type ≠ PTL_RPC_MSG_ERR then some (m2, - EPROTO)
        else after_reply_unpacked c m2 a imp

/-! ## `ptlrpc_set_next_timeout` -/

/-- The test "Request in-flight?" of `ptlrpc_set_next_timeout`, followed by the
"already timed out" and "waiting for ctx" tests: true when the loop body does
not `continue` before computing a deadline. -/
def next_timeout_counts (req : ptlrpc_request) : Bool :=
  ((req.rq_phase = RQ_PHASE_RPC && !req.rq_waiting) ||
    req.rq_phase = RQ_PHASE_BULK ||
    req.rq_phase = RQ_PHASE_NEW) &&
  !req.rq_timedout && !req.rq_wait_ctx

/-- The `int deadline` computed by the loop body of `ptlrpc_set_next_timeout`. -/
def next_timeout_deadline (req : ptlrpc_request) : Int :=
  if req.rq_phase = RQ_PHASE_NEW then wrap32 req.rq_sent
  else wrap32 (req.rq_sent + req.rq_timeout)

/-- One iteration of the loop of `ptlrpc_set_next_timeout` on `req`, with the
running value `timeout`. -/
def next_timeout_step (now : Int) (timeout : Int) (req : ptlrpc_request) : Int :=
  if next_timeout_counts req then
    let deadline := next_timeout_deadline req
    if deadline ≤ now then 1
    else if timeout = 0 ∨ timeout > deadline - now then wrap32 (deadline - now)
    else timeout
  else timeout

/-- The loop of `ptlrpc_set_next_timeout` over the members in list order. -/
def next_timeout_loop (now : Int) : Int → List ptlrpc_request → Int
  | timeout, [] => timeout
  | timeout, req :: rest => next_timeout_loop now (next_timeout_step now timeout req) rest

/-- `ptlrpc_set_next_timeout(set)`: the smallest timeout in the set. -/
def ptlrpc_set_next_timeout (m : Mem) (set : Nat) : Int :=
  next_timeout_loop m.now 0 ((m.sets set).set_requests.map m.reqs)

/-! ## `ptlrpc_import_delay_req` -/

/-- `ptlrpc_import_delay_req(imp, req, &status)`.  The result is the pair
(return value `delay`, `*status`); `none` is the `LBUG()` of the branch for an
uninitialized import.  `limit` is the value of `ptlrpc_send_limit_expired(req)`. -/
def ptlrpc_import_delay_req (limit : Bool) (imp : obd_import) (req : ptlrpc_request) :
    Option (Int × Int) :=
  if req.rq_ctx_init || req.rq_ctx_fini then
    some (0, 0)
  else if imp.imp_state = LUSTRE_IMP_NEW then
    none
  else if imp.imp_state = LUSTRE_IMP_CLOSED then
    some (0, - EIO)
  else if limit then
    some (0, - EIO)
  else if req.rq_send_state = LUSTRE_IMP_CONNECTING ∧ imp.imp_state = LUSTRE_IMP_CONNECTING then
    if imp.imp_inval_count ≠ 0 then some (0, - EIO) else some (0, 0)
  else if imp.imp_invalid || imp.obd_no_recov then
    some (0, - ESHUTDOWN)
  else if req.rq_import_generation ≠ imp.imp_generation then
    some (0, - EIO)
  else if req.rq_send_state ≠ imp.imp_state then
    if imp.imp_inval_count ≠ 0 then some (0, - EIO)
    else if imp.imp_dlm_fake || req.rq_no_delay then some (0, - EWOULDBLOCK)
    else some (1, 0)
  else
    some (0, 0)

/-! ## Sending, unlinking and expiring one request -/

/-- `ptlrpc_unregister_reply(request, async)`: the memory after the call and the
return value (1 when the reply buffer is unlinked, 0 when the unlink is still
in progress).  In the synchronous case the wait loop ends when the transport
has finished the unlink (`Collab.reply_unlinked`). -/
def ptlrpc_unregister_reply (c : Collab) (m : Mem) (a : Nat) (async : Bool) : Mem × Int :=
  let m1 :=
    if c.fail_long_repl_unlink = true ∧ async = true ∧ (m.reqs a).rq_reply_deadline = 0 then
      m.modReq a (fun r => { r with rq_reply_deadline := m.now + c.LONG_UNLINK })
    else m
  if c.ptlrpc_client_recv_or_unlink m1.now (m1.reqs a) = false then (m1, 1)
  else
    let m2 := m1.modReq a c.LNetMDUnlink
    if c.ptlrpc_client_recv_or_unlink m2.now (m2.reqs a) = false then (m2, 1)
    else
      let m3 := m2.modReq a (fun r => ptlrpc_rqphase_move r RQ_PHASE_UNREGISTERING)
      if async = true then (m3, 0)
      else
        ((m3.modReq a c.reply_unlinked).modReq a
          (fun r => ptlrpc_rqphase_move r r.rq_next_phase), 1)

/-- `ptlrpc_expire_one_request(req, async_unlink)`: the memory after the call
and the return value (1 to give up further retries). -/
def ptlrpc_expire_one_request (c : Collab) (m : Mem) (a : Nat) (async_unlink : Bool) :
    Mem × Int :=
  let m1 := m.modReq a (fun r => { r with rq_timedout := true })
  let m2 := (ptlrpc_unregister_reply c m1 a async_unlink).1
  let m3 := m2.modReq a (fun r => (c.ptlrpc_unregister_bulk m2.now r async_unlink).1)
  match (m.reqs a).rq_import with
  | none => (m3, 1)
  | some imp =>
    if (m3.reqs a).rq_fake = true then (m3, 1)
    else
      let m4 := m3.modImp imp (fun x => { x with imp_timeouts := x.imp_timeouts + 1 })
      if (m4.imps imp).imp_dlm_fake = true then (m4, 1)
      else if (m4.reqs a).rq_ctx_init = true ∨ (m4.reqs a).rq_ctx_fini = true ∨
              (m4.reqs a).rq_send_state ≠ LUSTRE_IMP_FULL ∨
              (m4.imps imp).obd_no_recov = true then
        (m4.modReq a (fun r => { r with rq_status := - ETIMEDOUT, rq_err := true }), 1)
      else
        let nr := c.ptlrpc_no_resend m4.now (m4.reqs a)
        let m5 := m4.modReq a (fun _ => nr.1)
        (c.ptlrpc_fail_import m5 imp (m5.reqs a).rq_reqmsg.lm_conn_cnt, if nr.2 = true then 1 else 0)

/-- The tail of `ptlrpc_send_new_req` once the request is on the sending list:
refresh the security context and hand the request to the transport. -/
def send_new_req_transmit (c : Collab) (m : Mem) (a : Nat) : Mem × Int :=
  let m1 := m.modReq a (fun r =>
    { r with rq_reqmsg := { r.rq_reqmsg with lm_status := c.cfs_curproc_pid } })
  let rf := c.sptlrpc_req_refresh_ctx m1.now (m1.reqs a)
  let m2 := m1.modReq a (fun _ => rf.1)
  if rf.2 ≠ 0 then
    if (m2.reqs a).rq_err = true then (m2.modReq a (fun r => { r with rq_status := rf.2 }), 1)
    else (m2.modReq a (fun r => { r with rq_wait_ctx := true }), 0)
  else
    let sd := c.ptl_send_rpc m2.now (m2.reqs a)
    let m3 := m2.modReq a (fun _ => sd.1)
    if sd.2 ≠ 0 then (m3.modReq a (fun r => { r with rq_net_err := true }), sd.2)
    else (m3, 0)

/-- `ptlrpc_send_new_req(req)`: send a request for the first time; the memory
after the call and the return value.  `none` is a failed `LASSERT`, the
`LBUG()` of `ptlrpc_import_delay_req`, or a NULL import. -/
def ptlrpc_send_new_req (c : Collab) (m : Mem) (a : Nat) : Option (Mem × Int) :=
  if (m.reqs a).rq_phase ≠ RQ_PHASE_NEW then none
  else if (m.reqs a).rq_sent ≠ 0 ∧ (m.reqs a).rq_sent > m.now then some (m, 0)
  else
    let m1 := m.modReq a (fun r => ptlrpc_rqphase_move r RQ_PHASE_RPC)
    match (m1.reqs a).rq_import with
    | none => none
    | some imp =>
      let m2 := m1.modReq a (fun r => { r with rq_import_generation := (m1.imps imp).imp_generation })
      match ptlrpc_import_delay_req (c.ptlrpc_send_limit_expired m2.now (m2.reqs a))
              (m2.imps imp) (m2.reqs a) with
      | none => none
      | some (delay, rc) =>
        if delay ≠ 0 then
          let m3 := m2.modReq a (fun r => { r with rq_waiting := true })
          if (m3.reqs a).rq_list ≠ none then none
          else
            some ((add_tail_rq_list m3 a (.imp_delayed_list imp)).modImp imp
              (fun x => { x with imp_inflight := x.imp_inflight + 1 }), 0)
        else if rc ≠ 0 then
          some (m2.modReq a (fun r =>
            ptlrpc_rqphase_move { r with rq_status := rc } RQ_PHASE_INTERPRET), rc)
        else if (m2.reqs a).rq_list ≠ none then none
        else
          some (send_new_req_transmit c
            ((add_tail_rq_list m2 a (.imp_sending_list imp)).modImp imp
              (fun x => { x with imp_inflight := x.imp_inflight + 1 })) a)

/-- `ptlrpc_at_recv_early_reply(req)`: handle an early reply; the memory after
the call and the return value. -/
def ptlrpc_at_recv_early_reply (c : Collab) (m : Mem) (a : Nat) : Option (Mem × Int) :=
  let m1 := m.modReq a (fun r => { r with rq_early := false })
  let uw := c.sptlrpc_cli_unwrap_early_reply (m1.reqs a)
  if uw.2 ≠ 0 then some (m1, uw.2)
  else
    let up := unpack_reply c uw.1
    if up.2 ≠ 0 then some (m1, up.2)
    else
      match ptlrpc_at_adj_service c m1 a up.1.rq_repmsg.lm_timeout with
      | none => none
      | some m2 =>
        match ptlrpc_at_adj_net_latency c m2 a up.1.rq_repmsg.lm_service_time with
        | none => none
        | some m3 =>
          match ptlrpc_at_set_req_timeout c m3 a with
          | none => none
          | some m4 =>
            match ptlrpc_at_get_net_latency c m4 a with
            | none => none
            | some nl =>
              some (m4.modReq a (fun r =>
                { r with rq_deadline := m4.now + r.rq_timeout + nl }), 0)

/-! ## `ptlrpc_check_set` -/

/-- Where the body of the loop of `ptlrpc_check_set` goes next for the current
request: to the next request (`continue`, or the end of the body), to the
label `interpret` (with the local `unregistered`), or on to the `BULK` phase
code after the `RPC` phase code.  Each carries the memory and the local
`force_timer_recalc`. -/
inductive check_flow where
  | next (m : Mem) (force : Bool)
  | interpret (m : Mem) (force : Bool) (unregistered : Bool)
  | bulk (m : Mem) (force : Bool)

/-- The memory carried by a `check_flow`. -/
def check_flow.mem : check_flow → Mem
  | .next m _ => m
  | .interpret m _ _ => m
  | .bulk m _ => m

/-- The code of `ptlrpc_check_set` from the label `interpret` to the end of the
loop body.  `imp` is the local `imp` read at the top of the body. -/
def check_set_interpret (c : Collab) (set : Nat) (imp : Option Nat) (m : Mem) (a : Nat)
    (unregistered : Bool) : Option Mem :=
  if (m.reqs a).rq_phase ≠ RQ_PHASE_INTERPRET then none
  else
    let ur : Mem × Int := if unregistered = true then (m, 1) else ptlrpc_unregister_reply c m a true
    if ur.2 = 0 then
      some (ur.1.modReq a (fun r => (c.ptlrpc_unregister_bulk ur.1.now r true).1))
    else
      let ub := c.ptlrpc_unregister_bulk ur.1.now (ur.1.reqs a) true
      let m2 := ur.1.modReq a (fun _ => ub.1)
      if ub.2 = 0 then some m2
      else if (m2.reqs a).rq_receiving_reply = true then none
      else
        let m3 := ptlrpc_req_interpret c m2 a (m2.reqs a).rq_status
        let m4 := m3.modReq a (fun r => ptlrpc_rqphase_move r RQ_PHASE_COMPLETE)
        match imp with
        | none => none
        | some i =>
          let m5 :=
            if (m4.reqs a).rq_list ≠ none then
              (del_init_rq_list m4 a).modImp i
                (fun x => { x with imp_inflight := x.imp_inflight - 1 })
            else m4
          some (m5.modSet set (fun x => { x with set_remaining := x.set_remaining - 1 }))

/-- Move the request to `INTERPRET` with the given change of its fields and go
to the label `interpret`. -/
def fail_to_interpret (m : Mem) (a : Nat) (force : Bool)
    (f : ptlrpc_request → ptlrpc_request) : check_flow :=
  .interpret (m.modReq a (fun r => ptlrpc_rqphase_move (f r) RQ_PHASE_INTERPRET)) force false

/-- The block of the resend branch of `ptlrpc_check_set` under
`if (req->rq_timedout || req->rq_resend)`: flag the resend and give a request
with bulk a new xid once its old bulk is unlinked.  The second component tells
that the loop continues with the next member (the bulk is still being
unlinked). -/
def check_set_resend_bulk (c : Collab) (m : Mem) (a : Nat) : Mem × Bool :=
  if (m.reqs a).rq_timedout = true ∨ (m.reqs a).rq_resend = true then
    let m1 := m.modReq a (fun r => { r with rq_resend := true })
    if (m1.reqs a).rq_bulk.isSome = true then
      let m2 := m1.modReq a (fun r => (c.ptlrpc_unregister_bulk m1.now r true).1)
      if (c.ptlrpc_unregister_bulk m1.now (m1.reqs a) true).2 = 0 then (m2, true)
      else
        ((ptlrpc_next_xid m2).1.modReq a (fun r => { r with rq_xid := (ptlrpc_next_xid m2).2 }),
         false)
    else (m1, false)
  else (m, false)

/-- The end of the resend branch of `ptlrpc_check_set`: refresh the security
context and send the request again.  A `bulk` result stands for falling through
to the reply checks of the `RPC` phase code. -/
def check_set_resend_send (c : Collab) (m : Mem) (a : Nat) (force : Bool) : check_flow :=
  let m1 := m.modReq a (fun r => (c.sptlrpc_req_refresh_ctx m.now r).1)
  if (c.sptlrpc_req_refresh_ctx m.now (m.reqs a)).2 ≠ 0 then
    if (m1.reqs a).rq_err = true then
      .next (m1.modReq a (fun r =>
        { r with rq_status := (c.sptlrpc_req_refresh_ctx m.now (m.reqs a)).2,
                 rq_wait_ctx := false })) true
    else .next (m1.modReq a (fun r => { r with rq_wait_ctx := true })) force
  else
    let m2 := m1.modReq a (fun r => { r with rq_wait_ctx := false })
    let m3 := m2.modReq a (fun r => (c.ptl_send_rpc m2.now r).1)
    if (c.ptl_send_rpc m2.now (m2.reqs a)).2 ≠ 0 then
      .bulk (m3.modReq a (fun r => { r with rq_net_err := true })) true
    else .bulk m3 true

/-- The resend branch of the `RPC` phase code of `ptlrpc_check_set`, taken when
the request is timed out, flagged for resend, waiting on the delayed list or
waiting for a security context.  A `bulk` result stands for falling through to
the reply checks of the `RPC` phase code. -/
def check_set_resend (c : Collab) (imp : Option Nat) (m : Mem) (a : Nat) (force : Bool) :
    Option check_flow :=
  if (ptlrpc_unregister_reply c m a true).2 = 0 then
    some (.next (ptlrpc_unregister_reply c m a true).1 force)
  else
    match imp with
    | none => none
    | some i =>
      let m1 := (ptlrpc_unregister_reply c m a true).1
      match ptlrpc_import_delay_req (c.ptlrpc_send_limit_expired m1.now (m1.reqs a))
              (m1.imps i) (m1.reqs a) with
      | none => none
      | some ds =>
        if ds.1 ≠ 0 then
          some (.next (add_tail_rq_list (del_init_rq_list m1 a) a (.imp_delayed_list i)) force)
        else if ds.2 ≠ 0 then
          some (fail_to_interpret m1 a force (fun r => { r with rq_status := ds.2 }))
        else
          let m2 := m1.modReq a (fun r => (c.ptlrpc_no_resend m1.now r).1)
          if (c.ptlrpc_no_resend m1.now (m1.reqs a)).2 = true ∧
             (m2.reqs a).rq_wait_ctx = false then
            some (fail_to_interpret m2 a force (fun r => { r with rq_status := - ENOTCONN }))
          else
            let m3 := (add_tail_rq_list (del_init_rq_list m2 a) a (.imp_sending_list i)).modReq a
              (fun r => { r with rq_waiting := false })
            if (check_set_resend_bulk c m3 a).2 = true then
              some (.next (check_set_resend_bulk c m3 a).1 force)
            else some (check_set_resend_send c (check_set_resend_bulk c m3 a).1 a force)

/-- The reply checks of the `RPC` phase code of `ptlrpc_check_set`: handle an
early reply, wait for the reply, then process it with `after_reply`. -/
def check_set_reply (c : Collab) (m : Mem) (a : Nat) (force : Bool) : Option check_flow :=
  if c.ptlrpc_client_early (m.reqs a) = true then
    match ptlrpc_at_recv_early_reply c m a with
    | none => none
    | some r => some (.next r.1 force)
  else if c.ptlrpc_client_recv (m.reqs a) = true then some (.next m force)
  else if c.ptlrpc_client_replied (m.reqs a) = false then some (.next m force)
  else
    let ur := ptlrpc_unregister_reply c m a true
    if ur.2 = 0 then some (.next ur.1 force)
    else
      match after_reply c ur.1 a with
      | none => none
      | some ar =>
        let m2 := ar.1.modReq a (fun r => { r with rq_status := ar.2 })
        if (m2.reqs a).rq_resend = true then some (.next m2 force)
        else if (m2.reqs a).rq_bulk = none ∨ (m2.reqs a).rq_status ≠ 0 then
          some (.interpret
            (m2.modReq a (fun r => ptlrpc_rqphase_move r RQ_PHASE_INTERPRET)) force true)
        else
          some (.bulk (m2.modReq a (fun r => ptlrpc_rqphase_move r RQ_PHASE_BULK)) force)

/-- The `RPC` phase code of `ptlrpc_check_set`. -/
def check_set_rpc (c : Collab) (imp : Option Nat) (m : Mem) (a : Nat) (force : Bool) :
    Option check_flow :=
  if (m.reqs a).rq_timedout = true ∨ (m.reqs a).rq_resend = true ∨
     (m.reqs a).rq_waiting = true ∨ (m.reqs a).rq_wait_ctx = true then
    match check_set_resend c imp m a force with
    | none => none
    | some (.bulk m1 force1) => check_set_reply c m1 a force1
    | some fl => some fl
  else check_set_reply c m a force

/-- The code of `ptlrpc_check_set` between the phase checks and the `RPC` phase
code: expire a request with a network error, fail a request with an error flag,
and turn an interrupt into an error once the request has timed out or waits. -/
def check_set_errors (c : Collab) (m : Mem) (a : Nat) (force : Bool) : Option check_flow :=
  if (m.reqs a).rq_net_err = true ∧ (m.reqs a).rq_timedout = false then
    let m1 := (ptlrpc_expire_one_request c m a true).1
    if c.ptlrpc_client_recv_or_unlink m1.now (m1.reqs a) = true ∨
       c.ptlrpc_client_bulk_active m1.now (m1.reqs a) = true then some (.next m1 force)
    else if (m1.reqs a).rq_no_resend = true then
      some (fail_to_interpret m1 a force
        (fun r => if r.rq_status = 0 then { r with rq_status := - EIO } else r))
    else some (.next m1 force)
  else if (m.reqs a).rq_err = true then
    some (fail_to_interpret m a force
      (fun r => if r.rq_status = 0 then { r with rq_replied := false, rq_status := - EIO }
                else { r with rq_replied := false }))
  else if (m.reqs a).rq_intr = true ∧
          ((m.reqs a).rq_timedout = true ∨ (m.reqs a).rq_waiting = true ∨
           (m.reqs a).rq_wait_ctx = true) then
    some (fail_to_interpret m a force (fun r => { r with rq_status := - EINTR }))
  else some (.bulk m force)

/-- The `BULK` phase code of `ptlrpc_check_set`, up to the label `interpret`. -/
def check_set_bulk (c : Collab) (m : Mem) (a : Nat) (force : Bool) (unregistered : Bool) :
    Option check_flow :=
  if (m.reqs a).rq_phase ≠ RQ_PHASE_BULK then none
  else if c.ptlrpc_client_bulk_active m.now (m.reqs a) = true then some (.next m force)
  else
    match (m.reqs a).rq_bulk with
    | none => none
    | some desc =>
      if desc.bd_success = false then none
      else
        some (.interpret
          (m.modReq a (fun r => ptlrpc_rqphase_move r RQ_PHASE_INTERPRET)) force unregistered)

/-- The phase checks at the head of the loop body of `ptlrpc_check_set`, after
the first send: skip a delayed send, stop on a bad phase, and leave the
`UNREGISTERING` phase once the buffers are unlinked.  The result `bulk` stands
for going on with the rest of the body. -/
def check_set_phases (c : Collab) (m : Mem) (a : Nat) (force : Bool) : Option check_flow :=
  if (m.reqs a).rq_phase = RQ_PHASE_NEW ∧ (m.reqs a).rq_sent ≠ 0 then some (.next m force)
  else if ¬ ((m.reqs a).rq_phase = RQ_PHASE_RPC ∨ (m.reqs a).rq_phase = RQ_PHASE_BULK ∨
             (m.reqs a).rq_phase = RQ_PHASE_INTERPRET ∨
             (m.reqs a).rq_phase = RQ_PHASE_UNREGISTERING ∨
             (m.reqs a).rq_phase = RQ_PHASE_COMPLETE) then none
  else if (m.reqs a).rq_phase = RQ_PHASE_UNREGISTERING then
    if (m.reqs a).rq_next_phase = (m.reqs a).rq_phase then none
    else if (m.reqs a).rq_next_phase = RQ_PHASE_UNDEFINED then none
    else if c.ptlrpc_client_recv_or_unlink m.now (m.reqs a) = true ∨
            c.ptlrpc_client_bulk_active m.now (m.reqs a) = true then some (.next m force)
    else if (m.reqs a).rq_next_phase = RQ_PHASE_COMPLETE then
      some (.next (m.modReq a (fun r => ptlrpc_rqphase_move r r.rq_next_phase)) force)
    else if (m.reqs a).rq_next_phase = RQ_PHASE_INTERPRET then
      some (.interpret (m.modReq a (fun r => ptlrpc_rqphase_move r r.rq_next_phase)) force false)
    else some (.bulk (m.modReq a (fun r => ptlrpc_rqphase_move r r.rq_next_phase)) force)
  else if (m.reqs a).rq_phase = RQ_PHASE_COMPLETE then some (.next m force)
  else if (m.reqs a).rq_phase = RQ_PHASE_INTERPRET then some (.interpret m force false)
  else some (.bulk m force)

/-- The body of the loop of `ptlrpc_check_set` for the member at address `a`,
up to the label `interpret`. -/
def check_set_body (c : Collab) (m : Mem) (a : Nat) : Option check_flow :=
  let imp := (m.reqs a).rq_import
  let first : Option (Mem × Bool) :=
    if (m.reqs a).rq_phase = RQ_PHASE_NEW then
      match ptlrpc_send_new_req c m a with
      | none => none
      | some r => some (r.1, decide (r.2 ≠ 0))
    else some (m, false)
  match first with
  | none => none
  | some (m0, force0) =>
    match check_set_phases c m0 a force0 with
    | some (.bulk m1 force1) =>
      match check_set_errors c m1 a force1 with
      | some (.bulk m2 force2) =>
        if (m2.reqs a).rq_phase = RQ_PHASE_RPC then
          match check_set_rpc c imp m2 a force2 with
          | some (.bulk m3 force3) => check_set_bulk c m3 a force3 true
          | fl => fl
        else check_set_bulk c m2 a force2 false
      | fl => fl
    | fl => fl

/-- One iteration of the loop of `ptlrpc_check_set`: the memory after the body
and the new value of `force_timer_recalc`. -/
def check_set_one (c : Collab) (set : Nat) (m : Mem) (a : Nat) : Option (Mem × Bool) :=
  match check_set_body c m a with
  | none => none
  | some (.next m1 force) => some (m1, force)
  | some (.bulk m1 force) => some (m1, force)
  | some (.interpret m1 force unregistered) =>
    match check_set_interpret c set (m.reqs a).rq_import m1 a unregistered with
    | none => none
    | some m2 => some (m2, force)

/-- The loop of `ptlrpc_check_set` over the members not yet visited. -/
def check_set_loop (c : Collab) (set : Nat) : Mem → Bool → List Nat → Option (Mem × Bool)
  | m, force, [] => some (m, force)
  | m, force, a :: rest =>
    match check_set_one c set m a with
    | none => none
    | some (m1, force1) => check_set_loop c set m1 (force || force1) rest

/-- `ptlrpc_check_set(env, set)`: one pass over the members of the set; the
value returned is 1 when no member remains to complete or the wait timeout is
to be recomputed. -/
def ptlrpc_check_set (c : Collab) (m : Mem) (set : Nat) : Option (Mem × Int) :=
  if (m.sets set).set_remaining = 0 then some (m, 1)
  else
    match check_set_loop c set m false (m.sets set).set_requests with
    | none => none
    | some (m1, force) =>
      some (m1, if (m1.sets set).set_remaining = 0 ∨ force = true then 1 else 0)

/-! ## The sweeps and `ptlrpc_set_wait` -/

/-- The loop of `ptlrpc_expired_set`: expire every in-flight member whose
deadline has passed. -/
def expired_set_loop (c : Collab) (now : Int) : Mem → List Nat → Mem
  | m, [] => m
  | m, a :: rest =>
    if (m.reqs a).rq_wait_ctx = true then expired_set_loop c now m rest
    else if ¬ (((m.reqs a).rq_phase = RQ_PHASE_RPC ∧ (m.reqs a).rq_waiting = false ∧
                (m.reqs a).rq_resend = false) ∨
               (m.reqs a).rq_phase = RQ_PHASE_BULK) then expired_set_loop c now m rest
    else if (m.reqs a).rq_timedout = true ∨ (m.reqs a).rq_deadline > now then
      expired_set_loop c now m rest
    else expired_set_loop c now (ptlrpc_expire_one_request c m a true).1 rest

/-- `ptlrpc_expired_set(data)`: time out the expired members of the set;
always returns 1. -/
def ptlrpc_expired_set (c : Collab) (m : Mem) (set : Nat) : Mem × Int :=
  (expired_set_loop c m.now m (m.sets set).set_requests, 1)

/-- `ptlrpc_mark_interrupted(req)`. -/
def ptlrpc_mark_interrupted (r : ptlrpc_request) : ptlrpc_request := { r with rq_intr := true }

/-- The loop of `ptlrpc_interrupted_set`. -/
def interrupted_set_loop : Mem → List Nat → Mem
  | m, [] => m
  | m, a :: rest =>
    if (m.reqs a).rq_phase ≠ RQ_PHASE_RPC ∧ (m.reqs a).rq_phase ≠ RQ_PHASE_UNREGISTERING then
      interrupted_set_loop m rest
    else interrupted_set_loop (m.modReq a ptlrpc_mark_interrupted) rest

/-- `ptlrpc_interrupted_set(data)`: flag the members in phase `RPC` or
`UNREGISTERING` as interrupted. -/
def ptlrpc_interrupted_set (m : Mem) (set : Nat) : Mem :=
  interrupted_set_loop m (m.sets set).set_requests

/-- Modelled from the spec: the wait loop of `l_wait_event` (a macro of a header
that is not part of the sources), for the condition `ptlrpc_check_set(NULL,
set)` and the callbacks that `ptlrpc_set_wait` passes.  While the condition
does not hold the caller sleeps; each wake-up of the schedule `wakes` applies
what the environment did meanwhile, and the schedule, not the length of the
time budget, tells whether the budget ran out.  When it ran out, the timeout
sweep `ptlrpc_expired_set` runs and the wait ends with -ETIMEDOUT.  Otherwise
the condition is checked again, and if it does not hold and a signal is
pending, the wait ends with -EINTR after the interrupt sweep
`ptlrpc_interrupted_set` when interrupts are allowed (`allow_intr`), while the
pending signal is cleared when they are not.  The result is the memory, the
value returned and the rest of the schedule; `none` is a failed assertion of
the condition or the end of the schedule. -/
def l_wait_event_loop (c : Collab) (set : Nat) (allow_intr : Bool) :
    Mem → List wake → Option (Mem × Int × List wake)
  | _, [] => none
  | m, w :: rest =>
    match ptlrpc_check_set c m set with
    | none => none
    | some (m1, cond) =>
      if cond ≠ 0 then some (m1, 0, w :: rest)
      else
        let m2 := c.async w.ev m1
        if w.timed_out = true then
          some ((ptlrpc_expired_set c m2 set).1, - ETIMEDOUT, rest)
        else
          match ptlrpc_check_set c m2 set with
          | none => none
          | some (m3, cond3) =>
            if cond3 ≠ 0 then some (m3, 0, rest)
            else if m3.sigpending = true then
              if allow_intr = true then some (ptlrpc_interrupted_set m3 set, - EINTR, rest)
              else l_wait_event_loop c set allow_intr { m3 with sigpending := false } rest
            else l_wait_event_loop c set allow_intr m3 rest

/-- Modelled from the spec: `l_wait_event(set->set_waitq, ptlrpc_check_set(NULL,
set), &lwi)` (a macro of a header that is not part of the sources): the
condition is checked once before the caller is queued for the wait loop. -/
def l_wait_event (c : Collab) (set : Nat) (allow_intr : Bool) (m : Mem) (wakes : List wake) :
    Option (Mem × Int × List wake) :=
  match ptlrpc_check_set c m set with
  | none => none
  | some (m1, cond) =>
    if cond ≠ 0 then some (m1, 0, wakes)
    else l_wait_event_loop c set allow_intr m1 wakes

/-- Flag every member of the set with `rq_invalid_rqset`. -/
def mark_invalid_rqset (m : Mem) : List Nat → Mem
  | [] => m
  | a :: rest => mark_invalid_rqset (m.modReq a (fun r => { r with rq_invalid_rqset := true })) rest

/-- The `do ... while` loop of `ptlrpc_set_wait`: compute the timeout, wait for
`ptlrpc_check_set`, and repeat while the wait failed or members remain.  `fuel`
bounds the number of iterations; `none` is a failed assertion, the end of the
schedule of wake-ups, or the end of the fuel. -/
def set_wait_loop (c : Collab) (set : Nat) : Nat → Mem → List wake → Option Mem
  | 0, _, _ => none
  | fuel + 1, m, wakes =>
    let timeout := ptlrpc_set_next_timeout m set
    let allow_intr := decide (timeout = 0) && !m.sigpending
    match l_wait_event c set allow_intr m wakes with
    | none => none
    | some (m1, rc, rest) =>
      if ¬ (rc = 0 ∨ rc = - EINTR ∨ rc = - ETIMEDOUT) then none
      else
        let m2 :=
          if rc = 0 ∧ (m1.sets set).set_remaining = 0 then
            mark_invalid_rqset m1 (m1.sets set).set_requests
          else m1
        if rc ≠ 0 ∨ (m2.sets set).set_remaining ≠ 0 then set_wait_loop c set fuel m2 rest
        else some m2

/-- The loop of `ptlrpc_set_wait` that sends the members still in phase `NEW`. -/
def set_wait_send_new (c : Collab) : Mem → List Nat → Option Mem
  | m, [] => some m
  | m, a :: rest =>
    if (m.reqs a).rq_phase = RQ_PHASE_NEW then
      match ptlrpc_send_new_req c m a with
      | none => none
      | some r => set_wait_send_new c r.1 rest
    else set_wait_send_new c m rest

/-- The loop of `ptlrpc_set_wait` that asserts that every member is `COMPLETE`
and collects the status: the last non-zero status wins; `none` is the failed
`LASSERT`. -/
def set_wait_status (m : Mem) : Int → List Nat → Option Int
  | rc, [] => some rc
  | rc, a :: rest =>
    if (m.reqs a).rq_phase ≠ RQ_PHASE_COMPLETE then none
    else if (m.reqs a).rq_status ≠ 0 then set_wait_status m (m.reqs a).rq_status rest
    else set_wait_status m rc rest

/-- The loop of `ptlrpc_set_wait` over the callbacks of `set_cblist`: each is
called with the running status, and the first error returned replaces a zero
status. -/
def set_wait_callbacks (c : Collab) : Int → List Nat → Int
  | rc, [] => rc
  | rc, cb :: rest =>
    let err := c.set_interpret cb rc
    set_wait_callbacks c (if err ≠ 0 ∧ rc = 0 then err else rc) rest

/-- The end of `ptlrpc_set_wait`, after the wait loop: assert that nothing
remains, collect the status, and run the set interpreter or the callbacks. -/
def set_wait_finish (c : Collab) (m : Mem) (set : Nat) : Option (Mem × Int) :=
  if (m.sets set).set_remaining ≠ 0 then none
  else
    match set_wait_status m 0 (m.sets set).set_requests with
    | none => none
    | some rc =>
      match (m.sets set).set_interpret with
      | some cb => some (m, c.set_interpret cb rc)
      | none =>
        some (m.modSet set (fun x => { x with set_cblist := [] }),
              set_wait_callbacks c rc (m.sets set).set_cblist)

/-- `ptlrpc_set_wait(set)`: send the unsent members, wait until all members
complete, and return the status.  `wakes` is the schedule of wake-ups of the
environment and `fuel` bounds the iterations of the wait loop. -/
def ptlrpc_set_wait (c : Collab) (fuel : Nat) (wakes : List wake) (m : Mem) (set : Nat) :
    Option (Mem × Int) :=
  if (m.sets set).set_requests = [] then some (m, 0)
  else
    match set_wait_send_new c m (m.sets set).set_requests with
    | none => none
    | some m1 =>
      match set_wait_loop c set fuel m1 wakes with
      | none => none
      | some m2 => set_wait_finish c m2 set

/-! ## Resend, abort and the destruction of a set -/

/-- The flag and status changes of `ptlrpc_resend_req` before the bulk test:
clear the handle of the request message, set the status to `-EAGAIN`, flag the
resend and clear the network-error and timed-out flags. -/
def flag_resend (r : ptlrpc_request) : ptlrpc_request :=
  { r with rq_reqmsg := { r.rq_reqmsg with lm_handle := 0 }, rq_status := - EAGAIN,
           rq_resend := true, rq_net_err := false, rq_timedout := false }

/-- Store `xid` in `rq_xid`. -/
def set_rq_xid (xid : Nat) (r : ptlrpc_request) : ptlrpc_request := { r with rq_xid := xid }

/-- `ptlrpc_resend_req(req)`: schedule a previously sent request for resend; a
request with bulk gets a new xid. -/
def ptlrpc_resend_req (m : Mem) (a : Nat) : Mem :=
  let m1 := m.modReq a flag_resend
  let m2 :=
    if (m1.reqs a).rq_bulk ≠ none then
      (ptlrpc_next_xid m1).1.modReq a (set_rq_xid (ptlrpc_next_xid m1).2)
    else m1
  ptlrpc_client_wake_req m2 a

/-- The marking of `ptlrpc_abort_inflight`: set the error flag and the status
`-EINTR`. -/
def mark_aborted (r : ptlrpc_request) : ptlrpc_request :=
  { r with rq_err := true, rq_status := - EINTR }

/-- One of the two `cfs_list_for_each_safe` loops of `ptlrpc_abort_inflight`
over a list of the import: a request of an older import generation is marked
and woken. -/
def abort_inflight_loop (imp : Nat) : Mem → List Nat → Mem
  | m, [] => m
  | m, a :: rest =>
    if (m.reqs a).rq_import_generation < (m.imps imp).imp_generation then
      abort_inflight_loop imp (ptlrpc_client_wake_req (m.modReq a mark_aborted) a) rest
    else abort_inflight_loop imp m rest

/-- `ptlrpc_abort_inflight(imp)`: abort the requests on the sending and delayed
lists of the import, then prune the replay list of a replayable import; `none`
is a failed `LASSERT` of `ptlrpc_free_committed`. -/
def ptlrpc_abort_inflight (m : Mem) (imp : Nat) : Option Mem :=
  let m1 := abort_inflight_loop imp m (m.imps imp).imp_sending_list
  let m2 := abort_inflight_loop imp m1 (m1.imps imp).imp_delayed_list
  if (m2.imps imp).imp_replayable = true then ptlrpc_free_committed m2 imp else some m2

/-- The first loop of `ptlrpc_set_destroy`: assert that every member is in the
expected phase and count the members, starting from `n`. -/
def set_destroy_count (m : Mem) (expected_phase : rq_phase) : Int → List Nat → Option Int
  | n, [] => some n
  | n, a :: rest =>
    if (m.reqs a).rq_phase ≠ expected_phase then none
    else set_destroy_count m expected_phase (n + 1) rest

/-- Clear the owning-set pointer of a request and its flag `rq_invalid_rqset`. -/
def clear_rq_set (r : ptlrpc_request) : ptlrpc_request :=
  { r with rq_set := none, rq_invalid_rqset := false }

/-- `cfs_atomic_dec(&set->set_remaining)`. -/
def dec_set_remaining (x : ptlrpc_request_set) : ptlrpc_request_set :=
  { x with set_remaining := x.set_remaining - 1 }

/-- The body of the second loop of `ptlrpc_set_destroy` for the member at
address `a`: unlink it from the set, complete it with `-EBADR` when it is still
`NEW`, clear its set pointer and drop the reference of the set. -/
def set_destroy_one (c : Collab) (set : Nat) (expected_phase : rq_phase) (m : Mem) (a : Nat) :
    Option Mem :=
  let m1 := del_init_rq_set_chain m a
  if (m1.reqs a).rq_phase ≠ expected_phase then none
  else
    let m2 :=
      if (m1.reqs a).rq_phase = RQ_PHASE_NEW then
        (ptlrpc_req_interpret c m1 a (- EBADR)).modSet set dec_set_remaining
      else m1
    (__ptlrpc_req_finished (m2.modReq a clear_rq_set) a).map (fun x => x.1)

/-- The second loop of `ptlrpc_set_destroy` over the members not yet visited. -/
def set_destroy_loop (c : Collab) (set : Nat) (expected_phase : rq_phase) :
    Mem → List Nat → Option Mem
  | m, [] => some m
  | m, a :: rest =>
    match set_destroy_one c set expected_phase m a with
    | none => none
    | some m1 => set_destroy_loop c set expected_phase m1 rest

/-- Record the release of the memory of the set at address `set`. -/
def Mem.log_set_freed (m : Mem) (set : Nat) : Mem :=
  { m with sets_freed := set :: m.sets_freed }

/-- `ptlrpc_set_destroy(set)`: wind down and free a request set; `none` is a
failed `LASSERT`. -/
def ptlrpc_set_destroy (c : Collab) (m : Mem) (set : Nat) : Option Mem :=
  let expected_phase :=
    if (m.sets set).set_remaining = 0 then RQ_PHASE_COMPLETE else RQ_PHASE_NEW
  match set_destroy_count m expected_phase 0 (m.sets set).set_requests with
  | none => none
  | some n =>
    if ¬ ((m.sets set).set_remaining = 0 ∨ (m.sets set).set_remaining = n) then none
    else
      match set_destroy_loop c set expected_phase m (m.sets set).set_requests with
      | none => none
      | some m1 =>
        if (m1.sets set).set_remaining ≠ 0 then none
        else some (m1.log_set_freed set)

/-! ## Bulk descriptors -/

/-- `new_bulk(npages, type, portal)`: allocate and initialize a bulk descriptor;
`alloc_ok` tells whether `OBD_ALLOC` succeeds (it returns zeroed memory), and
`none` is the NULL result. -/
def new_bulk (alloc_ok : Bool) (npages : Int) (type : Nat) (portal : Int) :
    Option ptlrpc_bulk_desc :=
  if alloc_ok then
    some { bd_max_iov := npages, bd_iov_count := 0, bd_portal := portal, bd_type := type }
  else none

/-- Modelled from the spec: `ptlrpc_add_bulk_page` is defined in a file that is
not part of the sources.  It appends the segment (offset, length) to the
descriptor and counts it in `bd_iov_count`. -/
def ptlrpc_add_bulk_page (desc : ptlrpc_bulk_desc) (pageoffset len : Int) : ptlrpc_bulk_desc :=
  { desc with bd_iov := desc.bd_iov ++ [(pageoffset, len)], bd_iov_count := desc.bd_iov_count + 1 }

/-- Add `len` to the byte count `bd_nob` of a descriptor (an `int`). -/
def add_bd_nob (len : Int) (desc : ptlrpc_bulk_desc) : ptlrpc_bulk_desc :=
  { desc with bd_nob := wrap32 (desc.bd_nob + len) }

/-- `ptlrpc_prep_bulk_page(desc, page, pageoffset, len)`: add a page to the
descriptor; `none` is a failed `LASSERT`.  `page_size` is the constant
`CFS_PAGE_SIZE`, and `page` is `none` for a NULL page.  (The pinning of the page
changes no modelled field.) -/
def ptlrpc_prep_bulk_page (page_size : Int) (desc : ptlrpc_bulk_desc) (page : Option Nat)
    (pageoffset len : Int) : Option ptlrpc_bulk_desc :=
  if ¬ (desc.bd_iov_count < desc.bd_max_iov) then none
  else if page = none then none
  else if ¬ (pageoffset ≥ 0) then none
  else if ¬ (len > 0) then none
  else if ¬ (wrap32 (pageoffset + len) ≤ page_size) then none
  else some (ptlrpc_add_bulk_page (add_bd_nob len desc) pageoffset len)

/-! ## The xid seed -/

/-- The constant `YEAR_2004`, `1ULL << 30`. -/
def YEAR_2004 : Nat := 1073741824

/-- The value of a `time_t` converted to `__u64`. -/
def time_to_u64 (t : Int) : Nat := (t % 18446744073709551616).toNat

/-- `ptlrpc_init_xid()`: seed the global xid from the clock, or from the random
bytes `random` that `cfs_get_random_bytes` delivers when the clock is before
`YEAR_2004`. -/
def ptlrpc_init_xid (random : Nat) (m : Mem) : Mem :=
  if time_to_u64 m.now < YEAR_2004 then
    { m with ptlrpc_last_xid := (wrap64 random / 4) ||| 2305843009213693952 }
  else
    { m with ptlrpc_last_xid := wrap64 (time_to_u64 m.now * 1048576) }

/-! ## Request pools -/

/-- The loop `while (size < pool->prp_rq_size) size <<= 1` of
`ptlrpc_add_rqs_to_pool` on the `int size`; `fuel` bounds the number of tests
of the loop condition, and `none` is the end of the fuel. -/
def pool_round_size (prp_rq_size : Int) : Nat → Int → Option Int
  | 0, _ => none
  | fuel + 1, size =>
    if size < prp_rq_size then pool_round_size prp_rq_size fuel (wrap32 (size * 2))
    else some size

/-- The request that `ptlrpc_add_rqs_to_pool` allocates (zeroed memory) and
initializes: a request buffer of `size` bytes and the pool pointer. -/
def pool_request (pool : Nat) (size : Int) : ptlrpc_request :=
  { rq_refcount := 0, rq_cli_ctx := false, rq_reqbuf := true, rq_reqbuf_len := size,
    rq_pool := some pool }

/-- The `for` loop of `ptlrpc_add_rqs_to_pool` with `n` iterations left.  Each
entry of `allocs` is the outcome of the two allocations of one iteration: the
address of the new request, or `none` when one of them fails (as when the
entries run out), which ends the function. -/
def add_rqs_loop (pool : Nat) (size : Int) : Nat → Mem → List (Option Nat) → Mem
  | 0, m, _ => m
  | _ + 1, m, [] => m
  | _ + 1, m, none :: _ => m
  | n + 1, m, some req :: rest =>
    add_rqs_loop pool size n
      (add_tail_rq_list (m.modReq req (fun _ => pool_request pool size)) req
        (.prp_req_list pool)) rest

/-- Store the buffer size of a pool. -/
def Mem.set_prp_rq_size (m : Mem) (pool : Nat) (size : Int) : Mem :=
  { m with prp_rq_size := upd m.prp_rq_size pool size }

/-- `ptlrpc_add_rqs_to_pool(pool, num_rq)`: round the buffer size of the pool
and add `num_rq` requests to it; `none` is the failed `LASSERTF` or the end of
the fuel of the rounding loop. -/
def ptlrpc_add_rqs_to_pool (fuel : Nat) (allocs : List (Option Nat)) (m : Mem) (pool : Nat)
    (num_rq : Int) : Option Mem :=
  match pool_round_size (m.prp_rq_size pool) fuel 1 with
  | none => none
  | some size =>
    if ¬ (m.prp_req_list pool = [] ∨ size = m.prp_rq_size pool) then none
    else some (add_rqs_loop pool size num_rq.toNat (m.set_prp_rq_size pool size) allocs)

/-! ## Creating and filling a set -/

/-- `ptlrpc_prep_set()`: allocate and initialize a request set; `alloc` is the
address that `OBD_ALLOC` returns, `none` when it fails.  The result is the
memory and the pointer returned. -/
def ptlrpc_prep_set (alloc : Option Nat) (m : Mem) : Mem × Option Nat :=
  match alloc with
  | none => (m, none)
  | some set =>
    (m.modSet set (fun _ =>
      { set_requests := [], set_remaining := 0, set_new_requests := [], set_cblist := [] }),
     some set)

/-- Store the owning set of a request. -/
def set_rq_set (set : Nat) (r : ptlrpc_request) : ptlrpc_request := { r with rq_set := some set }

/-- `cfs_atomic_inc(&set->set_remaining)`. -/
def inc_set_remaining (x : ptlrpc_request_set) : ptlrpc_request_set :=
  { x with set_remaining := x.set_remaining + 1 }

/-- `ptlrpc_set_add_req(set, req)`: add a request to a set.  (`rq_queued_time`
is not modelled.) -/
def ptlrpc_set_add_req (m : Mem) (set : Nat) (a : Nat) : Mem :=
  ((add_tail_rq_set_chain m a (.set_requests set)).modReq a (set_rq_set set)).modSet set
    inc_set_remaining

/-- `ptlrpc_fakereq_finished(req)`: the processing of a fake request is
finished. -/
def ptlrpc_fakereq_finished (m : Mem) (a : Nat) : Mem :=
  let m1 :=
    if (m.reqs a).rq_phase = RQ_PHASE_RPC then
      match (m.reqs a).rq_set with
      | some set => m.modSet set dec_set_remaining
      | none => m
    else m
  del_init_rq_list (m1.modReq a (fun r => ptlrpc_rqphase_move r RQ_PHASE_COMPLETE)) a

/-! ## The lock pool limit (ldlm_pool.c) -/

/-- The constant `LDLM_POOL_MAX_AGE`, the maximal age of locks on clients in
seconds. -/
def LDLM_POOL_MAX_AGE : Nat := 36000

/-- `ldlm_pool_slv_max(L)`: the expression `L * LDLM_POOL_MAX_AGE / 1` is
computed in `unsigned int` (a `__u32` times an `int`) and then stored in the
`__u64 lim`. -/
def ldlm_pool_slv_max (L : Nat) : Nat :=
  wrap64 (L * LDLM_POOL_MAX_AGE % 4294967296 / 1)

/-! ## A transport without failures -/

/-- What the environment does during a sleep in `collab_plain`: one second
passes, and for a positive identifier `ev` the reply of the request at address
`ev` arrives (message type `REPLY`, status 0, no transno) and its buffer is
unlinked. -/
def plain_async (ev : Nat) (m : Mem) : Mem :=
  let m1 : Mem := { m with now := m.now + 1 }
  if ev = 0 then m1
  else m1.modReq ev (fun r =>
    { r with rq_replied := true, rq_receiving_reply := false, rq_must_unlink := false,
             rq_repmsg := { r.rq_repmsg with lm_type := PTL_RPC_MSG_REPLY } })

/-- Collaborators for a run without transport failures: the inline helpers read
the request flags they are named after, a send succeeds and arms the reply
buffer with deadline `now + rq_timeout`, unlinking completes at once, security
contexts are always ready, replies unwrap and unpack without error, and the
callbacks hand their status through. -/
def collab_plain : Collab :=
  { ptlrpc_send_limit_expired := fun _ _ => false
    ptlrpc_no_resend := fun _ r => (r, r.rq_no_resend)
    ptlrpc_client_recv_or_unlink := fun now r =>
      decide (r.rq_reply_deadline > now) || r.rq_receiving_reply || r.rq_must_unlink
    ptlrpc_client_bulk_active := fun _ r =>
      match r.rq_bulk with
      | some desc => desc.bd_network_rw
      | none => false
    ptlrpc_client_early := fun r => r.rq_early
    ptlrpc_client_recv := fun r => r.rq_receiving_reply
    ptlrpc_client_replied := fun r => r.rq_replied
    ll_rpc_recoverable_error := fun rc => decide (rc = - ENOTCONN) || decide (rc = -19)
    at_measured := fun _ x v => ({ x with at_current := max x.at_current v }, x.at_current)
    at_get := fun x => x.at_current
    at_est2timeout := fun v => v + v / 4 + 5
    AT_OFF := false
    obd_timeout := 100
    cfs_curproc_pid := 4242
    LONG_UNLINK := 300
    fail_long_repl_unlink := false
    sptlrpc_req_refresh_ctx := fun _ r => (r, 0)
    sptlrpc_cli_unwrap_reply := fun r => (r, 0)
    sptlrpc_cli_unwrap_early_reply := fun r => (r, 0)
    flvr_policy_not_null := fun _ => false
    ptlrpc_unpack_rep_msg := fun r => (r, 0)
    lustre_unpack_rep_ptlrpc_body := fun r => (r, 0)
    ptl_send_rpc := fun now r =>
      ({ r with rq_sent := now, rq_real_sent := now, rq_deadline := now + r.rq_timeout,
                rq_receiving_reply := true, rq_must_unlink := true, rq_replied := false,
                rq_err := false, rq_timedout := false, rq_net_err := false,
                rq_resend := false, rq_restart := false }, 0)
    LNetMDUnlink := fun r => { r with rq_receiving_reply := false, rq_must_unlink := false }
    ptlrpc_unregister_bulk := fun _ r _ => (r, 1)
    reply_unlinked := fun r => { r with rq_receiving_reply := false, rq_must_unlink := false }
    ptlrpc_request_handle_notconn := fun m _ => m
    ptlrpc_fail_import := fun m _ _ => m
    req_interpret := fun _ r rc => (r, rc)
    set_interpret := fun _ rc => rc
    async := plain_async }

/-! # Theorems -/

/-! ## Helper lemmas -/

theorem upd_same {α : Type} (f : Nat → α) (a : Nat) (v : α) : upd f a v a = v := by
  simp [upd]

theorem upd_other {α : Type} (f : Nat → α) (a b : Nat) (v : α) (h : b ≠ a) :
    upd f a v b = f b := by
  simp [upd, h]

@[simp] theorem modReq_reqs (m : Mem) (a b : Nat) (f : ptlrpc_request → ptlrpc_request) :
    (m.modReq a f).reqs b = if b = a then f (m.reqs a) else m.reqs b := rfl

@[simp] theorem modReq_imps (m : Mem) (a : Nat) (f : ptlrpc_request → ptlrpc_request) :
    (m.modReq a f).imps = m.imps := rfl

@[simp] theorem modReq_sets (m : Mem) (a : Nat) (f : ptlrpc_request → ptlrpc_request) :
    (m.modReq a f).sets = m.sets := rfl

@[simp] theorem modReq_now (m : Mem) (a : Nat) (f : ptlrpc_request → ptlrpc_request) :
    (m.modReq a f).now = m.now := rfl

@[simp] theorem modReq_commit_log (m : Mem) (a : Nat) (f : ptlrpc_request → ptlrpc_request) :
    (m.modReq a f).commit_log = m.commit_log := rfl

@[simp] theorem modReq_replay_unlink_log (m : Mem) (a : Nat)
    (f : ptlrpc_request → ptlrpc_request) :
    (m.modReq a f).replay_unlink_log = m.replay_unlink_log := rfl

@[simp] theorem modImp_imps (m : Mem) (i j : Nat) (f : obd_import → obd_import) :
    (m.modImp i f).imps j = if j = i then f (m.imps i) else m.imps j := rfl

@[simp] theorem modImp_reqs (m : Mem) (i : Nat) (f : obd_import → obd_import) :
    (m.modImp i f).reqs = m.reqs := rfl

@[simp] theorem modImp_sets (m : Mem) (i : Nat) (f : obd_import → obd_import) :
    (m.modImp i f).sets = m.sets := rfl

@[simp] theorem modImp_now (m : Mem) (i : Nat) (f : obd_import → obd_import) :
    (m.modImp i f).now = m.now := rfl

@[simp] theorem modImp_commit_log (m : Mem) (i : Nat) (f : obd_import → obd_import) :
    (m.modImp i f).commit_log = m.commit_log := rfl

@[simp] theorem modImp_replay_unlink_log (m : Mem) (i : Nat) (f : obd_import → obd_import) :
    (m.modImp i f).replay_unlink_log = m.replay_unlink_log := rfl

@[simp] theorem modSet_sets (m : Mem) (s t : Nat) (f : ptlrpc_request_set → ptlrpc_request_set) :
    (m.modSet s f).sets t = if t = s then f (m.sets s) else m.sets t := rfl

@[simp] theorem modSet_reqs (m : Mem) (s : Nat) (f : ptlrpc_request_set → ptlrpc_request_set) :
    (m.modSet s f).reqs = m.reqs := rfl

@[simp] theorem modSet_imps (m : Mem) (s : Nat) (f : ptlrpc_request_set → ptlrpc_request_set) :
    (m.modSet s f).imps = m.imps := rfl

@[simp] theorem modSet_now (m : Mem) (s : Nat) (f : ptlrpc_request_set → ptlrpc_request_set) :
    (m.modSet s f).now = m.now := rfl

theorem wrap32_id (x : Int) (h1 : -2147483648 ≤ x) (h2 : x < 2147483648) : wrap32 x = x := by
  unfold wrap32
  omega

theorem next_timeout_loop_append (now : Int) (l1 l2 : List ptlrpc_request) (t : Int) :
    next_timeout_loop now t (l1 ++ l2) = next_timeout_loop now (next_timeout_loop now t l1) l2 := by
  induction l1 generalizing t with
  | nil => rfl
  | cons r rest ih => simp [next_timeout_loop, ih]

/-- The deadline of a member as the loop of `ptlrpc_set_next_timeout` takes it,
before truncation to `int`: the send time of a `NEW` member, send time plus
timeout otherwise. -/
def member_deadline (req : ptlrpc_request) : Int :=
  if req.rq_phase = RQ_PHASE_NEW then req.rq_sent else req.rq_sent + req.rq_timeout

theorem next_timeout_step_counted (now t : Int) (r : ptlrpc_request)
    (hnow : 0 ≤ now) (hc : next_timeout_counts r = true)
    (h1 : now < member_deadline r) (h2 : member_deadline r < 2147483648) :
    next_timeout_step now t r =
      if t = 0 ∨ t > member_deadline r - now then member_deadline r - now else t := by
  have hd : next_timeout_deadline r = member_deadline r := by
    unfold next_timeout_deadline member_deadline
    unfold member_deadline at h1 h2
    split
    · rename_i hp
      simp only [hp, if_true] at h1 h2
      exact wrap32_id _ (by omega) h2
    · rename_i hp
      simp only [hp, if_false] at h1 h2
      exact wrap32_id _ (by omega) h2
  unfold next_timeout_step
  simp only [hc, if_true, hd]
  rw [if_neg (by omega)]
  rw [wrap32_id _ (by omega) (by omega)]

theorem next_timeout_loop_min (now : Int) (l : List ptlrpc_request) (t : Int)
    (hnow : 0 ≤ now) (ht : 0 ≤ t)
    (h : ∀ r ∈ l, next_timeout_counts r = true →
      now < member_deadline r ∧ member_deadline r < 2147483648) :
    0 ≤ next_timeout_loop now t l ∧
    (t ≠ 0 → next_timeout_loop now t l ≤ t ∧ 0 < next_timeout_loop now t l) ∧
    (∀ r ∈ l, next_timeout_counts r = true →
      next_timeout_loop now t l ≤ member_deadline r - now ∧ 0 < next_timeout_loop now t l) ∧
    (next_timeout_loop now t l = t ∨
      ∃ r ∈ l, next_timeout_counts r = true ∧
        next_timeout_loop now t l = member_deadline r - now) := by
  induction l generalizing t with
  | nil => simp [next_timeout_loop]; omega
  | cons r rest ih =>
    have hrest : ∀ x ∈ rest, next_timeout_counts x = true →
        now < member_deadline x ∧ member_deadline x < 2147483648 :=
      fun x hx => h x (List.mem_cons_of_mem _ hx)
    simp only [next_timeout_loop]
    by_cases hc : next_timeout_counts r = true
    · obtain ⟨h1, h2⟩ := h r (List.mem_cons_self _ _) hc
      have hstep := next_timeout_step_counted now t r hnow hc h1 h2
      have ht' : 0 < next_timeout_step now t r := by rw [hstep]; split <;> omega
      have hle : next_timeout_step now t r ≤ member_deadline r - now := by
        rw [hstep]; split <;> omega
      have hlet : t ≠ 0 → next_timeout_step now t r ≤ t := by
        intro h0; rw [hstep]; split <;> omega
      obtain ⟨i0, i1, i2, i3⟩ := ih (next_timeout_step now t r) (le_of_lt ht') hrest
      have i1' := i1 (ne_of_gt ht')
      refine ⟨i0, ?_, ?_, ?_⟩
      · intro h0; exact ⟨le_trans i1'.1 (hlet h0), i1'.2⟩
      · intro x hx hxc
        rcases List.mem_cons.mp hx with rfl | hx
        · exact ⟨le_trans i1'.1 hle, i1'.2⟩
        · exact i2 x hx hxc
      · rcases i3 with i3 | ⟨x, hx, hxc, hxe⟩
        · by_cases hsame : next_timeout_step now t r = t
          · left; rw [i3, hsame]
          · right
            refine ⟨r, List.mem_cons_self _ _, hc, ?_⟩
            rw [i3, hstep]
            rw [hstep] at hsame
            split
            · rfl
            · rename_i hn; rw [if_neg hn] at hsame; exact absurd rfl hsame
        · right; exact ⟨x, List.mem_cons_of_mem _ hx, hxc, hxe⟩
    · have hstep : next_timeout_step now t r = t := by
        unfold next_timeout_step; simp [hc]
      rw [hstep]
      obtain ⟨i0, i1, i2, i3⟩ := ih t ht hrest
      refine ⟨i0, i1, ?_, ?_⟩
      · intro x hx hxc
        rcases List.mem_cons.mp hx with rfl | hx
        · exact absurd hxc hc
        · exact i2 x hx hxc
      · rcases i3 with i3 | ⟨x, hx, hxc, hxe⟩
        · left; exact i3
        · right; exact ⟨x, List.mem_cons_of_mem _ hx, hxc, hxe⟩

/-! ## C2: the value of `ptlrpc_set_next_timeout` -/

/-- Members due in 5, 2 and 12 seconds at time 1000, all in phase `RPC`. -/
def mem_5_2_12 : Mem :=
  { now := 1000
    reqs := fun a =>
      if a = 1 then { rq_phase := RQ_PHASE_RPC, rq_sent := 995, rq_timeout := 10 }
      else if a = 2 then { rq_phase := RQ_PHASE_RPC, rq_sent := 1000, rq_timeout := 2 }
      else { rq_phase := RQ_PHASE_RPC, rq_sent := 1001, rq_timeout := 11 }
    sets := fun _ => { set_requests := [1, 2, 3], set_remaining := 3 } }

/-- A set holding a member in phase `RPC` due in 5 seconds and a member still
in phase `NEW` whose delayed send is scheduled one second from now. -/
def mem_new_and_rpc : Mem :=
  { now := 1000
    reqs := fun a =>
      if a = 1 then { rq_phase := RQ_PHASE_NEW, rq_sent := 1001, rq_timeout := 30 }
      else { rq_phase := RQ_PHASE_RPC, rq_sent := 1000, rq_timeout := 5 }
    sets := fun _ => { set_requests := [1, 2], set_remaining := 2 } }

/-- The members the claim C2 calls eligible: phase `RPC` and not waiting, or
phase `BULK`; not timed out; not waiting for a security context. -/
def in_flight_rpc_or_bulk (req : ptlrpc_request) : Bool :=
  ((req.rq_phase = RQ_PHASE_RPC && !req.rq_waiting) || req.rq_phase = RQ_PHASE_BULK) &&
  !req.rq_timedout && !req.rq_wait_ctx

/-- A set at time 2^31 + 10 with one member in phase `RPC`, sent now, due in 5
seconds. -/
def mem_after_2038 : Mem :=
  { now := 2147483658
    reqs := fun _ => { rq_phase := RQ_PHASE_RPC, rq_sent := 2147483658, rq_timeout := 5 }
    sets := fun _ => { set_requests := [1], set_remaining := 1 } }

/-- C2 (as stated) fails: in a set whose only `RPC`/`BULK` member is due in 5
seconds, a member still in phase `NEW` with a send scheduled in 1 second makes
`ptlrpc_set_next_timeout` return 1, which is not `sent + timeout - now` of any
member in phase `RPC` or `BULK`.  It also fails once the deadline no longer fits
the `int` it is computed in: at time 2^31 + 10 a single member due in 5 seconds
gives 1. -/
theorem next_timeout_min_rpc_bulk_counterexample :
    ((∀ a ∈ (mem_new_and_rpc.sets 0).set_requests,
        in_flight_rpc_or_bulk (mem_new_and_rpc.reqs a) = true →
        mem_new_and_rpc.now <
          (mem_new_and_rpc.reqs a).rq_sent + (mem_new_and_rpc.reqs a).rq_timeout) ∧
     ptlrpc_set_next_timeout mem_new_and_rpc 0 = 1 ∧
     (∀ a ∈ (mem_new_and_rpc.sets 0).set_requests,
        in_flight_rpc_or_bulk (mem_new_and_rpc.reqs a) = true →
        (mem_new_and_rpc.reqs a).rq_sent + (mem_new_and_rpc.reqs a).rq_timeout
          - mem_new_and_rpc.now = 5)) ∧
    (in_flight_rpc_or_bulk (mem_after_2038.reqs 1) = true ∧
     (mem_after_2038.reqs 1).rq_sent + (mem_after_2038.reqs 1).rq_timeout
        - mem_after_2038.now = 5 ∧
     ptlrpc_set_next_timeout mem_after_2038 0 = 1) := by
  refine ⟨⟨by decide, by decide, by decide⟩, by decide, by decide, by decide⟩

/-- C2 (amended): when the time is not negative and every member that is in
phase `NEW`, in phase `RPC` and not waiting, or in phase `BULK`, and is neither
timed out nor waiting for a context, has its deadline (send time for `NEW`,
send time plus timeout otherwise) strictly later than now and below 2^31,
`ptlrpc_set_next_timeout` returns the minimum of deadline minus now over those
members: it is at most each of them and equal to one of them; with no such
member it returns 0. -/
theorem next_timeout_is_min (m : Mem) (set : Nat) (hnow : 0 ≤ m.now)
    (h : ∀ a ∈ (m.sets set).set_requests, next_timeout_counts (m.reqs a) = true →
      m.now < member_deadline (m.reqs a) ∧ member_deadline (m.reqs a) < 2147483648) :
    (∀ a ∈ (m.sets set).set_requests, next_timeout_counts (m.reqs a) = true →
      ptlrpc_set_next_timeout m set ≤ member_deadline (m.reqs a) - m.now) ∧
    ((∃ a ∈ (m.sets set).set_requests, next_timeout_counts (m.reqs a) = true) →
      ∃ a ∈ (m.sets set).set_requests, next_timeout_counts (m.reqs a) = true ∧
        ptlrpc_set_next_timeout m set = member_deadline (m.reqs a) - m.now) ∧
    ((∀ a ∈ (m.sets set).set_requests, next_timeout_counts (m.reqs a) = false) →
      ptlrpc_set_next_timeout m set = 0) := by
  have hl : ∀ r ∈ (m.sets set).set_requests.map m.reqs, next_timeout_counts r = true →
      m.now < member_deadline r ∧ member_deadline r < 2147483648 := by
    intro r hr hc
    obtain ⟨a, ha, rfl⟩ := List.mem_map.mp hr
    exact h a ha hc
  obtain ⟨_, _, i2, i3⟩ := next_timeout_loop_min m.now _ 0 hnow (le_refl 0) hl
  refine ⟨?_, ?_, ?_⟩
  · intro a ha hc
    exact (i2 (m.reqs a) (List.mem_map_of_mem _ ha) hc).1
  · rintro ⟨a, ha, hc⟩
    rcases i3 with i3 | ⟨r, hr, hrc, hre⟩
    · have := (i2 (m.reqs a) (List.mem_map_of_mem _ ha) hc).2
      unfold ptlrpc_set_next_timeout at *
      omega
    · obtain ⟨b, hb, rfl⟩ := List.mem_map.mp hr
      exact ⟨b, hb, hrc, hre⟩
  · intro hall
    rcases i3 with i3 | ⟨r, hr, hrc, _⟩
    · exact i3
    · obtain ⟨b, hb, rfl⟩ := List.mem_map.mp hr
      rw [hall b hb] at hrc
      exact absurd hrc (by decide)

/-- C2 witness: members due in 5, 2 and 12 seconds give 2, and once the member
due in 2 seconds is flagged timed out the recomputed value is 5. -/
theorem next_timeout_is_min_witness :
    ptlrpc_set_next_timeout mem_5_2_12 0 = 2 ∧
    ptlrpc_set_next_timeout
      (mem_5_2_12.modReq 2 (fun r => { r with rq_timedout := true })) 0 = 5 ∧
    (∀ a ∈ (mem_5_2_12.sets 0).set_requests, next_timeout_counts (mem_5_2_12.reqs a) = true →
      ptlrpc_set_next_timeout mem_5_2_12 0 ≤ member_deadline (mem_5_2_12.reqs a) - mem_5_2_12.now) :=
  ⟨by decide, by decide,
   (next_timeout_is_min mem_5_2_12 0 (by decide) (by decide)).1⟩

/-! ## C3: members that `ptlrpc_set_next_timeout` ignores -/

/-- The empty set at time 1000, and a request in phase `NEW` whose send is
scheduled 3 seconds from now (at address 1). -/
def mem_empty_set : Mem :=
  { now := 1000
    reqs := fun _ => { rq_phase := RQ_PHASE_NEW, rq_sent := 1003 }
    sets := fun _ => { set_requests := [], set_remaining := 0 } }

/-- C3 (as stated) fails for the third kind of member: adding to the empty set
a member in phase `NEW` whose scheduled send time is 3 seconds in the future
changes the value returned from 0 to 3. -/
theorem next_timeout_new_future_counterexample :
    (mem_empty_set.reqs 1).rq_phase = RQ_PHASE_NEW ∧
    mem_empty_set.now < (mem_empty_set.reqs 1).rq_sent ∧
    ptlrpc_set_next_timeout mem_empty_set 0 = 0 ∧
    ptlrpc_set_next_timeout
      (mem_empty_set.modSet 0 (fun s => { s with set_requests := [1] })) 0 = 3 := by
  refine ⟨by decide, by decide, by decide, by decide⟩

/-- C3 (amended): a member that is already timed out or is waiting for a
security context is ignored by `ptlrpc_set_next_timeout`: linking it at any
position of any set leaves the value returned unchanged. -/
theorem next_timeout_ignores_timedout_and_wait_ctx (m : Mem) (set a : Nat)
    (before after : List Nat)
    (hset : (m.sets set).set_requests = before ++ after)
    (ha : (m.reqs a).rq_timedout = true ∨ (m.reqs a).rq_wait_ctx = true) :
    ptlrpc_set_next_timeout
      (m.modSet set (fun s => { s with set_requests := before ++ a :: after })) set =
    ptlrpc_set_next_timeout m set := by
  have hskip : ∀ t, next_timeout_step m.now t (m.reqs a) = t := by
    intro t
    unfold next_timeout_step next_timeout_counts
    rcases ha with ha | ha <;> simp [ha]
  unfold ptlrpc_set_next_timeout
  simp only [Mem.modSet, upd_same, hset, List.map_append, List.map_cons,
    next_timeout_loop_append, next_timeout_loop, hskip]

/-- C3 witness: a timed-out member added between the members due in 5 and 2
seconds leaves the value at 2. -/
theorem next_timeout_ignores_timedout_and_wait_ctx_witness :
    ptlrpc_set_next_timeout
      ((mem_5_2_12.modReq 7 (fun r => { r with rq_timedout := true })).modSet 0
        (fun s => { s with set_requests := [1] ++ 7 :: [2, 3] })) 0 =
    ptlrpc_set_next_timeout (mem_5_2_12.modReq 7 (fun r => { r with rq_timedout := true })) 0 :=
  next_timeout_ignores_timedout_and_wait_ctx
    (mem_5_2_12.modReq 7 (fun r => { r with rq_timedout := true })) 0 7 [1] [2, 3]
    (by decide) (Or.inl (by decide))

/-! ## C4, C5, C6: `ptlrpc_import_delay_req` -/

/-- C4: on every import/request state that does not reach the `LBUG()` of the
uninitialized import (a request that is a context init/fini RPC, or an import
not in state `NEW`), `ptlrpc_import_delay_req` returns, and its outcome is one
of delay (1 with status 0), error (0 with a non-zero status) or send (0 with
status 0); it never returns 1 together with a non-zero status. -/
theorem import_delay_req_three_outcomes (limit : Bool) (imp : obd_import)
    (req : ptlrpc_request)
    (h : req.rq_ctx_init = true ∨ req.rq_ctx_fini = true ∨ imp.imp_state ≠ LUSTRE_IMP_NEW) :
    ∃ delay status, ptlrpc_import_delay_req limit imp req = some (delay, status) ∧
      ((delay = 1 ∧ status = 0) ∨ (delay = 0 ∧ status ≠ 0) ∨ (delay = 0 ∧ status = 0)) ∧
      ¬ (delay = 1 ∧ status ≠ 0) := by
  unfold ptlrpc_import_delay_req
  by_cases hctx : (req.rq_ctx_init || req.rq_ctx_fini) = true
  · rw [if_pos hctx]
    exact ⟨0, 0, rfl, by simp, by simp⟩
  · rw [if_neg hctx]
    have hnew : imp.imp_state ≠ LUSTRE_IMP_NEW := by
      rcases h with h | h | h
      · simp [h] at hctx
      · simp [h] at hctx
      · exact h
    rw [if_neg hnew]
    repeat' split
    all_goals
      first
        | exact ⟨0, 0, rfl, by simp, by simp⟩
        | exact ⟨1, 0, rfl, by simp, by simp⟩
        | exact ⟨0, - EIO, rfl, by simp [ EIO], by simp⟩
        | exact ⟨0, - ESHUTDOWN, rfl, by simp [ESHUTDOWN], by simp⟩
        | exact ⟨0, - EWOULDBLOCK, rfl, by simp [EWOULDBLOCK], by simp⟩

/-- C4 witness: each of the three outcomes occurs (send on a `FULL` import,
error on a `CLOSED` import, delay on a `DISCON` import). -/
theorem import_delay_req_three_outcomes_witness :
    (∃ delay status,
      ptlrpc_import_delay_req false { imp_state := LUSTRE_IMP_FULL } {} = some (delay, status) ∧
      ((delay = 1 ∧ status = 0) ∨ (delay = 0 ∧ status ≠ 0) ∨ (delay = 0 ∧ status = 0)) ∧
      ¬ (delay = 1 ∧ status ≠ 0)) ∧
    ptlrpc_import_delay_req false { imp_state := LUSTRE_IMP_FULL } {} = some (0, 0) ∧
    ptlrpc_import_delay_req false { imp_state := LUSTRE_IMP_CLOSED } {} = some (0, -5) ∧
    ptlrpc_import_delay_req false { imp_state := LUSTRE_IMP_DISCON } {} = some (1, 0) :=
  ⟨import_delay_req_three_outcomes false { imp_state := LUSTRE_IMP_FULL } {}
      (Or.inr (Or.inr (by decide))),
   by decide, by decide, by decide⟩

/-- C5 (as stated) fails: on a DLM fake import in state `DISCON`, a request that
allows delay (`rq_no_delay` unset) and meets every condition of the claim is
not parked: it is failed with -EWOULDBLOCK and no delay. -/
theorem import_delay_req_dlm_fake_counterexample :
    ptlrpc_import_delay_req false
      { imp_state := LUSTRE_IMP_DISCON, imp_dlm_fake := true }
      { rq_send_state := LUSTRE_IMP_FULL, rq_no_delay := false } = some (0, -11) ∧
    ptlrpc_import_delay_req false
      { imp_state := LUSTRE_IMP_DISCON, imp_dlm_fake := true }
      { rq_send_state := LUSTRE_IMP_FULL, rq_no_delay := false } ≠ some (1, 0) := by
  refine ⟨by decide, by decide⟩

/-- C5 (amended): for a request that is not a context init/fini RPC, on an import
that is neither `NEW` nor `CLOSED`, not invalid, recoverable, with send
budget left, matching generation and no invalidation in flight, whose required
send-state differs from the import state: `ptlrpc_import_delay_req` fails it
with -EWOULDBLOCK and no delay when the request disallows delay or the import
is a DLM fake import, and otherwise asks for delay with status 0. -/
theorem import_delay_req_state_mismatch (imp : obd_import) (req : ptlrpc_request)
    (hinit : req.rq_ctx_init = false) (hfini : req.rq_ctx_fini = false)
    (hnew : imp.imp_state ≠ LUSTRE_IMP_NEW) (hclosed : imp.imp_state ≠ LUSTRE_IMP_CLOSED)
    (hinv : imp.imp_invalid = false) (hrecov : imp.obd_no_recov = false)
    (hgen : req.rq_import_generation = imp.imp_generation)
    (hcount : imp.imp_inval_count = 0)
    (hstate : req.rq_send_state ≠ imp.imp_state) :
    ptlrpc_import_delay_req false imp req =
      if imp.imp_dlm_fake = true ∨ req.rq_no_delay = true then some (0, - EWOULDBLOCK)
      else some (1, 0) := by
  have hconn : ¬ (req.rq_send_state = LUSTRE_IMP_CONNECTING ∧
      imp.imp_state = LUSTRE_IMP_CONNECTING) := by
    rintro ⟨h1, h2⟩
    exact hstate (h1.trans h2.symm)
  unfold ptlrpc_import_delay_req
  simp [hinit, hfini, hnew, hclosed, hinv, hrecov, hgen, hcount, hstate, hconn]

/-- C5 witness: on a `DISCON` import a `FULL`-state request is failed with
-EWOULDBLOCK when it disallows delay and is delayed when it allows it. -/
theorem import_delay_req_state_mismatch_witness :
    ptlrpc_import_delay_req false { imp_state := LUSTRE_IMP_DISCON }
      { rq_send_state := LUSTRE_IMP_FULL, rq_no_delay := true } = some (0, -11) ∧
    ptlrpc_import_delay_req false { imp_state := LUSTRE_IMP_DISCON }
      { rq_send_state := LUSTRE_IMP_FULL, rq_no_delay := false } = some (1, 0) :=
  ⟨(import_delay_req_state_mismatch { imp_state := LUSTRE_IMP_DISCON }
      { rq_send_state := LUSTRE_IMP_FULL, rq_no_delay := true }
      rfl rfl (by decide) (by decide) rfl rfl rfl rfl (by decide)).trans (by decide),
   (import_delay_req_state_mismatch { imp_state := LUSTRE_IMP_DISCON }
      { rq_send_state := LUSTRE_IMP_FULL, rq_no_delay := false }
      rfl rfl (by decide) (by decide) rfl rfl rfl rfl (by decide)).trans (by decide)⟩

/-- C6 (as stated) fails: a context-init RPC whose snapshotted generation (3)
differs from the import generation (4) is let through for sending: no delay and
status 0; so is a `CONNECTING`-state request on a `CONNECTING` import. -/
theorem import_delay_req_stale_generation_counterexample :
    ptlrpc_import_delay_req false
      { imp_state := LUSTRE_IMP_FULL, imp_generation := 4 }
      { rq_ctx_init := true, rq_import_generation := 3 } = some (0, 0) ∧
    ptlrpc_import_delay_req false
      { imp_state := LUSTRE_IMP_CONNECTING, imp_generation := 4 }
      { rq_send_state := LUSTRE_IMP_CONNECTING, rq_import_generation := 3 } = some (0, 0) := by
  refine ⟨by decide, by decide⟩

/-- C6 (amended): a request that is not a context init/fini RPC and is not a
`CONNECTING`-state request on a `CONNECTING` import, whose snapshotted import
generation differs from the current generation of an initialized import, is
failed immediately: `ptlrpc_import_delay_req` returns no delay and a non-zero
error status (so it is neither sent nor parked). -/
theorem import_delay_req_stale_generation (limit : Bool) (imp : obd_import)
    (req : ptlrpc_request)
    (hinit : req.rq_ctx_init = false) (hfini : req.rq_ctx_fini = false)
    (hnew : imp.imp_state ≠ LUSTRE_IMP_NEW)
    (hconn : ¬ (req.rq_send_state = LUSTRE_IMP_CONNECTING ∧
      imp.imp_state = LUSTRE_IMP_CONNECTING))
    (hgen : req.rq_import_generation ≠ imp.imp_generation) :
    ∃ status, status ≠ 0 ∧ ptlrpc_import_delay_req limit imp req = some (0, status) := by
  unfold ptlrpc_import_delay_req
  simp only [hinit, hfini, Bool.or_self, Bool.false_eq_true, if_false, hnew, hconn, hgen,
    ne_eq, not_false_eq_true, if_true]
  repeat' split
  all_goals
    first
      | exact ⟨- EIO, by simp [ EIO], rfl⟩
      | exact ⟨- ESHUTDOWN, by simp [ESHUTDOWN], rfl⟩

/-- C6 witness: a `FULL`-state request of generation 3 on a `FULL` import of
generation 4 gets no delay and status -EIO. -/
theorem import_delay_req_stale_generation_witness :
    ∃ status, status ≠ 0 ∧
      ptlrpc_import_delay_req false { imp_state := LUSTRE_IMP_FULL, imp_generation := 4 }
        { rq_import_generation := 3 } = some (0, status) :=
  import_delay_req_stale_generation false { imp_state := LUSTRE_IMP_FULL, imp_generation := 4 }
    { rq_import_generation := 3 } rfl rfl (by decide) (by decide) (by decide)

/-! ## C7: `ptlrpc_retain_replayable_request` keeps the replay list sorted -/

/-- Replay order: transaction number first, xid as tie-break. -/
def replay_le (reqs : Nat → ptlrpc_request) (a b : Nat) : Prop :=
  (reqs a).rq_transno < (reqs b).rq_transno ∨
  ((reqs a).rq_transno = (reqs b).rq_transno ∧ (reqs a).rq_xid ≤ (reqs b).rq_xid)

/-- The replay list of `imp` is sorted ascending by (transno, xid). -/
def replay_sorted (m : Mem) (imp : Nat) : Prop :=
  (m.imps imp).imp_replay_list.Pairwise (replay_le m.reqs)

/-- The replay list of `imp` holds no request twice, and the requests on it are
those whose `rq_replay_list` node is linked on it. -/
def replay_list_wf (m : Mem) (imp : Nat) : Prop :=
  (m.imps imp).imp_replay_list.Nodup ∧
  ∀ b, b ∈ (m.imps imp).imp_replay_list ↔
    (m.reqs b).rq_replay_list = some (.imp_replay_list imp)

theorem replay_le_trans (reqs : Nat → ptlrpc_request) (a b c : Nat)
    (h1 : replay_le reqs a b) (h2 : replay_le reqs b c) : replay_le reqs a c := by
  unfold replay_le at *
  omega

theorem replay_le_congr (f g : Nat → ptlrpc_request)
    (h : ∀ b, (f b).rq_transno = (g b).rq_transno ∧ (f b).rq_xid = (g b).rq_xid)
    (a b : Nat) : replay_le f a b ↔ replay_le g a b := by
  unfold replay_le
  rw [(h a).1, (h a).2, (h b).1, (h b).2]

theorem replay_list_insert_spec (reqs : Nat → ptlrpc_request) (a : Nat) (rev : List Nat)
    (hs : rev.Pairwise (fun x y => replay_le reqs y x))
    (hk : ∀ x ∈ rev, ¬ ((reqs x).rq_transno = (reqs a).rq_transno ∧
      (reqs x).rq_xid = (reqs a).rq_xid)) :
    ∃ l, replay_list_insert reqs a rev = some l ∧
      l.Pairwise (fun x y => replay_le reqs y x) ∧
      l.Perm (a :: rev) := by
  induction rev with
  | nil => exact ⟨[a], rfl, List.pairwise_singleton _ _, List.Perm.refl _⟩
  | cons iter rest ih =>
    obtain ⟨hhead, htail⟩ := List.pairwise_cons.mp hs
    obtain ⟨l, hl, hlp, hperm⟩ := ih htail (fun x hx => hk x (List.mem_cons_of_mem _ hx))
    have hkeep : replay_le reqs a iter →
        (iter :: l).Pairwise (fun x y => replay_le reqs y x) ∧
        (iter :: l).Perm (a :: iter :: rest) := by
      intro hai
      refine ⟨List.pairwise_cons.mpr ⟨?_, hlp⟩, ?_⟩
      · intro y hy
        rcases List.mem_cons.mp (hperm.subset hy) with rfl | hy
        · exact hai
        · exact hhead y hy
      · exact (List.Perm.cons iter hperm).trans (List.Perm.swap a iter rest)
    have hhere : replay_le reqs iter a →
        (a :: iter :: rest).Pairwise (fun x y => replay_le reqs y x) := by
      intro hia
      refine List.pairwise_cons.mpr ⟨?_, hs⟩
      intro y hy
      rcases List.mem_cons.mp hy with rfl | hy
      · exact hia
      · exact replay_le_trans reqs y iter a (hhead y hy) hia
    have hkey := hk iter (List.mem_cons_self _ _)
    unfold replay_list_insert
    by_cases h1 : (reqs iter).rq_transno > (reqs a).rq_transno
    · rw [if_pos h1, hl]
      have := hkeep (Or.inl h1)
      exact ⟨iter :: l, rfl, this.1, this.2⟩
    · rw [if_neg h1]
      by_cases h2 : (reqs iter).rq_transno = (reqs a).rq_transno
      · rw [if_pos h2]
        have h3 : (reqs iter).rq_xid ≠ (reqs a).rq_xid := fun h => hkey ⟨h2, h⟩
        rw [if_neg h3]
        by_cases h4 : (reqs iter).rq_xid > (reqs a).rq_xid
        · rw [if_pos h4, hl]
          have := hkeep (Or.inr ⟨h2.symm, le_of_lt h4⟩)
          exact ⟨iter :: l, rfl, this.1, this.2⟩
        · rw [if_neg h4]
          exact ⟨_, rfl, hhere (Or.inr ⟨h2, by omega⟩), List.Perm.refl _⟩
      · rw [if_neg h2]
        exact ⟨_, rfl, hhere (Or.inl (by omega)), List.Perm.refl _⟩

theorem retain_keys (m : Mem) (a b : Nat) :
    ((ptlrpc_request_addref ((m.modReq a clear_MSG_RESENT).modReq a add_MSG_REPLAY) a).reqs
        b).rq_transno = (m.reqs b).rq_transno ∧
    ((ptlrpc_request_addref ((m.modReq a clear_MSG_RESENT).modReq a add_MSG_REPLAY) a).reqs
        b).rq_xid = (m.reqs b).rq_xid ∧
    ((ptlrpc_request_addref ((m.modReq a clear_MSG_RESENT).modReq a add_MSG_REPLAY) a).reqs
        b).rq_replay_list = (m.reqs b).rq_replay_list := by
  simp only [ptlrpc_request_addref, modReq_reqs]
  by_cases hb : b = a
  · subst hb
    simp [clear_MSG_RESENT, add_MSG_REPLAY, add_refcount]
  · simp [hb]

theorem retain_linked (m : Mem) (a imp : Nat) (h0 : (m.reqs a).rq_transno ≠ 0)
    (hl : (m.reqs a).rq_replay_list ≠ none) :
    ptlrpc_retain_replayable_request m a imp = some (m.modReq a clear_MSG_RESENT) := by
  have : ((m.modReq a clear_MSG_RESENT).reqs a).rq_replay_list ≠ none := by
    simpa [clear_MSG_RESENT] using hl
  unfold ptlrpc_retain_replayable_request
  rw [if_neg h0]
  exact if_pos this

theorem retain_unlinked (m : Mem) (a imp : Nat) (h0 : (m.reqs a).rq_transno ≠ 0)
    (hl : (m.reqs a).rq_replay_list = none) :
    ptlrpc_retain_replayable_request m a imp =
      if (m.imps imp).imp_replayable = false then none
      else
        match replay_list_insert
          (ptlrpc_request_addref ((m.modReq a clear_MSG_RESENT).modReq a add_MSG_REPLAY) a).reqs
          a (m.imps imp).imp_replay_list.reverse with
        | none => none
        | some l =>
          some (((ptlrpc_request_addref
            ((m.modReq a clear_MSG_RESENT).modReq a add_MSG_REPLAY) a).modImp imp
              (with_replay_list l.reverse)).modReq a (link_rq_replay_list imp)) := by
  have : ¬ ((m.modReq a clear_MSG_RESENT).reqs a).rq_replay_list ≠ none := by
    simpa [clear_MSG_RESENT] using hl
  unfold ptlrpc_retain_replayable_request
  rw [if_neg h0]
  simp only []
  rw [if_neg this]
  rfl

/-- C7: `ptlrpc_retain_replayable_request` preserves the replay-list invariant.
If the replay list of the import is sorted ascending by (transno, xid) and
holds no request twice, then for a request of non-zero transno that is already
on the list, or is unlinked with a (transno, xid) pair differing from that of
every listed request, the call returns (on a replayable import, or when the
request is already listed) and afterwards the list is still sorted by
(transno, xid), still holds no request twice, and consists of the old members
plus that request. -/
theorem retain_replayable_request_keeps_invariant (m : Mem) (a imp : Nat)
    (hsorted : replay_sorted m imp) (hwf : replay_list_wf m imp)
    (htransno : (m.reqs a).rq_transno ≠ 0)
    (hreq : a ∈ (m.imps imp).imp_replay_list ∨
      ((m.reqs a).rq_replay_list = none ∧
        ∀ x ∈ (m.imps imp).imp_replay_list,
          ¬ ((m.reqs x).rq_transno = (m.reqs a).rq_transno ∧
             (m.reqs x).rq_xid = (m.reqs a).rq_xid))) :
    ((m.imps imp).imp_replayable = true ∨ a ∈ (m.imps imp).imp_replay_list →
      ∃ m', ptlrpc_retain_replayable_request m a imp = some m') ∧
    ∀ m', ptlrpc_retain_replayable_request m a imp = some m' →
      replay_sorted m' imp ∧ replay_list_wf m' imp ∧
      ∀ b, b ∈ (m'.imps imp).imp_replay_list ↔ b ∈ (m.imps imp).imp_replay_list ∨ b = a := by
  obtain ⟨hnodup, hlink⟩ := hwf
  by_cases hon : a ∈ (m.imps imp).imp_replay_list
  · -- already on the list: only the RESENT flag of the request message is cleared
    have hnode := (hlink a).mp hon
    rw [retain_linked m a imp htransno (by rw [hnode]; simp)]
    refine ⟨fun _ => ⟨_, rfl⟩, ?_⟩
    intro m' hm'
    cases hm'
    have hk : ∀ b, ((m.modReq a clear_MSG_RESENT).reqs b).rq_transno = (m.reqs b).rq_transno ∧
        ((m.modReq a clear_MSG_RESENT).reqs b).rq_xid = (m.reqs b).rq_xid ∧
        ((m.modReq a clear_MSG_RESENT).reqs b).rq_replay_list = (m.reqs b).rq_replay_list := by
      intro b
      simp only [modReq_reqs]
      by_cases hb : b = a
      · subst hb; simp [clear_MSG_RESENT]
      · simp [hb]
    refine ⟨?_, ⟨hnodup, ?_⟩, ?_⟩
    · refine List.Pairwise.imp ?_ hsorted
      intro x y hxy
      exact (replay_le_congr _ m.reqs (fun b => ⟨(hk b).1, (hk b).2.1⟩) x y).mpr hxy
    · intro b
      rw [(hk b).2.2]
      exact hlink b
    · intro b
      constructor
      · exact fun h => Or.inl h
      · rintro (h | rfl)
        · exact h
        · exact hon
  · -- not on the list: insert from the tail
    rcases hreq with hreq | ⟨hnone, hkeys⟩
    · exact absurd hreq hon
    rw [retain_unlinked m a imp htransno hnone]
    generalize hm3 : ptlrpc_request_addref
      ((m.modReq a clear_MSG_RESENT).modReq a add_MSG_REPLAY) a = m3
    have hk3 : ∀ b, (m3.reqs b).rq_transno = (m.reqs b).rq_transno ∧
        (m3.reqs b).rq_xid = (m.reqs b).rq_xid ∧
        (m3.reqs b).rq_replay_list = (m.reqs b).rq_replay_list := by
      intro b; rw [← hm3]; exact retain_keys m a b
    have himps3 : m3.imps = m.imps := by rw [← hm3]; rfl
    have hrev : (m.imps imp).imp_replay_list.reverse.Pairwise
        (fun x y => replay_le m3.reqs y x) := by
      rw [List.pairwise_reverse]
      refine List.Pairwise.imp ?_ hsorted
      intro x y hxy
      exact (replay_le_congr _ _ (fun b => ⟨(hk3 b).1, (hk3 b).2.1⟩) x y).mpr hxy
    have hkd : ∀ x ∈ (m.imps imp).imp_replay_list.reverse,
        ¬ ((m3.reqs x).rq_transno = (m3.reqs a).rq_transno ∧
           (m3.reqs x).rq_xid = (m3.reqs a).rq_xid) := by
      intro x hx
      rw [(hk3 x).1, (hk3 x).2.1, (hk3 a).1, (hk3 a).2.1]
      exact hkeys x (List.mem_reverse.mp hx)
    obtain ⟨l, hl, hlp, hperm⟩ := replay_list_insert_spec m3.reqs a _ hrev hkd
    rw [hl]
    have hmem : ∀ b, b ∈ l.reverse ↔ b ∈ (m.imps imp).imp_replay_list ∨ b = a := by
      intro b
      rw [List.mem_reverse, hperm.mem_iff, List.mem_cons, List.mem_reverse]
      exact or_comm
    have hlist : ((((m3.modImp imp (with_replay_list l.reverse)).modReq a
        (link_rq_replay_list imp)).imps imp).imp_replay_list) = l.reverse := by
      simp [with_replay_list]
    have hk4 : ∀ b, ((((m3.modImp imp (with_replay_list l.reverse)).modReq a
        (link_rq_replay_list imp)).reqs b).rq_transno = (m3.reqs b).rq_transno) ∧
        ((((m3.modImp imp (with_replay_list l.reverse)).modReq a
        (link_rq_replay_list imp)).reqs b).rq_xid = (m3.reqs b).rq_xid) := by
      intro b
      simp only [modReq_reqs, modImp_reqs]
      by_cases hb : b = a
      · subst hb; simp [link_rq_replay_list]
      · simp [hb]
    constructor
    · intro hrep
      rcases hrep with hrep | hrep
      · rw [if_neg (by simp [hrep])]
        exact ⟨_, rfl⟩
      · exact absurd hrep hon
    · intro m' hm'
      split at hm'
      · exact absurd hm' (by simp)
      · cases hm'
        refine ⟨?_, ⟨?_, ?_⟩, ?_⟩
        · unfold replay_sorted
          rw [hlist]
          have : l.reverse.Pairwise (replay_le m3.reqs) := by
            rw [List.pairwise_reverse]; exact hlp
          refine List.Pairwise.imp ?_ this
          intro x y hxy
          exact (replay_le_congr _ m3.reqs hk4 x y).mpr hxy
        · rw [hlist, List.nodup_reverse, hperm.nodup_iff, List.nodup_cons, List.nodup_reverse]
          exact ⟨fun h => hon (List.mem_reverse.mp h), hnodup⟩
        · intro b
          rw [hlist, hmem b]
          simp only [modReq_reqs, modImp_reqs]
          by_cases hb : b = a
          · subst hb; simp [link_rq_replay_list]
          · simp only [hb, or_false, if_false]
            rw [(hk3 b).2.2]
            exact hlink b
        · intro b
          rw [hlist]
          exact hmem b

/-! ## C8, C9: `ptlrpc_free_committed` -/

theorem set_list_reqs (m : Mem) (h : list_head) (l : List Nat) :
    (m.set_list h l).reqs = m.reqs := by
  cases h <;> rfl

theorem set_list_commit_log (m : Mem) (h : list_head) (l : List Nat) :
    (m.set_list h l).commit_log = m.commit_log := by
  cases h <;> rfl

theorem set_list_replay_unlink_log (m : Mem) (h : list_head) (l : List Nat) :
    (m.set_list h l).replay_unlink_log = m.replay_unlink_log := by
  cases h <;> rfl

theorem set_list_imp_fields (m : Mem) (h : list_head) (l : List Nat) (imp : Nat) :
    ((m.set_list h l).imps imp).imp_generation = (m.imps imp).imp_generation ∧
    ((m.set_list h l).imps imp).imp_peer_committed_transno =
      (m.imps imp).imp_peer_committed_transno := by
  cases h <;> simp only [Mem.set_list, modImp_imps, modSet_imps] <;>
    first
      | exact ⟨rfl, rfl⟩
      | exact ⟨trivial, trivial⟩
      | (split
         · rename_i hi; subst hi; exact ⟨rfl, rfl⟩
         · exact ⟨rfl, rfl⟩)

theorem set_list_replay_list (m : Mem) (h : list_head) (l : List Nat) (imp : Nat) :
    ((m.set_list h l).imps imp).imp_replay_list =
      if h = .imp_replay_list imp then l else (m.imps imp).imp_replay_list := by
  cases h with
  | imp_replay_list j =>
    simp only [Mem.set_list, modImp_imps, list_head.imp_replay_list.injEq]
    by_cases hj : imp = j
    · subst hj; simp
    · have hj' : ¬ j = imp := fun h => hj h.symm
      simp [hj, hj']
  | imp_sending_list j =>
    simp only [Mem.set_list, modImp_imps]
    by_cases hj : imp = j
    · subst hj; simp
    · simp [hj]
  | imp_delayed_list j =>
    simp only [Mem.set_list, modImp_imps]
    by_cases hj : imp = j
    · subst hj; simp
    · simp [hj]
  | set_requests j => simp [Mem.set_list]
  | set_new_requests j => simp [Mem.set_list]
  | prp_req_list j => simp [Mem.set_list]

/-- The effect of `cfs_list_del_init(&req->rq_replay_list)` on the fields that
`ptlrpc_free_committed` reads. -/
theorem del_init_rq_replay_list_frame (m : Mem) (a imp : Nat) :
    (∀ b, b ≠ a → (del_init_rq_replay_list m a).reqs b = m.reqs b) ∧
    ((del_init_rq_replay_list m a).reqs a).rq_replay_list = none ∧
    ((del_init_rq_replay_list m a).reqs a).rq_refcount = (m.reqs a).rq_refcount ∧
    ((del_init_rq_replay_list m a).imps imp).imp_generation = (m.imps imp).imp_generation ∧
    ((del_init_rq_replay_list m a).imps imp).imp_peer_committed_transno =
      (m.imps imp).imp_peer_committed_transno ∧
    ((del_init_rq_replay_list m a).imps imp).imp_replay_list =
      (if (m.reqs a).rq_replay_list = some (.imp_replay_list imp)
       then (m.imps imp).imp_replay_list.erase a else (m.imps imp).imp_replay_list) ∧
    (del_init_rq_replay_list m a).commit_log = m.commit_log ∧
    (del_init_rq_replay_list m a).replay_unlink_log =
      (if (m.reqs a).rq_replay_list = none then m.replay_unlink_log
       else m.replay_unlink_log ++ [a]) := by
  unfold del_init_rq_replay_list
  cases hnode : (m.reqs a).rq_replay_list with
  | none =>
    simp [hnode]
  | some h =>
    simp only []
    refine ⟨?_, ?_, ?_, ?_, ?_, ?_, ?_, ?_⟩
    · intro b hb
      show ((m.set_list h _).modReq a unlink_rq_replay_list).reqs b = _
      rw [modReq_reqs, if_neg hb, set_list_reqs]
    · show (((m.set_list h _).modReq a unlink_rq_replay_list).reqs a).rq_replay_list = none
      rw [modReq_reqs, if_pos rfl]
      rfl
    · show (((m.set_list h _).modReq a unlink_rq_replay_list).reqs a).rq_refcount = _
      rw [modReq_reqs, if_pos rfl, set_list_reqs]
      rfl
    · show (((m.set_list h _).modReq a unlink_rq_replay_list).imps imp).imp_generation = _
      rw [modReq_imps]
      exact (set_list_imp_fields m h _ imp).1
    · show (((m.set_list h _).modReq a unlink_rq_replay_list).imps
        imp).imp_peer_committed_transno = _
      rw [modReq_imps]
      exact (set_list_imp_fields m h _ imp).2
    · show (((m.set_list h _).modReq a unlink_rq_replay_list).imps imp).imp_replay_list = _
      rw [modReq_imps, set_list_replay_list]
      by_cases hh : h = .imp_replay_list imp
      · subst hh
        simp [Mem.list_of]
      · simp [hh]
    · show ((m.set_list h _).modReq a unlink_rq_replay_list).commit_log = _
      rw [modReq_commit_log, set_list_commit_log]
    · show ((m.set_list h _).modReq a unlink_rq_replay_list).replay_unlink_log ++ [a] = _
      rw [modReq_replay_unlink_log, set_list_replay_unlink_log]
      simp

theorem del_init_rq_replay_list_unlinked (m : Mem) (a : Nat)
    (hnode : (m.reqs a).rq_replay_list = none) : del_init_rq_replay_list m a = m := by
  unfold del_init_rq_replay_list
  rw [hnode]

theorem free_req_release_frame (m : Mem) (a : Nat) (m' : Mem)
    (h : free_req_release m a = some m') :
    m'.imps = m.imps ∧ (∀ b, b ≠ a → m'.reqs b = m.reqs b) ∧
    m'.commit_log = m.commit_log ∧ m'.replay_unlink_log = m.replay_unlink_log := by
  unfold free_req_release at h
  repeat' split at h
  all_goals try contradiction
  · unfold __ptlrpc_free_req_to_pool at h
    repeat' split at h
    all_goals try contradiction
    cases h
    refine ⟨rfl, ?_, rfl, rfl⟩
    intro b hb
    simp [add_tail_rq_list, Mem.set_list, hb]
  · cases h
    refine ⟨rfl, ?_, rfl, rfl⟩
    intro b hb
    simp [Mem.log_freed, hb]

/-- What `__ptlrpc_free_req` leaves alone when the request is on no replay
list. -/
theorem free_req_frame (m : Mem) (a : Nat) (hnode : (m.reqs a).rq_replay_list = none)
    (m' : Mem) (h : __ptlrpc_free_req m a = some m') :
    m'.imps = m.imps ∧ (∀ b, b ≠ a → m'.reqs b = m.reqs b) ∧
    m'.commit_log = m.commit_log ∧ m'.replay_unlink_log = m.replay_unlink_log := by
  unfold __ptlrpc_free_req at h
  rw [del_init_rq_replay_list_unlinked m a hnode] at h
  simp only [ite_self] at h
  repeat' split at h
  all_goals try contradiction
  exact free_req_release_frame m a m' h

/-- What `__ptlrpc_req_finished` leaves alone when the request is on no replay
list. -/
theorem req_finished_frame (m : Mem) (a : Nat) (hnode : (m.reqs a).rq_replay_list = none)
    (m' : Mem) (rc : Int) (h : __ptlrpc_req_finished m a = some (m', rc)) :
    m'.imps = m.imps ∧ (∀ b, b ≠ a → m'.reqs b = m.reqs b) ∧
    m'.commit_log = m.commit_log ∧ m'.replay_unlink_log = m.replay_unlink_log := by
  unfold __ptlrpc_req_finished at h
  simp only [] at h
  have hnode1 : ((m.modReq a (add_refcount (-1))).reqs a).rq_replay_list = none := by
    simp [add_refcount, hnode]
  split at h
  · rw [Option.map_eq_some'] at h
    obtain ⟨m2, hm2, heq⟩ := h
    cases heq
    obtain ⟨h1, h2, h3, h4⟩ := free_req_frame _ a hnode1 _ hm2
    refine ⟨h1, ?_, h3, h4⟩
    intro b hb
    rw [h2 b hb]
    simp [hb]
  · cases h
    refine ⟨rfl, ?_, rfl, rfl⟩
    intro b hb
    simp [hb]

/-- The effect of the code at label `free_req` of `ptlrpc_free_committed`. -/
theorem free_committed_free_req_frame (m : Mem) (a imp : Nat) (m1 : Mem)
    (h : free_committed_free_req m a = some m1) :
    (∀ b, b ≠ a → m1.reqs b = m.reqs b) ∧
    (m1.imps imp).imp_generation = (m.imps imp).imp_generation ∧
    (m1.imps imp).imp_peer_committed_transno = (m.imps imp).imp_peer_committed_transno ∧
    (m1.imps imp).imp_replay_list =
      (if (m.reqs a).rq_replay_list = some (.imp_replay_list imp)
       then (m.imps imp).imp_replay_list.erase a else (m.imps imp).imp_replay_list) ∧
    m1.commit_log = m.commit_log ++ (if (m.reqs a).rq_commit_cb = true then [a] else []) ∧
    m1.replay_unlink_log =
      (if (m.reqs a).rq_replay_list = none then m.replay_unlink_log
       else m.replay_unlink_log ++ [a]) := by
  unfold free_committed_free_req at h
  simp only [] at h
  rw [Option.map_eq_some'] at h
  obtain ⟨⟨m4, rc⟩, hfin, heq⟩ := h
  simp only [] at heq
  subst heq
  generalize hm2 : (if ((m.modReq a clear_rq_replay).reqs a).rq_commit_cb = true
      then (m.modReq a clear_rq_replay).log_commit a else m.modReq a clear_rq_replay) = m2 at hfin
  have hcb : ((m.modReq a clear_rq_replay).reqs a).rq_commit_cb = (m.reqs a).rq_commit_cb := by
    simp [clear_rq_replay]
  have hnode1 : ((m.modReq a clear_rq_replay).reqs a).rq_replay_list =
      (m.reqs a).rq_replay_list := by
    simp [clear_rq_replay]
  have h2reqs : m2.reqs = (m.modReq a clear_rq_replay).reqs := by
    rw [← hm2]; split <;> rfl
  have h2imps : m2.imps = m.imps := by
    rw [← hm2]; split <;> rfl
  have h2ulog : m2.replay_unlink_log = m.replay_unlink_log := by
    rw [← hm2]; split <;> rfl
  have h2clog : m2.commit_log =
      m.commit_log ++ (if (m.reqs a).rq_commit_cb = true then [a] else []) := by
    rw [← hm2, hcb]
    split
    · rfl
    · simp
  obtain ⟨d1, d2, _, d4, d5, d6, d7, d8⟩ := del_init_rq_replay_list_frame m2 a imp
  obtain ⟨f1, f2, f3, f4⟩ := req_finished_frame _ a d2 _ _ hfin
  have hnode2 : (m2.reqs a).rq_replay_list = (m.reqs a).rq_replay_list := by
    rw [h2reqs]; exact hnode1
  refine ⟨?_, ?_, ?_, ?_, ?_, ?_⟩
  · intro b hb
    rw [f2 b hb, d1 b hb, h2reqs]
    simp [hb]
  · rw [f1, d4, h2imps]
  · rw [f1, d5, h2imps]
  · rw [f1, d6, h2imps, hnode2]
  · rw [f3, d7, h2clog]
  · rw [f4, d8, h2ulog, hnode2]

/-- A request that `ptlrpc_free_committed` must keep: not of an older import
generation, and either flagged for forced replay or with a transno above the
committed watermark. -/
def replay_protected (m : Mem) (imp b : Nat) : Prop :=
  (m.imps imp).imp_generation ≤ (m.reqs b).rq_import_generation ∧
  ((m.reqs b).rq_replay = true ∨
    (m.imps imp).imp_peer_committed_transno < (m.reqs b).rq_transno)

theorem free_committed_loop_keeps (imp : Nat) (rest : List Nat) :
    ∀ (m : Mem) (last : Option Nat) (m' : Mem),
      free_committed_loop imp m last rest = some m' →
      (m'.imps imp).imp_replay_list.Sublist (m.imps imp).imp_replay_list ∧
      ∀ b ∈ (m.imps imp).imp_replay_list, replay_protected m imp b →
        b ∈ (m'.imps imp).imp_replay_list := by
  induction rest with
  | nil =>
    intro m last m' h
    cases h
    exact ⟨List.Sublist.refl _, fun b hb _ => hb⟩
  | cons a rest ih =>
    intro m last m' h
    have hfree : ¬ replay_protected m imp a →
        ∀ m1, free_committed_free_req m a = some m1 →
          free_committed_loop imp m1 (some a) rest = some m' →
          (m'.imps imp).imp_replay_list.Sublist (m.imps imp).imp_replay_list ∧
          ∀ b ∈ (m.imps imp).imp_replay_list, replay_protected m imp b →
            b ∈ (m'.imps imp).imp_replay_list := by
      intro hnp m1 hm1 hloop
      obtain ⟨g1, g2, g3, g4, _, _⟩ := free_committed_free_req_frame m a imp m1 hm1
      obtain ⟨i1, i2⟩ := ih m1 (some a) m' hloop
      have hsub : (m1.imps imp).imp_replay_list.Sublist (m.imps imp).imp_replay_list := by
        rw [g4]; split
        · exact List.erase_sublist _ _
        · exact List.Sublist.refl _
      refine ⟨i1.trans hsub, ?_⟩
      intro b hb hprot
      have hba : b ≠ a := by
        rintro rfl
        exact hnp hprot
      apply i2 b
      · rw [g4]; split
        · exact (List.mem_erase_of_ne hba).mpr hb
        · exact hb
      · unfold replay_protected at *
        rw [g1 b hba, g2, g3]
        exact hprot
    unfold free_committed_loop at h
    split at h
    · cases h
    split at h
    · cases h
    split at h
    · rename_i hgen
      have hnp : ¬ replay_protected m imp a := by
        intro hp; unfold replay_protected at hp; omega
      split at h
      · cases h
      · rename_i m1 hm1
        exact hfree hnp m1 hm1 h
    split at h
    · exact ih m (some a) m' h
    split at h
    · cases h
      exact ⟨List.Sublist.refl _, fun b hb _ => hb⟩
    · rename_i hgen hrep htr
      have hnp : ¬ replay_protected m imp a := by
        intro hp; unfold replay_protected at hp
        rcases hp.2 with hp | hp
        · exact hrep hp
        · omega
      split at h
      · cases h
      · rename_i m1 hm1
        exact hfree hnp m1 hm1 h

theorem free_committed_free_req_returns (m : Mem) (a : Nat)
    (h : (m.reqs a).rq_refcount ≠ 1) : ∃ m1, free_committed_free_req m a = some m1 := by
  unfold free_committed_free_req
  simp only []
  generalize hm2 : (if ((m.modReq a clear_rq_replay).reqs a).rq_commit_cb = true
      then (m.modReq a clear_rq_replay).log_commit a else m.modReq a clear_rq_replay) = m2
  have h2 : (m2.reqs a).rq_refcount = (m.reqs a).rq_refcount := by
    rw [← hm2]
    split <;> simp [clear_rq_replay, Mem.log_commit]
  have h3 : ((del_init_rq_replay_list m2 a).reqs a).rq_refcount = (m.reqs a).rq_refcount := by
    rw [(del_init_rq_replay_list_frame m2 a 0).2.2.1, h2]
  unfold __ptlrpc_req_finished
  simp only []
  have hne : ¬ (((del_init_rq_replay_list m2 a).modReq a (add_refcount (-1))).reqs a).rq_refcount
      = 0 := by
    simp only [modReq_reqs, if_true, add_refcount]
    show ¬ ((del_init_rq_replay_list m2 a).reqs a).rq_refcount + -1 = 0
    rw [h3]
    omega
  rw [if_neg hne]
  exact ⟨_, rfl⟩

theorem free_committed_loop_returns (imp : Nat) (rest : List Nat) :
    ∀ (m : Mem) (last : Option Nat),
      (∀ b ∈ rest, (m.reqs b).rq_transno ≠ 0 ∧ (m.reqs b).rq_refcount ≠ 1) →
      rest.Nodup → (∀ b ∈ rest, last ≠ some b) →
      ∃ m', free_committed_loop imp m last rest = some m' := by
  induction rest with
  | nil => intro m last _ _ _; exact ⟨m, rfl⟩
  | cons a rest ih =>
    intro m last hreq hnd hlast
    obtain ⟨harest, hnd'⟩ := List.nodup_cons.mp hnd
    have hlast' : ∀ b ∈ rest, some a ≠ some b := by
      intro b hb hab
      cases hab
      exact harest hb
    obtain ⟨ht, hr⟩ := hreq a (List.mem_cons_self _ _)
    have hfree : ∃ m', (match free_committed_free_req m a with
        | none => none
        | some m1 => free_committed_loop imp m1 (some a) rest) = some m' := by
      obtain ⟨m1, hm1⟩ := free_committed_free_req_returns m a hr
      rw [hm1]
      apply ih m1 (some a) _ hnd' hlast'
      intro b hb
      have hba : b ≠ a := fun hba => harest (hba ▸ hb)
      rw [(free_committed_free_req_frame m a imp m1 hm1).1 b hba]
      exact hreq b (List.mem_cons_of_mem _ hb)
    unfold free_committed_loop
    rw [if_neg (hlast a (List.mem_cons_self _ _)), if_neg ht]
    split
    · exact hfree
    split
    · exact ih m (some a) (fun b hb => hreq b (List.mem_cons_of_mem _ hb)) hnd' hlast'
    split
    · exact ⟨m, rfl⟩
    · exact hfree

/-- `ptlrpc_free_committed` returns (trips no assertion) when the replay list
holds no request twice and every listed request has a non-zero transno and
keeps a reference besides the one of the list. -/
theorem free_committed_returns (m : Mem) (imp : Nat)
    (hnd : (m.imps imp).imp_replay_list.Nodup)
    (hreq : ∀ b ∈ (m.imps imp).imp_replay_list,
      (m.reqs b).rq_transno ≠ 0 ∧ (m.reqs b).rq_refcount ≠ 1) :
    ∃ m', ptlrpc_free_committed m imp = some m' := by
  unfold ptlrpc_free_committed
  split
  · exact ⟨m, rfl⟩
  · simp only []
    have hl : ((m.modImp imp record_last_checked).imps imp).imp_replay_list =
        (m.imps imp).imp_replay_list := by
      simp [record_last_checked]
    rw [hl]
    exact free_committed_loop_returns imp _ _ none hreq hnd (fun _ _ h => nomatch h)

/-- C9: `ptlrpc_free_committed` never removes from the replay list a request
that is not of an older import generation (in particular one of the current
generation) and has the forced-replay flag set or a transno greater than the
committed watermark; the surviving requests keep their relative order (the new
replay list is a sublist of the old one).  The call returns whenever the list
holds no request twice and each listed request has a non-zero transno and a
reference besides the one of the list. -/
theorem free_committed_keeps_protected (m : Mem) (imp : Nat) :
    ((m.imps imp).imp_replay_list.Nodup →
      (∀ b ∈ (m.imps imp).imp_replay_list,
        (m.reqs b).rq_transno ≠ 0 ∧ (m.reqs b).rq_refcount ≠ 1) →
      ∃ m', ptlrpc_free_committed m imp = some m') ∧
    ∀ m', ptlrpc_free_committed m imp = some m' →
      (∀ b ∈ (m.imps imp).imp_replay_list,
        (m.imps imp).imp_generation ≤ (m.reqs b).rq_import_generation →
        ((m.reqs b).rq_replay = true ∨
          (m.imps imp).imp_peer_committed_transno < (m.reqs b).rq_transno) →
        b ∈ (m'.imps imp).imp_replay_list) ∧
      (m'.imps imp).imp_replay_list.Sublist (m.imps imp).imp_replay_list := by
  refine ⟨free_committed_returns m imp, ?_⟩
  intro m' h
  unfold ptlrpc_free_committed at h
  split at h
  · cases h
    exact ⟨fun b hb _ _ => hb, List.Sublist.refl _⟩
  · simp only [] at h
    have hl : ((m.modImp imp record_last_checked).imps imp).imp_replay_list =
        (m.imps imp).imp_replay_list := by
      simp [record_last_checked]
    obtain ⟨i1, i2⟩ := free_committed_loop_keeps imp _ _ none m' h
    rw [hl] at i1 i2
    refine ⟨?_, i1⟩
    intro b hb hgen hprot
    apply i2 b hb
    unfold replay_protected
    simpa [record_last_checked] using ⟨hgen, hprot⟩

theorem free_committed_loop_prunes (imp : Nat) (rest : List Nat) :
    ∀ (m : Mem) (last : Option Nat) (K : List Nat) (m' : Mem),
      (m.imps imp).imp_replay_list = K ++ rest →
      (K ++ rest).Nodup →
      (∀ b ∈ rest, (m.reqs b).rq_replay_list = some (.imp_replay_list imp)) →
      rest.Pairwise (fun x y => (m.reqs x).rq_transno ≤ (m.reqs y).rq_transno) →
      free_committed_loop imp m last rest = some m' →
      ∃ removed kept : List Nat,
        (m'.imps imp).imp_replay_list = K ++ kept ∧
        removed.Sublist rest ∧ kept.Sublist rest ∧
        (∀ b ∈ rest, b ∈ removed ↔ b ∉ kept) ∧
        (∀ b ∈ kept, (m.reqs b).rq_replay = true ∨
          (m.imps imp).imp_peer_committed_transno < (m.reqs b).rq_transno) ∧
        (∀ b, b ∉ removed → m'.reqs b = m.reqs b) ∧
        m'.commit_log =
          m.commit_log ++ removed.filter (fun b => (m.reqs b).rq_commit_cb) ∧
        m'.replay_unlink_log = m.replay_unlink_log ++ removed := by
  induction rest with
  | nil =>
    intro m last K m' hl _ _ _ h
    cases h
    exact ⟨[], [], hl, List.Sublist.refl _, List.Sublist.refl _, by simp, by simp,
      fun _ _ => rfl, by simp, by simp⟩
  | cons a rest ih =>
    intro m last K m' hl hnd hnode hsorted h
    have hnd' : (K ++ rest).Nodup :=
      hnd.sublist (List.Sublist.append_left (List.sublist_cons_self a rest) K)
    have haK : a ∉ K := by
      intro ha
      have := (List.nodup_append.mp hnd).2.2
      exact this ha (List.mem_cons_self _ _) 
    have harest : a ∉ rest := by
      have := (List.nodup_append.mp hnd).2.1
      exact (List.nodup_cons.mp this).1
    have hne : ∀ b ∈ rest, b ≠ a := fun b hb hba => harest (hba ▸ hb)
    obtain ⟨hhead, htail⟩ := List.pairwise_cons.mp hsorted
    have hfree : ∀ m1, free_committed_free_req m a = some m1 →
        free_committed_loop imp m1 (some a) rest = some m' →
        ∃ removed kept : List Nat,
          (m'.imps imp).imp_replay_list = K ++ kept ∧
          removed.Sublist (a :: rest) ∧ kept.Sublist (a :: rest) ∧
          (∀ b ∈ a :: rest, b ∈ removed ↔ b ∉ kept) ∧
          (∀ b ∈ kept, (m.reqs b).rq_replay = true ∨
            (m.imps imp).imp_peer_committed_transno < (m.reqs b).rq_transno) ∧
          (∀ b, b ∉ removed → m'.reqs b = m.reqs b) ∧
          m'.commit_log =
            m.commit_log ++ removed.filter (fun b => (m.reqs b).rq_commit_cb) ∧
          m'.replay_unlink_log = m.replay_unlink_log ++ removed := by
      intro m1 hm1 hloop
      obtain ⟨g1, _, g3, g4, g5, g6⟩ := free_committed_free_req_frame m a imp m1 hm1
      have hna := hnode a (List.mem_cons_self _ _)
      rw [if_pos hna, hl, List.erase_append_right _ haK, List.erase_cons_head] at g4
      rw [if_neg (by rw [hna]; simp)] at g6
      have hnode1 : ∀ b ∈ rest, (m1.reqs b).rq_replay_list = some (.imp_replay_list imp) := by
        intro b hb
        rw [g1 b (hne b hb)]
        exact hnode b (List.mem_cons_of_mem _ hb)
      have hsorted1 : rest.Pairwise
          (fun x y => (m1.reqs x).rq_transno ≤ (m1.reqs y).rq_transno) := by
        refine List.Pairwise.imp_of_mem ?_ htail
        intro x y hx hy hxy
        rw [g1 x (hne x hx), g1 y (hne y hy)]
        exact hxy
      obtain ⟨removed, kept, r1, r2, r3, r4, r5, r6, r7, r8⟩ :=
        ih m1 (some a) K m' g4 hnd' hnode1 hsorted1 hloop
      refine ⟨a :: removed, kept, r1, r2.cons₂ a, r3.cons a, ?_, ?_, ?_, ?_, ?_⟩
      · intro b hb
        rcases List.mem_cons.mp hb with rfl | hb
        · simp only [List.mem_cons, true_or, true_iff]
          exact fun hk => harest (r3.subset hk)
        · rw [List.mem_cons, ← r4 b hb]
          simp [hne b hb]
      · intro b hb
        have hbr := r3.subset hb
        have := r5 b hb
        rw [g1 b (hne b hbr), g3] at this
        exact this
      · intro b hb
        rw [List.mem_cons, not_or] at hb
        rw [r6 b hb.2, g1 b hb.1]
      · rw [r7, g5, List.filter_cons, List.append_assoc]
        have hfc : removed.filter (fun b => (m1.reqs b).rq_commit_cb) =
            removed.filter (fun b => (m.reqs b).rq_commit_cb) := by
          apply List.filter_congr
          intro b hb
          rw [g1 b (hne b (r2.subset hb))]
        rw [hfc]
        split <;> simp
      · rw [r8, g6, List.append_assoc]
        rfl
    unfold free_committed_loop at h
    split at h
    · cases h
    split at h
    · cases h
    split at h
    · split at h
      · cases h
      · rename_i m1 hm1
        exact hfree m1 hm1 h
    split at h
    · rename_i hrep
      have hl' : (m.imps imp).imp_replay_list = (K ++ [a]) ++ rest := by
        rw [hl]; simp
      have hnd2 : ((K ++ [a]) ++ rest).Nodup := by
        simpa using hnd
      obtain ⟨removed, kept, r1, r2, r3, r4, r5, r6, r7, r8⟩ :=
        ih m (some a) (K ++ [a]) m' hl' hnd2
          (fun b hb => hnode b (List.mem_cons_of_mem _ hb)) htail h
      refine ⟨removed, a :: kept, ?_, r2.cons a, r3.cons₂ a, ?_, ?_, r6, r7, r8⟩
      · rw [r1]; simp
      · intro b hb
        rcases List.mem_cons.mp hb with rfl | hb
        · simp only [List.mem_cons, true_or, not_true_eq_false, iff_false]
          exact fun hr => harest (r2.subset hr)
        · rw [r4 b hb, List.mem_cons, not_or]
          simp [hne b hb]
      · intro b hb
        rcases List.mem_cons.mp hb with rfl | hb
        · exact Or.inl hrep
        · exact r5 b hb
    split at h
    · rename_i htr
      cases h
      refine ⟨[], a :: rest, hl, List.nil_sublist _, List.Sublist.refl _,
        fun b hb => ⟨fun hr => absurd hr (List.not_mem_nil _), fun hk => absurd hb hk⟩, ?_,
        fun _ _ => rfl, by simp, by simp⟩
      intro b hb
      right
      rcases List.mem_cons.mp hb with rfl | hb
      · exact htr
      · exact lt_of_lt_of_le htr (hhead b hb)
    · split at h
      · cases h
      · rename_i m1 hm1
        exact hfree m1 hm1 h

/-- An import whose replay list was already checked for the watermark 10 and
still holds request 1 with transno 5 and no forced-replay flag (for instance a
request retained from a reply that carried no commit information). -/
def mem_checked : Mem :=
  { reqs := fun _ =>
      { rq_transno := 5, rq_xid := 100, rq_refcount := 2, rq_import := some 0,
        rq_replay_list := some (.imp_replay_list 0) }
    imps := fun _ =>
      { imp_state := LUSTRE_IMP_FULL, imp_replayable := true, imp_replay_list := [1],
        imp_peer_committed_transno := 10, imp_last_transno_checked := 10 } }

/-- C8 (as stated) fails: when the watermark and the generation are those of the
last check, `ptlrpc_free_committed` returns at once, and request 1 with transno
5 ≤ 10 and no forced-replay flag remains on the (sorted) replay list. -/
theorem free_committed_skip_counterexample :
    (mem_checked.imps 0).imp_replay_list.Pairwise
      (fun x y => (mem_checked.reqs x).rq_transno ≤ (mem_checked.reqs y).rq_transno) ∧
    ∃ m', ptlrpc_free_committed mem_checked 0 = some m' ∧
      1 ∈ (m'.imps 0).imp_replay_list ∧
      (m'.reqs 1).rq_transno ≤ (mem_checked.imps 0).imp_peer_committed_transno ∧
      (m'.reqs 1).rq_replay = false := by
  refine ⟨by decide, mem_checked, rfl, by decide, by decide, rfl⟩

/-- C8 (amended): for an import whose replay list is sorted by transno and holds
no request twice, with committed watermark W, when the recheck is not skipped
(W or the generation differs from the values recorded at the last check), after
`ptlrpc_free_committed` returns no request with transno ≤ W and the
forced-replay flag unset remains on the replay list; the removed requests are
unlinked in list order, which is ascending in transno, each once, and the
commit callback of each removed request that has one is called exactly once,
in the same order.  The call returns whenever each listed request has a
non-zero transno and a reference besides the one of the list. -/
theorem free_committed_prunes (m : Mem) (imp : Nat)
    (hwf : replay_list_wf m imp)
    (hsorted : (m.imps imp).imp_replay_list.Pairwise
      (fun x y => (m.reqs x).rq_transno ≤ (m.reqs y).rq_transno))
    (hcheck : ¬ ((m.imps imp).imp_peer_committed_transno = (m.imps imp).imp_last_transno_checked ∧
      (m.imps imp).imp_generation = (m.imps imp).imp_last_generation_checked)) :
    ((∀ b ∈ (m.imps imp).imp_replay_list,
        (m.reqs b).rq_transno ≠ 0 ∧ (m.reqs b).rq_refcount ≠ 1) →
      ∃ m', ptlrpc_free_committed m imp = some m') ∧
    ∀ m', ptlrpc_free_committed m imp = some m' →
      (∀ b ∈ (m'.imps imp).imp_replay_list,
        ¬ ((m'.reqs b).rq_transno ≤ (m.imps imp).imp_peer_committed_transno ∧
           (m'.reqs b).rq_replay = false)) ∧
      ∃ removed : List Nat,
        (∀ b, b ∈ removed ↔
          b ∈ (m.imps imp).imp_replay_list ∧ b ∉ (m'.imps imp).imp_replay_list) ∧
        removed.Nodup ∧
        removed.Pairwise (fun x y => (m.reqs x).rq_transno ≤ (m.reqs y).rq_transno) ∧
        m'.replay_unlink_log = m.replay_unlink_log ++ removed ∧
        m'.commit_log = m.commit_log ++ removed.filter (fun b => (m.reqs b).rq_commit_cb) := by
  obtain ⟨hnodup, hlink⟩ := hwf
  refine ⟨free_committed_returns m imp hnodup, ?_⟩
  intro m' h
  unfold ptlrpc_free_committed at h
  rw [if_neg hcheck] at h
  simp only [] at h
  have hl : ((m.modImp imp record_last_checked).imps imp).imp_replay_list =
      (m.imps imp).imp_replay_list := by
    simp [record_last_checked]
  have hW : ((m.modImp imp record_last_checked).imps imp).imp_peer_committed_transno =
      (m.imps imp).imp_peer_committed_transno := by
    simp [record_last_checked]
  rw [hl] at h
  obtain ⟨removed, kept, r1, r2, r3, r4, r5, r6, r7, r8⟩ :=
    free_committed_loop_prunes imp (m.imps imp).imp_replay_list
      (m.modImp imp record_last_checked) none [] m'
      (by rw [hl]; rfl) (by simpa using hnodup)
      (fun b hb => (hlink b).mp hb) hsorted h
  simp only [List.nil_append] at r1
  rw [hW] at r5
  simp only [modImp_reqs, modImp_commit_log, modImp_replay_unlink_log] at r5 r6 r7 r8
  have hremoved : ∀ b, b ∈ removed ↔
      b ∈ (m.imps imp).imp_replay_list ∧ b ∉ (m'.imps imp).imp_replay_list := by
    intro b
    rw [r1]
    constructor
    · intro hb
      exact ⟨r2.subset hb, (r4 b (r2.subset hb)).mp hb⟩
    · rintro ⟨hb, hk⟩
      exact (r4 b hb).mpr hk
  refine ⟨?_, removed, hremoved, hnodup.sublist r2, hsorted.sublist r2, r8, r7⟩
  intro b hb
  rw [r1] at hb
  have hnr : b ∉ removed := by
    intro hr
    exact (r4 b (r2.subset hr)).mp hr hb
  rw [r6 b hnr]
  show ¬ ((m.reqs b).rq_transno ≤ _ ∧ (m.reqs b).rq_replay = false)
  rintro ⟨ht, hr⟩
  rcases r5 b hb with h5 | h5
  · rw [hr] at h5; exact absurd h5 (by decide)
  · omega

/-! ## Witnesses for C7, C8, C9 -/

theorem eq_some_getD {α : Type} (o : Option α) (d : α) (h : o.isSome = true) :
    o = some (o.getD d) := by
  cases o with
  | none => exact absurd h (Bool.false_ne_true)
  | some x => rfl

/-- A replayable import with committed watermark 10 not yet checked, whose
replay list holds requests 1 to 4 with transnos 5, 7, 9 and 12 (request 2
flagged for forced replay, requests 1 and 3 with a commit callback); every
other address holds an unlinked request with transno 8. -/
def mem_replay : Mem :=
  { reqs := fun a =>
      if a = 1 then
        { rq_transno := 5, rq_xid := 100, rq_refcount := 2, rq_import := some 0,
          rq_commit_cb := true, rq_replay_list := some (.imp_replay_list 0) }
      else if a = 2 then
        { rq_transno := 7, rq_xid := 101, rq_refcount := 2, rq_import := some 0,
          rq_replay := true, rq_replay_list := some (.imp_replay_list 0) }
      else if a = 3 then
        { rq_transno := 9, rq_xid := 102, rq_refcount := 2, rq_import := some 0,
          rq_commit_cb := true, rq_replay_list := some (.imp_replay_list 0) }
      else if a = 4 then
        { rq_transno := 12, rq_xid := 103, rq_refcount := 2, rq_import := some 0,
          rq_replay_list := some (.imp_replay_list 0) }
      else { rq_transno := 8, rq_xid := 104, rq_refcount := 1, rq_import := some 0 }
    imps := fun _ =>
      { imp_state := LUSTRE_IMP_FULL, imp_replayable := true, imp_replay_list := [1, 2, 3, 4],
        imp_peer_committed_transno := 10, imp_last_transno_checked := 0 } }

theorem mem_replay_wf : replay_list_wf mem_replay 0 := by
  refine ⟨by decide, ?_⟩
  intro b
  show b ∈ [1, 2, 3, 4] ↔ _
  simp only [mem_replay]
  by_cases h1 : b = 1
  · subst h1; simp
  by_cases h2 : b = 2
  · subst h2; simp
  by_cases h3 : b = 3
  · subst h3; simp
  by_cases h4 : b = 4
  · subst h4; simp
  simp [h1, h2, h3, h4]

theorem mem_replay_sorted : replay_sorted mem_replay 0 := by
  unfold replay_sorted replay_le
  decide

/-- C7 witness: retaining request 5 (transno 8) on the replay list 1, 2, 3, 4
(transnos 5, 7, 9, 12) gives the list 1, 2, 5, 3, 4, which is sorted. -/
theorem retain_replayable_request_keeps_invariant_witness :
    (ptlrpc_retain_replayable_request mem_replay 5 0).map
        (fun m => (m.imps 0).imp_replay_list) = some [1, 2, 5, 3, 4] ∧
    (∀ m', ptlrpc_retain_replayable_request mem_replay 5 0 = some m' →
      replay_sorted m' 0 ∧ replay_list_wf m' 0 ∧
      ∀ b, b ∈ (m'.imps 0).imp_replay_list ↔ b ∈ (mem_replay.imps 0).imp_replay_list ∨ b = 5) :=
  ⟨by decide,
   (retain_replayable_request_keeps_invariant mem_replay 5 0 mem_replay_sorted mem_replay_wf
      (by decide) (Or.inr ⟨by decide, by decide⟩)).2⟩

/-- C8 witness: with watermark 10 the requests 1 and 3 (transnos 5 and 9) are
removed in that order and their commit callbacks called once each; request 2
(forced replay) and request 4 (transno 12) stay. -/
theorem free_committed_prunes_witness :
    (ptlrpc_free_committed mem_replay 0).map
        (fun m => ((m.imps 0).imp_replay_list, m.replay_unlink_log, m.commit_log)) =
      some ([2, 4], [1, 3], [1, 3]) ∧
    (∀ b ∈ (((ptlrpc_free_committed mem_replay 0).getD {}).imps 0).imp_replay_list,
      ¬ ((((ptlrpc_free_committed mem_replay 0).getD {}).reqs b).rq_transno ≤
          (mem_replay.imps 0).imp_peer_committed_transno ∧
         (((ptlrpc_free_committed mem_replay 0).getD {}).reqs b).rq_replay = false)) :=
  ⟨by decide,
   ((free_committed_prunes mem_replay 0 mem_replay_wf (by decide) (by decide)).2
      ((ptlrpc_free_committed mem_replay 0).getD {}) (eq_some_getD _ _ (by decide))).1⟩

/-- C9 witness: with watermark 10 the forced-replay request 2 and the
uncommitted request 4 stay on the replay list, in their old order. -/
theorem free_committed_keeps_protected_witness :
    (ptlrpc_free_committed mem_replay 0).map
        (fun m => (m.imps 0).imp_replay_list) = some [2, 4] ∧
    (((ptlrpc_free_committed mem_replay 0).getD {}).imps 0).imp_replay_list.Sublist
      (mem_replay.imps 0).imp_replay_list :=
  ⟨by decide,
   ((free_committed_keeps_protected mem_replay 0).2
      ((ptlrpc_free_committed mem_replay 0).getD {}) (eq_some_getD _ _ (by decide))).2⟩

/-! ## C10: the committed watermark across `after_reply` -/

theorem free_committed_loop_watermark (imp : Nat) (rest : List Nat) :
    ∀ (m : Mem) (last : Option Nat) (m' : Mem),
      free_committed_loop imp m last rest = some m' →
      (m'.imps imp).imp_peer_committed_transno = (m.imps imp).imp_peer_committed_transno := by
  induction rest with
  | nil =>
    intro m last m' h
    cases h
    rfl
  | cons a rest ih =>
    intro m last m' h
    unfold free_committed_loop at h
    repeat' split at h
    all_goals try contradiction
    · rename_i m1 hm1
      rw [ih m1 _ m' h]
      exact (free_committed_free_req_frame m a imp m1 hm1).2.2.1
    · exact ih m _ m' h
    · cases h; rfl
    · rename_i m1 hm1
      rw [ih m1 _ m' h]
      exact (free_committed_free_req_frame m a imp m1 hm1).2.2.1

theorem free_committed_watermark (m : Mem) (imp : Nat) (m' : Mem)
    (h : ptlrpc_free_committed m imp = some m') :
    (m'.imps imp).imp_peer_committed_transno = (m.imps imp).imp_peer_committed_transno := by
  unfold ptlrpc_free_committed at h
  split at h
  · cases h; rfl
  · rw [free_committed_loop_watermark imp _ _ _ m' h]
    simp [record_last_checked]

theorem retain_watermark (m : Mem) (a imp : Nat) (m' : Mem)
    (h : ptlrpc_retain_replayable_request m a imp = some m') :
    (m'.imps imp).imp_peer_committed_transno = (m.imps imp).imp_peer_committed_transno ∧
    (m'.reqs a).rq_repmsg = (m.reqs a).rq_repmsg := by
  unfold ptlrpc_retain_replayable_request at h
  simp only [] at h
  repeat' split at h
  all_goals try contradiction
  · cases h
    exact ⟨rfl, by simp [clear_MSG_RESENT]⟩
  · cases h
    constructor
    · simp [ptlrpc_request_addref, with_replay_list]
    · simp [ptlrpc_request_addref, link_rq_replay_list, add_refcount, add_MSG_REPLAY,
        clear_MSG_RESENT]

theorem after_reply_retain_watermark (m : Mem) (a imp : Nat) (m' : Mem)
    (h : after_reply_retain m a imp = some m') :
    (m'.imps imp).imp_peer_committed_transno = (m.imps imp).imp_peer_committed_transno ∧
    (m'.reqs a).rq_repmsg = (m.reqs a).rq_repmsg := by
  unfold after_reply_retain at h
  repeat' split at h
  all_goals try contradiction
  · rename_i m0 hm0
    obtain ⟨h1, h2⟩ := retain_watermark m0 a imp m' h
    unfold ptlrpc_save_versions at hm0
    repeat' split at hm0
    all_goals try contradiction
    · cases hm0; exact ⟨h1, h2⟩
    · cases hm0
      rw [h1, h2]
      exact ⟨rfl, by simp⟩
  · cases h; exact ⟨rfl, rfl⟩
  · cases h; exact ⟨rfl, rfl⟩

theorem after_reply_replayable_watermark (m : Mem) (a imp : Nat) (m' : Mem)
    (h : after_reply_replayable m a imp = some m') :
    (m'.imps imp).imp_peer_committed_transno = (m.imps imp).imp_peer_committed_transno ∨
    ((m.reqs a).rq_repmsg.lm_last_committed ≠ 0 ∧
      (m'.imps imp).imp_peer_committed_transno = (m.reqs a).rq_repmsg.lm_last_committed) := by
  unfold after_reply_replayable at h
  split at h
  · cases h
  · rename_i m1 hm1
    obtain ⟨h1, h2⟩ := after_reply_retain_watermark m a imp m1 hm1
    simp only [] at h
    have hw := free_committed_watermark _ imp m' h
    rw [hw]
    split
    · rename_i hlc
      right
      rw [h2] at hlc
      exact ⟨hlc, by simp [set_peer_committed, h2]⟩
    · left; exact h1

theorem at_adj_service_frame (c : Collab) (m : Mem) (a : Nat) (v : Int) (m' : Mem) (imp : Nat)
    (h : ptlrpc_at_adj_service c m a v = some m') :
    m'.reqs = m.reqs ∧
    (m'.imps imp).imp_peer_committed_transno = (m.imps imp).imp_peer_committed_transno := by
  unfold ptlrpc_at_adj_service at h
  split at h
  · cases h
  · cases h
    refine ⟨rfl, ?_⟩
    simp only [modImp_imps]
    split
    · rename_i hi; subst hi; rfl
    · rfl

theorem at_adj_net_latency_frame (c : Collab) (m : Mem) (a : Nat) (v : Int) (m' : Mem)
    (imp : Nat) (h : ptlrpc_at_adj_net_latency c m a v = some m') :
    m'.reqs = m.reqs ∧
    (m'.imps imp).imp_peer_committed_transno = (m.imps imp).imp_peer_committed_transno := by
  unfold ptlrpc_at_adj_net_latency at h
  split at h
  · cases h
  · cases h
    refine ⟨rfl, ?_⟩
    simp only [modImp_imps]
    split
    · rename_i hi; subst hi; rfl
    · rfl

theorem after_reply_unpacked_watermark (c : Collab) (m : Mem) (a imp : Nat) (m' : Mem)
    (rc : Int)
    (hnotconn : ∀ m0, ((c.ptlrpc_request_handle_notconn m0 a).imps imp).imp_peer_committed_transno
      = (m0.imps imp).imp_peer_committed_transno)
    (h : after_reply_unpacked c m a imp = some (m', rc)) :
    (m'.imps imp).imp_peer_committed_transno = (m.imps imp).imp_peer_committed_transno ∨
    ((m.reqs a).rq_repmsg.lm_last_committed ≠ 0 ∧
      (m'.imps imp).imp_peer_committed_transno = (m.reqs a).rq_repmsg.lm_last_committed) := by
  unfold after_reply_unpacked at h
  split at h
  · cases h
  rename_i m3 hm3
  split at h
  · cases h
  rename_i m4 hm4
  obtain ⟨s1, s2⟩ := at_adj_service_frame c m a _ m3 imp hm3
  obtain ⟨n1, n2⟩ := at_adj_net_latency_frame c m3 a _ m4 imp hm4
  have hW5 : ∀ v, ((m4.modImp imp (set_connect_error v)).imps imp).imp_peer_committed_transno =
      (m.imps imp).imp_peer_committed_transno := by
    intro v
    simp only [modImp_imps, if_true]
    show (m4.imps imp).imp_peer_committed_transno = _
    rw [n2, s2]
  have hr4 : m4.reqs = m.reqs := by rw [n1, s1]
  have hmsg : (((m4.modImp imp (set_connect_error (ptlrpc_check_status (m4.reqs a)))).modReq a
      store_transno).reqs a).rq_repmsg = (m.reqs a).rq_repmsg := by
    simp only [modReq_reqs, modImp_reqs, if_true, hr4]
    unfold store_transno
    split <;> rfl
  simp only [] at h
  split at h
  · split at h
    · cases h
      left; exact hW5 _
    · cases h
      left
      rw [hnotconn]
      exact hW5 _
  · split at h
    · split at h
      · cases h
      · rename_i m7 hm7
        cases h
        rcases after_reply_replayable_watermark _ a imp _ hm7 with hw | ⟨hlc, hw⟩
        · left
          rw [hw]
          exact hW5 _
        · right
          rw [hmsg] at hlc hw
          exact ⟨hlc, hw⟩
    · cases h
      left
      exact hW5 _

/-- The reply header as `after_reply` reads it: the reply message of the request
once the security layer has unwrapped it and `unpack_reply` has unpacked it. -/
def reply_header (c : Collab) (r : ptlrpc_request) : lustre_msg :=
  (unpack_reply c (c.sptlrpc_cli_unwrap_reply r).1).1.rq_repmsg

/-- A replayable import with committed watermark 10 already checked, and
request 1 whose reply (transno 11) has just arrived carrying the commit status
5, as of a reply sent before one that was processed earlier. -/
def mem_late_reply : Mem :=
  { now := 1000
    reqs := fun _ =>
      { rq_phase := RQ_PHASE_RPC, rq_import := some 0, rq_sent := 998, rq_replied := true,
        rq_repmsg := { lm_type := PTL_RPC_MSG_REPLY, lm_transno := 11, lm_last_committed := 5 } }
    imps := fun _ =>
      { imp_state := LUSTRE_IMP_FULL, imp_replayable := true,
        imp_peer_committed_transno := 10, imp_last_transno_checked := 10 } }

/-- C10 (as stated) fails: a reply whose header carries the commit status 5,
processed by `after_reply` on a replayable import whose watermark is 10, sets
the watermark to 5. -/
theorem after_reply_watermark_counterexample :
    (mem_late_reply.imps 0).imp_replayable = true ∧
    (mem_late_reply.imps 0).imp_peer_committed_transno = 10 ∧
    (after_reply collab_plain mem_late_reply 1).map
      (fun x => ((x.1.imps 0).imp_peer_committed_transno, x.2)) = some (5, 0) := by
  refine ⟨rfl, rfl, by decide⟩

/-- C10 (amended): `after_reply` leaves the committed watermark of the import
of the request unchanged or sets it to the non-zero last-committed transno
carried by the reply header; so the watermark after the call is greater than or
equal to its value before whenever the reply carries no commit status (0) or
one that is not below the watermark.  (The recovery collaborator called on a
recoverable error is assumed to leave the watermark alone.) -/
theorem after_reply_watermark (c : Collab) (m : Mem) (a imp : Nat) (m' : Mem) (rc : Int)
    (himp : (m.reqs a).rq_import = some imp)
    (hnotconn : ∀ m0, ((c.ptlrpc_request_handle_notconn m0 a).imps imp).imp_peer_committed_transno
      = (m0.imps imp).imp_peer_committed_transno)
    (h : after_reply c m a = some (m', rc)) :
    ((m'.imps imp).imp_peer_committed_transno = (m.imps imp).imp_peer_committed_transno ∨
     ((reply_header c (m.reqs a)).lm_last_committed ≠ 0 ∧
      (m'.imps imp).imp_peer_committed_transno =
        (reply_header c (m.reqs a)).lm_last_committed)) ∧
    ((reply_header c (m.reqs a)).lm_last_committed = 0 ∨
      (m.imps imp).imp_peer_committed_transno ≤ (reply_header c (m.reqs a)).lm_last_committed →
      (m.imps imp).imp_peer_committed_transno ≤ (m'.imps imp).imp_peer_committed_transno) := by
  have key : (m'.imps imp).imp_peer_committed_transno = (m.imps imp).imp_peer_committed_transno ∨
     ((reply_header c (m.reqs a)).lm_last_committed ≠ 0 ∧
      (m'.imps imp).imp_peer_committed_transno =
        (reply_header c (m.reqs a)).lm_last_committed) := by
    unfold after_reply at h
    rw [himp] at h
    simp only [] at h
    split at h
    · cases h
    split at h
    · split at h
      · cases h; left; rfl
      · cases h; left; rfl
    split at h
    · cases h; left; rfl
    split at h
    · cases h; left; rfl
    split at h
    · cases h; left; rfl
    split at h
    · cases h; left; rfl
    · rcases after_reply_unpacked_watermark c _ a imp m' rc hnotconn h with hw | ⟨hlc, hw⟩
      · left; rw [hw]; rfl
      · right
        have hhdr : (((m.modReq a (fun r => (c.sptlrpc_cli_unwrap_reply r).1)).modReq a
            (fun r => (unpack_reply c r).1)).reqs a).rq_repmsg = reply_header c (m.reqs a) := by
          simp [reply_header]
        rw [hhdr] at hlc hw
        exact ⟨hlc, hw⟩
  refine ⟨key, ?_⟩
  intro hge
  rcases key with hk | ⟨hne, hk⟩
  · rw [hk]
  · rw [hk]
    rcases hge with h0 | hle
    · exact absurd h0 hne
    · exact hle

/-- C10 witness: a reply carrying the commit status 12, processed on the import
whose watermark is 10, moves the watermark to 12. -/
theorem after_reply_watermark_witness :
    (after_reply collab_plain
      (mem_late_reply.modReq 1 (fun r =>
        { r with rq_repmsg := { r.rq_repmsg with lm_last_committed := 12 } })) 1).map
      (fun x => (x.1.imps 0).imp_peer_committed_transno) = some 12 ∧
    (mem_late_reply.imps 0).imp_peer_committed_transno ≤
      (((after_reply collab_plain
        (mem_late_reply.modReq 1 (fun r =>
          { r with rq_repmsg := { r.rq_repmsg with lm_last_committed := 12 } })) 1).getD
        ({}, 0)).1.imps 0).imp_peer_committed_transno :=
  ⟨by decide,
   (after_reply_watermark collab_plain
      (mem_late_reply.modReq 1 (fun r =>
        { r with rq_repmsg := { r.rq_repmsg with lm_last_committed := 12 } })) 1 0 _ _
      (by decide) (fun _ => rfl) (eq_some_getD _ ({}, 0) (by decide))).2 (Or.inr (by decide))⟩

/-! ## C1: `ptlrpc_set_wait` -/

theorem set_wait_status_complete (m : Mem) (l : List Nat) :
    ∀ (rc0 rc : Int), set_wait_status m rc0 l = some rc →
      (∀ a ∈ l, (m.reqs a).rq_phase = RQ_PHASE_COMPLETE) ∧
      ((∀ a ∈ l, (m.reqs a).rq_status = 0) → rc = rc0) := by
  induction l with
  | nil =>
    intro rc0 rc h
    cases h
    exact ⟨fun a ha => absurd ha (List.not_mem_nil a), fun _ => rfl⟩
  | cons a rest ih =>
    intro rc0 rc h
    unfold set_wait_status at h
    split at h
    · cases h
    rename_i hphase
    have hp : (m.reqs a).rq_phase = RQ_PHASE_COMPLETE := by
      by_contra hne
      exact hphase hne
    split at h
    · rename_i hst
      obtain ⟨i1, _⟩ := ih _ rc h
      refine ⟨?_, ?_⟩
      · intro b hb
        rcases List.mem_cons.mp hb with rfl | hb
        · exact hp
        · exact i1 b hb
      · intro hall
        exact absurd (hall a (List.mem_cons_self _ _)) hst
    · obtain ⟨i1, i2⟩ := ih _ rc h
      refine ⟨?_, ?_⟩
      · intro b hb
        rcases List.mem_cons.mp hb with rfl | hb
        · exact hp
        · exact i1 b hb
      · intro hall
        exact i2 (fun b hb => hall b (List.mem_cons_of_mem _ hb))

/-- What `ptlrpc_set_wait` has established when its final part returns. -/
theorem set_wait_finish_spec (c : Collab) (m : Mem) (set : Nat) (m' : Mem) (rc : Int)
    (h : set_wait_finish c m set = some (m', rc)) :
    (m'.sets set).set_remaining = 0 ∧
    (∀ a ∈ (m'.sets set).set_requests, (m'.reqs a).rq_phase = RQ_PHASE_COMPLETE) ∧
    ((m.sets set).set_interpret = none → (m.sets set).set_cblist = [] →
      (∀ a ∈ (m'.sets set).set_requests, (m'.reqs a).rq_status = 0) → rc = 0) := by
  unfold set_wait_finish at h
  split at h
  · cases h
  rename_i hrem
  have hrem0 : (m.sets set).set_remaining = 0 := by
    by_contra hne
    exact hrem hne
  split at h
  · cases h
  rename_i rc1 hst
  obtain ⟨hph, hzero⟩ := set_wait_status_complete m _ 0 rc1 hst
  split at h
  · rename_i cb hcb
    cases h
    refine ⟨hrem0, hph, ?_⟩
    intro hnone
    rw [hnone] at hcb
    cases hcb
  · cases h
    refine ⟨by simpa using hrem0, ?_, ?_⟩
    · intro a ha
      have ha' : a ∈ (m.sets set).set_requests := by simpa using ha
      simpa using hph a ha'
    · intro _ hcbs hall
      rw [hcbs]
      have : rc1 = 0 := hzero (fun a ha => by
        have := hall a (by simpa using ha)
        simpa using this)
      simp [set_wait_callbacks, this]

/-- The callbacks registered on a set: its interpreter and its callback list. -/
def set_callbacks (m : Mem) (set : Nat) : Option Nat × List Nat :=
  ((m.sets set).set_interpret, (m.sets set).set_cblist)

@[simp] theorem cbs_modReq (m : Mem) (a set : Nat) (f : ptlrpc_request → ptlrpc_request) :
    set_callbacks (m.modReq a f) set = set_callbacks m set := rfl

@[simp] theorem cbs_modImp (m : Mem) (i set : Nat) (f : obd_import → obd_import) :
    set_callbacks (m.modImp i f) set = set_callbacks m set := rfl

@[simp] theorem cbs_set_list (m : Mem) (h : list_head) (l : List Nat) (set : Nat) :
    set_callbacks (m.set_list h l) set = set_callbacks m set := by
  cases h <;> simp only [Mem.set_list, cbs_modImp] <;> try rfl
  all_goals
    unfold set_callbacks
    simp only [modSet_sets]
    split
    · rename_i hs; subst hs; rfl
    · rfl

@[simp] theorem cbs_log_commit (m : Mem) (a set : Nat) :
    set_callbacks (m.log_commit a) set = set_callbacks m set := rfl

@[simp] theorem cbs_log_freed (m : Mem) (a set : Nat) :
    set_callbacks (m.log_freed a) set = set_callbacks m set := rfl

@[simp] theorem cbs_log_replay_unlink (m : Mem) (a set : Nat) :
    set_callbacks (m.log_replay_unlink a) set = set_callbacks m set := rfl

@[simp] theorem cbs_dec_remaining (m : Mem) (s set : Nat) :
    set_callbacks (m.modSet s (fun x => { x with set_remaining := x.set_remaining - 1 })) set =
      set_callbacks m set := by
  unfold set_callbacks
  simp only [modSet_sets]
  split
  · rename_i hs; subst hs; rfl
  · rfl

@[simp] theorem cbs_del_init_rq_list (m : Mem) (a set : Nat) :
    set_callbacks (del_init_rq_list m a) set = set_callbacks m set := by
  unfold del_init_rq_list
  split <;> simp

@[simp] theorem cbs_add_tail_rq_list (m : Mem) (a set : Nat) (h : list_head) :
    set_callbacks (add_tail_rq_list m a h) set = set_callbacks m set := by
  unfold add_tail_rq_list
  simp

@[simp] theorem cbs_del_init_rq_replay_list (m : Mem) (a set : Nat) :
    set_callbacks (del_init_rq_replay_list m a) set = set_callbacks m set := by
  unfold del_init_rq_replay_list
  split <;> simp

theorem cbs_free_req_release (m : Mem) (a set : Nat) (m' : Mem)
    (h : free_req_release m a = some m') :
    set_callbacks m' set = set_callbacks m set := by
  unfold free_req_release at h
  repeat' split at h
  all_goals try contradiction
  · unfold __ptlrpc_free_req_to_pool at h
    repeat' split at h
    all_goals try contradiction
    cases h
    simp
  · cases h
    simp

theorem cbs_free_req (m : Mem) (a set : Nat) (m' : Mem) (h : __ptlrpc_free_req m a = some m') :
    set_callbacks m' set = set_callbacks m set := by
  unfold __ptlrpc_free_req at h
  repeat' split at h
  all_goals try contradiction
  · rw [cbs_free_req_release _ a set m' h]
    simp
  · exact cbs_free_req_release _ a set m' h

theorem cbs_req_finished (m : Mem) (a set : Nat) (r : Mem × Int)
    (h : __ptlrpc_req_finished m a = some r) :
    set_callbacks r.1 set = set_callbacks m set := by
  unfold __ptlrpc_req_finished at h
  simp only [] at h
  split at h
  · rw [Option.map_eq_some'] at h
    obtain ⟨m2, hm2, heq⟩ := h
    cases heq
    rw [cbs_free_req _ a set m2 hm2]
    simp
  · cases h; simp

theorem cbs_retain (m : Mem) (a imp set : Nat) (m' : Mem)
    (h : ptlrpc_retain_replayable_request m a imp = some m') :
    set_callbacks m' set = set_callbacks m set := by
  unfold ptlrpc_retain_replayable_request at h
  simp only [] at h
  repeat' split at h
  all_goals try contradiction
  all_goals (cases h; simp [ptlrpc_request_addref])

theorem cbs_free_committed_free_req (m : Mem) (a set : Nat) (m' : Mem)
    (h : free_committed_free_req m a = some m') :
    set_callbacks m' set = set_callbacks m set := by
  unfold free_committed_free_req at h
  simp only [] at h
  rw [Option.map_eq_some'] at h
  obtain ⟨r, hr, heq⟩ := h
  cases heq
  rw [cbs_req_finished _ a set r hr]
  simp only [cbs_del_init_rq_replay_list]
  split <;> simp

theorem cbs_free_committed_loop (imp set : Nat) (rest : List Nat) :
    ∀ (m : Mem) (last : Option Nat) (m' : Mem),
      free_committed_loop imp m last rest = some m' →
      set_callbacks m' set = set_callbacks m set := by
  induction rest with
  | nil => intro m last m' h; cases h; rfl
  | cons a rest ih =>
    intro m last m' h
    unfold free_committed_loop at h
    repeat' split at h
    all_goals try contradiction
    · rename_i m1 hm1
      rw [ih m1 _ m' h, cbs_free_committed_free_req m a set m1 hm1]
    · exact ih m _ m' h
    · cases h; rfl
    · rename_i m1 hm1
      rw [ih m1 _ m' h, cbs_free_committed_free_req m a set m1 hm1]

theorem cbs_free_committed (m : Mem) (imp set : Nat) (m' : Mem)
    (h : ptlrpc_free_committed m imp = some m') :
    set_callbacks m' set = set_callbacks m set := by
  unfold ptlrpc_free_committed at h
  split at h
  · cases h; rfl
  · rw [cbs_free_committed_loop imp set _ _ _ m' h]
    simp

/-- The collaborators that work on the whole memory (the environment during a
sleep and the recovery functions) leave the callbacks registered on the set
alone. -/
def keeps_set_callbacks (c : Collab) (set : Nat) : Prop :=
  (∀ ev m, set_callbacks (c.async ev m) set = set_callbacks m set) ∧
  (∀ m i cnt, set_callbacks (c.ptlrpc_fail_import m i cnt) set = set_callbacks m set) ∧
  (∀ m a, set_callbacks (c.ptlrpc_request_handle_notconn m a) set = set_callbacks m set)

@[simp] theorem cbs_req_interpret (c : Collab) (m : Mem) (a set : Nat) (rc : Int) :
    set_callbacks (ptlrpc_req_interpret c m a rc) set = set_callbacks m set := by
  unfold ptlrpc_req_interpret
  split <;> rfl

@[simp] theorem cbs_next_xid (m : Mem) (set : Nat) :
    set_callbacks (ptlrpc_next_xid m).1 set = set_callbacks m set := rfl

theorem cbs_at_set_req_timeout (c : Collab) (m : Mem) (a set : Nat) (m' : Mem)
    (h : ptlrpc_at_set_req_timeout c m a = some m') :
    set_callbacks m' set = set_callbacks m set := by
  unfold ptlrpc_at_set_req_timeout at h
  split at h
  · cases h
  · cases h; rfl

theorem cbs_at_adj_service (c : Collab) (m : Mem) (a set : Nat) (v : Int) (m' : Mem)
    (h : ptlrpc_at_adj_service c m a v = some m') :
    set_callbacks m' set = set_callbacks m set := by
  unfold ptlrpc_at_adj_service at h
  split at h
  · cases h
  · cases h; rfl

theorem cbs_at_adj_net_latency (c : Collab) (m : Mem) (a set : Nat) (v : Int) (m' : Mem)
    (h : ptlrpc_at_adj_net_latency c m a v = some m') :
    set_callbacks m' set = set_callbacks m set := by
  unfold ptlrpc_at_adj_net_latency at h
  split at h
  · cases h
  · cases h; rfl

theorem cbs_save_versions (m : Mem) (a set : Nat) (m' : Mem)
    (h : ptlrpc_save_versions m a = some m') :
    set_callbacks m' set = set_callbacks m set := by
  unfold ptlrpc_save_versions at h
  repeat' split at h
  all_goals try contradiction
  all_goals (cases h; rfl)

theorem cbs_after_reply_retain (m : Mem) (a imp set : Nat) (m' : Mem)
    (h : after_reply_retain m a imp = some m') :
    set_callbacks m' set = set_callbacks m set := by
  unfold after_reply_retain at h
  repeat' split at h
  all_goals try contradiction
  · rename_i m0 hm0
    rw [cbs_retain m0 a imp set m' h, cbs_save_versions m a set m0 hm0]
  · cases h; rfl
  · cases h; rfl

theorem cbs_after_reply_replayable (m : Mem) (a imp set : Nat) (m' : Mem)
    (h : after_reply_replayable m a imp = some m') :
    set_callbacks m' set = set_callbacks m set := by
  unfold after_reply_replayable at h
  split at h
  · cases h
  · rename_i m1 hm1
    simp only [] at h
    rw [cbs_free_committed _ imp set m' h]
    rw [← cbs_after_reply_retain m a imp set m1 hm1]
    split <;> simp

theorem cbs_after_reply_unpacked (c : Collab) (m : Mem) (a imp set : Nat) (r : Mem × Int)
    (hc : keeps_set_callbacks c set)
    (h : after_reply_unpacked c m a imp = some r) :
    set_callbacks r.1 set = set_callbacks m set := by
  unfold after_reply_unpacked at h
  split at h
  · cases h
  rename_i m3 hm3
  split at h
  · cases h
  rename_i m4 hm4
  have h4 : set_callbacks m4 set = set_callbacks m set := by
    rw [cbs_at_adj_net_latency c m3 a set _ m4 hm4, cbs_at_adj_service c m a set _ m3 hm3]
  simp only [] at h
  split at h
  · split at h
    · cases h; simpa using h4
    · cases h
      rw [hc.2.2]
      simpa using h4
  · split at h
    · split at h
      · cases h
      · rename_i m7 hm7
        cases h
        rw [cbs_after_reply_replayable _ a imp set m7 hm7]
        simpa using h4
    · cases h
      simpa using h4

theorem cbs_after_reply (c : Collab) (m : Mem) (a set : Nat) (r : Mem × Int)
    (hc : keeps_set_callbacks c set)
    (h : after_reply c m a = some r) :
    set_callbacks r.1 set = set_callbacks m set := by
  unfold after_reply at h
  split at h
  · cases h
  simp only [] at h
  repeat' split at h
  all_goals try contradiction
  all_goals
    first
      | (cases h; rfl)
      | (rw [cbs_after_reply_unpacked c _ a _ set r hc h]; rfl)

@[simp] theorem cbs_unregister_reply (c : Collab) (m : Mem) (a set : Nat) (async : Bool) :
    set_callbacks (ptlrpc_unregister_reply c m a async).1 set = set_callbacks m set := by
  unfold ptlrpc_unregister_reply
  simp only []
  repeat' split
  all_goals rfl

theorem cbs_expire_one_request (c : Collab) (m : Mem) (a set : Nat) (async : Bool)
    (hc : keeps_set_callbacks c set) :
    set_callbacks (ptlrpc_expire_one_request c m a async).1 set = set_callbacks m set := by
  unfold ptlrpc_expire_one_request
  simp only []
  repeat' split
  all_goals simp [hc.2.1]

@[simp] theorem cbs_send_new_req_transmit (c : Collab) (m : Mem) (a set : Nat) :
    set_callbacks (send_new_req_transmit c m a).1 set = set_callbacks m set := by
  unfold send_new_req_transmit
  simp only []
  repeat' split
  all_goals rfl

theorem cbs_send_new_req (c : Collab) (m : Mem) (a set : Nat) (r : Mem × Int)
    (h : ptlrpc_send_new_req c m a = some r) :
    set_callbacks r.1 set = set_callbacks m set := by
  unfold ptlrpc_send_new_req at h
  simp only [] at h
  repeat' split at h
  all_goals try contradiction
  all_goals (cases h; simp)

theorem cbs_at_recv_early_reply (c : Collab) (m : Mem) (a set : Nat) (r : Mem × Int)
    (h : ptlrpc_at_recv_early_reply c m a = some r) :
    set_callbacks r.1 set = set_callbacks m set := by
  unfold ptlrpc_at_recv_early_reply at h
  simp only [] at h
  repeat' split at h
  all_goals try contradiction
  · cases h; rfl
  · cases h; rfl
  · rename_i m2 hm2 _ m3 hm3 _ m4 hm4 _ nl hnl
    cases h
    simp only [cbs_modReq]
    rw [cbs_at_set_req_timeout c m3 a set m4 hm4, cbs_at_adj_net_latency c m2 a set _ m3 hm3,
      cbs_at_adj_service c _ a set _ m2 hm2]
    rfl

@[simp] theorem check_flow_mem_next (m : Mem) (force : Bool) :
    (check_flow.next m force).mem = m := rfl

@[simp] theorem check_flow_mem_interpret (m : Mem) (force unregistered : Bool) :
    (check_flow.interpret m force unregistered).mem = m := rfl

@[simp] theorem check_flow_mem_bulk (m : Mem) (force : Bool) :
    (check_flow.bulk m force).mem = m := rfl

theorem cbs_check_set_interpret (c : Collab) (set0 : Nat) (imp : Option Nat) (m : Mem)
    (a : Nat) (unregistered : Bool) (set : Nat) (m' : Mem)
    (h : check_set_interpret c set0 imp m a unregistered = some m') :
    set_callbacks m' set = set_callbacks m set := by
  unfold check_set_interpret at h
  simp only [] at h
  repeat' split at h
  all_goals try contradiction
  all_goals (cases h; simp)

@[simp] theorem cbs_fail_to_interpret (m : Mem) (a set : Nat) (force : Bool)
    (f : ptlrpc_request → ptlrpc_request) :
    set_callbacks (fail_to_interpret m a force f).mem set = set_callbacks m set := rfl

@[simp] theorem cbs_check_set_resend_bulk (c : Collab) (m : Mem) (a set : Nat) :
    set_callbacks (check_set_resend_bulk c m a).1 set = set_callbacks m set := by
  unfold check_set_resend_bulk
  simp only []
  repeat' split
  all_goals rfl

@[simp] theorem cbs_check_set_resend_send (c : Collab) (m : Mem) (a set : Nat) (force : Bool) :
    set_callbacks (check_set_resend_send c m a force).mem set = set_callbacks m set := by
  unfold check_set_resend_send
  simp only []
  repeat' split
  all_goals rfl

theorem cbs_check_set_resend (c : Collab) (imp : Option Nat) (m : Mem) (a : Nat)
    (force : Bool) (set : Nat) (fl : check_flow)
    (h : check_set_resend c imp m a force = some fl) :
    set_callbacks fl.mem set = set_callbacks m set := by
  unfold check_set_resend at h
  simp only [] at h
  repeat' split at h
  all_goals try contradiction
  all_goals (cases h; simp)

theorem cbs_check_set_reply (c : Collab) (m : Mem) (a : Nat) (force : Bool) (set : Nat)
    (fl : check_flow) (hc : keeps_set_callbacks c set)
    (h : check_set_reply c m a force = some fl) :
    set_callbacks fl.mem set = set_callbacks m set := by
  unfold check_set_reply at h
  simp only [] at h
  repeat' split at h
  all_goals try contradiction
  all_goals cases h
  all_goals simp only [check_flow_mem_next, check_flow_mem_interpret, check_flow_mem_bulk,
    cbs_modReq, cbs_unregister_reply]
  · rename_i r hr
    exact cbs_at_recv_early_reply c m a set r hr
  all_goals
    have := cbs_after_reply c _ a set _ hc (by assumption)
    simpa using this

theorem cbs_check_set_rpc (c : Collab) (imp : Option Nat) (m : Mem) (a : Nat) (force : Bool)
    (set : Nat) (fl : check_flow) (hc : keeps_set_callbacks c set)
    (h : check_set_rpc c imp m a force = some fl) :
    set_callbacks fl.mem set = set_callbacks m set := by
  unfold check_set_rpc at h
  split at h
  · split at h
    · cases h
    · rename_i m1 force1 hm1
      rw [cbs_check_set_reply c m1 a force1 set fl hc h]
      exact cbs_check_set_resend c imp m a force set _ hm1
    · rename_i fl0 _ hfl
      cases h
      exact cbs_check_set_resend c imp m a force set _ hfl
  · exact cbs_check_set_reply c m a force set fl hc h

theorem cbs_check_set_errors (c : Collab) (m : Mem) (a : Nat) (force : Bool) (set : Nat)
    (fl : check_flow) (hc : keeps_set_callbacks c set)
    (h : check_set_errors c m a force = some fl) :
    set_callbacks fl.mem set = set_callbacks m set := by
  unfold check_set_errors at h
  simp only [] at h
  repeat' split at h
  all_goals cases h
  all_goals simp [cbs_expire_one_request c m a set true hc]

theorem cbs_check_set_bulk (c : Collab) (m : Mem) (a : Nat) (force unregistered : Bool)
    (set : Nat) (fl : check_flow)
    (h : check_set_bulk c m a force unregistered = some fl) :
    set_callbacks fl.mem set = set_callbacks m set := by
  unfold check_set_bulk at h
  repeat' split at h
  all_goals try contradiction
  all_goals (cases h; rfl)

theorem cbs_check_set_phases (c : Collab) (m : Mem) (a : Nat) (force : Bool)
    (set : Nat) (fl : check_flow)
    (h : check_set_phases c m a force = some fl) :
    set_callbacks fl.mem set = set_callbacks m set := by
  unfold check_set_phases at h
  repeat' split at h
  all_goals try contradiction
  all_goals (cases h; rfl)

theorem cbs_check_set_body (c : Collab) (m : Mem) (a set : Nat) (fl : check_flow)
    (hc : keeps_set_callbacks c set)
    (h : check_set_body c m a = some fl) :
    set_callbacks fl.mem set = set_callbacks m set := by
  unfold check_set_body at h
  simp only [] at h
  split at h
  · cases h
  rename_i m0 force0 hfirst
  have h0 : set_callbacks m0 set = set_callbacks m set := by
    split at hfirst
    · split at hfirst
      · cases hfirst
      · rename_i r hr
        cases hfirst
        exact cbs_send_new_req c m a set r hr
    · cases hfirst
      rfl
  split at h
  · rename_i m1 force1 hph
    have h1 := cbs_check_set_phases c m0 a force0 set _ hph
    simp only [check_flow_mem_bulk] at h1
    split at h
    · rename_i m2 force2 herr
      have h2 := cbs_check_set_errors c m1 a force1 set _ hc herr
      simp only [check_flow_mem_bulk] at h2
      split at h
      · split at h
        · rename_i m3 force3 hrpc
          have h3 := cbs_check_set_rpc c _ m2 a force2 set _ hc hrpc
          simp only [check_flow_mem_bulk] at h3
          rw [cbs_check_set_bulk c m3 a force3 true set fl h, h3, h2, h1, h0]
        · rename_i fl0 _
          rw [cbs_check_set_rpc c _ m2 a force2 set fl hc h, h2, h1, h0]
      · rw [cbs_check_set_bulk c m2 a force2 false set fl h, h2, h1, h0]
    · rw [cbs_check_set_errors c m1 a force1 set fl hc h, h1, h0]
  · rw [cbs_check_set_phases c m0 a force0 set fl h, h0]

theorem cbs_check_set_one (c : Collab) (set0 : Nat) (m : Mem) (a set : Nat) (r : Mem × Bool)
    (hc : keeps_set_callbacks c set)
    (h : check_set_one c set0 m a = some r) :
    set_callbacks r.1 set = set_callbacks m set := by
  unfold check_set_one at h
  split at h
  · cases h
  · rename_i m1 force hb
    cases h
    exact cbs_check_set_body c m a set _ hc hb
  · rename_i m1 force hb
    cases h
    exact cbs_check_set_body c m a set _ hc hb
  · rename_i m1 force unregistered hb
    split at h
    · cases h
    · rename_i m2 hm2
      cases h
      show set_callbacks m2 set = _
      rw [cbs_check_set_interpret c set0 _ m1 a unregistered set m2 hm2]
      exact cbs_check_set_body c m a set _ hc hb

theorem cbs_check_set_loop (c : Collab) (set0 set : Nat) (hc : keeps_set_callbacks c set)
    (l : List Nat) :
    ∀ (m : Mem) (force : Bool) (r : Mem × Bool),
      check_set_loop c set0 m force l = some r →
      set_callbacks r.1 set = set_callbacks m set := by
  induction l with
  | nil => intro m force r h; cases h; rfl
  | cons a rest ih =>
    intro m force r h
    unfold check_set_loop at h
    split at h
    · cases h
    · rename_i m1 force1 h1
      rw [ih m1 _ r h]
      exact cbs_check_set_one c set0 m a set (m1, force1) hc h1

theorem cbs_check_set (c : Collab) (m : Mem) (set0 set : Nat) (r : Mem × Int)
    (hc : keeps_set_callbacks c set)
    (h : ptlrpc_check_set c m set0 = some r) :
    set_callbacks r.1 set = set_callbacks m set := by
  unfold ptlrpc_check_set at h
  split at h
  · cases h; rfl
  · split at h
    · cases h
    · rename_i m1 force h1
      cases h
      exact cbs_check_set_loop c set0 set hc _ m false (m1, force) h1

theorem cbs_expired_set_loop (c : Collab) (now : Int) (set : Nat)
    (hc : keeps_set_callbacks c set) (l : List Nat) :
    ∀ (m : Mem), set_callbacks (expired_set_loop c now m l) set = set_callbacks m set := by
  induction l with
  | nil => intro m; rfl
  | cons a rest ih =>
    intro m
    unfold expired_set_loop
    repeat' split
    all_goals rw [ih]
    exact cbs_expire_one_request c m a set true hc

theorem cbs_interrupted_set_loop (set : Nat) (l : List Nat) :
    ∀ (m : Mem), set_callbacks (interrupted_set_loop m l) set = set_callbacks m set := by
  induction l with
  | nil => intro m; rfl
  | cons a rest ih =>
    intro m
    unfold interrupted_set_loop
    split
    · exact ih m
    · rw [ih]; rfl

theorem cbs_l_wait_event_loop (c : Collab) (set0 set : Nat) (allow_intr : Bool)
    (hc : keeps_set_callbacks c set) (wakes : List wake) :
    ∀ (m : Mem) (r : Mem × Int × List wake),
      l_wait_event_loop c set0 allow_intr m wakes = some r →
      set_callbacks r.1 set = set_callbacks m set := by
  induction wakes with
  | nil => intro m r h; cases h
  | cons w rest ih =>
    intro m r h
    unfold l_wait_event_loop at h
    split at h
    · cases h
    rename_i m1 cond h1
    have e1 := cbs_check_set c m set0 set (m1, cond) hc h1
    simp only [] at e1
    split at h
    · cases h; exact e1
    simp only [] at h
    split at h
    · cases h
      show set_callbacks (ptlrpc_expired_set c _ set0).1 set = _
      unfold ptlrpc_expired_set
      simp only []
      rw [cbs_expired_set_loop c _ set hc, hc.1, e1]
    split at h
    · cases h
    rename_i m3 cond3 h3
    have e3 := cbs_check_set c _ set0 set (m3, cond3) hc h3
    simp only [] at e3
    rw [hc.1, e1] at e3
    split at h
    · cases h; exact e3
    split at h
    · split at h
      · cases h
        show set_callbacks (ptlrpc_interrupted_set m3 set0) set = _
        unfold ptlrpc_interrupted_set
        rw [cbs_interrupted_set_loop, e3]
      · rw [ih _ r h]
        exact e3
    · rw [ih _ r h]
      exact e3

theorem cbs_l_wait_event (c : Collab) (set0 set : Nat) (allow_intr : Bool)
    (hc : keeps_set_callbacks c set) (m : Mem) (wakes : List wake)
    (r : Mem × Int × List wake) (h : l_wait_event c set0 allow_intr m wakes = some r) :
    set_callbacks r.1 set = set_callbacks m set := by
  unfold l_wait_event at h
  split at h
  · cases h
  rename_i m1 cond h1
  have e1 := cbs_check_set c m set0 set (m1, cond) hc h1
  simp only [] at e1
  split at h
  · cases h; exact e1
  · rw [cbs_l_wait_event_loop c set0 set allow_intr hc wakes m1 r h]
    exact e1

theorem cbs_mark_invalid_rqset (set : Nat) (l : List Nat) :
    ∀ (m : Mem), set_callbacks (mark_invalid_rqset m l) set = set_callbacks m set := by
  induction l with
  | nil => intro m; rfl
  | cons a rest ih =>
    intro m
    unfold mark_invalid_rqset
    rw [ih]; rfl

theorem cbs_set_wait_loop (c : Collab) (set0 set : Nat) (hc : keeps_set_callbacks c set)
    (fuel : Nat) :
    ∀ (m : Mem) (wakes : List wake) (m' : Mem),
      set_wait_loop c set0 fuel m wakes = some m' →
      set_callbacks m' set = set_callbacks m set := by
  induction fuel with
  | zero => intro m wakes m' h; cases h
  | succ fuel ih =>
    intro m wakes m' h
    unfold set_wait_loop at h
    simp only [] at h
    split at h
    · cases h
    rename_i m1 rc rest h1
    have e1 := cbs_l_wait_event c set0 set _ hc m wakes (m1, rc, rest) h1
    simp only [] at e1
    split at h
    · cases h
    generalize hm2 : (if rc = 0 ∧ (m1.sets set0).set_remaining = 0 then
        mark_invalid_rqset m1 (m1.sets set0).set_requests else m1) = m2 at h
    have e2 : set_callbacks m2 set = set_callbacks m set := by
      rw [← hm2]
      split
      · rw [cbs_mark_invalid_rqset, e1]
      · exact e1
    split at h
    · rw [ih _ _ m' h]; exact e2
    · cases h; exact e2

theorem cbs_set_wait_send_new (c : Collab) (set : Nat) (l : List Nat) :
    ∀ (m m' : Mem), set_wait_send_new c m l = some m' →
      set_callbacks m' set = set_callbacks m set := by
  induction l with
  | nil => intro m m' h; cases h; rfl
  | cons a rest ih =>
    intro m m' h
    unfold set_wait_send_new at h
    split at h
    · split at h
      · cases h
      · rename_i r hr
        rw [ih _ m' h]
        exact cbs_send_new_req c m a set r hr
    · exact ih m m' h

/-- C1: when `ptlrpc_set_wait` returns on a non-empty set, the remaining-count
of the set is 0 and every member is in phase `COMPLETE`; and when the set has
no interpreter and no callbacks registered (and the collaborators working on
the whole memory leave these registrations alone) the value returned is 0
whenever the status of every member is 0. -/
theorem set_wait_returns_complete (c : Collab) (fuel : Nat) (wakes : List wake) (m : Mem)
    (set : Nat) (m' : Mem) (rc : Int)
    (hne : (m.sets set).set_requests ≠ [])
    (h : ptlrpc_set_wait c fuel wakes m set = some (m', rc)) :
    (m'.sets set).set_remaining = 0 ∧
    (∀ a ∈ (m'.sets set).set_requests, (m'.reqs a).rq_phase = RQ_PHASE_COMPLETE) ∧
    (keeps_set_callbacks c set → (m.sets set).set_interpret = none →
      (m.sets set).set_cblist = [] →
      (∀ a ∈ (m'.sets set).set_requests, (m'.reqs a).rq_status = 0) → rc = 0) := by
  unfold ptlrpc_set_wait at h
  rw [if_neg hne] at h
  split at h
  · cases h
  rename_i m1 h1
  split at h
  · cases h
  rename_i m2 h2
  obtain ⟨f1, f2, f3⟩ := set_wait_finish_spec c m2 set m' rc h
  refine ⟨f1, f2, ?_⟩
  intro hc hint hcbs hall
  have e : set_callbacks m2 set = set_callbacks m set := by
    rw [cbs_set_wait_loop c set set hc fuel m1 wakes m2 h2]
    exact cbs_set_wait_send_new c set _ m m1 h1
  have e1 : (m2.sets set).set_interpret = (m.sets set).set_interpret :=
    congrArg Prod.fst e
  have e2 : (m2.sets set).set_cblist = (m.sets set).set_cblist :=
    congrArg Prod.snd e
  exact f3 (e1.trans hint) (e2.trans hcbs) hall

/-- Three requests in phase `NEW` on a connected import, members of set 0, which
has neither an interpreter nor callbacks. -/
def mem_three_new : Mem :=
  { now := 1000
    reqs := fun _ =>
      { rq_phase := RQ_PHASE_NEW, rq_import := some 0, rq_set := some 0,
        rq_set_chain := some (.set_requests 0), rq_timeout := 30 }
    imps := fun _ => { imp_state := LUSTRE_IMP_FULL }
    sets := fun _ => { set_requests := [1, 2, 3], set_remaining := 3 } }

/-- The replies of requests 1, 2 and 3 arrive one after the other. -/
def wakes_three_replies : List wake := [{ ev := 1 }, { ev := 2 }, { ev := 3 }]

theorem collab_plain_keeps_set_callbacks (set : Nat) : keeps_set_callbacks collab_plain set := by
  refine ⟨?_, fun _ _ _ => rfl, fun _ _ => rfl⟩
  intro ev m
  show set_callbacks (plain_async ev m) set = _
  unfold plain_async
  simp only []
  split <;> rfl

/-- C1 witness: three requests submitted to one set, with no transport failure,
all complete: `ptlrpc_set_wait` returns 0, the remaining-count is 0 and each
request is in phase `COMPLETE`. -/
theorem set_wait_returns_complete_witness :
    (ptlrpc_set_wait collab_plain 10 wakes_three_replies mem_three_new 0).map
      (fun x => (x.2, (x.1.sets 0).set_remaining,
        (x.1.sets 0).set_requests.map (fun a => (x.1.reqs a).rq_phase))) =
      some (0, 0, [RQ_PHASE_COMPLETE, RQ_PHASE_COMPLETE, RQ_PHASE_COMPLETE]) ∧
    (((ptlrpc_set_wait collab_plain 10 wakes_three_replies mem_three_new 0).getD
        ({}, 0)).1.sets 0).set_remaining = 0 ∧
    ((ptlrpc_set_wait collab_plain 10 wakes_three_replies mem_three_new 0).getD ({}, 0)).2 = 0 :=
  ⟨by decide,
   (set_wait_returns_complete collab_plain 10 wakes_three_replies mem_three_new 0 _ _
      (by decide) (eq_some_getD _ ({}, 0) (by decide))).1,
   (set_wait_returns_complete collab_plain 10 wakes_three_replies mem_three_new 0 _ _
      (by decide) (eq_some_getD _ ({}, 0) (by decide))).2.2
      (collab_plain_keeps_set_callbacks 0) rfl rfl (by decide)⟩

/-! ## C11: the xid of a resent request -/

/-- C11: `ptlrpc_resend_req` gives a request with a bulk descriptor an xid strictly
greater than the xid of the previous attempt, namely the global counter plus
one, provided the counter is at least the old xid and does not wrap; a request
without bulk keeps its xid. -/
theorem resend_req_xid (m : Mem) (a : Nat) :
    ((m.reqs a).rq_bulk ≠ none → (m.reqs a).rq_xid ≤ m.ptlrpc_last_xid →
      m.ptlrpc_last_xid + 1 < 18446744073709551616 →
      (m.reqs a).rq_xid < ((ptlrpc_resend_req m a).reqs a).rq_xid ∧
      ((ptlrpc_resend_req m a).reqs a).rq_xid = m.ptlrpc_last_xid + 1 ∧
      (ptlrpc_resend_req m a).ptlrpc_last_xid = m.ptlrpc_last_xid + 1) ∧
    ((m.reqs a).rq_bulk = none →
      ((ptlrpc_resend_req m a).reqs a).rq_xid = (m.reqs a).rq_xid ∧
      (ptlrpc_resend_req m a).ptlrpc_last_xid = m.ptlrpc_last_xid) := by
  constructor
  · intro hb hle hw
    have hb1 : ((m.modReq a flag_resend).reqs a).rq_bulk ≠ none := by
      simpa [flag_resend] using hb
    have hx : wrap64 (m.ptlrpc_last_xid + 1) = m.ptlrpc_last_xid + 1 := by
      unfold wrap64
      exact Nat.mod_eq_of_lt hw
    have hr : ptlrpc_resend_req m a = ptlrpc_client_wake_req
        ((ptlrpc_next_xid (m.modReq a flag_resend)).1.modReq a
          (set_rq_xid (ptlrpc_next_xid (m.modReq a flag_resend)).2)) a := by
      unfold ptlrpc_resend_req
      simp only []
      rw [if_pos hb1]
    have h1 : ((ptlrpc_resend_req m a).reqs a).rq_xid = m.ptlrpc_last_xid + 1 := by
      rw [hr]
      show (((ptlrpc_next_xid (m.modReq a flag_resend)).1.modReq a _).reqs a).rq_xid = _
      rw [modReq_reqs, if_pos rfl]
      exact hx
    have h2 : (ptlrpc_resend_req m a).ptlrpc_last_xid = m.ptlrpc_last_xid + 1 := by
      rw [hr]
      exact hx
    refine ⟨?_, h1, h2⟩
    rw [h1]
    omega
  · intro hb
    have hb1 : ¬ ((m.modReq a flag_resend).reqs a).rq_bulk ≠ none := by
      simpa [flag_resend] using hb
    have hr : ptlrpc_resend_req m a = ptlrpc_client_wake_req (m.modReq a flag_resend) a := by
      unfold ptlrpc_resend_req
      simp only []
      rw [if_neg hb1]
    rw [hr]
    refine ⟨?_, rfl⟩
    show ((m.modReq a flag_resend).reqs a).rq_xid = _
    rw [modReq_reqs, if_pos rfl]
    rfl

/-- A request with bulk, sent with xid 41 when the global counter is 50, and a
request without bulk with xid 42. -/
def mem_resend : Mem :=
  { ptlrpc_last_xid := 50
    reqs := fun a =>
      if a = 1 then { rq_phase := RQ_PHASE_RPC, rq_xid := 41, rq_bulk := some {}, rq_timedout := true }
      else if a = 2 then { rq_phase := RQ_PHASE_RPC, rq_xid := 42, rq_timedout := true }
      else {} }

/-- C11 witness: the bulk request moves from xid 41 to 51, the other keeps 42. -/
theorem resend_req_xid_witness :
    ((mem_resend.reqs 1).rq_xid < ((ptlrpc_resend_req mem_resend 1).reqs 1).rq_xid ∧
      ((ptlrpc_resend_req mem_resend 1).reqs 1).rq_xid = 51) ∧
    ((ptlrpc_resend_req mem_resend 2).reqs 2).rq_xid = 42 :=
  ⟨⟨((resend_req_xid mem_resend 1).1 (by decide) (by decide) (by decide)).1,
    ((resend_req_xid mem_resend 1).1 (by decide) (by decide) (by decide)).2.1⟩,
   ((resend_req_xid mem_resend 2).2 (by decide)).1⟩

/-! ## C12: `ptlrpc_next_xid` -/

/-- The xids that `n` successive calls of `ptlrpc_next_xid` return, first call
first, together with the memory after the last call. -/
def next_xid_calls : Nat → Mem → Mem × List Nat
  | 0, m => (m, [])
  | n + 1, m =>
    ((next_xid_calls n (ptlrpc_next_xid m).1).1,
     (ptlrpc_next_xid m).2 :: (next_xid_calls n (ptlrpc_next_xid m).1).2)

theorem next_xid_calls_spec (n : Nat) :
    ∀ m : Mem, m.ptlrpc_last_xid + n < 18446744073709551616 →
      (next_xid_calls n m).2 = (List.range n).map (fun i => m.ptlrpc_last_xid + 1 + i) ∧
      (next_xid_calls n m).1.ptlrpc_last_xid = m.ptlrpc_last_xid + n := by
  induction n with
  | zero => intro m _; exact ⟨rfl, rfl⟩
  | succ n ih =>
    intro m h
    have hx : wrap64 (m.ptlrpc_last_xid + 1) = m.ptlrpc_last_xid + 1 := by
      unfold wrap64
      exact Nat.mod_eq_of_lt (by omega)
    have hl : (ptlrpc_next_xid m).1.ptlrpc_last_xid = m.ptlrpc_last_xid + 1 := hx
    have hr : (ptlrpc_next_xid m).2 = m.ptlrpc_last_xid + 1 := hx
    obtain ⟨i1, i2⟩ := ih (ptlrpc_next_xid m).1 (by rw [hl]; omega)
    constructor
    · show (ptlrpc_next_xid m).2 :: (next_xid_calls n (ptlrpc_next_xid m).1).2 = _
      rw [i1, hr, hl, List.range_succ_eq_map, List.map_cons, List.map_map]
      congr 1
      apply List.map_congr_left
      intro i _
      simp only [Function.comp]
      omega
    · show (next_xid_calls n (ptlrpc_next_xid m).1).1.ptlrpc_last_xid = _
      rw [i2, hl]
      omega

/-- C12: as long as the 64-bit counter does not wrap, each call of
`ptlrpc_next_xid` returns the previous counter value plus one and stores it; of
any two calls in a run of successive calls the later returns a strictly greater
xid, and no two calls return the same xid. -/
theorem next_xid_strictly_monotonic (m : Mem) (n : Nat)
    (h : m.ptlrpc_last_xid + n < 18446744073709551616) :
    (0 < n → (ptlrpc_next_xid m).2 = m.ptlrpc_last_xid + 1 ∧
      (ptlrpc_next_xid m).1.ptlrpc_last_xid = m.ptlrpc_last_xid + 1) ∧
    (next_xid_calls n m).2 = (List.range n).map (fun i => m.ptlrpc_last_xid + 1 + i) ∧
    (next_xid_calls n m).1.ptlrpc_last_xid = m.ptlrpc_last_xid + n ∧
    (next_xid_calls n m).2.Pairwise (fun x y => x < y) ∧
    (next_xid_calls n m).2.Nodup := by
  obtain ⟨i1, i2⟩ := next_xid_calls_spec n m h
  have hp : (next_xid_calls n m).2.Pairwise (fun x y => x < y) := by
    rw [i1, List.pairwise_map]
    exact (List.pairwise_lt_range n).imp (fun hab => by omega)
  refine ⟨?_, i1, i2, hp, hp.imp (fun hab => Nat.ne_of_lt hab)⟩
  intro hn
  have hx : wrap64 (m.ptlrpc_last_xid + 1) = m.ptlrpc_last_xid + 1 := by
    unfold wrap64
    exact Nat.mod_eq_of_lt (by omega)
  exact ⟨hx, hx⟩

/-- C12 witness: three calls from counter 50 return 51, 52, 53 and leave 53. -/
theorem next_xid_strictly_monotonic_witness :
    (next_xid_calls 3 mem_resend).2 = [51, 52, 53] ∧
    (next_xid_calls 3 mem_resend).1.ptlrpc_last_xid = 53 ∧
    (next_xid_calls 3 mem_resend).2.Pairwise (fun x y => x < y) :=
  ⟨(next_xid_strictly_monotonic mem_resend 3 (by decide)).2.1,
   (next_xid_strictly_monotonic mem_resend 3 (by decide)).2.2.1,
   (next_xid_strictly_monotonic mem_resend 3 (by decide)).2.2.2.1⟩

/-! ## C13, C14: the network-latency sample -/

/-- C13 as stated fails: with no service time reported, a reply after 5 seconds
gives the sample 6 and a reply in the same second gives the sample 1, and no
fixed floor `ε` makes both equal to `max (T - S) ε`. -/
theorem net_latency_sample_floor_counterexample :
    net_latency_sample 10 5 0 = 6 ∧ net_latency_sample 10 10 0 = 1 ∧
    ¬ ∃ ε : Int, net_latency_sample 10 5 0 = max (10 - 5 - 0) ε ∧
        net_latency_sample 10 10 0 = max (10 - 10 - 0) ε := by
  refine ⟨by decide, by decide, ?_⟩
  rintro ⟨ε, h1, h2⟩
  have e1 : net_latency_sample 10 5 0 = 6 := by decide
  have e2 : net_latency_sample 10 10 0 = 1 := by decide
  rw [e1] at h1
  rw [e2] at h2
  omega

/-- C13 (amended): for a reply that reports the service time `S` for a request
sent `T = now - rq_sent` seconds earlier, with `T - S` in the range of a C
`int`, `ptlrpc_at_adj_net_latency` feeds the network-latency estimator of
the import the sample `max (T - S) 0 + 1` (which is `max (T - S + 1) 1`),
and changes nothing else than that estimator. -/
theorem at_adj_net_latency_sample (c : Collab) (m : Mem) (a imp : Nat) (service_time : Int)
    (himp : (m.reqs a).rq_import = some imp)
    (h1 : -2147483648 ≤ m.now - (m.reqs a).rq_sent - service_time)
    (h2 : m.now - (m.reqs a).rq_sent - service_time < 2147483648) :
    net_latency_sample m.now (m.reqs a).rq_sent service_time =
      max (m.now - (m.reqs a).rq_sent - service_time) 0 + 1 ∧
    net_latency_sample m.now (m.reqs a).rq_sent service_time =
      max (m.now - (m.reqs a).rq_sent - service_time + 1) 1 ∧
    ∃ m', ptlrpc_at_adj_net_latency c m a service_time = some m' ∧
      (m'.imps imp).iat_net_latency =
        (c.at_measured m.now (m.imps imp).iat_net_latency
          (max (m.now - (m.reqs a).rq_sent - service_time) 0 + 1)).1 ∧
      (m'.imps imp).iat_service_estimate = (m.imps imp).iat_service_estimate ∧
      (∀ j, j ≠ imp → m'.imps j = m.imps j) ∧ m'.reqs = m.reqs := by
  have hs : net_latency_sample m.now (m.reqs a).rq_sent service_time =
      max (m.now - (m.reqs a).rq_sent - service_time) 0 + 1 := by
    unfold net_latency_sample
    rw [wrap32_id _ h1 h2]
  refine ⟨hs, ?_, ?_⟩
  · rw [hs]
    omega
  · unfold ptlrpc_at_adj_net_latency
    rw [himp]
    simp only []
    refine ⟨_, rfl, ?_, ?_, ?_, rfl⟩
    · rw [modImp_imps, if_pos rfl, hs]
    · rw [modImp_imps, if_pos rfl]
    · intro j hj
      rw [modImp_imps, if_neg hj]

/-- A request sent at time 5 on import 0, with the clock at 10. -/
def mem_latency : Mem :=
  { now := 10
    reqs := fun a =>
      if a = 1 then { rq_phase := RQ_PHASE_RPC, rq_sent := 5, rq_import := some 0 } else {} }

/-- C13 witness: a reply after 5 seconds that reports 2 seconds of service
gives the sample 4. -/
theorem at_adj_net_latency_sample_witness :
    net_latency_sample mem_latency.now (mem_latency.reqs 1).rq_sent 2 =
      max (mem_latency.now - (mem_latency.reqs 1).rq_sent - 2) 0 + 1 ∧
    max (mem_latency.now - (mem_latency.reqs 1).rq_sent - 2) 0 + 1 = 4 :=
  ⟨(at_adj_net_latency_sample collab_plain mem_latency 1 0 2 (by decide) (by decide)
      (by decide)).1, by decide⟩

/-- C14: the network-latency sample that `ptlrpc_at_adj_net_latency` computes
and feeds to the estimator is at least 1 for every clock value, send time and
reported service time; when the reported service time is not below the elapsed
time (and the difference is in the range of a C `int`) the sample is exactly
1. -/
theorem net_latency_sample_positive (c : Collab) (m : Mem) (a : Nat) (service_time : Int) :
    1 ≤ net_latency_sample m.now (m.reqs a).rq_sent service_time ∧
    (m.now - (m.reqs a).rq_sent ≤ service_time →
      -2147483648 ≤ m.now - (m.reqs a).rq_sent - service_time →
      net_latency_sample m.now (m.reqs a).rq_sent service_time = 1) ∧
    (∀ imp, (m.reqs a).rq_import = some imp →
      ∃ nl, 1 ≤ nl ∧
        ptlrpc_at_adj_net_latency c m a service_time =
          some (m.modImp imp (fun x =>
            { x with iat_net_latency := (c.at_measured m.now (m.imps imp).iat_net_latency nl).1 }))) := by
  have hp : 1 ≤ net_latency_sample m.now (m.reqs a).rq_sent service_time := by
    unfold net_latency_sample
    omega
  refine ⟨hp, ?_, ?_⟩
  · intro hle hlo
    unfold net_latency_sample
    rw [wrap32_id _ hlo (by omega)]
    omega
  · intro imp himp
    refine ⟨net_latency_sample m.now (m.reqs a).rq_sent service_time, hp, ?_⟩
    unfold ptlrpc_at_adj_net_latency
    rw [himp]

/-- C14 witness: a reported service time of 60 seconds for a request sent 5
seconds ago gives the sample 1. -/
theorem net_latency_sample_positive_witness :
    net_latency_sample mem_latency.now (mem_latency.reqs 1).rq_sent 60 = 1 :=
  (net_latency_sample_positive collab_plain mem_latency 1 60).2.1 (by decide) (by decide)

/-! ## C15, C16: early replies -/

/-- The timeout that `ptlrpc_at_set_req_timeout` computes for a request on the
given import. -/
def req_timeout_for (c : Collab) (x : obd_import) (r : ptlrpc_request) : Int :=
  if c.AT_OFF then (if x.imp_server_timeout then c.obd_timeout / 2 else c.obd_timeout)
  else c.at_est2timeout (c.at_get (x.iat_service_estimate r.rq_request_portal))

/-- The header of the early reply of a request as `ptlrpc_at_recv_early_reply`
unwraps and unpacks it. -/
def early_reply_msg (c : Collab) (r : ptlrpc_request) : lustre_msg :=
  (unpack_reply c (c.sptlrpc_cli_unwrap_early_reply { r with rq_early := false }).1).1.rq_repmsg

theorem at_adj_service_spec (c : Collab) (m : Mem) (a imp : Nat) (v : Int)
    (himp : (m.reqs a).rq_import = some imp) :
    ∃ m', ptlrpc_at_adj_service c m a v = some m' ∧ m'.reqs = m.reqs ∧ m'.now = m.now ∧
      (m'.imps imp).iat_net_latency = (m.imps imp).iat_net_latency ∧
      (m'.imps imp).imp_server_timeout = (m.imps imp).imp_server_timeout ∧
      (m'.imps imp).iat_service_estimate (m.reqs a).rq_request_portal =
        (c.at_measured m.now ((m.imps imp).iat_service_estimate (m.reqs a).rq_request_portal) v).1 ∧
      (∀ j, j ≠ imp → m'.imps j = m.imps j) := by
  unfold ptlrpc_at_adj_service
  rw [himp]
  simp only []
  refine ⟨_, rfl, rfl, rfl, ?_, ?_, ?_, ?_⟩
  · rw [modImp_imps, if_pos rfl]
  · rw [modImp_imps, if_pos rfl]
  · rw [modImp_imps, if_pos rfl]
    simp
  · intro j hj
    rw [modImp_imps, if_neg hj]

theorem at_adj_net_latency_spec (c : Collab) (m : Mem) (a imp : Nat) (v : Int)
    (himp : (m.reqs a).rq_import = some imp) :
    ∃ m', ptlrpc_at_adj_net_latency c m a v = some m' ∧ m'.reqs = m.reqs ∧ m'.now = m.now ∧
      (m'.imps imp).iat_net_latency =
        (c.at_measured m.now (m.imps imp).iat_net_latency
          (net_latency_sample m.now (m.reqs a).rq_sent v)).1 ∧
      (m'.imps imp).imp_server_timeout = (m.imps imp).imp_server_timeout ∧
      (m'.imps imp).iat_service_estimate = (m.imps imp).iat_service_estimate ∧
      (∀ j, j ≠ imp → m'.imps j = m.imps j) := by
  unfold ptlrpc_at_adj_net_latency
  rw [himp]
  simp only []
  refine ⟨_, rfl, rfl, rfl, ?_, ?_, ?_, ?_⟩
  · rw [modImp_imps, if_pos rfl]
  · rw [modImp_imps, if_pos rfl]
  · rw [modImp_imps, if_pos rfl]
  · intro j hj
    rw [modImp_imps, if_neg hj]

theorem at_set_req_timeout_spec (c : Collab) (m : Mem) (a imp : Nat)
    (himp : (m.reqs a).rq_import = some imp) :
    ∃ m', ptlrpc_at_set_req_timeout c m a = some m' ∧ m'.imps = m.imps ∧ m'.now = m.now ∧
      (∀ b, b ≠ a → m'.reqs b = m.reqs b) ∧
      (m'.reqs a).rq_timeout = req_timeout_for c (m.imps imp) (m.reqs a) ∧
      (m'.reqs a).rq_phase = (m.reqs a).rq_phase ∧
      (m'.reqs a).rq_import = (m.reqs a).rq_import := by
  unfold ptlrpc_at_set_req_timeout
  rw [himp]
  simp only []
  refine ⟨_, rfl, rfl, rfl, ?_, ?_, ?_, ?_⟩
  · intro b hb
    rw [modReq_reqs, if_neg hb]
  · rw [modReq_reqs, if_pos rfl]
    rfl
  · rw [modReq_reqs, if_pos rfl]
  · rw [modReq_reqs, if_pos rfl]
    exact himp

/-- What a successful `ptlrpc_at_recv_early_reply` does: both estimators of
the import are fed, the timeout of the request is recomputed from the new service
estimate and its deadline is set from the clock, that timeout and the new
latency estimate. -/
theorem early_reply_spec (c : Collab) (m : Mem) (a imp : Nat)
    (himp : (m.reqs a).rq_import = some imp) :
    ∃ m' rc, ptlrpc_at_recv_early_reply c m a = some (m', rc) ∧
      (m'.reqs a).rq_phase = (m.reqs a).rq_phase ∧
      (rc ≠ 0 → m'.imps = m.imps ∧ (m'.reqs a).rq_deadline = (m.reqs a).rq_deadline) ∧
      (rc = 0 ↔ (c.sptlrpc_cli_unwrap_early_reply { m.reqs a with rq_early := false }).2 = 0 ∧
        (unpack_reply c
          (c.sptlrpc_cli_unwrap_early_reply { m.reqs a with rq_early := false }).1).2 = 0) ∧
      (rc = 0 →
        (m'.imps imp).iat_net_latency =
          (c.at_measured m.now (m.imps imp).iat_net_latency
            (net_latency_sample m.now (m.reqs a).rq_sent
              (early_reply_msg c (m.reqs a)).lm_service_time)).1 ∧
        (m'.imps imp).iat_service_estimate (m.reqs a).rq_request_portal =
          (c.at_measured m.now ((m.imps imp).iat_service_estimate (m.reqs a).rq_request_portal)
            (early_reply_msg c (m.reqs a)).lm_timeout).1 ∧
        (m'.reqs a).rq_timeout = req_timeout_for c (m'.imps imp) (m.reqs a) ∧
        (m'.reqs a).rq_deadline =
          m.now + (m'.reqs a).rq_timeout +
            (if c.AT_OFF then 0 else c.at_get (m'.imps imp).iat_net_latency)) := by
  have h1 : ((m.modReq a (fun r => { r with rq_early := false })).reqs a) =
      { m.reqs a with rq_early := false } := by
    rw [modReq_reqs, if_pos rfl]
  have himp1 : ((m.modReq a (fun r => { r with rq_early := false })).reqs a).rq_import =
      some imp := by
    rw [h1]; exact himp
  unfold ptlrpc_at_recv_early_reply
  simp only []
  rw [h1]
  by_cases huw : (c.sptlrpc_cli_unwrap_early_reply { m.reqs a with rq_early := false }).2 = 0
  · by_cases hup : (unpack_reply c
        (c.sptlrpc_cli_unwrap_early_reply { m.reqs a with rq_early := false }).1).2 = 0
    · rw [if_neg (not_not.mpr huw), if_neg (not_not.mpr hup)]
      obtain ⟨m2, e2, r2, n2, l2, t2, s2, o2⟩ := at_adj_service_spec c
        (m.modReq a (fun r => { r with rq_early := false })) a imp
        (unpack_reply c
          (c.sptlrpc_cli_unwrap_early_reply { m.reqs a with rq_early := false }).1).1.rq_repmsg.lm_timeout
        himp1
      rw [e2]
      simp only []
      obtain ⟨m3, e3, r3, n3, l3, t3, s3, o3⟩ := at_adj_net_latency_spec c m2 a imp
        (unpack_reply c
          (c.sptlrpc_cli_unwrap_early_reply { m.reqs a with rq_early := false }).1).1.rq_repmsg.lm_service_time
        (by rw [r2]; exact himp1)
      rw [e3]
      simp only []
      obtain ⟨m4, e4, i4, n4, o4, t4, p4, q4⟩ := at_set_req_timeout_spec c m3 a imp
        (by rw [r3, r2]; exact himp1)
      rw [e4]
      simp only []
      have hq : (m4.reqs a).rq_import = some imp := by
        rw [q4, r3, r2]; exact himp1
      have hnl : ptlrpc_at_get_net_latency c m4 a =
          some (if c.AT_OFF then 0 else c.at_get (m4.imps imp).iat_net_latency) := by
        unfold ptlrpc_at_get_net_latency
        rw [hq]
        split <;> rfl
      rw [hnl]
      simp only []
      refine ⟨_, 0, rfl, ?_, fun h => absurd rfl h, ⟨fun _ => ⟨huw, hup⟩, fun _ => rfl⟩, fun _ => ?_⟩
      · rw [modReq_reqs, if_pos rfl]
        show (m4.reqs a).rq_phase = _
        rw [p4, r3, r2, h1]
      · have hsent : (m2.reqs a).rq_sent = (m.reqs a).rq_sent := by rw [r2, h1]
        have hportal : (m3.reqs a).rq_request_portal = (m.reqs a).rq_request_portal := by
          rw [r3, r2, h1]
        have hportal1 : ((m.modReq a (fun r => { r with rq_early := false })).reqs a).rq_request_portal
            = (m.reqs a).rq_request_portal := by rw [h1]
        refine ⟨?_, ?_, ?_, ?_⟩
        · show (m4.imps imp).iat_net_latency = _
          rw [i4, l3, n2, l2, hsent]
          rfl
        · show (m4.imps imp).iat_service_estimate _ = _
          rw [i4, s3, ← hportal1, s2]
          rfl
        · rw [modReq_reqs, if_pos rfl]
          show (m4.reqs a).rq_timeout = req_timeout_for c (m4.imps imp) (m.reqs a)
          rw [t4, i4]
          unfold req_timeout_for
          rw [hportal]
        · rw [modReq_reqs, if_pos rfl]
          show m4.now + (m4.reqs a).rq_timeout + _ = m.now + (m4.reqs a).rq_timeout + _
          rw [n4, n3, n2]
          rfl
    · rw [if_neg (not_not.mpr huw), if_pos hup]
      refine ⟨_, _, rfl, ?_, fun _ => ⟨rfl, ?_⟩, ⟨fun h => absurd h hup, fun h => absurd h.2 hup⟩,
        fun h => absurd h hup⟩
      · rw [h1]
      · rw [h1]
  · rw [if_pos huw]
    refine ⟨_, _, rfl, ?_, fun _ => ⟨rfl, ?_⟩, ⟨fun h => absurd h huw, fun h => absurd h.1 huw⟩,
      fun h => absurd h huw⟩
    · rw [h1]
    · rw [h1]

/-- Request 1 in phase `RPC` on import 0, sent at time 5 with timeout 100 and
deadline 105, with an early reply pending that carries the service estimate 10;
the clock is at 10 and the estimators of the import are empty. -/
def mem_early : Mem :=
  { now := 10
    reqs := fun a =>
      if a = 1 then
        { rq_phase := RQ_PHASE_RPC, rq_sent := 5, rq_timeout := 100, rq_deadline := 105,
          rq_early := true, rq_import := some 0, rq_repmsg := { lm_timeout := 10 } }
      else {}
    imps := fun _ => { imp_state := LUSTRE_IMP_FULL } }

/-- C15 as stated fails: with the estimators of `collab_plain` (the estimate is
the largest sample), the early reply of `mem_early` unwraps and unpacks without
error and moves the network-latency estimate of the import from 0 to 6. -/
theorem early_reply_net_latency_counterexample :
    collab_plain.at_get (mem_early.imps 0).iat_net_latency = 0 ∧
    (ptlrpc_at_recv_early_reply collab_plain mem_early 1).map
        (fun r => (r.2, collab_plain.at_get (r.1.imps 0).iat_net_latency)) = some (0, 6) := by
  decide

/-- C15 (amended): `ptlrpc_at_recv_early_reply` on a request with an import
returns and leaves the phase of the request unchanged.  When the early reply
fails to unwrap or unpack, no estimate of any import changes.  When it unwraps
and unpacks, the service estimate of the request portal is fed the timeout of
the early reply and the network-latency estimator of the import is fed the
sample computed from the service time of the early reply (as for a real
reply), so the network-latency estimate is in general not the same after the
call. -/
theorem early_reply_updates_estimates (c : Collab) (m : Mem) (a imp : Nat)
    (himp : (m.reqs a).rq_import = some imp) :
    ∃ m' rc, ptlrpc_at_recv_early_reply c m a = some (m', rc) ∧
      (m'.reqs a).rq_phase = (m.reqs a).rq_phase ∧
      (rc ≠ 0 → m'.imps = m.imps) ∧
      (rc = 0 →
        (m'.imps imp).iat_service_estimate (m.reqs a).rq_request_portal =
          (c.at_measured m.now ((m.imps imp).iat_service_estimate (m.reqs a).rq_request_portal)
            (early_reply_msg c (m.reqs a)).lm_timeout).1 ∧
        (m'.imps imp).iat_net_latency =
          (c.at_measured m.now (m.imps imp).iat_net_latency
            (net_latency_sample m.now (m.reqs a).rq_sent
              (early_reply_msg c (m.reqs a)).lm_service_time)).1) := by
  obtain ⟨m', rc, e, p1, p2, _, p4⟩ := early_reply_spec c m a imp himp
  exact ⟨m', rc, e, p1, fun h => (p2 h).1, fun h => ⟨(p4 h).2.1, (p4 h).1⟩⟩

/-- C15 witness: the early reply of `mem_early` keeps request 1 in phase `RPC`
and feeds both estimators. -/
theorem early_reply_updates_estimates_witness :
    ∃ m' rc, ptlrpc_at_recv_early_reply collab_plain mem_early 1 = some (m', rc) ∧
      (m'.reqs 1).rq_phase = (mem_early.reqs 1).rq_phase ∧
      (rc ≠ 0 → m'.imps = mem_early.imps) ∧
      (rc = 0 →
        (m'.imps 0).iat_service_estimate (mem_early.reqs 1).rq_request_portal =
          (collab_plain.at_measured mem_early.now
            ((mem_early.imps 0).iat_service_estimate (mem_early.reqs 1).rq_request_portal)
            (early_reply_msg collab_plain (mem_early.reqs 1)).lm_timeout).1 ∧
        (m'.imps 0).iat_net_latency =
          (collab_plain.at_measured mem_early.now (mem_early.imps 0).iat_net_latency
            (net_latency_sample mem_early.now (mem_early.reqs 1).rq_sent
              (early_reply_msg collab_plain (mem_early.reqs 1)).lm_service_time)).1) :=
  early_reply_updates_estimates collab_plain mem_early 1 0 (by decide)

/-- C16 as stated fails: request 1 of `mem_early` has the deadline 105; its early
reply unwraps and unpacks without error, the recomputed timeout is 17 and the
latency estimate 6, and the new deadline is 10 + 17 + 6 = 33, earlier than
105. -/
theorem early_reply_deadline_shrinks_counterexample :
    (mem_early.reqs 1).rq_deadline = 105 ∧
    (ptlrpc_at_recv_early_reply collab_plain mem_early 1).map
        (fun r => (r.2, (r.1.reqs 1).rq_timeout,
          collab_plain.at_get (r.1.imps 0).iat_net_latency, (r.1.reqs 1).rq_deadline)) =
      some (0, 17, 6, 33) := by
  decide

/-- C16 (amended): `ptlrpc_at_recv_early_reply` on a request with an import
returns 0 exactly when the early reply unwraps and unpacks without error, and
then the timeout of the request is the one recomputed from the updated service
estimate and its deadline is the clock plus that timeout plus the updated
network-latency estimate (0 with adaptive timeouts off), whatever the deadline
was before: the new deadline is not earlier than the old one exactly when the
old one is at most that sum.  When the call fails the deadline is
unchanged. -/
theorem early_reply_deadline (c : Collab) (m : Mem) (a imp : Nat)
    (himp : (m.reqs a).rq_import = some imp) :
    ∃ m' rc, ptlrpc_at_recv_early_reply c m a = some (m', rc) ∧
      (rc = 0 ↔ (c.sptlrpc_cli_unwrap_early_reply { m.reqs a with rq_early := false }).2 = 0 ∧
        (unpack_reply c
          (c.sptlrpc_cli_unwrap_early_reply { m.reqs a with rq_early := false }).1).2 = 0) ∧
      (rc ≠ 0 → (m'.reqs a).rq_deadline = (m.reqs a).rq_deadline) ∧
      (rc = 0 →
        (m'.reqs a).rq_timeout = req_timeout_for c (m'.imps imp) (m.reqs a) ∧
        (m'.reqs a).rq_deadline =
          m.now + (m'.reqs a).rq_timeout +
            (if c.AT_OFF then 0 else c.at_get (m'.imps imp).iat_net_latency) ∧
        ((m.reqs a).rq_deadline ≤ (m'.reqs a).rq_deadline ↔
          (m.reqs a).rq_deadline ≤ m.now + req_timeout_for c (m'.imps imp) (m.reqs a) +
            (if c.AT_OFF then 0 else c.at_get (m'.imps imp).iat_net_latency))) := by
  obtain ⟨m', rc, e, _, p2, p3, p4⟩ := early_reply_spec c m a imp himp
  refine ⟨m', rc, e, p3, fun h => (p2 h).2, fun h => ?_⟩
  obtain ⟨_, _, q3, q4⟩ := p4 h
  refine ⟨q3, q4, ?_⟩
  rw [q4, q3]

/-- C16 witness: for request 1 of `mem_early` the call returns 0 and sets the
deadline to 33. -/
theorem early_reply_deadline_witness :
    (ptlrpc_at_recv_early_reply collab_plain mem_early 1).map
        (fun r => (r.2, (r.1.reqs 1).rq_deadline)) = some (0, 33) ∧
    ∃ m' rc, ptlrpc_at_recv_early_reply collab_plain mem_early 1 = some (m', rc) ∧
      (rc = 0 ↔
        (collab_plain.sptlrpc_cli_unwrap_early_reply
          { mem_early.reqs 1 with rq_early := false }).2 = 0 ∧
        (unpack_reply collab_plain
          (collab_plain.sptlrpc_cli_unwrap_early_reply
            { mem_early.reqs 1 with rq_early := false }).1).2 = 0) ∧
      (rc ≠ 0 → (m'.reqs 1).rq_deadline = (mem_early.reqs 1).rq_deadline) ∧
      (rc = 0 →
        (m'.reqs 1).rq_timeout = req_timeout_for collab_plain (m'.imps 0) (mem_early.reqs 1) ∧
        (m'.reqs 1).rq_deadline =
          mem_early.now + (m'.reqs 1).rq_timeout +
            (if collab_plain.AT_OFF then 0 else collab_plain.at_get (m'.imps 0).iat_net_latency) ∧
        ((mem_early.reqs 1).rq_deadline ≤ (m'.reqs 1).rq_deadline ↔
          (mem_early.reqs 1).rq_deadline ≤
            mem_early.now + req_timeout_for collab_plain (m'.imps 0) (mem_early.reqs 1) +
              (if collab_plain.AT_OFF then 0
               else collab_plain.at_get (m'.imps 0).iat_net_latency))) :=
  ⟨by decide, early_reply_deadline collab_plain mem_early 1 0 (by decide)⟩

/-! ## C19: interrupts in `ptlrpc_check_set` -/

/-- Request 1 in phase `RPC`, in flight (its reply buffer is posted) and flagged
interrupted, member of set 0. -/
def mem_interrupted : Mem :=
  { now := 10
    reqs := fun a =>
      if a = 1 then
        { rq_phase := RQ_PHASE_RPC, rq_sent := 5, rq_timeout := 100, rq_deadline := 105,
          rq_intr := true, rq_receiving_reply := true, rq_must_unlink := true,
          rq_import := some 0, rq_set := some 0, rq_set_chain := some (.set_requests 0) }
      else {}
    imps := fun _ => { imp_state := LUSTRE_IMP_FULL }
    sets := fun _ => { set_requests := [1], set_remaining := 1 } }

/-- Flag a request as timed out. -/
def set_rq_timedout (r : ptlrpc_request) : ptlrpc_request := { r with rq_timedout := true }

/-- C19: in a pass of `ptlrpc_check_set`, a member in phase `RPC` that is flagged
interrupted but is not timed out, not waiting on the delayed list, not waiting
for a security context and has no error or network-error flag passes the
error checks unchanged: it gets no status `-EINTR` and is not moved to
`INTERPRET`.  If in addition it is not flagged for resend and no reply or early
reply has arrived for it, the whole loop body leaves the memory unchanged, so
after the pass it is still in phase `RPC` with its old status.  The same member
once flagged as timed out does get the status `-EINTR` and moves to
`INTERPRET`. -/
theorem check_set_ignores_interrupt_before_timeout (c : Collab) (m : Mem) (a set : Nat)
    (force : Bool)
    (hphase : (m.reqs a).rq_phase = RQ_PHASE_RPC)
    (hintr : (m.reqs a).rq_intr = true)
    (htimedout : (m.reqs a).rq_timedout = false)
    (hwaiting : (m.reqs a).rq_waiting = false)
    (hctx : (m.reqs a).rq_wait_ctx = false)
    (herr : (m.reqs a).rq_err = false)
    (hnet : (m.reqs a).rq_net_err = false) :
    check_set_errors c m a force = some (.bulk m force) ∧
    ((m.reqs a).rq_resend = false → c.ptlrpc_client_early (m.reqs a) = false →
      (c.ptlrpc_client_recv (m.reqs a) = true ∨ c.ptlrpc_client_replied (m.reqs a) = false) →
      check_set_one c set m a = some (m, false)) ∧
    (∃ m1, check_set_errors c (m.modReq a set_rq_timedout) a force =
        some (.interpret m1 force false) ∧
      (m1.reqs a).rq_status = - EINTR ∧ (m1.reqs a).rq_phase = RQ_PHASE_INTERPRET) := by
  have herrors : ∀ f, check_set_errors c m a f = some (.bulk m f) := by
    intro f
    unfold check_set_errors
    rw [if_neg (by rw [hnet]; simp), if_neg (by rw [herr]; simp),
      if_neg (by rw [htimedout, hwaiting, hctx]; simp)]
  refine ⟨herrors force, ?_, ?_⟩
  swap
  · have hr : (m.modReq a set_rq_timedout).reqs a = set_rq_timedout (m.reqs a) := by
      rw [modReq_reqs, if_pos rfl]
    refine ⟨(m.modReq a set_rq_timedout).modReq a
      (fun r => ptlrpc_rqphase_move { r with rq_status := - EINTR } RQ_PHASE_INTERPRET),
      ?_, ?_, ?_⟩
    · unfold check_set_errors
      rw [hr, if_neg (by simp [set_rq_timedout]),
        if_neg (by simp [set_rq_timedout, herr]),
        if_pos (by simp [set_rq_timedout, hintr])]
      rfl
    · rw [modReq_reqs, if_pos rfl, hr]
      unfold ptlrpc_rqphase_move
      simp only [set_rq_timedout, hphase]
      rfl
    · rw [modReq_reqs, if_pos rfl, hr]
      unfold ptlrpc_rqphase_move
      simp only [set_rq_timedout, hphase]
      rfl
  intro hresend hearly hrecv
  have hreply : check_set_reply c m a false = some (.next m false) := by
    unfold check_set_reply
    rw [if_neg (by rw [hearly]; simp)]
    rcases hrecv with h | h
    · rw [if_pos h]
    · by_cases hr : c.ptlrpc_client_recv (m.reqs a) = true
      · rw [if_pos hr]
      · rw [if_neg hr, if_pos h]
  have hrpc : check_set_rpc c (m.reqs a).rq_import m a false = some (.next m false) := by
    unfold check_set_rpc
    rw [if_neg (by rw [htimedout, hresend, hwaiting, hctx]; simp)]
    exact hreply
  have hphases : check_set_phases c m a false = some (.bulk m false) := by
    unfold check_set_phases
    rw [if_neg (by rw [hphase]; simp), if_neg (by rw [hphase]; simp),
      if_neg (by rw [hphase]; simp), if_neg (by rw [hphase]; simp),
      if_neg (by rw [hphase]; simp)]
  have hbody : check_set_body c m a = some (.next m false) := by
    unfold check_set_body
    simp only []
    rw [if_neg (by rw [hphase]; simp)]
    simp only []
    rw [hphases]
    simp only []
    rw [herrors false]
    simp only []
    rw [if_pos hphase, hrpc]
  unfold check_set_one
  rw [hbody]

/-- C19 witness: request 1 of `mem_interrupted` is in flight and flagged
interrupted; the loop body of `ptlrpc_check_set` leaves it alone. -/
theorem check_set_ignores_interrupt_before_timeout_witness :
    check_set_errors collab_plain mem_interrupted 1 false = some (.bulk mem_interrupted false) ∧
    check_set_one collab_plain 0 mem_interrupted 1 = some (mem_interrupted, false) :=
  ⟨(check_set_ignores_interrupt_before_timeout collab_plain mem_interrupted 1 0 false
      (by decide) (by decide) (by decide) (by decide) (by decide) (by decide) (by decide)).1,
   (check_set_ignores_interrupt_before_timeout collab_plain mem_interrupted 1 0 false
      (by decide) (by decide) (by decide) (by decide) (by decide) (by decide) (by decide)).2.1
      (by decide) (by decide) (Or.inl (by decide))⟩

/-! ## C17, C18: `ptlrpc_set_destroy` -/

/-- The request as `ptlrpc_req_interpret` leaves it when called with `rc`. -/
def interpreted (c : Collab) (r : ptlrpc_request) (rc : Int) : ptlrpc_request :=
  match r.rq_interpret_reply with
  | none => r
  | some cb => { (c.req_interpret cb r rc).1 with rq_status := (c.req_interpret cb r rc).2 }

/-- The member of a set as the loop body of `ptlrpc_set_destroy` leaves it just
before it drops the reference of the set: unlinked from the set, completed with
`-EBADR` when it was still `NEW`, and with its set pointer cleared. -/
def destroy_member (c : Collab) (r : ptlrpc_request) : ptlrpc_request :=
  clear_rq_set
    (if r.rq_phase = RQ_PHASE_NEW then interpreted c (unlink_rq_set_chain r) (- EBADR)
     else unlink_rq_set_chain r)

/-- A request from which one reference can be dropped without tripping an
assertion of `__ptlrpc_free_req`: it is linked on no set, and either the
reference is not its last one, or it is not receiving a reply, on no import or
pool list and no replay list, not flagged for replay, has a security context or
is fake, and its bulk descriptor, if any, is not active on the network. -/
def releasable (r : ptlrpc_request) : Bool :=
  r.rq_set_chain.isNone &&
  (decide (r.rq_refcount ≠ 1) ||
   (!r.rq_receiving_reply && r.rq_list.isNone && !r.rq_replay && (r.rq_cli_ctx || r.rq_fake) &&
    r.rq_replay_list.isNone &&
    !(match r.rq_bulk with
      | some desc => desc.bd_network_rw
      | none => false)))

theorem req_interpret_spec (c : Collab) (m : Mem) (a : Nat) (rc : Int) :
    (ptlrpc_req_interpret c m a rc).reqs a = interpreted c (m.reqs a) rc ∧
    (∀ b, b ≠ a → (ptlrpc_req_interpret c m a rc).reqs b = m.reqs b) ∧
    (ptlrpc_req_interpret c m a rc).sets = m.sets ∧
    (ptlrpc_req_interpret c m a rc).sets_freed = m.sets_freed ∧
    (ptlrpc_req_interpret c m a rc).interpret_log =
      m.interpret_log ++ (if (m.reqs a).rq_interpret_reply.isSome then [(a, rc)] else []) := by
  unfold ptlrpc_req_interpret interpreted
  cases hcb : (m.reqs a).rq_interpret_reply with
  | none => simp
  | some cb =>
    refine ⟨?_, ?_, rfl, rfl, ?_⟩
    · simp [Mem.modReq, upd]
    · intro b hb
      simp [Mem.modReq, upd, hb]
    · simp

theorem del_init_rq_set_chain_spec (m : Mem) (a set : Nat)
    (h : (m.reqs a).rq_set_chain = some (.set_requests set)) :
    ((del_init_rq_set_chain m a).sets set).set_requests = (m.sets set).set_requests.erase a ∧
    ((del_init_rq_set_chain m a).sets set).set_remaining = (m.sets set).set_remaining ∧
    (del_init_rq_set_chain m a).reqs a = unlink_rq_set_chain (m.reqs a) ∧
    (∀ b, b ≠ a → (del_init_rq_set_chain m a).reqs b = m.reqs b) ∧
    (del_init_rq_set_chain m a).interpret_log = m.interpret_log ∧
    (del_init_rq_set_chain m a).sets_freed = m.sets_freed := by
  unfold del_init_rq_set_chain
  rw [h]
  simp only [Mem.set_list, Mem.list_of]
  refine ⟨?_, ?_, ?_, ?_, rfl, rfl⟩
  · simp
  · simp
  · simp
  · intro b hb
    simp [hb]

theorem req_finished_spec (m : Mem) (a : Nat) (hfin : releasable (m.reqs a) = true) :
    ∃ m' rc, __ptlrpc_req_finished m a = some (m', rc) ∧ m'.sets = m.sets ∧
      (∀ b, b ≠ a → m'.reqs b = m.reqs b) ∧
      (m'.reqs a).rq_set = (m.reqs a).rq_set ∧
      (m'.reqs a).rq_set_chain = none ∧
      (m'.reqs a).rq_refcount = (m.reqs a).rq_refcount - 1 ∧
      m'.interpret_log = m.interpret_log ∧ m'.sets_freed = m.sets_freed := by
  unfold releasable at hfin
  simp only [Bool.and_eq_true, Bool.or_eq_true, decide_eq_true_eq, Bool.not_eq_true',
    Option.isNone_iff_eq_none] at hfin
  obtain ⟨hchain, hrel⟩ := hfin
  unfold __ptlrpc_req_finished
  simp only []
  by_cases h0 : ((m.modReq a (add_refcount (-1))).reqs a).rq_refcount = 0
  · rw [if_pos h0]
    have hone : (m.reqs a).rq_refcount = 1 := by
      simp only [modReq_reqs, if_true, add_refcount] at h0
      omega
    rcases hrel with hrel | ⟨⟨⟨⟨⟨hrecv, hlist⟩, hreplay⟩, hctx⟩, hnode⟩, hbulk⟩
    · exact absurd hone hrel
    · have e1 : ((m.modReq a (add_refcount (-1))).reqs a).rq_receiving_reply = false := by
        simp [add_refcount, hrecv]
      have e2 : ((m.modReq a (add_refcount (-1))).reqs a).rq_list = none := by
        simp [add_refcount, hlist]
      have e3 : ((m.modReq a (add_refcount (-1))).reqs a).rq_set_chain = none := by
        simp [add_refcount, hchain]
      have e4 : ((m.modReq a (add_refcount (-1))).reqs a).rq_replay = false := by
        simp [add_refcount, hreplay]
      have e5 : (((m.modReq a (add_refcount (-1))).reqs a).rq_cli_ctx ||
          ((m.modReq a (add_refcount (-1))).reqs a).rq_fake) = true := by
        simpa [add_refcount] using hctx
      have e6 : ((m.modReq a (add_refcount (-1))).reqs a).rq_replay_list = none := by
        simp [add_refcount, hnode]
      have e7 : (match ((m.modReq a (add_refcount (-1))).reqs a).rq_bulk with
          | some desc => desc.bd_network_rw
          | none => false) = false := by
        simpa [add_refcount] using hbulk
      have e8 : ((m.modReq a (add_refcount (-1))).reqs a).rq_set = (m.reqs a).rq_set := by
        simp [add_refcount]
      have hfree : __ptlrpc_free_req (m.modReq a (add_refcount (-1))) a =
          free_req_release (m.modReq a (add_refcount (-1))) a := by
        unfold __ptlrpc_free_req
        rw [del_init_rq_replay_list_unlinked _ a e6, if_neg (by rw [e1]; decide),
          if_neg (not_not.mpr e2), if_neg (not_not.mpr e3), if_neg (by rw [e4]; decide),
          if_neg (by rw [e5]; decide)]
        split <;> rfl
      rw [hfree]
      generalize hm1 : m.modReq a (add_refcount (-1)) = m1 at e1 e2 e3 e4 e5 e6 e7 e8 h0
      have hsets : m1.sets = m.sets := by rw [← hm1]; rfl
      have hlog : m1.interpret_log = m.interpret_log := by rw [← hm1]; rfl
      have hsf : m1.sets_freed = m.sets_freed := by rw [← hm1]; rfl
      have hoth : ∀ b, b ≠ a → m1.reqs b = m.reqs b := by
        intro b hb; rw [← hm1]; simp [hb]
      have hcount : (m.reqs a).rq_refcount - 1 = 0 := by omega
      unfold free_req_release
      rw [if_neg (not_not.mpr e6), if_neg (not_not.mpr h0)]
      split
      · rename_i hc
        exfalso
        cases hb : (m1.reqs a).rq_bulk with
        | none => rw [hb] at hc; exact Bool.false_ne_true hc
        | some d => rw [hb] at hc e7; exact Bool.false_ne_true (e7.symm.trans hc)
      cases hpool : (m1.reqs a).rq_pool with
      | none =>
        simp only [Option.map_some']
        refine ⟨_, _, rfl, hsets, ?_, ?_, ?_, ?_, hlog, hsf⟩
        · intro b hb
          simp [Mem.log_freed, hb, hoth b hb]
        · simp [Mem.log_freed, release_buffers, e8]
        · simp [Mem.log_freed, release_buffers, e3]
        · simp [Mem.log_freed, release_buffers, h0, hcount]
      | some pool =>
        simp only []
        unfold __ptlrpc_free_req_to_pool
        have p1 : ((m1.modReq a release_buffers).reqs a).rq_list = none := by
          simp [release_buffers, e2]
        have p2 : ((m1.modReq a release_buffers).reqs a).rq_receiving_reply = false := by
          simp [release_buffers, e1]
        rw [if_neg (not_not.mpr p1), if_neg (by rw [p2]; decide)]
        simp only [Option.map_some']
        refine ⟨_, _, rfl, ?_, ?_, ?_, ?_, ?_, ?_, ?_⟩
        · simp [add_tail_rq_list, Mem.set_list, hsets]
        · intro b hb
          simp [add_tail_rq_list, Mem.set_list, hb, hoth b hb]
        · simp [add_tail_rq_list, Mem.set_list, link_rq_list, release_buffers, e8]
        · simp [add_tail_rq_list, Mem.set_list, link_rq_list, release_buffers, e3]
        · simp [add_tail_rq_list, Mem.set_list, link_rq_list, release_buffers, h0, hcount]
        · exact hlog
        · exact hsf
  · rw [if_neg h0]
    refine ⟨_, _, rfl, rfl, ?_, ?_, ?_, ?_, rfl, rfl⟩
    · intro b hb
      simp [hb]
    · simp [add_refcount]
    · simp [add_refcount, hchain]
    · simp [add_refcount]
      omega

/-- The effect of the body of the second loop of `ptlrpc_set_destroy` on a
member that is linked on the set, in the expected phase, and releasable once
the body has completed it. -/
theorem set_destroy_one_spec (c : Collab) (set : Nat) (expected_phase : rq_phase) (m : Mem)
    (a : Nat) (hlink : (m.reqs a).rq_set_chain = some (.set_requests set))
    (hphase : (m.reqs a).rq_phase = expected_phase)
    (hrel : releasable (destroy_member c (m.reqs a)) = true) :
    ∃ m', set_destroy_one c set expected_phase m a = some m' ∧
      (m'.sets set).set_requests = (m.sets set).set_requests.erase a ∧
      (m'.sets set).set_remaining =
        (m.sets set).set_remaining - (if expected_phase = RQ_PHASE_NEW then 1 else 0) ∧
      (∀ b, b ≠ a → m'.reqs b = m.reqs b) ∧
      (m'.reqs a).rq_set = none ∧ (m'.reqs a).rq_set_chain = none ∧
      (m'.reqs a).rq_refcount = (destroy_member c (m.reqs a)).rq_refcount - 1 ∧
      m'.interpret_log = m.interpret_log ++
        (if expected_phase = RQ_PHASE_NEW ∧ (m.reqs a).rq_interpret_reply.isSome = true
         then [(a, - EBADR)] else []) ∧
      m'.sets_freed = m.sets_freed := by
  obtain ⟨d1, d2, d3, d4, d5, d6⟩ := del_init_rq_set_chain_spec m a set hlink
  have hp1 : ((del_init_rq_set_chain m a).reqs a).rq_phase = expected_phase := by
    rw [d3]; exact hphase
  unfold set_destroy_one
  simp only []
  rw [if_neg (not_not.mpr hp1)]
  generalize hm1 : del_init_rq_set_chain m a = m1 at d1 d2 d3 d4 d5 d6 hp1
  by_cases hnew : expected_phase = RQ_PHASE_NEW
  · rw [if_pos (hp1.trans hnew)]
    obtain ⟨i1, i2, i3, i4, i5⟩ := req_interpret_spec c m1 a (- EBADR)
    generalize hm2 : ptlrpc_req_interpret c m1 a (- EBADR) = m2 at i1 i2 i3 i4 i5
    have hmem : ((m2.modSet set dec_set_remaining).modReq a clear_rq_set).reqs a =
        destroy_member c (m.reqs a) := by
      rw [modReq_reqs, if_pos rfl, modSet_reqs, i1, d3]
      unfold destroy_member
      rw [if_pos (hphase.trans hnew)]
    obtain ⟨m', rc, e, f1, f2, f3, f4, f5, f6, f7⟩ :=
      req_finished_spec ((m2.modSet set dec_set_remaining).modReq a clear_rq_set) a
        (by rw [hmem]; exact hrel)
    rw [e]
    refine ⟨m', rfl, ?_, ?_, ?_, ?_, f4, ?_, ?_, ?_⟩
    · rw [f1]
      simp only [modReq_sets, modSet_sets, if_true, dec_set_remaining, i3, d1]
    · rw [f1]
      simp only [modReq_sets, modSet_sets, if_true, dec_set_remaining, i3, d2, if_pos hnew]
    · intro b hb
      rw [f2 b hb, modReq_reqs, if_neg hb, modSet_reqs, i2 b hb, d4 b hb]
    · rw [f3, hmem]
      unfold destroy_member clear_rq_set
      rfl
    · rw [f5, hmem]
    · rw [f6]
      show m2.interpret_log = _
      rw [i5, d5, d3]
      simp [hnew, unlink_rq_set_chain]
    · rw [f7]
      show m2.sets_freed = _
      rw [i4, d6]
  · have hp2 : ¬ (m1.reqs a).rq_phase = RQ_PHASE_NEW := by rw [hp1]; exact hnew
    rw [if_neg hp2]
    have hmem : (m1.modReq a clear_rq_set).reqs a = destroy_member c (m.reqs a) := by
      rw [modReq_reqs, if_pos rfl, d3]
      unfold destroy_member
      rw [if_neg (by rw [hphase]; exact hnew)]
    obtain ⟨m', rc, e, f1, f2, f3, f4, f5, f6, f7⟩ :=
      req_finished_spec (m1.modReq a clear_rq_set) a (by rw [hmem]; exact hrel)
    rw [e]
    refine ⟨m', rfl, ?_, ?_, ?_, ?_, f4, ?_, ?_, ?_⟩
    · rw [f1]
      exact d1
    · rw [f1, if_neg hnew]
      simpa using d2
    · intro b hb
      rw [f2 b hb, modReq_reqs, if_neg hb, d4 b hb]
    · rw [f3, hmem]
      unfold destroy_member clear_rq_set
      rfl
    · rw [f5, hmem]
    · rw [f6]
      show m1.interpret_log = _
      rw [d5]
      simp [hnew]
    · rw [f7]
      exact d6

/-- The members completed by `ptlrpc_set_destroy` with their status, as the
trace of completion callbacks records them: when the expected phase is `NEW`,
the members that have a callback, in list order, each with `-EBADR`. -/
def destroy_interpret_log (m : Mem) (expected_phase : rq_phase) (l : List Nat) :
    List (Nat × Int) :=
  if expected_phase = RQ_PHASE_NEW then
    (l.filter (fun a => (m.reqs a).rq_interpret_reply.isSome)).map (fun a => (a, - EBADR))
  else []

theorem destroy_interpret_log_congr (m m1 : Mem) (expected_phase : rq_phase) (l : List Nat)
    (h : ∀ b ∈ l, m1.reqs b = m.reqs b) :
    destroy_interpret_log m1 expected_phase l = destroy_interpret_log m expected_phase l := by
  unfold destroy_interpret_log
  split
  · congr 1
    apply List.filter_congr
    intro b hb
    rw [h b hb]
  · rfl

theorem set_destroy_loop_spec (c : Collab) (set : Nat) (expected_phase : rq_phase)
    (l : List Nat) :
    ∀ m : Mem, l.Nodup → (m.sets set).set_requests = l →
      (∀ a ∈ l, (m.reqs a).rq_set_chain = some (.set_requests set) ∧
        (m.reqs a).rq_phase = expected_phase ∧
        releasable (destroy_member c (m.reqs a)) = true) →
      ∃ m', set_destroy_loop c set expected_phase m l = some m' ∧
        (m'.sets set).set_requests = [] ∧
        (m'.sets set).set_remaining =
          (m.sets set).set_remaining -
            (if expected_phase = RQ_PHASE_NEW then (l.length : Int) else 0) ∧
        (∀ b, b ∉ l → m'.reqs b = m.reqs b) ∧
        (∀ a ∈ l, (m'.reqs a).rq_set = none ∧ (m'.reqs a).rq_set_chain = none ∧
          (m'.reqs a).rq_refcount = (destroy_member c (m.reqs a)).rq_refcount - 1) ∧
        m'.interpret_log = m.interpret_log ++ destroy_interpret_log m expected_phase l ∧
        m'.sets_freed = m.sets_freed := by
  induction l with
  | nil =>
    intro m _ hl _
    refine ⟨m, rfl, hl, ?_, fun _ _ => rfl, fun a ha => absurd ha (List.not_mem_nil a), ?_, rfl⟩
    · simp
    · simp [destroy_interpret_log]
  | cons a rest ih =>
    intro m hnd hl hall
    obtain ⟨harest, hnd'⟩ := List.nodup_cons.mp hnd
    obtain ⟨ha1, ha2, ha3⟩ := hall a (List.mem_cons_self _ _)
    obtain ⟨m1, e1, s1, s2, s3, s4, s5, s6, s7, s8⟩ :=
      set_destroy_one_spec c set expected_phase m a ha1 ha2 ha3
    have hrest : ∀ b ∈ rest, m1.reqs b = m.reqs b := by
      intro b hb
      exact s3 b (fun hba => harest (hba ▸ hb))
    have hl1 : (m1.sets set).set_requests = rest := by
      rw [s1, hl, List.erase_cons_head]
    obtain ⟨m', e2, t1, t2, t3, t4, t5, t6⟩ := ih m1 hnd' hl1 (by
      intro b hb
      rw [hrest b hb]
      exact hall b (List.mem_cons_of_mem _ hb))
    refine ⟨m', ?_, t1, ?_, ?_, ?_, ?_, ?_⟩
    · unfold set_destroy_loop
      rw [e1]
      exact e2
    · rw [t2, s2]
      split
      · simp only [List.length_cons, Nat.cast_add, Nat.cast_one]
        omega
      · omega
    · intro b hb
      have hba : b ≠ a := fun h => hb (h ▸ List.mem_cons_self _ _)
      have hbr : b ∉ rest := fun h => hb (List.mem_cons_of_mem _ h)
      rw [t3 b hbr, s3 b hba]
    · intro b hb
      rcases List.mem_cons.mp hb with hba | hbr
      · subst hba
        rw [t3 b harest]
        exact ⟨s4, s5, s6⟩
      · obtain ⟨u1, u2, u3⟩ := t4 b hbr
        rw [hrest b hbr] at u3
        exact ⟨u1, u2, u3⟩
    · rw [t5, s7, destroy_interpret_log_congr m m1 expected_phase rest hrest, List.append_assoc]
      congr 1
      unfold destroy_interpret_log
      by_cases hnew : expected_phase = RQ_PHASE_NEW
      · by_cases hcb : (m.reqs a).rq_interpret_reply.isSome = true
        · simp [hnew, hcb, List.filter_cons]
        · simp [hnew, hcb, List.filter_cons]
      · simp [hnew]
    · rw [t6, s8]

theorem set_destroy_count_spec (m : Mem) (expected_phase : rq_phase) (l : List Nat) :
    ∀ n : Int, (∀ a ∈ l, (m.reqs a).rq_phase = expected_phase) →
      set_destroy_count m expected_phase n l = some (n + l.length) := by
  induction l with
  | nil => intro n _; simp [set_destroy_count]
  | cons a rest ih =>
    intro n h
    unfold set_destroy_count
    rw [if_neg (not_not.mpr (h a (List.mem_cons_self _ _))),
      ih (n + 1) (fun b hb => h b (List.mem_cons_of_mem _ hb))]
    simp only [List.length_cons, Nat.cast_add, Nat.cast_one]
    congr 1
    omega

theorem set_destroy_count_none (m : Mem) (expected_phase : rq_phase) (l : List Nat) (a : Nat)
    (ha : a ∈ l) (hp : (m.reqs a).rq_phase ≠ expected_phase) :
    ∀ n : Int, set_destroy_count m expected_phase n l = none := by
  induction l with
  | nil => exact absurd ha (List.not_mem_nil a)
  | cons b rest ih =>
    intro n
    unfold set_destroy_count
    by_cases hb : (m.reqs b).rq_phase ≠ expected_phase
    · rw [if_pos hb]
    · rw [if_neg hb]
      rcases List.mem_cons.mp ha with hab | har
      · subst hab
        exact absurd hp hb
      · exact ih har (n + 1)

/-- What `ptlrpc_set_destroy` does to a set whose members are all in the phase
that the remaining-count announces (`COMPLETE` for 0, `NEW` otherwise), each
linked on the set and releasable once completed. -/
theorem set_destroy_spec (c : Collab) (m : Mem) (set : Nat)
    (hnd : (m.sets set).set_requests.Nodup)
    (hall : ∀ a ∈ (m.sets set).set_requests,
      (m.reqs a).rq_set_chain = some (.set_requests set) ∧
      (m.reqs a).rq_phase =
        (if (m.sets set).set_remaining = 0 then RQ_PHASE_COMPLETE else RQ_PHASE_NEW) ∧
      releasable (destroy_member c (m.reqs a)) = true)
    (hrem : (m.sets set).set_remaining = 0 ∨
      (m.sets set).set_remaining = (m.sets set).set_requests.length) :
    ∃ m', ptlrpc_set_destroy c m set = some m' ∧
      (m'.sets set).set_requests = [] ∧ (m'.sets set).set_remaining = 0 ∧
      (∀ b, b ∉ (m.sets set).set_requests → m'.reqs b = m.reqs b) ∧
      (∀ a ∈ (m.sets set).set_requests,
        (m'.reqs a).rq_set = none ∧ (m'.reqs a).rq_set_chain = none ∧
        (m'.reqs a).rq_refcount = (destroy_member c (m.reqs a)).rq_refcount - 1) ∧
      m'.interpret_log = m.interpret_log ++
        destroy_interpret_log m
          (if (m.sets set).set_remaining = 0 then RQ_PHASE_COMPLETE else RQ_PHASE_NEW)
          (m.sets set).set_requests ∧
      m'.sets_freed = set :: m.sets_freed := by
  obtain ⟨m1, e, t1, t2, t3, t4, t5, t6⟩ := set_destroy_loop_spec c set _ _ m hnd rfl hall
  have hz : (m1.sets set).set_remaining = 0 := by
    rw [t2]
    by_cases h0 : (m.sets set).set_remaining = 0
    · rw [if_pos h0, if_neg (by decide), h0]
      rfl
    · rw [if_neg h0, if_pos rfl]
      rcases hrem with h | h
      · exact absurd h h0
      · omega
  unfold ptlrpc_set_destroy
  simp only []
  rw [set_destroy_count_spec m _ _ 0 (fun a ha => (hall a ha).2.1)]
  simp only []
  rw [if_neg (by rw [not_not]; simpa using hrem), e]
  simp only []
  rw [if_neg (not_not.mpr hz)]
  exact ⟨_, rfl, t1, hz, t3, t4, t5, by rw [← t6]; rfl⟩

/-- Set 0 with the members 1 and 2, both still in phase `NEW`, each holding one
reference (the one of the set); request 1 has a completion callback. -/
def mem_new_set : Mem :=
  { reqs := fun a =>
      if a = 1 then
        { rq_phase := RQ_PHASE_NEW, rq_set := some 0, rq_set_chain := some (.set_requests 0),
          rq_interpret_reply := some 7, rq_import := some 0 }
      else if a = 2 then
        { rq_phase := RQ_PHASE_NEW, rq_set := some 0, rq_set_chain := some (.set_requests 0),
          rq_import := some 0 }
      else {}
    sets := fun _ => { set_requests := [1, 2], set_remaining := 2 } }

/-- Set 0 with the members 1 and 2 and remaining-count 1: request 1 is
`COMPLETE`, request 2 still `NEW`; each has a reference besides the one of the
set. -/
def mem_mixed_set : Mem :=
  { reqs := fun a =>
      if a = 1 then
        { rq_phase := RQ_PHASE_COMPLETE, rq_set := some 0, rq_refcount := 2,
          rq_set_chain := some (.set_requests 0), rq_import := some 0 }
      else if a = 2 then
        { rq_phase := RQ_PHASE_NEW, rq_set := some 0, rq_refcount := 2,
          rq_set_chain := some (.set_requests 0), rq_import := some 0 }
      else {}
    sets := fun _ => { set_requests := [1, 2], set_remaining := 1 } }

/-- Set 0 with the members 1 and 2, both `COMPLETE`, and remaining-count 0. -/
def mem_complete_set : Mem :=
  { reqs := fun a =>
      if a = 1 ∨ a = 2 then
        { rq_phase := RQ_PHASE_COMPLETE, rq_set := some 0, rq_refcount := 2,
          rq_set_chain := some (.set_requests 0), rq_import := some 0 }
      else {}
    sets := fun _ => { set_requests := [1, 2], set_remaining := 0 } }

/-- C17: for a set whose members are all still in phase `NEW`, with the
remaining-count equal to the member count (each member linked once on the set
and releasable once completed), `ptlrpc_set_destroy` returns, and it has run the
completion callback of each member that has one exactly once, in list order,
with `-EBADR`; the remaining-count is 0, the member list is empty, each member
has its set pointer cleared and its `rq_set_chain` node unlinked and holds one
reference less than its completion left it with (one less than before for a
member without callback), and the set is freed. -/
theorem set_destroy_completes_new_members (c : Collab) (m : Mem) (set : Nat)
    (hnd : (m.sets set).set_requests.Nodup)
    (hlink : ∀ a ∈ (m.sets set).set_requests,
      (m.reqs a).rq_set_chain = some (.set_requests set))
    (hnew : ∀ a ∈ (m.sets set).set_requests, (m.reqs a).rq_phase = RQ_PHASE_NEW)
    (hrem : (m.sets set).set_remaining = (m.sets set).set_requests.length)
    (hrel : ∀ a ∈ (m.sets set).set_requests, releasable (destroy_member c (m.reqs a)) = true) :
    ∃ m', ptlrpc_set_destroy c m set = some m' ∧
      m'.interpret_log = m.interpret_log ++
        ((m.sets set).set_requests.filter
          (fun a => (m.reqs a).rq_interpret_reply.isSome)).map (fun a => (a, - EBADR)) ∧
      (m'.sets set).set_remaining = 0 ∧
      (m'.sets set).set_requests = [] ∧
      (∀ a ∈ (m.sets set).set_requests,
        (m'.reqs a).rq_set = none ∧ (m'.reqs a).rq_set_chain = none ∧
        (m'.reqs a).rq_refcount = (destroy_member c (m.reqs a)).rq_refcount - 1 ∧
        ((m.reqs a).rq_interpret_reply = none →
          (m'.reqs a).rq_refcount = (m.reqs a).rq_refcount - 1)) ∧
      m'.sets_freed = set :: m.sets_freed := by
  have hexp : ∀ a ∈ (m.sets set).set_requests, (m.reqs a).rq_phase =
      (if (m.sets set).set_remaining = 0 then RQ_PHASE_COMPLETE else RQ_PHASE_NEW) := by
    intro a ha
    have hlen : (m.sets set).set_requests.length ≠ 0 := by
      intro h0
      rw [List.length_eq_zero] at h0
      rw [h0] at ha
      exact absurd ha (List.not_mem_nil a)
    rw [if_neg (by rw [hrem]; exact_mod_cast hlen)]
    exact hnew a ha
  obtain ⟨m', e, t1, t2, _, t4, t5, t6⟩ := set_destroy_spec c m set hnd
    (fun a ha => ⟨hlink a ha, hexp a ha, hrel a ha⟩) (Or.inr hrem)
  refine ⟨m', e, ?_, t2, t1, ?_, t6⟩
  · rw [t5]
    congr 1
    unfold destroy_interpret_log
    by_cases h0 : (m.sets set).set_remaining = 0
    · have hnil : (m.sets set).set_requests = [] := by
        rw [hrem] at h0
        exact List.length_eq_zero.mp (by exact_mod_cast h0)
      rw [hnil]
      simp
    · rw [if_neg h0, if_pos rfl]
  · intro a ha
    obtain ⟨u1, u2, u3⟩ := t4 a ha
    refine ⟨u1, u2, u3, ?_⟩
    intro hcb
    rw [u3]
    unfold destroy_member interpreted
    rw [if_pos (hnew a ha)]
    have : (unlink_rq_set_chain (m.reqs a)).rq_interpret_reply = none := hcb
    rw [this]
    rfl

/-- C17 witness: both members of the all-`NEW` set are completed, the callback
of request 1 runs once with `-EBADR` (-53), and both requests and the set are
freed. -/
theorem set_destroy_completes_new_members_witness :
    (ptlrpc_set_destroy collab_plain mem_new_set 0).map
        (fun m => (m.interpret_log, (m.sets 0).set_remaining, (m.sets 0).set_requests,
          m.freed, m.sets_freed)) = some ([(1, -53)], 0, [], [2, 1], [0]) ∧
    ∃ m', ptlrpc_set_destroy collab_plain mem_new_set 0 = some m' ∧
      m'.interpret_log = mem_new_set.interpret_log ++
        ((mem_new_set.sets 0).set_requests.filter
          (fun a => (mem_new_set.reqs a).rq_interpret_reply.isSome)).map
            (fun a => (a, - EBADR)) ∧
      (m'.sets 0).set_remaining = 0 ∧
      (m'.sets 0).set_requests = [] ∧
      (∀ a ∈ (mem_new_set.sets 0).set_requests,
        (m'.reqs a).rq_set = none ∧ (m'.reqs a).rq_set_chain = none ∧
        (m'.reqs a).rq_refcount = (destroy_member collab_plain (mem_new_set.reqs a)).rq_refcount - 1 ∧
        ((mem_new_set.reqs a).rq_interpret_reply = none →
          (m'.reqs a).rq_refcount = (mem_new_set.reqs a).rq_refcount - 1)) ∧
      m'.sets_freed = 0 :: mem_new_set.sets_freed :=
  ⟨by decide,
   set_destroy_completes_new_members collab_plain mem_new_set 0 (by decide) (by decide)
     (by decide) (by decide) (by decide)⟩

/-- C18 as stated fails: in the set of `mem_mixed_set` request 1 is `COMPLETE`,
request 2 is `NEW` and the remaining-count 1 is the number of members that are
not `COMPLETE`, yet `ptlrpc_set_destroy` trips its phase assertion. -/
theorem set_destroy_mixed_counterexample :
    (∀ a ∈ (mem_mixed_set.sets 0).set_requests,
      (mem_mixed_set.reqs a).rq_phase = RQ_PHASE_COMPLETE ∨
      (mem_mixed_set.reqs a).rq_phase = RQ_PHASE_NEW) ∧
    (mem_mixed_set.sets 0).set_remaining =
      ((mem_mixed_set.sets 0).set_requests.filter
        (fun a => decide ((mem_mixed_set.reqs a).rq_phase ≠ RQ_PHASE_COMPLETE))).length ∧
    (ptlrpc_set_destroy collab_plain mem_mixed_set 0).isNone = true := by
  decide

/-- C18 (amended): `ptlrpc_set_destroy` trips none of its assertions on a set
whose members are all in phase `COMPLETE` with remaining-count 0, or all still
in phase `NEW` with the remaining-count equal to the member count (each member
linked once on the set and releasable once completed); on a set that holds both
a `COMPLETE` and a `NEW` member it trips the phase assertion. -/
theorem set_destroy_accepts_uniform (c : Collab) (m : Mem) (set : Nat) :
    ((m.sets set).set_requests.Nodup →
      (∀ a ∈ (m.sets set).set_requests,
        (m.reqs a).rq_set_chain = some (.set_requests set) ∧
        releasable (destroy_member c (m.reqs a)) = true) →
      (((∀ a ∈ (m.sets set).set_requests, (m.reqs a).rq_phase = RQ_PHASE_COMPLETE) ∧
          (m.sets set).set_remaining = 0) ∨
        ((∀ a ∈ (m.sets set).set_requests, (m.reqs a).rq_phase = RQ_PHASE_NEW) ∧
          (m.sets set).set_remaining = (m.sets set).set_requests.length)) →
      ∃ m', ptlrpc_set_destroy c m set = some m') ∧
    ((∃ a ∈ (m.sets set).set_requests, (m.reqs a).rq_phase = RQ_PHASE_COMPLETE) →
      (∃ b ∈ (m.sets set).set_requests, (m.reqs b).rq_phase = RQ_PHASE_NEW) →
      ptlrpc_set_destroy c m set = none) := by
  constructor
  · intro hnd hwf hcase
    have hexp : ∀ a ∈ (m.sets set).set_requests, (m.reqs a).rq_phase =
        (if (m.sets set).set_remaining = 0 then RQ_PHASE_COMPLETE else RQ_PHASE_NEW) := by
      intro a ha
      rcases hcase with ⟨hc, h0⟩ | ⟨hn, hrem⟩
      · rw [if_pos h0]; exact hc a ha
      · have hlen : (m.sets set).set_requests.length ≠ 0 := by
          intro h0
          rw [List.length_eq_zero] at h0
          rw [h0] at ha
          exact absurd ha (List.not_mem_nil a)
        rw [if_neg (by rw [hrem]; exact_mod_cast hlen)]
        exact hn a ha
    have hrem : (m.sets set).set_remaining = 0 ∨
        (m.sets set).set_remaining = (m.sets set).set_requests.length := by
      rcases hcase with ⟨_, h0⟩ | ⟨_, hrem⟩
      · exact Or.inl h0
      · exact Or.inr hrem
    obtain ⟨m', e, _⟩ := set_destroy_spec c m set hnd
      (fun a ha => ⟨(hwf a ha).1, hexp a ha, (hwf a ha).2⟩) hrem
    exact ⟨m', e⟩
  · rintro ⟨a, ha, hpa⟩ ⟨b, hb, hpb⟩
    unfold ptlrpc_set_destroy
    simp only []
    by_cases h0 : (m.sets set).set_remaining = 0
    · rw [if_pos h0, set_destroy_count_none m _ _ b hb (by rw [hpb]; decide) 0]
    · rw [if_neg h0, set_destroy_count_none m _ _ a ha (by rw [hpa]; decide) 0]

/-- C18 witness: the all-`COMPLETE` set and the all-`NEW` set are accepted, the
mixed set is not. -/
theorem set_destroy_accepts_uniform_witness :
    (∃ m', ptlrpc_set_destroy collab_plain mem_complete_set 0 = some m') ∧
    (∃ m', ptlrpc_set_destroy collab_plain mem_new_set 0 = some m') ∧
    ptlrpc_set_destroy collab_plain mem_mixed_set 0 = none :=
  ⟨(set_destroy_accepts_uniform collab_plain mem_complete_set 0).1 (by decide) (by decide)
      (Or.inl ⟨by decide, by decide⟩),
   (set_destroy_accepts_uniform collab_plain mem_new_set 0).1 (by decide) (by decide)
      (Or.inr ⟨by decide, by decide⟩),
   (set_destroy_accepts_uniform collab_plain mem_mixed_set 0).2 ⟨1, by decide, by decide⟩
      ⟨2, by decide, by decide⟩⟩

/-! ## C20: `ptlrpc_abort_inflight` -/

/-- What the pruning of a replay list leaves alone in a request: the error flag,
the status, the import generation, a linked `rq_list` node, and the
`rq_replay_list` node unless it is unlinked. -/
def same_marks (r r' : ptlrpc_request) : Prop :=
  r'.rq_err = r.rq_err ∧ r'.rq_status = r.rq_status ∧
  r'.rq_import_generation = r.rq_import_generation ∧
  (r.rq_list ≠ none → r'.rq_list = r.rq_list) ∧
  (r'.rq_replay_list = r.rq_replay_list ∨ r'.rq_replay_list = none)

/-- What the pruning of a replay list leaves alone in the memory: the marks of
every request, the trace of wake-ups, the sending and delayed lists of
every import, and the memory of every request that is linked through
`rq_list`. -/
def abort_frame (m m' : Mem) : Prop :=
  (∀ b, same_marks (m.reqs b) (m'.reqs b)) ∧ m'.wake_log = m.wake_log ∧
  (∀ b, (m.reqs b).rq_list ≠ none → b ∈ m'.freed → b ∈ m.freed) ∧
  (∀ j, (m'.imps j).imp_sending_list = (m.imps j).imp_sending_list ∧
    (m'.imps j).imp_delayed_list = (m.imps j).imp_delayed_list)

/-- Every `rq_replay_list` node is empty or linked on the replay list of
an import. -/
def replay_nodes_typed (m : Mem) : Prop :=
  ∀ b, (m.reqs b).rq_replay_list = none ∨
    ∃ i, (m.reqs b).rq_replay_list = some (.imp_replay_list i)

theorem same_marks_refl (r : ptlrpc_request) : same_marks r r :=
  ⟨rfl, rfl, rfl, fun _ => rfl, Or.inl rfl⟩

theorem same_marks_trans (r1 r2 r3 : ptlrpc_request) (h1 : same_marks r1 r2)
    (h2 : same_marks r2 r3) : same_marks r1 r3 := by
  obtain ⟨a1, a2, a3, a4, a5⟩ := h1
  obtain ⟨b1, b2, b3, b4, b5⟩ := h2
  refine ⟨b1.trans a1, b2.trans a2, b3.trans a3, ?_, ?_⟩
  · intro h
    rw [b4 (by rw [a4 h]; exact h), a4 h]
  · rcases b5 with b5 | b5
    · rcases a5 with a5 | a5
      · exact Or.inl (b5.trans a5)
      · exact Or.inr (b5.trans a5)
    · exact Or.inr b5

theorem abort_frame_refl (m : Mem) : abort_frame m m :=
  ⟨fun _ => same_marks_refl _, rfl, fun _ _ h => h, fun _ => ⟨rfl, rfl⟩⟩

theorem abort_frame_trans (m1 m2 m3 : Mem) (h1 : abort_frame m1 m2) (h2 : abort_frame m2 m3) :
    abort_frame m1 m3 := by
  obtain ⟨a1, a2, a3, a4⟩ := h1
  obtain ⟨b1, b2, b3, b4⟩ := h2
  refine ⟨fun b => same_marks_trans _ _ _ (a1 b) (b1 b), b2.trans a2, ?_, ?_⟩
  · intro b hb hf
    exact a3 b hb (b3 b (by rw [(a1 b).2.2.2.1 hb]; exact hb) hf)
  · intro j
    exact ⟨(b4 j).1.trans (a4 j).1, (b4 j).2.trans (a4 j).2⟩

theorem replay_nodes_typed_frame (m m' : Mem) (h : abort_frame m m')
    (ht : replay_nodes_typed m) : replay_nodes_typed m' := by
  intro b
  rcases (h.1 b).2.2.2.2 with e | e
  · rw [e]; exact ht b
  · exact Or.inl e

theorem set_list_wake_log (m : Mem) (h : list_head) (l : List Nat) :
    (m.set_list h l).wake_log = m.wake_log := by
  cases h <;> rfl

theorem set_list_freed (m : Mem) (h : list_head) (l : List Nat) :
    (m.set_list h l).freed = m.freed := by
  cases h <;> rfl

theorem del_init_rq_replay_list_marks (m : Mem) (a : Nat)
    (ht : (m.reqs a).rq_replay_list = none ∨
      ∃ i, (m.reqs a).rq_replay_list = some (.imp_replay_list i)) :
    abort_frame m (del_init_rq_replay_list m a) := by
  unfold del_init_rq_replay_list
  rcases ht with ht | ⟨i, ht⟩
  · rw [ht]
    exact abort_frame_refl m
  · rw [ht]
    simp only [Mem.set_list, Mem.list_of]
    refine ⟨?_, rfl, fun _ _ h => h, ?_⟩
    · intro b
      by_cases hb : b = a
      · subst hb
        simp only [Mem.log_replay_unlink, modReq_reqs, if_true, modImp_reqs]
        exact ⟨rfl, rfl, rfl, fun _ => rfl, Or.inr rfl⟩
      · simp only [Mem.log_replay_unlink, modReq_reqs, if_neg hb, modImp_reqs]
        exact same_marks_refl _
    · intro j
      simp only [Mem.log_replay_unlink, modReq_imps, modImp_imps]
      split
      · rename_i hj; subst hj; exact ⟨rfl, rfl⟩
      · exact ⟨rfl, rfl⟩

theorem del_init_rq_replay_list_rq_list (m : Mem) (a b : Nat) :
    ((del_init_rq_replay_list m a).reqs b).rq_list = (m.reqs b).rq_list := by
  unfold del_init_rq_replay_list
  cases (m.reqs a).rq_replay_list with
  | none => rfl
  | some h =>
    simp only [Mem.log_replay_unlink, modReq_reqs, set_list_reqs]
    split
    · rename_i hb; subst hb; rfl
    · rfl

theorem free_req_release_marks (m : Mem) (a : Nat) (m' : Mem)
    (h : free_req_release m a = some m') (hlist : (m.reqs a).rq_list = none) :
    abort_frame m m' := by
  unfold free_req_release at h
  repeat' split at h
  all_goals try contradiction
  · unfold __ptlrpc_free_req_to_pool at h
    repeat' split at h
    all_goals try contradiction
    cases h
    refine ⟨?_, rfl, ?_, fun _ => ⟨rfl, rfl⟩⟩
    · intro b
      by_cases hb : b = a
      · subst hb
        simp only [add_tail_rq_list, Mem.set_list, modReq_reqs, if_true]
        exact ⟨rfl, rfl, rfl, fun hne => absurd hlist hne, Or.inl rfl⟩
      · simp only [add_tail_rq_list, Mem.set_list, modReq_reqs, if_neg hb]
        exact same_marks_refl _
    · intro b _ hf
      exact hf
  · cases h
    refine ⟨?_, rfl, ?_, fun _ => ⟨rfl, rfl⟩⟩
    · intro b
      by_cases hb : b = a
      · subst hb
        simp only [Mem.log_freed, modReq_reqs, if_true]
        exact ⟨rfl, rfl, rfl, fun hne => absurd hlist hne, Or.inl rfl⟩
      · simp only [Mem.log_freed, modReq_reqs, if_neg hb]
        exact same_marks_refl _
    · intro b hb hf
      simp only [Mem.log_freed, List.mem_cons] at hf
      rcases hf with hf | hf
      · subst hf
        exact absurd hlist hb
      · exact hf

theorem free_req_marks (m : Mem) (a : Nat) (m' : Mem) (h : __ptlrpc_free_req m a = some m')
    (ht : (m.reqs a).rq_replay_list = none ∨
      ∃ i, (m.reqs a).rq_replay_list = some (.imp_replay_list i)) :
    abort_frame m m' := by
  have hd := del_init_rq_replay_list_marks m a ht
  unfold __ptlrpc_free_req at h
  repeat' split at h
  all_goals try contradiction
  · rename_i _ hl _ _ _ _
    have hl0 : (m.reqs a).rq_list = none := not_not.mp hl
    have hl1 : ((del_init_rq_replay_list m a).reqs a).rq_list = none := by
      rw [del_init_rq_replay_list_rq_list]; exact hl0
    exact abort_frame_trans _ _ _ hd (free_req_release_marks _ a m' h hl1)
  · rename_i _ hl _ _ _ _
    exact free_req_release_marks m a m' h (not_not.mp hl)

theorem req_finished_marks (m : Mem) (a : Nat) (r : Mem × Int)
    (h : __ptlrpc_req_finished m a = some r)
    (ht : (m.reqs a).rq_replay_list = none ∨
      ∃ i, (m.reqs a).rq_replay_list = some (.imp_replay_list i)) :
    abort_frame m r.1 := by
  have h1 : abort_frame m (m.modReq a (add_refcount (-1))) := by
    refine ⟨?_, rfl, fun _ _ h => h, fun _ => ⟨rfl, rfl⟩⟩
    intro b
    by_cases hb : b = a
    · subst hb
      simp only [modReq_reqs, if_true]
      exact ⟨rfl, rfl, rfl, fun _ => rfl, Or.inl rfl⟩
    · simp only [modReq_reqs, if_neg hb]
      exact same_marks_refl _
  unfold __ptlrpc_req_finished at h
  simp only [] at h
  split at h
  · rw [Option.map_eq_some'] at h
    obtain ⟨m2, hm2, heq⟩ := h
    cases heq
    exact abort_frame_trans _ _ _ h1 (free_req_marks _ a m2 hm2 (by
      simpa [add_refcount] using ht))
  · cases h
    exact h1

theorem free_committed_free_req_marks (m : Mem) (a : Nat) (m1 : Mem)
    (h : free_committed_free_req m a = some m1)
    (ht : (m.reqs a).rq_replay_list = none ∨
      ∃ i, (m.reqs a).rq_replay_list = some (.imp_replay_list i)) :
    abort_frame m m1 := by
  unfold free_committed_free_req at h
  simp only [] at h
  rw [Option.map_eq_some'] at h
  obtain ⟨r, hfin, heq⟩ := h
  subst heq
  generalize hm2 : (if ((m.modReq a clear_rq_replay).reqs a).rq_commit_cb = true
      then (m.modReq a clear_rq_replay).log_commit a else m.modReq a clear_rq_replay) = m2 at hfin
  have h1 : abort_frame m (m.modReq a clear_rq_replay) := by
    refine ⟨?_, rfl, fun _ _ h => h, fun _ => ⟨rfl, rfl⟩⟩
    intro b
    by_cases hb : b = a
    · subst hb
      simp only [modReq_reqs, if_true]
      exact ⟨rfl, rfl, rfl, fun _ => rfl, Or.inl rfl⟩
    · simp only [modReq_reqs, if_neg hb]
      exact same_marks_refl _
  have h2 : abort_frame (m.modReq a clear_rq_replay) m2 := by
    rw [← hm2]
    split
    · exact ⟨fun _ => same_marks_refl _, rfl, fun _ _ h => h, fun _ => ⟨rfl, rfl⟩⟩
    · exact abort_frame_refl _
  have h12 := abort_frame_trans _ _ _ h1 h2
  have ht2 : (m2.reqs a).rq_replay_list = none ∨
      ∃ i, (m2.reqs a).rq_replay_list = some (.imp_replay_list i) := by
    rcases (h12.1 a).2.2.2.2 with e | e
    · rw [e]; exact ht
    · exact Or.inl e
  have h3 := del_init_rq_replay_list_marks m2 a ht2
  have hnode : ((del_init_rq_replay_list m2 a).reqs a).rq_replay_list = none :=
    (del_init_rq_replay_list_frame m2 a 0).2.1
  exact abort_frame_trans _ _ _ (abort_frame_trans _ _ _ h12 h3)
    (req_finished_marks _ a r hfin (Or.inl hnode))

theorem free_committed_loop_marks (imp : Nat) (rest : List Nat) :
    ∀ (m : Mem) (last : Option Nat) (m' : Mem), replay_nodes_typed m →
      free_committed_loop imp m last rest = some m' → abort_frame m m' := by
  induction rest with
  | nil =>
    intro m last m' _ h
    cases h
    exact abort_frame_refl m
  | cons a rest ih =>
    intro m last m' ht h
    unfold free_committed_loop at h
    repeat' split at h
    all_goals try contradiction
    · rename_i m1 hm1
      have f1 := free_committed_free_req_marks m a m1 hm1 (ht a)
      exact abort_frame_trans _ _ _ f1 (ih m1 _ m' (replay_nodes_typed_frame m m1 f1 ht) h)
    · exact ih m _ m' ht h
    · cases h
      exact abort_frame_refl m
    · rename_i m1 hm1
      have f1 := free_committed_free_req_marks m a m1 hm1 (ht a)
      exact abort_frame_trans _ _ _ f1 (ih m1 _ m' (replay_nodes_typed_frame m m1 f1 ht) h)

theorem free_committed_marks (m : Mem) (imp : Nat) (m' : Mem) (ht : replay_nodes_typed m)
    (h : ptlrpc_free_committed m imp = some m') : abort_frame m m' := by
  unfold ptlrpc_free_committed at h
  split at h
  · cases h
    exact abort_frame_refl m
  · simp only [] at h
    have h1 : abort_frame m (m.modImp imp record_last_checked) := by
      refine ⟨fun _ => same_marks_refl _, rfl, fun _ _ h => h, ?_⟩
      intro j
      simp only [modImp_imps]
      split
      · rename_i hj; subst hj; exact ⟨rfl, rfl⟩
      · exact ⟨rfl, rfl⟩
    exact abort_frame_trans _ _ _ h1
      (free_committed_loop_marks imp _ _ none m' (replay_nodes_typed_frame _ _ h1 ht) h)

/-- The test of `ptlrpc_abort_inflight` on a request: its import generation is
older than the generation of the import. -/
def old_generation (m : Mem) (imp : Nat) (b : Nat) : Bool :=
  decide ((m.reqs b).rq_import_generation < (m.imps imp).imp_generation)

theorem mark_aborted_idem (r : ptlrpc_request) : mark_aborted (mark_aborted r) = mark_aborted r :=
  rfl

theorem abort_inflight_loop_spec (imp : Nat) (l : List Nat) :
    ∀ m : Mem,
      (abort_inflight_loop imp m l).imps = m.imps ∧
      (abort_inflight_loop imp m l).freed = m.freed ∧
      (∀ b, (abort_inflight_loop imp m l).reqs b =
        if b ∈ l ∧ old_generation m imp b = true then mark_aborted (m.reqs b) else m.reqs b) ∧
      (abort_inflight_loop imp m l).wake_log =
        m.wake_log ++ l.filter (old_generation m imp) := by
  induction l with
  | nil =>
    intro m
    refine ⟨rfl, rfl, ?_, ?_⟩
    · intro b
      simp [abort_inflight_loop]
    · simp [abort_inflight_loop]
  | cons a rest ih =>
    intro m
    unfold abort_inflight_loop
    by_cases hold : (m.reqs a).rq_import_generation < (m.imps imp).imp_generation
    · rw [if_pos hold]
      obtain ⟨i1, i2, i3, i4⟩ := ih (ptlrpc_client_wake_req (m.modReq a mark_aborted) a)
      have hgen : ∀ b, old_generation (ptlrpc_client_wake_req (m.modReq a mark_aborted) a) imp b =
          old_generation m imp b := by
        intro b
        unfold old_generation ptlrpc_client_wake_req
        simp only [modReq_reqs, modReq_imps]
        split
        · rename_i hb; subst hb; rfl
        · rfl
      have ha : old_generation m imp a = true := by
        unfold old_generation
        exact decide_eq_true hold
      refine ⟨i1, i2, ?_, ?_⟩
      · intro b
        rw [i3 b, hgen b]
        unfold ptlrpc_client_wake_req
        simp only [modReq_reqs, List.mem_cons]
        by_cases hb : b = a
        · subst hb
          simp [ha, mark_aborted_idem]
        · simp [hb]
      · rw [i4, List.filter_cons, ha]
        simp only [if_true]
        have : List.filter (old_generation (ptlrpc_client_wake_req (m.modReq a mark_aborted) a) imp)
            rest = List.filter (old_generation m imp) rest :=
          List.filter_congr (fun b _ => hgen b)
        rw [this]
        unfold ptlrpc_client_wake_req
        simp [Mem.modReq]
    · rw [if_neg hold]
      obtain ⟨i1, i2, i3, i4⟩ := ih m
      have ha : old_generation m imp a = false := by
        unfold old_generation
        exact decide_eq_false hold
      refine ⟨i1, i2, ?_, ?_⟩
      · intro b
        rw [i3 b]
        simp only [List.mem_cons]
        by_cases hb : b = a
        · subst hb
          simp [ha]
        · simp [hb]
      · rw [i4, List.filter_cons, ha]
        simp

/-- What `ptlrpc_abort_inflight` does before it prunes the replay list. -/
theorem abort_inflight_marks (m : Mem) (imp : Nat) :
    (abort_inflight_loop imp (abort_inflight_loop imp m (m.imps imp).imp_sending_list)
        (m.imps imp).imp_delayed_list).imps = m.imps ∧
    (abort_inflight_loop imp (abort_inflight_loop imp m (m.imps imp).imp_sending_list)
        (m.imps imp).imp_delayed_list).freed = m.freed ∧
    (∀ b, (abort_inflight_loop imp (abort_inflight_loop imp m (m.imps imp).imp_sending_list)
        (m.imps imp).imp_delayed_list).reqs b =
      if b ∈ (m.imps imp).imp_sending_list ++ (m.imps imp).imp_delayed_list ∧
          old_generation m imp b = true
      then mark_aborted (m.reqs b) else m.reqs b) ∧
    (abort_inflight_loop imp (abort_inflight_loop imp m (m.imps imp).imp_sending_list)
        (m.imps imp).imp_delayed_list).wake_log =
      m.wake_log ++ ((m.imps imp).imp_sending_list ++ (m.imps imp).imp_delayed_list).filter
        (old_generation m imp) := by
  obtain ⟨a1, a2, a3, a4⟩ := abort_inflight_loop_spec imp (m.imps imp).imp_sending_list m
  obtain ⟨b1, b2, b3, b4⟩ := abort_inflight_loop_spec imp (m.imps imp).imp_delayed_list
    (abort_inflight_loop imp m (m.imps imp).imp_sending_list)
  have hgen : ∀ b, old_generation (abort_inflight_loop imp m (m.imps imp).imp_sending_list) imp b =
      old_generation m imp b := by
    intro b
    unfold old_generation
    rw [a1, a3 b]
    split <;> rfl
  refine ⟨b1.trans a1, b2.trans a2, ?_, ?_⟩
  · intro b
    rw [b3 b, hgen b, a3 b]
    simp only [List.mem_append]
    by_cases hold : old_generation m imp b = true
    · by_cases hs : b ∈ (m.imps imp).imp_sending_list
      · by_cases hd : b ∈ (m.imps imp).imp_delayed_list
        · simp [hold, hs, hd, mark_aborted_idem]
        · simp [hold, hs, hd]
      · by_cases hd : b ∈ (m.imps imp).imp_delayed_list
        · simp [hold, hs, hd]
        · simp [hold, hs, hd]
    · simp [hold]
  · rw [b4, a4, List.filter_append, List.append_assoc]
    congr 2
    exact List.filter_congr (fun b _ => hgen b)

/-- Import 0 of generation 2 with requests 1 and 2 on its sending list and
request 3 on its delayed list; requests 1 and 3 are of generation 1, request 2
is of the current generation. -/
def mem_inflight : Mem :=
  { reqs := fun a =>
      if a = 1 then
        { rq_phase := RQ_PHASE_RPC, rq_import_generation := 1, rq_import := some 0,
          rq_list := some (.imp_sending_list 0) }
      else if a = 2 then
        { rq_phase := RQ_PHASE_RPC, rq_import_generation := 2, rq_import := some 0,
          rq_list := some (.imp_sending_list 0) }
      else if a = 3 then
        { rq_phase := RQ_PHASE_RPC, rq_import_generation := 1, rq_import := some 0,
          rq_waiting := true, rq_list := some (.imp_delayed_list 0) }
      else {}
    imps := fun _ =>
      { imp_state := LUSTRE_IMP_DISCON, imp_generation := 2, imp_replayable := true,
        imp_sending_list := [1, 2], imp_delayed_list := [3] } }

/-- C20 as stated fails: request 2 is on the sending list of the import, and
after `ptlrpc_abort_inflight` it carries neither the error flag nor the status
`-EINTR` and was not woken, because it is of the current import generation. -/
theorem abort_inflight_current_generation_counterexample :
    2 ∈ (mem_inflight.imps 0).imp_sending_list ∧
    (ptlrpc_abort_inflight mem_inflight 0).map
        (fun m => ((m.reqs 2).rq_err, (m.reqs 2).rq_status, m.wake_log)) =
      some (false, 0, [1, 3]) := by
  decide

/-- C20 (amended): `ptlrpc_abort_inflight` marks exactly the requests on the
sending and delayed lists of the import whose import generation is older than
the generation of the import: each gets the error flag and the status `-EINTR`
and is woken (in list order, sending list first), and every other request keeps
its error flag and status.  It changes neither list, and no request that is
linked on one of them through `rq_list` is unlinked or freed.  The call
returns when the import is not replayable, or its replay list holds no request
twice and each request on it has a non-zero transno and a reference besides the
one of the list. -/
theorem abort_inflight_marks_old_generation (m : Mem) (imp : Nat)
    (ht : replay_nodes_typed m) :
    (((m.imps imp).imp_replayable = false ∨
        ((m.imps imp).imp_replay_list.Nodup ∧
          ∀ b ∈ (m.imps imp).imp_replay_list,
            (m.reqs b).rq_transno ≠ 0 ∧ (m.reqs b).rq_refcount ≠ 1)) →
      ∃ m', ptlrpc_abort_inflight m imp = some m') ∧
    ∀ m', ptlrpc_abort_inflight m imp = some m' →
      (∀ a ∈ (m.imps imp).imp_sending_list ++ (m.imps imp).imp_delayed_list,
        (m.reqs a).rq_import_generation < (m.imps imp).imp_generation →
        (m'.reqs a).rq_err = true ∧ (m'.reqs a).rq_status = - EINTR ∧ a ∈ m'.wake_log) ∧
      (∀ a, ¬ (a ∈ (m.imps imp).imp_sending_list ++ (m.imps imp).imp_delayed_list ∧
          (m.reqs a).rq_import_generation < (m.imps imp).imp_generation) →
        (m'.reqs a).rq_err = (m.reqs a).rq_err ∧ (m'.reqs a).rq_status = (m.reqs a).rq_status) ∧
      m'.wake_log = m.wake_log ++
        ((m.imps imp).imp_sending_list ++ (m.imps imp).imp_delayed_list).filter
          (old_generation m imp) ∧
      (m'.imps imp).imp_sending_list = (m.imps imp).imp_sending_list ∧
      (m'.imps imp).imp_delayed_list = (m.imps imp).imp_delayed_list ∧
      (∀ a ∈ (m.imps imp).imp_sending_list ++ (m.imps imp).imp_delayed_list,
        (m.reqs a).rq_list ≠ none →
        (m'.reqs a).rq_list = (m.reqs a).rq_list ∧ (a ∈ m'.freed → a ∈ m.freed)) := by
  obtain ⟨a1, a2, a3, a4⟩ := abort_inflight_marks m imp
  have hdl : ((abort_inflight_loop imp m (m.imps imp).imp_sending_list).imps imp).imp_delayed_list
      = (m.imps imp).imp_delayed_list := by
    rw [(abort_inflight_loop_spec imp (m.imps imp).imp_sending_list m).1]
  generalize hm2 : abort_inflight_loop imp (abort_inflight_loop imp m (m.imps imp).imp_sending_list)
      (m.imps imp).imp_delayed_list = m2 at a1 a2 a3 a4
  have hfield : ∀ b, (m2.reqs b).rq_transno = (m.reqs b).rq_transno ∧
      (m2.reqs b).rq_refcount = (m.reqs b).rq_refcount ∧
      (m2.reqs b).rq_list = (m.reqs b).rq_list ∧
      (m2.reqs b).rq_replay_list = (m.reqs b).rq_replay_list := by
    intro b
    rw [a3 b]
    split
    · exact ⟨rfl, rfl, rfl, rfl⟩
    · exact ⟨rfl, rfl, rfl, rfl⟩
  have ht2 : replay_nodes_typed m2 := by
    intro b
    rw [(hfield b).2.2.2]
    exact ht b
  have hunf : ptlrpc_abort_inflight m imp =
      if (m2.imps imp).imp_replayable = true then ptlrpc_free_committed m2 imp else some m2 := by
    unfold ptlrpc_abort_inflight
    simp only []
    rw [hdl, hm2]
  have hpost : ∀ m', abort_frame m2 m' →
      (∀ a ∈ (m.imps imp).imp_sending_list ++ (m.imps imp).imp_delayed_list,
        (m.reqs a).rq_import_generation < (m.imps imp).imp_generation →
        (m'.reqs a).rq_err = true ∧ (m'.reqs a).rq_status = - EINTR ∧ a ∈ m'.wake_log) ∧
      (∀ a, ¬ (a ∈ (m.imps imp).imp_sending_list ++ (m.imps imp).imp_delayed_list ∧
          (m.reqs a).rq_import_generation < (m.imps imp).imp_generation) →
        (m'.reqs a).rq_err = (m.reqs a).rq_err ∧ (m'.reqs a).rq_status = (m.reqs a).rq_status) ∧
      m'.wake_log = m.wake_log ++
        ((m.imps imp).imp_sending_list ++ (m.imps imp).imp_delayed_list).filter
          (old_generation m imp) ∧
      (m'.imps imp).imp_sending_list = (m.imps imp).imp_sending_list ∧
      (m'.imps imp).imp_delayed_list = (m.imps imp).imp_delayed_list ∧
      (∀ a ∈ (m.imps imp).imp_sending_list ++ (m.imps imp).imp_delayed_list,
        (m.reqs a).rq_list ≠ none →
        (m'.reqs a).rq_list = (m.reqs a).rq_list ∧ (a ∈ m'.freed → a ∈ m.freed)) := by
    intro m' hf
    obtain ⟨f1, f2, f3, f4⟩ := hf
    refine ⟨?_, ?_, f2.trans a4, ?_, ?_, ?_⟩
    · intro a ha hold
      have hold' : old_generation m imp a = true := by
        unfold old_generation
        exact decide_eq_true hold
      have hr : m2.reqs a = mark_aborted (m.reqs a) := by
        rw [a3 a, if_pos ⟨ha, hold'⟩]
      refine ⟨?_, ?_, ?_⟩
      · rw [(f1 a).1, hr]; rfl
      · rw [(f1 a).2.1, hr]; rfl
      · rw [f2, a4]
        exact List.mem_append_right _ (List.mem_filter.mpr ⟨ha, hold'⟩)
    · intro a hna
      have hr : m2.reqs a = m.reqs a := by
        rw [a3 a, if_neg]
        rintro ⟨ha, hold⟩
        exact hna ⟨ha, by simpa [old_generation] using hold⟩
      rw [(f1 a).1, (f1 a).2.1, hr]
      exact ⟨rfl, rfl⟩
    · rw [(f4 imp).1, a1]
    · rw [(f4 imp).2, a1]
    · intro a _ hl
      have hl2 : (m2.reqs a).rq_list ≠ none := by rw [(hfield a).2.2.1]; exact hl
      refine ⟨?_, ?_⟩
      · rw [(f1 a).2.2.2.1 hl2, (hfield a).2.2.1]
      · intro hfr
        have := f3 a hl2 hfr
        rw [a2] at this
        exact this
  constructor
  · intro hcond
    rw [hunf]
    by_cases hrep : (m2.imps imp).imp_replayable = true
    · rw [if_pos hrep]
      rcases hcond with hc | ⟨hnd, hreq⟩
      · rw [a1, hc] at hrep
        exact absurd hrep (by decide)
      · apply free_committed_returns m2 imp
        · rw [a1]; exact hnd
        · intro b hb
          rw [a1] at hb
          rw [(hfield b).1, (hfield b).2.1]
          exact hreq b hb
    · rw [if_neg hrep]
      exact ⟨m2, rfl⟩
  · intro m' h
    rw [hunf] at h
    apply hpost m'
    split at h
    · exact free_committed_marks m2 imp m' ht2 h
    · cases h
      exact abort_frame_refl m2

theorem mem_inflight_typed : replay_nodes_typed mem_inflight := by
  intro b
  left
  unfold mem_inflight
  simp only []
  split
  · rfl
  · split
    · rfl
    · split <;> rfl

/-- C20 witness: requests 1 and 3 (generation 1) are marked and woken, the
lists are unchanged. -/
theorem abort_inflight_marks_old_generation_witness :
    (ptlrpc_abort_inflight mem_inflight 0).map
        (fun m => ((m.reqs 1).rq_err, (m.reqs 1).rq_status, (m.reqs 3).rq_err,
          (m.reqs 3).rq_status)) = some (true, -4, true, -4) ∧
    (ptlrpc_abort_inflight mem_inflight 0).map
        (fun m => (m.wake_log, (m.imps 0).imp_sending_list, (m.imps 0).imp_delayed_list,
          m.freed)) = some ([1, 3], [1, 2], [3], []) ∧
    ((ptlrpc_abort_inflight mem_inflight 0).getD {}).wake_log =
      mem_inflight.wake_log ++
        ((mem_inflight.imps 0).imp_sending_list ++ (mem_inflight.imps 0).imp_delayed_list).filter
          (old_generation mem_inflight 0) :=
  ⟨by decide, by decide,
   ((abort_inflight_marks_old_generation mem_inflight 0 mem_inflight_typed).2
      ((ptlrpc_abort_inflight mem_inflight 0).getD {}) (eq_some_getD _ _ (by decide))).2.2.1⟩

/-! ## C21: a failed bulk transfer in `ptlrpc_check_set` -/

/-- Set 0 with the one member 1 in phase `BULK` after a good reply (status 0):
its bulk transfer is no longer active on the network and has not succeeded. -/
def mem_bulk_failed : Mem :=
  { now := 10
    reqs := fun a =>
      if a = 1 then
        { rq_phase := RQ_PHASE_BULK, rq_sent := 5, rq_timeout := 100, rq_deadline := 105,
          rq_replied := true, rq_import := some 0, rq_set := some 0,
          rq_set_chain := some (.set_requests 0), rq_list := some (.imp_sending_list 0),
          rq_bulk := some { bd_success := false, bd_network_rw := false } }
      else {}
    imps := fun _ => { imp_state := LUSTRE_IMP_FULL, imp_sending_list := [1], imp_inflight := 1 }
    sets := fun _ => { set_requests := [1], set_remaining := 1 } }

/-- C21 as stated fails: for the member of `mem_bulk_failed` the pass of
`ptlrpc_check_set` does not end with a terminal status: it runs into the
`LBUG()` of the bulk check. -/
theorem check_set_bulk_failure_counterexample :
    (mem_bulk_failed.reqs 1).rq_phase = RQ_PHASE_BULK ∧
    collab_plain.ptlrpc_client_bulk_active mem_bulk_failed.now (mem_bulk_failed.reqs 1) = false ∧
    (mem_bulk_failed.reqs 1).rq_bulk.map (fun d => d.bd_success) = some false ∧
    (ptlrpc_check_set collab_plain mem_bulk_failed 0).isNone = true := by
  decide

/-- C21 (amended): when the loop body of `ptlrpc_check_set` finds a member in
phase `BULK` (without error flags, and not interrupted after a timeout) whose
bulk transfer is no longer active and has not succeeded, it runs into `LBUG()`:
the body does not return, so the request gets no terminal status and is not
resent; a pass over a set with remaining members whose first member is such a
request does not return either. -/
theorem check_set_bulk_failure_is_lbug (c : Collab) (m : Mem) (a set : Nat)
    (desc : ptlrpc_bulk_desc)
    (hphase : (m.reqs a).rq_phase = RQ_PHASE_BULK)
    (hnet : (m.reqs a).rq_net_err = false ∨ (m.reqs a).rq_timedout = true)
    (herr : (m.reqs a).rq_err = false)
    (hintr : (m.reqs a).rq_intr = false ∨
      ((m.reqs a).rq_timedout = false ∧ (m.reqs a).rq_waiting = false ∧
        (m.reqs a).rq_wait_ctx = false))
    (hactive : c.ptlrpc_client_bulk_active m.now (m.reqs a) = false)
    (hbulk : (m.reqs a).rq_bulk = some desc)
    (hfail : desc.bd_success = false) :
    check_set_bulk c m a false false = none ∧
    check_set_one c set m a = none ∧
    (∀ rest, (m.sets set).set_requests = a :: rest → (m.sets set).set_remaining ≠ 0 →
      ptlrpc_check_set c m set = none) := by
  have hb : ∀ f u, check_set_bulk c m a f u = none := by
    intro f u
    unfold check_set_bulk
    rw [if_neg (not_not.mpr hphase), if_neg (by rw [hactive]; decide), hbulk]
    simp only []
    rw [if_pos hfail]
  have herrors : check_set_errors c m a false = some (.bulk m false) := by
    unfold check_set_errors
    rw [if_neg, if_neg (by rw [herr]; decide), if_neg]
    · rintro ⟨hi, ht⟩
      rcases hintr with h | ⟨h1, h2, h3⟩
      · rw [h] at hi; exact Bool.false_ne_true hi
      · rw [h1, h2, h3] at ht
        simp at ht
    · rintro ⟨hn, ht⟩
      rcases hnet with h | h
      · rw [h] at hn; exact Bool.false_ne_true hn
      · rw [h] at ht; exact Bool.false_ne_true ht.symm
  have hphases : check_set_phases c m a false = some (.bulk m false) := by
    unfold check_set_phases
    rw [if_neg (by rw [hphase]; simp), if_neg (by rw [hphase]; simp),
      if_neg (by rw [hphase]; simp), if_neg (by rw [hphase]; simp),
      if_neg (by rw [hphase]; simp)]
  have hbody : check_set_body c m a = none := by
    unfold check_set_body
    simp only []
    rw [if_neg (by rw [hphase]; simp)]
    simp only []
    rw [hphases]
    simp only []
    rw [herrors]
    simp only []
    rw [if_neg (by rw [hphase]; simp)]
    exact hb false false
  have hone : check_set_one c set m a = none := by
    unfold check_set_one
    rw [hbody]
  refine ⟨hb false false, hone, ?_⟩
  intro rest hl hrem
  unfold ptlrpc_check_set
  rw [if_neg hrem, hl]
  unfold check_set_loop
  rw [hone]

/-- C21 witness: the member of `mem_bulk_failed`. -/
theorem check_set_bulk_failure_is_lbug_witness :
    check_set_one collab_plain 0 mem_bulk_failed 1 = none ∧
    ptlrpc_check_set collab_plain mem_bulk_failed 0 = none :=
  ⟨(check_set_bulk_failure_is_lbug collab_plain mem_bulk_failed 1 0
      { bd_success := false, bd_network_rw := false } (by decide) (Or.inl (by decide))
      (by decide) (Or.inl (by decide)) (by decide) (by decide) (by decide)).2.1,
   (check_set_bulk_failure_is_lbug collab_plain mem_bulk_failed 1 0
      { bd_success := false, bd_network_rw := false } (by decide) (Or.inl (by decide))
      (by decide) (Or.inl (by decide)) (by decide) (by decide) (by decide)).2.2 [] (by decide)
      (by decide)⟩

/-! ## C22: a truncated reply in `after_reply` -/

/-- Request 1 on import 0 whose reply was truncated: 4096 bytes arrived for a
buffer of 1024 bytes; resending is allowed. -/
def mem_truncated : Mem :=
  { now := 10
    reqs := fun a =>
      if a = 1 then
        { rq_phase := RQ_PHASE_RPC, rq_sent := 5, rq_timeout := 100, rq_deadline := 105,
          rq_replied := true, rq_reply_truncate := true, rq_replen := 1024,
          rq_repbuf_len := 1024, rq_nob_received := 4096, rq_repbuf := true, rq_import := some 0 }
      else {}
    imps := fun _ => { imp_state := LUSTRE_IMP_FULL } }

/-- C22 as stated fails: for the truncated reply of `mem_truncated`,
`after_reply` returns 0 and flags the request for resend with a reply buffer of
the size that arrived. -/
theorem after_reply_truncated_counterexample :
    (mem_truncated.reqs 1).rq_reply_truncate = true ∧
    (after_reply collab_plain mem_truncated 1).map
        (fun r => (r.2, (r.1.reqs 1).rq_resend, (r.1.reqs 1).rq_replen)) =
      some (0, true, 4096) := by
  decide

/-- C22 (amended): for a request whose reply was truncated (with an import, and
its reply buffer unlinked), `after_reply` returns `-EOVERFLOW` without touching
the resend flag when the request may not be resent (`ptlrpc_no_resend`), and
otherwise returns 0 after it has freed the reply buffer, asked for a buffer of
the received size and flagged the request for resend. -/
theorem after_reply_truncated (c : Collab) (m : Mem) (a imp : Nat)
    (himp : (m.reqs a).rq_import = some imp)
    (hrecv : (m.reqs a).rq_receiving_reply = false)
    (hunlink : (m.reqs a).rq_must_unlink = false)
    (htrunc : (m.reqs a).rq_reply_truncate = true) :
    ((c.ptlrpc_no_resend m.now (m.reqs a)).2 = true →
      after_reply c m a =
        some (m.modReq a (fun _ => (c.ptlrpc_no_resend m.now (m.reqs a)).1), - EOVERFLOW)) ∧
    ((c.ptlrpc_no_resend m.now (m.reqs a)).2 = false →
      ∃ m', after_reply c m a = some (m', 0) ∧
        (m'.reqs a).rq_resend = true ∧
        (m'.reqs a).rq_replen = (c.ptlrpc_no_resend m.now (m.reqs a)).1.rq_nob_received ∧
        (m'.reqs a).rq_nob_received = 0 ∧ (m'.reqs a).rq_repbuf = false) := by
  have hpre : ¬ ((m.reqs a).rq_receiving_reply = true ∨ (m.reqs a).rq_must_unlink = true) := by
    rw [hrecv, hunlink]
    simp
  constructor
  · intro hno
    unfold after_reply
    rw [himp]
    simp only []
    rw [if_neg hpre, if_pos htrunc, if_pos hno]
  · intro hno
    unfold after_reply
    rw [himp]
    simp only []
    rw [if_neg hpre, if_pos htrunc, if_neg (by rw [hno]; decide)]
    refine ⟨_, rfl, ?_, ?_, ?_, ?_⟩
    · rw [modReq_reqs, if_pos rfl]; rfl
    · rw [modReq_reqs, if_pos rfl]; rfl
    · rw [modReq_reqs, if_pos rfl]; rfl
    · rw [modReq_reqs, if_pos rfl]; rfl

/-- C22 witness: the truncated reply of `mem_truncated` is retried with a
buffer of 4096 bytes. -/
theorem after_reply_truncated_witness :
    ∃ m', after_reply collab_plain mem_truncated 1 = some (m', 0) ∧
      (m'.reqs 1).rq_resend = true ∧
      (m'.reqs 1).rq_replen =
        (collab_plain.ptlrpc_no_resend mem_truncated.now (mem_truncated.reqs 1)).1.rq_nob_received ∧
      (m'.reqs 1).rq_nob_received = 0 ∧ (m'.reqs 1).rq_repbuf = false :=
  (after_reply_truncated collab_plain mem_truncated 1 0 (by decide) (by decide) (by decide)
    (by decide)).2 (by decide)

/-! ## C23: the lists of a request at its release -/

/-- Request 1 with its last reference, linked on the replay list of import 0
(and on no other list). -/
def mem_last_ref_on_replay : Mem :=
  { reqs := fun a =>
      if a = 1 then
        { rq_phase := RQ_PHASE_COMPLETE, rq_transno := 5, rq_refcount := 1, rq_import := some 0,
          rq_replay_list := some (.imp_replay_list 0) }
      else {}
    imps := fun _ => { imp_state := LUSTRE_IMP_FULL, imp_replayable := true, imp_replay_list := [1] } }

/-- C23 as stated fails: dropping the last reference of request 1 of
`mem_last_ref_on_replay` releases it (return value 1) although it is linked on
the replay list at that moment; the release itself takes it off that list. -/
theorem req_finished_unlinks_replay_counterexample :
    (mem_last_ref_on_replay.reqs 1).rq_replay_list = some (.imp_replay_list 0) ∧
    (mem_last_ref_on_replay.imps 0).imp_replay_list = [1] ∧
    (__ptlrpc_req_finished mem_last_ref_on_replay 1).map
        (fun r => (r.2, (r.1.imps 0).imp_replay_list, r.1.replay_unlink_log, r.1.freed)) =
      some (1, [], [1], [1]) := by
  decide

theorem free_req_release_replay_node (m : Mem) (a : Nat) (m' : Mem)
    (h : free_req_release m a = some m') :
    (m.reqs a).rq_replay_list = none ∧ (m'.reqs a).rq_replay_list = none ∧
    m'.replay_unlink_log = m.replay_unlink_log := by
  unfold free_req_release at h
  split at h
  · cases h
  · rename_i hnode
    have hnode' : (m.reqs a).rq_replay_list = none := not_not.mp hnode
    repeat' split at h
    all_goals try contradiction
    · unfold __ptlrpc_free_req_to_pool at h
      repeat' split at h
      all_goals try contradiction
      cases h
      refine ⟨hnode', ?_, rfl⟩
      simp [add_tail_rq_list, Mem.set_list, link_rq_list, release_buffers, hnode']
    · cases h
      refine ⟨hnode', ?_, rfl⟩
      simp [Mem.log_freed, release_buffers, hnode']

/-- What `__ptlrpc_free_req` requires of the lists of the request and what it
does to them: the nodes `rq_list` and `rq_set_chain` must be empty, and the
request is taken off the replay list when it has an import. -/
theorem free_req_lists (m : Mem) (a : Nat) (m' : Mem) (h : __ptlrpc_free_req m a = some m') :
    (m.reqs a).rq_list = none ∧ (m.reqs a).rq_set_chain = none ∧
    (m'.reqs a).rq_replay_list = none ∧
    ((m.reqs a).rq_replay_list ≠ none →
      (m.reqs a).rq_import ≠ none ∧ m'.replay_unlink_log = m.replay_unlink_log ++ [a]) := by
  unfold __ptlrpc_free_req at h
  split at h
  · cases h
  split at h
  · cases h
  rename_i hl
  split at h
  · cases h
  rename_i hc
  split at h
  · cases h
  split at h
  · cases h
  split at h
  · rename_i himp
    obtain ⟨_, r2, r3⟩ := free_req_release_replay_node _ a m' h
    refine ⟨not_not.mp hl, not_not.mp hc, r2, ?_⟩
    intro hnode
    refine ⟨himp, ?_⟩
    rw [r3, (del_init_rq_replay_list_frame m a 0).2.2.2.2.2.2.2, if_neg hnode]
  · obtain ⟨r1, r2, _⟩ := free_req_release_replay_node _ a m' h
    refine ⟨not_not.mp hl, not_not.mp hc, r2, ?_⟩
    intro hnode
    exact absurd r1 hnode

/-- C23 (amended): when `__ptlrpc_req_finished` returns, it has released the
request (return value 1) exactly when the reference dropped was the last one,
and then the request was at that moment on no sending, delayed or pool list
(`rq_list`) and on no set list (`rq_set_chain`): both are preconditions of the
release, a linked node trips an assertion.  The replay list is different: the
release itself takes a request that has an import off the replay list, and
asserts that the node is empty afterwards. -/
theorem req_finished_release_lists (m : Mem) (a : Nat) :
    (∀ m' rc, __ptlrpc_req_finished m a = some (m', rc) →
      (rc = 1 ↔ (m.reqs a).rq_refcount = 1) ∧ (rc = 0 ∨ rc = 1) ∧
      (rc = 1 →
        (m.reqs a).rq_list = none ∧ (m.reqs a).rq_set_chain = none ∧
        (m'.reqs a).rq_replay_list = none ∧
        ((m.reqs a).rq_replay_list ≠ none →
          (m.reqs a).rq_import ≠ none ∧ m'.replay_unlink_log = m.replay_unlink_log ++ [a]))) ∧
    ((m.reqs a).rq_refcount = 1 →
      ((m.reqs a).rq_list ≠ none ∨ (m.reqs a).rq_set_chain ≠ none ∨
        ((m.reqs a).rq_replay_list ≠ none ∧ (m.reqs a).rq_import = none)) →
      __ptlrpc_req_finished m a = none) := by
  have hfield : ((m.modReq a (add_refcount (-1))).reqs a).rq_list = (m.reqs a).rq_list ∧
      ((m.modReq a (add_refcount (-1))).reqs a).rq_set_chain = (m.reqs a).rq_set_chain ∧
      ((m.modReq a (add_refcount (-1))).reqs a).rq_replay_list = (m.reqs a).rq_replay_list ∧
      ((m.modReq a (add_refcount (-1))).reqs a).rq_import = (m.reqs a).rq_import ∧
      ((m.modReq a (add_refcount (-1))).reqs a).rq_refcount = (m.reqs a).rq_refcount - 1 := by
    rw [modReq_reqs, if_pos rfl]
    exact ⟨rfl, rfl, rfl, rfl, rfl⟩
  obtain ⟨f1, f2, f3, f4, f5⟩ := hfield
  constructor
  · intro m' rc h
    unfold __ptlrpc_req_finished at h
    simp only [] at h
    split at h
    · rename_i h0
      rw [Option.map_eq_some'] at h
      obtain ⟨m2, hm2, heq⟩ := h
      cases heq
      have hone : (m.reqs a).rq_refcount = 1 := by
        rw [f5] at h0
        omega
      obtain ⟨l1, l2, l3, l4⟩ := free_req_lists _ a _ hm2
      rw [f1] at l1
      rw [f2] at l2
      rw [f3, f4] at l4
      exact ⟨⟨fun _ => hone, fun _ => rfl⟩, Or.inr rfl, fun _ => ⟨l1, l2, l3, l4⟩⟩
    · rename_i h0
      cases h
      have hne : (m.reqs a).rq_refcount ≠ 1 := by
        rw [f5] at h0
        omega
      exact ⟨⟨fun h => absurd h (by decide), fun h => absurd h hne⟩, Or.inl rfl,
        fun h => absurd h (by decide)⟩
  · intro hone hlinked
    cases hres : __ptlrpc_req_finished m a with
    | none => rfl
    | some r =>
      exfalso
      unfold __ptlrpc_req_finished at hres
      simp only [] at hres
      rw [if_pos (by rw [f5, hone]; rfl), Option.map_eq_some'] at hres
      obtain ⟨m2, hm2, _⟩ := hres
      obtain ⟨l1, l2, _, l4⟩ := free_req_lists _ a m2 hm2
      rw [f1] at l1
      rw [f2] at l2
      rw [f3, f4] at l4
      rcases hlinked with h | h | ⟨h, hi⟩
      · exact h l1
      · exact h l2
      · exact (l4 h).1 hi

/-- A request with its last reference that is still linked on the sending list
of import 0. -/
def mem_last_ref_on_sending : Mem :=
  { reqs := fun a =>
      if a = 1 then
        { rq_phase := RQ_PHASE_RPC, rq_refcount := 1, rq_import := some 0,
          rq_list := some (.imp_sending_list 0) }
      else {}
    imps := fun _ => { imp_state := LUSTRE_IMP_FULL, imp_sending_list := [1] } }

/-- C23 witness: dropping the last reference of a request on the sending list
trips the assertion; for the request on the replay list the release unlinks
it. -/
theorem req_finished_release_lists_witness :
    __ptlrpc_req_finished mem_last_ref_on_sending 1 = none ∧
    (((__ptlrpc_req_finished mem_last_ref_on_replay 1).getD ({}, 0)).1.reqs 1).rq_replay_list =
      none :=
  ⟨(req_finished_release_lists mem_last_ref_on_sending 1).2 (by decide) (Or.inl (by decide)),
   (((req_finished_release_lists mem_last_ref_on_replay 1).1 _ 1
      ((eq_some_getD (__ptlrpc_req_finished mem_last_ref_on_replay 1) ({}, 0) (by decide)).trans
        (congrArg some (Prod.ext rfl (by decide))))).2.2 rfl).2.2.1⟩

/-! ## C24: the pages of a bulk descriptor -/

/-- One call of `ptlrpc_prep_bulk_page`: the page (`none` for NULL), the offset
and the length. -/
structure bulk_page_call where
  page : Option Nat := some 0
  pageoffset : Int := 0
  len : Int := 0

/-- A sequence of calls of `ptlrpc_prep_bulk_page` on one descriptor, each of
them accepted; `none` when a call trips an assertion. -/
def prep_bulk_pages (page_size : Int) : ptlrpc_bulk_desc → List bulk_page_call →
    Option ptlrpc_bulk_desc
  | desc, [] => some desc
  | desc, call :: rest =>
    match ptlrpc_prep_bulk_page page_size desc call.page call.pageoffset call.len with
    | none => none
    | some desc1 => prep_bulk_pages page_size desc1 rest

/-- When the sum of offset and length is representable as an `int`, a call of
`ptlrpc_prep_bulk_page` trips an assertion exactly when the descriptor is full,
the page is NULL, the offset is negative, the length is not positive, or offset
plus length exceeds the page size. -/
theorem prep_bulk_page_rejects (page_size : Int) (desc : ptlrpc_bulk_desc) (page : Option Nat)
    (pageoffset len : Int) (h1 : -2147483648 ≤ pageoffset + len)
    (h2 : pageoffset + len < 2147483648) :
    ptlrpc_prep_bulk_page page_size desc page pageoffset len = none ↔
      (desc.bd_max_iov ≤ desc.bd_iov_count ∨ page = none ∨ pageoffset < 0 ∨ len ≤ 0 ∨
        page_size < pageoffset + len) := by
  unfold ptlrpc_prep_bulk_page
  rw [wrap32_id _ h1 h2]
  constructor
  · intro h
    by_contra hc
    push_neg at hc
    obtain ⟨c1, c2, c3, c4, c5⟩ := hc
    rw [if_neg (by omega), if_neg c2, if_neg (by omega), if_neg (by omega),
      if_neg (by omega)] at h
    cases h
  · intro h
    by_cases c1 : ¬ desc.bd_iov_count < desc.bd_max_iov
    · rw [if_pos c1]
    · rw [if_neg c1]
      by_cases c2 : page = none
      · rw [if_pos c2]
      · rw [if_neg c2]
        by_cases c3 : ¬ pageoffset ≥ 0
        · rw [if_pos c3]
        · rw [if_neg c3]
          by_cases c4 : ¬ len > 0
          · rw [if_pos c4]
          · rw [if_neg c4]
            by_cases c5 : ¬ pageoffset + len ≤ page_size
            · rw [if_pos c5]
            · exfalso
              rcases h with h | h | h | h | h
              · omega
              · exact c2 h
              · omega
              · omega
              · omega

theorem prep_bulk_page_accepts (page_size : Int) (desc desc1 : ptlrpc_bulk_desc)
    (page : Option Nat) (pageoffset len : Int)
    (h : ptlrpc_prep_bulk_page page_size desc page pageoffset len = some desc1) :
    desc.bd_iov_count < desc.bd_max_iov ∧ 0 ≤ pageoffset ∧ 0 < len ∧
    wrap32 (pageoffset + len) ≤ page_size ∧
    desc1.bd_iov_count = desc.bd_iov_count + 1 ∧ desc1.bd_max_iov = desc.bd_max_iov ∧
    desc1.bd_nob = wrap32 (desc.bd_nob + len) ∧
    desc1.bd_iov = desc.bd_iov ++ [(pageoffset, len)] := by
  unfold ptlrpc_prep_bulk_page at h
  repeat' split at h
  all_goals try contradiction
  cases h
  rename_i c1 _ c3 c4 c5
  refine ⟨not_not.mp c1, not_not.mp c3, not_not.mp c4, not_not.mp c5, rfl, rfl, rfl, rfl⟩

/-- The state of a descriptor after a sequence of accepted calls, in terms of
its state before: the page count grows by the number of calls and stays within
the capacity, and the byte count grows by the sum of the lengths. -/
theorem prep_bulk_pages_spec (page_size : Int) (calls : List bulk_page_call) :
    ∀ (desc desc1 : ptlrpc_bulk_desc),
      (∀ call ∈ calls, call.pageoffset + call.len < 2147483648) →
      0 ≤ desc.bd_nob → desc.bd_nob ≤ desc.bd_iov_count * page_size →
      0 ≤ desc.bd_iov_count → desc.bd_iov_count ≤ desc.bd_max_iov → 0 ≤ page_size →
      desc.bd_max_iov * page_size < 2147483648 →
      prep_bulk_pages page_size desc calls = some desc1 →
      desc1.bd_iov_count = desc.bd_iov_count + calls.length ∧
      desc1.bd_iov_count ≤ desc.bd_max_iov ∧
      desc1.bd_max_iov = desc.bd_max_iov ∧
      desc1.bd_nob = desc.bd_nob + (calls.map (fun call => call.len)).sum ∧
      desc1.bd_iov = desc.bd_iov ++ calls.map (fun call => (call.pageoffset, call.len)) := by
  induction calls with
  | nil =>
    intro desc desc1 _ h0 h1 h2 hle h3 h4 h
    cases h
    exact ⟨by simp, hle, rfl, by simp, by simp⟩
  | cons call rest ih =>
    intro desc desc1 hr h0 h1 h2 _ h3 h4 h
    unfold prep_bulk_pages at h
    split at h
    · cases h
    · rename_i d1 hd1
      obtain ⟨a1, a2, a3, a4, a5, a6, a7, a8⟩ := prep_bulk_page_accepts _ _ _ _ _ _ hd1
      have hsum : call.pageoffset + call.len < 2147483648 := hr call (List.mem_cons_self _ _)
      rw [wrap32_id _ (by omega) hsum] at a4
      have hlen : call.len ≤ page_size := by omega
      have hcap : (desc.bd_iov_count + 1) * page_size ≤ desc.bd_max_iov * page_size :=
        Int.mul_le_mul_of_nonneg_right (by omega) h3
      have hnob : desc.bd_nob + call.len ≤ (desc.bd_iov_count + 1) * page_size := by
        rw [Int.add_mul, Int.one_mul]
        omega
      rw [wrap32_id _ (by omega) (by omega)] at a7
      obtain ⟨i1, i2, i3, i4, i5⟩ := ih d1 desc1
        (fun c hc => hr c (List.mem_cons_of_mem _ hc))
        (by rw [a7]; omega) (by rw [a7, a5]; exact hnob) (by rw [a5]; omega)
        (by rw [a5, a6]; omega) h3
        (by rw [a6]; exact h4) h
      refine ⟨?_, ?_, ?_, ?_, ?_⟩
      · rw [i1, a5]
        simp only [List.length_cons, Nat.cast_add, Nat.cast_one]
        omega
      · rw [← a6]; exact i2
      · rw [i3, a6]
      · rw [i4, a7]
        simp only [List.map_cons, List.sum_cons]
        omega
      · rw [i5, a8]
        simp

theorem prep_bulk_page_rejects_iff (page_size : Int) (desc : ptlrpc_bulk_desc)
    (page : Option Nat) (pageoffset len : Int) (h2 : pageoffset + len < 2147483648) :
    ptlrpc_prep_bulk_page page_size desc page pageoffset len = none ↔
      (desc.bd_max_iov ≤ desc.bd_iov_count ∨ page = none ∨ pageoffset < 0 ∨ len ≤ 0 ∨
        page_size < pageoffset + len) := by
  by_cases h1 : -2147483648 ≤ pageoffset + len
  · exact prep_bulk_page_rejects page_size desc page pageoffset len h1 h2
  · have hneg : pageoffset < 0 ∨ len ≤ 0 := by omega
    constructor
    · intro _
      rcases hneg with h | h
      · exact Or.inr (Or.inr (Or.inl h))
      · exact Or.inr (Or.inr (Or.inr (Or.inl h)))
    · intro _
      unfold ptlrpc_prep_bulk_page
      by_cases c1 : ¬ desc.bd_iov_count < desc.bd_max_iov
      · rw [if_pos c1]
      · rw [if_neg c1]
        by_cases c2 : page = none
        · rw [if_pos c2]
        · rw [if_neg c2]
          by_cases c3 : ¬ pageoffset ≥ 0
          · rw [if_pos c3]
          · rw [if_neg c3, if_pos (by omega)]

theorem wrap32_wrap32_add (x y : Int) : wrap32 (wrap32 x + y) = wrap32 (x + y) := by
  unfold wrap32
  omega

/-- A sequence of `k` equal calls, each with a page, an offset that is not
negative, a positive length and offset plus length within the page, on a
descriptor with room for them: all are accepted, and the byte count is the
`int` the additions wrap to. -/
theorem prep_bulk_pages_replicate (page_size : Int) (call : bulk_page_call)
    (hpage : call.page ≠ none) (hoff : 0 ≤ call.pageoffset) (hlen : 0 < call.len)
    (hfit : wrap32 (call.pageoffset + call.len) ≤ page_size) (k : Nat) :
    ∀ desc : ptlrpc_bulk_desc, desc.bd_iov_count + k ≤ desc.bd_max_iov →
      wrap32 desc.bd_nob = desc.bd_nob →
      ∃ desc1, prep_bulk_pages page_size desc (List.replicate k call) = some desc1 ∧
        desc1.bd_nob = wrap32 (desc.bd_nob + k * call.len) ∧
        desc1.bd_iov_count = desc.bd_iov_count + k ∧
        desc1.bd_max_iov = desc.bd_max_iov := by
  induction k with
  | zero =>
    intro desc _ hnob
    refine ⟨desc, rfl, ?_, by simp, rfl⟩
    simp only [Nat.cast_zero, zero_mul, add_zero]
    exact hnob.symm
  | succ k ih =>
    intro desc hroom _
    have hone : ptlrpc_prep_bulk_page page_size desc call.page call.pageoffset call.len =
        some (ptlrpc_add_bulk_page (add_bd_nob call.len desc) call.pageoffset call.len) := by
      unfold ptlrpc_prep_bulk_page
      rw [if_neg (by push_cast at hroom; omega), if_neg hpage, if_neg (by omega),
        if_neg (by omega), if_neg (by omega)]
    obtain ⟨a1, a2, a3, a4, a5, a6, a7, a8⟩ := prep_bulk_page_accepts _ _ _ _ _ _ hone
    obtain ⟨d, hd, i1, i2, i3⟩ := ih
      (ptlrpc_add_bulk_page (add_bd_nob call.len desc) call.pageoffset call.len)
      (by rw [a5, a6]; push_cast at hroom ⊢; omega)
      (by rw [a7]; unfold wrap32; omega)
    refine ⟨d, ?_, ?_, ?_, ?_⟩
    · rw [List.replicate_succ]
      unfold prep_bulk_pages
      rw [hone]
      exact hd
    · rw [i1, a7]
      push_cast
      rw [wrap32_wrap32_add]
      congr 1
      ring
    · rw [i2, a5]
      push_cast
      ring
    · rw [i3, a6]

/-- C24 as stated fails once the `int` arithmetic of the code wraps.  A call
with offset 2147483647 and length 1 on a fresh descriptor is accepted although
offset plus length exceeds the page size of 4096: the sum wraps to -2^31, which
passes the assertion.  And 524288 accepted pages of 4096 bytes on a fresh
descriptor of that capacity leave the byte count at -2^31, not at the sum of
the lengths, 2^31. -/
theorem prep_bulk_page_overflow_counterexample :
    ((new_bulk true 1 0 0).bind
        (fun desc => ptlrpc_prep_bulk_page 4096 desc (some 0) 2147483647 1)).isSome = true ∧
    (4096 : Int) < 2147483647 + 1 ∧
    ((new_bulk true 524288 0 0).bind
        (fun desc => prep_bulk_pages 4096 desc
          (List.replicate 524288 { pageoffset := 0, len := 4096 }))).map
      (fun desc1 => (desc1.bd_nob, desc1.bd_iov_count)) = some (-2147483648, 524288) ∧
    (524288 : Int) * 4096 = 2147483648 := by
  refine ⟨by decide, by decide, ?_, by decide⟩
  obtain ⟨d, hd, h1, h2, _⟩ := prep_bulk_pages_replicate 4096
    { pageoffset := 0, len := 4096 } (by decide) (by decide) (by decide) (by decide) 524288
    { bd_max_iov := 524288, bd_iov_count := 0, bd_portal := 0, bd_type := 0 }
    (by decide) (by decide)
  have hnew : new_bulk true 524288 0 0 =
      some { bd_max_iov := 524288, bd_iov_count := 0, bd_portal := 0, bd_type := 0 } := rfl
  rw [hnew, Option.some_bind, hd, Option.map_some']
  have e1 : d.bd_nob = -2147483648 := by rw [h1]; decide
  have e2 : d.bd_iov_count = 524288 := by rw [h2]; decide
  rw [e1, e2]

/-- C24 (amended): for a descriptor freshly created by `new_bulk` with capacity
`n`, with `n` times the page size below 2^31, after any sequence of `k` accepted
`ptlrpc_prep_bulk_page` calls whose offset plus length stays below 2^31 the byte
count of the descriptor is the sum of the lengths, its page count is `k`, and
`k ≤ n`; a further call whose offset plus length stays below 2^31 trips an
assertion when the descriptor is already full, the length is not positive, the
offset is negative, or offset plus length exceeds the page size (or the page is
NULL), and is accepted otherwise. -/
theorem prep_bulk_page_count_and_bytes (page_size n : Int) (type : Nat) (portal : Int)
    (calls : List bulk_page_call) (desc desc1 : ptlrpc_bulk_desc)
    (hn : 0 ≤ n) (hsize : 0 ≤ page_size) (hcap : n * page_size < 2147483648)
    (hrange : ∀ call ∈ calls, call.pageoffset + call.len < 2147483648)
    (hnew : new_bulk true n type portal = some desc)
    (h : prep_bulk_pages page_size desc calls = some desc1) :
    desc1.bd_nob = (calls.map (fun call => call.len)).sum ∧
    desc1.bd_iov_count = calls.length ∧ (calls.length : Int) ≤ n ∧
    desc1.bd_iov = calls.map (fun call => (call.pageoffset, call.len)) ∧
    (∀ (page : Option Nat) (pageoffset len : Int),
      pageoffset + len < 2147483648 →
      (ptlrpc_prep_bulk_page page_size desc1 page pageoffset len = none ↔
        (n ≤ desc1.bd_iov_count ∨ page = none ∨ pageoffset < 0 ∨ len ≤ 0 ∨
          page_size < pageoffset + len))) := by
  unfold new_bulk at hnew
  simp only [if_true, Option.some.injEq] at hnew
  subst hnew
  obtain ⟨i1, i2, i3, i4, i5⟩ := prep_bulk_pages_spec page_size calls _ desc1 hrange
    (le_refl 0) (by simp) (le_refl 0) hn hsize hcap h
  simp only [zero_add, List.nil_append] at i1 i4 i5
  refine ⟨i4, i1, ?_, i5, ?_⟩
  · rw [← i1]; exact i2
  · intro page pageoffset len h2
    rw [prep_bulk_page_rejects_iff page_size desc1 page pageoffset len h2, i3]

/-- Three pages for a descriptor of capacity 3 with pages of 4096 bytes. -/
def three_pages : List bulk_page_call :=
  [{ pageoffset := 0, len := 4096 }, { pageoffset := 0, len := 4096 },
   { pageoffset := 512, len := 1024 }]

/-- C24 witness: a descriptor of capacity 3 takes three pages of 4096, 4096 and
1024 bytes, holds 9216 bytes, and rejects a fourth page. -/
theorem prep_bulk_page_count_and_bytes_witness :
    ((prep_bulk_pages 4096 ((new_bulk true 3 0 0).getD {}) three_pages).getD {}).bd_nob =
      (three_pages.map (fun call => call.len)).sum ∧
    (three_pages.map (fun call => call.len)).sum = 9216 ∧
    (ptlrpc_prep_bulk_page 4096
      ((prep_bulk_pages 4096 ((new_bulk true 3 0 0).getD {}) three_pages).getD {})
      (some 0) 0 1 = none) :=
  ⟨(prep_bulk_page_count_and_bytes 4096 3 0 0 three_pages _ _ (by decide) (by decide)
      (by decide) (by decide) (eq_some_getD _ {} (by decide))
      (eq_some_getD _ {} (by decide))).1,
   by decide,
   ((prep_bulk_page_count_and_bytes 4096 3 0 0 three_pages _ _ (by decide) (by decide)
      (by decide) (by decide) (eq_some_getD _ {} (by decide))
      (eq_some_getD _ {} (by decide))).2.2.2.2 (some 0) 0 1 (by decide)).mpr
      (Or.inl (by decide))⟩

/-! ## C25: `ptlrpc_expired_set` -/

/-- The fields of a request that the loop of `ptlrpc_expired_set` reads. -/
def expiry_view (r : ptlrpc_request) : Bool × rq_phase × Bool × Bool × Bool × Int :=
  (r.rq_wait_ctx, r.rq_phase, r.rq_waiting, r.rq_resend, r.rq_timedout, r.rq_deadline)

/-- The test of the loop of `ptlrpc_expired_set`: the request does not wait for
a security context, is in flight (phase `RPC` with neither the waiting nor the
resend flag, or phase `BULK`), is not yet timed out, and its deadline has
passed. -/
def expired_now (now : Int) (r : ptlrpc_request) : Bool :=
  !r.rq_wait_ctx &&
  ((r.rq_phase = RQ_PHASE_RPC && !r.rq_waiting && !r.rq_resend) || r.rq_phase = RQ_PHASE_BULK) &&
  !r.rq_timedout && decide (r.rq_deadline ≤ now)

/-- The collaborators that `ptlrpc_expire_one_request` calls leave the timed-out
flag of the request alone, and recovery (`ptlrpc_fail_import`) leaves alone the
fields of all requests that the loop of `ptlrpc_expired_set` reads. -/
def expire_collab_ok (c : Collab) : Prop :=
  (∀ r, (c.LNetMDUnlink r).rq_timedout = r.rq_timedout) ∧
  (∀ now r b, (c.ptlrpc_unregister_bulk now r b).1.rq_timedout = r.rq_timedout) ∧
  (∀ now r, (c.ptlrpc_no_resend now r).1.rq_timedout = r.rq_timedout) ∧
  (∀ m imp cnt b, expiry_view ((c.ptlrpc_fail_import m imp cnt).reqs b) = expiry_view (m.reqs b))

theorem rqphase_move_timedout (r : ptlrpc_request) (p : rq_phase) :
    (ptlrpc_rqphase_move r p).rq_timedout = r.rq_timedout := by
  unfold ptlrpc_rqphase_move
  split
  · rfl
  · split <;> rfl

/-- The shape of the result of `ptlrpc_unregister_reply`: the request is
changed by at most a reply deadline, the unlink of the transport, a move to
`UNREGISTERING`, the end of the unlink and a move to the next phase; nothing
else in the memory changes. -/
theorem unregister_reply_shape (c : Collab) (m : Mem) (a : Nat) (async : Bool) :
    ∃ f : ptlrpc_request → ptlrpc_request,
      (ptlrpc_unregister_reply c m a async).1 = m.modReq a f ∧
      (∀ r, f r = r ∨ ∃ r1, (r1 = r ∨ r1 = { r with rq_reply_deadline := m.now + c.LONG_UNLINK }) ∧
        (f r = r1 ∨ f r = c.LNetMDUnlink r1 ∨
         f r = ptlrpc_rqphase_move (c.LNetMDUnlink r1) RQ_PHASE_UNREGISTERING ∨
         (async = false ∧ f r = ptlrpc_rqphase_move
            (c.reply_unlinked (ptlrpc_rqphase_move (c.LNetMDUnlink r1) RQ_PHASE_UNREGISTERING))
            (c.reply_unlinked
              (ptlrpc_rqphase_move (c.LNetMDUnlink r1) RQ_PHASE_UNREGISTERING)).rq_next_phase))) := by
  have hid : ∀ m0 : Mem, m0 = m0.modReq a (fun r => r) := by
    intro m0
    show m0 = { m0 with reqs := upd m0.reqs a (m0.reqs a) }
    have : upd m0.reqs a (m0.reqs a) = m0.reqs := by
      funext b
      unfold upd
      split
      · rename_i hb; rw [hb]
      · rfl
    rw [this]
  have hcomp : ∀ (m0 : Mem) (f g : ptlrpc_request → ptlrpc_request),
      (m0.modReq a f).modReq a g = m0.modReq a (fun r => g (f r)) := by
    intro m0 f g
    show { (m0.modReq a f) with reqs := upd (m0.modReq a f).reqs a (g ((m0.modReq a f).reqs a)) } = _
    have : upd (m0.modReq a f).reqs a (g ((m0.modReq a f).reqs a)) =
        upd m0.reqs a (g (f (m0.reqs a))) := by
      funext b
      simp only [upd, modReq_reqs, if_true]
      split <;> rfl
    rw [this]
    rfl
  unfold ptlrpc_unregister_reply
  simp only []
  by_cases hlong : c.fail_long_repl_unlink = true ∧ async = true ∧ (m.reqs a).rq_reply_deadline = 0
  · simp only [if_pos hlong]
    split
    · exact ⟨_, rfl, fun r => Or.inr ⟨_, Or.inr rfl, Or.inl rfl⟩⟩
    · split
      · refine ⟨_, hcomp _ _ _, fun r => Or.inr ⟨_, Or.inr rfl, Or.inr (Or.inl rfl)⟩⟩
      · split
        · refine ⟨_, ?_, fun r => Or.inr ⟨_, Or.inr rfl, Or.inr (Or.inr (Or.inl rfl))⟩⟩
          simp only []
          rw [hcomp, hcomp]
        · rename_i hasync
          have hasync' : async = false := by
            cases async
            · rfl
            · exact absurd rfl hasync
          refine ⟨_, ?_, fun r => Or.inr ⟨_, Or.inr rfl, Or.inr (Or.inr (Or.inr ⟨hasync', rfl⟩))⟩⟩
          simp only []
          rw [hcomp, hcomp, hcomp, hcomp]
  · simp only [if_neg hlong]
    split
    · exact ⟨fun r => r, hid m, fun r => Or.inl rfl⟩
    · split
      · exact ⟨_, rfl, fun r => Or.inr ⟨r, Or.inl rfl, Or.inr (Or.inl rfl)⟩⟩
      · split
        · refine ⟨_, ?_, fun r => Or.inr ⟨r, Or.inl rfl, Or.inr (Or.inr (Or.inl rfl))⟩⟩
          simp only []
          rw [hcomp]
        · rename_i hasync
          have hasync' : async = false := by
            cases async
            · rfl
            · exact absurd rfl hasync
          refine ⟨_, ?_, fun r => Or.inr ⟨r, Or.inl rfl, Or.inr (Or.inr (Or.inr ⟨hasync', rfl⟩))⟩⟩
          simp only []
          rw [hcomp, hcomp, hcomp]

theorem unregister_reply_timedout (c : Collab) (hc : expire_collab_ok c) (m : Mem) (a : Nat) :
    (((ptlrpc_unregister_reply c m a true).1.reqs a).rq_timedout = (m.reqs a).rq_timedout) ∧
    (∀ b, b ≠ a → (ptlrpc_unregister_reply c m a true).1.reqs b = m.reqs b) := by
  obtain ⟨h1, _, _, _⟩ := hc
  obtain ⟨f, hf, hshape⟩ := unregister_reply_shape c m a true
  rw [hf]
  refine ⟨?_, fun b hb => by rw [modReq_reqs, if_neg hb]⟩
  rw [modReq_reqs, if_pos rfl]
  rcases hshape (m.reqs a) with h | ⟨r1, hr1, h⟩
  · rw [h]
  · have e1 : r1.rq_timedout = (m.reqs a).rq_timedout := by
      rcases hr1 with h | h <;> rw [h]
    rcases h with h | h | h | ⟨hasync, _⟩
    · rw [h, e1]
    · rw [h, h1, e1]
    · rw [h, rqphase_move_timedout, h1, e1]
    · cases hasync

/-- The effect of `ptlrpc_expire_one_request` on what the loop of
`ptlrpc_expired_set` reads. -/
theorem expire_one_request_view (c : Collab) (hc : expire_collab_ok c) (m : Mem) (a : Nat) :
    ((ptlrpc_expire_one_request c m a true).1.reqs a).rq_timedout = true ∧
    (∀ b, b ≠ a →
      expiry_view ((ptlrpc_expire_one_request c m a true).1.reqs b) = expiry_view (m.reqs b)) := by
  obtain ⟨u1, u2⟩ := unregister_reply_timedout c hc
    (m.modReq a (fun r => { r with rq_timedout := true })) a
  obtain ⟨_, h2, h3, h4⟩ := hc
  generalize hm2 : (ptlrpc_unregister_reply c
    (m.modReq a (fun r => { r with rq_timedout := true })) a true).1 = m2 at u1 u2
  have t2 : (m2.reqs a).rq_timedout = true := by
    rw [u1, modReq_reqs, if_pos rfl]
  have o2 : ∀ b, b ≠ a → m2.reqs b = m.reqs b := by
    intro b hb
    rw [u2 b hb, modReq_reqs, if_neg hb]
  have t3 : ((m2.modReq a (fun r => (c.ptlrpc_unregister_bulk m2.now r true).1)).reqs a).rq_timedout
      = true := by
    rw [modReq_reqs, if_pos rfl, h2, t2]
  have o3 : ∀ b, b ≠ a →
      (m2.modReq a (fun r => (c.ptlrpc_unregister_bulk m2.now r true).1)).reqs b = m.reqs b := by
    intro b hb
    rw [modReq_reqs, if_neg hb, o2 b hb]
  unfold ptlrpc_expire_one_request
  simp only []
  rw [hm2]
  generalize hm3 : m2.modReq a (fun r => (c.ptlrpc_unregister_bulk m2.now r true).1) = m3
    at t3 o3
  have base : (m3.reqs a).rq_timedout = true ∧
      ∀ b, b ≠ a → expiry_view (m3.reqs b) = expiry_view (m.reqs b) :=
    ⟨t3, fun b hb => by rw [o3 b hb]⟩
  split
  · exact base
  · rename_i imp _
    split
    · exact base
    · generalize hm4 : m3.modImp imp (fun x => { x with imp_timeouts := x.imp_timeouts + 1 }) = m4
      have r4 : m4.reqs = m3.reqs := by rw [← hm4]; rfl
      split
      · rw [r4]; exact base
      · split
        · refine ⟨?_, ?_⟩
          · rw [modReq_reqs, if_pos rfl, r4]
            exact t3
          · intro b hb
            rw [modReq_reqs, if_neg hb, r4, o3 b hb]
        · simp only []
          have hv : ∀ b, expiry_view ((c.ptlrpc_fail_import
              (m4.modReq a (fun _ => (c.ptlrpc_no_resend m4.now (m4.reqs a)).1)) imp
              ((m4.modReq a (fun _ => (c.ptlrpc_no_resend m4.now (m4.reqs a)).1)).reqs
                a).rq_reqmsg.lm_conn_cnt).reqs b) =
              expiry_view ((m4.modReq a (fun _ => (c.ptlrpc_no_resend m4.now (m4.reqs a)).1)).reqs b)
              := fun b => h4 _ _ _ b
          refine ⟨?_, ?_⟩
          · have := hv a
            unfold expiry_view at this
            simp only [Prod.mk.injEq] at this
            rw [this.2.2.2.2.1, modReq_reqs, if_pos rfl, h3, r4]
            exact t3
          · intro b hb
            rw [hv b, modReq_reqs, if_neg hb, r4, o3 b hb]

theorem expired_now_congr (now : Int) (r r' : ptlrpc_request)
    (h : expiry_view r' = expiry_view r) : expired_now now r' = expired_now now r := by
  unfold expiry_view at h
  simp only [Prod.mk.injEq] at h
  obtain ⟨h1, h2, h3, h4, h5, h6⟩ := h
  unfold expired_now
  rw [h1, h2, h3, h4, h5, h6]

theorem expired_set_loop_spec (c : Collab) (hc : expire_collab_ok c) (now : Int)
    (l : List Nat) :
    ∀ m : Mem,
      (∀ b, ((expired_set_loop c now m l).reqs b).rq_timedout =
        if b ∈ l ∧ expired_now now (m.reqs b) = true then true else (m.reqs b).rq_timedout) ∧
      (∀ b, ¬ (b ∈ l ∧ expired_now now (m.reqs b) = true) →
        expiry_view ((expired_set_loop c now m l).reqs b) = expiry_view (m.reqs b)) := by
  induction l with
  | nil =>
    intro m
    exact ⟨fun b => by simp [expired_set_loop], fun b _ => rfl⟩
  | cons a rest ih =>
    intro m
    by_cases hexp : expired_now now (m.reqs a) = true
    · have hstep : expired_set_loop c now m (a :: rest) =
          expired_set_loop c now (ptlrpc_expire_one_request c m a true).1 rest := by
        unfold expired_now at hexp
        simp only [Bool.and_eq_true, Bool.or_eq_true, Bool.not_eq_true', decide_eq_true_eq] at hexp
        obtain ⟨⟨⟨h1, h2⟩, h3⟩, h4⟩ := hexp
        have hin : ((m.reqs a).rq_phase = RQ_PHASE_RPC ∧ (m.reqs a).rq_waiting = false ∧
            (m.reqs a).rq_resend = false) ∨ (m.reqs a).rq_phase = RQ_PHASE_BULK := by
          rcases h2 with ⟨⟨p, q⟩, r⟩ | p
          · exact Or.inl ⟨p, q, r⟩
          · exact Or.inr p
        conv => lhs; unfold expired_set_loop
        rw [if_neg (by rw [h1]; decide), if_neg (not_not.mpr hin),
          if_neg (by rw [h3]; simp; exact h4)]
      obtain ⟨v1, v2⟩ := expire_one_request_view c hc m a
      obtain ⟨i1, i2⟩ := ih (ptlrpc_expire_one_request c m a true).1
      have hnot : expired_now now ((ptlrpc_expire_one_request c m a true).1.reqs a) = false := by
        unfold expired_now
        rw [v1]
        simp
      rw [hstep]
      constructor
      · intro b
        rw [i1 b]
        by_cases hb : b = a
        · subst hb
          rw [hnot, v1]
          simp [hexp]
        · rw [expired_now_congr now _ _ (v2 b hb)]
          have ht : ((ptlrpc_expire_one_request c m a true).1.reqs b).rq_timedout =
              (m.reqs b).rq_timedout := by
            have := v2 b hb
            unfold expiry_view at this
            simp only [Prod.mk.injEq] at this
            exact this.2.2.2.2.1
          rw [ht]
          simp [hb]
      · intro b hb
        have hba : b ≠ a := by
          intro h
          subst h
          exact hb ⟨List.mem_cons_self _ _, hexp⟩
        rw [i2 b (by
          rw [expired_now_congr now _ _ (v2 b hba)]
          rintro ⟨h1, h2⟩
          exact hb ⟨List.mem_cons_of_mem _ h1, h2⟩), v2 b hba]
    · have hstep : expired_set_loop c now m (a :: rest) = expired_set_loop c now m rest := by
        conv => lhs; unfold expired_set_loop
        by_cases h1 : (m.reqs a).rq_wait_ctx = true
        · rw [if_pos h1]
        · rw [if_neg h1]
          by_cases h2 : ¬ (((m.reqs a).rq_phase = RQ_PHASE_RPC ∧ (m.reqs a).rq_waiting = false ∧
              (m.reqs a).rq_resend = false) ∨ (m.reqs a).rq_phase = RQ_PHASE_BULK)
          · rw [if_pos h2]
          · rw [if_neg h2]
            by_cases h3 : (m.reqs a).rq_timedout = true ∨ (m.reqs a).rq_deadline > now
            · rw [if_pos h3]
            · exfalso
              apply hexp
              unfold expired_now
              simp only [Bool.and_eq_true, Bool.or_eq_true, Bool.not_eq_true', decide_eq_true_eq]
              push_neg at h3
              rw [not_not] at h2
              refine ⟨⟨⟨by simpa using h1, ?_⟩, by simpa using h3.1⟩, h3.2⟩
              rcases h2 with ⟨p, q, r⟩ | p
              · exact Or.inl ⟨⟨p, q⟩, r⟩
              · exact Or.inr p
      obtain ⟨i1, i2⟩ := ih m
      rw [hstep]
      constructor
      · intro b
        rw [i1 b]
        by_cases hb : b = a
        · subst hb
          simp [hexp]
        · simp [hb]
      · intro b hb
        apply i2 b
        rintro ⟨h1, h2⟩
        exact hb ⟨List.mem_cons_of_mem _ h1, h2⟩

/-- C25: `ptlrpc_expired_set` always returns 1, and (with collaborators that
leave the timed-out flag alone) after it the timed-out flag is set for exactly
those members that were not waiting for a security context, were in flight
(phase `RPC` with neither the waiting nor the resend flag, or phase `BULK`),
were not yet timed out and had a deadline at or before the current time; the
flag of every other request is unchanged. -/
theorem expired_set_marks_expired (c : Collab) (m : Mem) (set : Nat)
    (hc : expire_collab_ok c) :
    (ptlrpc_expired_set c m set).2 = 1 ∧
    (∀ b ∈ (m.sets set).set_requests, expired_now m.now (m.reqs b) = true →
      ((ptlrpc_expired_set c m set).1.reqs b).rq_timedout = true) ∧
    (∀ b, ¬ (b ∈ (m.sets set).set_requests ∧ expired_now m.now (m.reqs b) = true) →
      ((ptlrpc_expired_set c m set).1.reqs b).rq_timedout = (m.reqs b).rq_timedout) ∧
    (∀ r, expired_now m.now r = true ↔
      r.rq_wait_ctx = false ∧
      ((r.rq_phase = RQ_PHASE_RPC ∧ r.rq_waiting = false ∧ r.rq_resend = false) ∨
        r.rq_phase = RQ_PHASE_BULK) ∧
      r.rq_timedout = false ∧ r.rq_deadline ≤ m.now) := by
  obtain ⟨i1, _⟩ := expired_set_loop_spec c hc m.now (m.sets set).set_requests m
  refine ⟨rfl, ?_, ?_, ?_⟩
  · intro b hb he
    show ((expired_set_loop c m.now m (m.sets set).set_requests).reqs b).rq_timedout = true
    rw [i1 b, if_pos ⟨hb, he⟩]
  · intro b hb
    show ((expired_set_loop c m.now m (m.sets set).set_requests).reqs b).rq_timedout = _
    rw [i1 b, if_neg hb]
  · intro r
    unfold expired_now
    simp only [Bool.and_eq_true, Bool.or_eq_true, Bool.not_eq_true', decide_eq_true_eq]
    constructor
    · rintro ⟨⟨⟨h1, h2⟩, h3⟩, h4⟩
      refine ⟨h1, ?_, h3, h4⟩
      rcases h2 with ⟨⟨p, q⟩, r⟩ | p
      · exact Or.inl ⟨p, q, r⟩
      · exact Or.inr p
    · rintro ⟨h1, h2, h3, h4⟩
      refine ⟨⟨⟨h1, ?_⟩, h3⟩, h4⟩
      rcases h2 with ⟨p, q, r⟩ | p
      · exact Or.inl ⟨⟨p, q⟩, r⟩
      · exact Or.inr p

theorem collab_plain_expire_ok : expire_collab_ok collab_plain :=
  ⟨fun _ => rfl, fun _ _ _ => rfl, fun _ _ => rfl, fun _ _ _ _ => rfl⟩

/-- Set 0 at time 200 with four members in phase `RPC`: request 1 past its
deadline, request 2 with a later deadline, request 3 past its deadline but
waiting on the delayed list, request 4 past its deadline and already timed
out. -/
def mem_expiring : Mem :=
  { now := 200
    reqs := fun a =>
      if a = 1 then { rq_phase := RQ_PHASE_RPC, rq_deadline := 105, rq_import := some 0 }
      else if a = 2 then { rq_phase := RQ_PHASE_RPC, rq_deadline := 300, rq_import := some 0 }
      else if a = 3 then
        { rq_phase := RQ_PHASE_RPC, rq_deadline := 105, rq_waiting := true, rq_import := some 0 }
      else if a = 4 then
        { rq_phase := RQ_PHASE_RPC, rq_deadline := 105, rq_timedout := true, rq_import := some 0 }
      else {}
    imps := fun _ => { imp_state := LUSTRE_IMP_FULL }
    sets := fun _ => { set_requests := [1, 2, 3, 4], set_remaining := 4 } }

/-- C25 witness: of the four members only request 1 is newly flagged. -/
theorem expired_set_marks_expired_witness :
    (ptlrpc_expired_set collab_plain mem_expiring 0).2 = 1 ∧
    ((ptlrpc_expired_set collab_plain mem_expiring 0).1.reqs 1).rq_timedout = true ∧
    ((ptlrpc_expired_set collab_plain mem_expiring 0).1.reqs 2).rq_timedout = false ∧
    ((ptlrpc_expired_set collab_plain mem_expiring 0).1.reqs 3).rq_timedout = false :=
  ⟨(expired_set_marks_expired collab_plain mem_expiring 0 collab_plain_expire_ok).1,
   (expired_set_marks_expired collab_plain mem_expiring 0 collab_plain_expire_ok).2.1 1
      (by decide) (by decide),
   by decide, by decide⟩

/-! ## C26: `ptlrpc_init_xid` -/

theorem time_to_u64_nonneg (t : Int) (h0 : 0 ≤ t) (h1 : t < 18446744073709551616) :
    time_to_u64 t = t.toNat := by
  unfold time_to_u64
  rw [Int.emod_eq_of_lt h0 h1]

theorem init_xid_fallback_range (x : Nat) :
    2305843009213693952 ≤ (wrap64 x / 4) ||| 2305843009213693952 ∧
    (wrap64 x / 4) ||| 2305843009213693952 < 4611686018427387904 ∧
    Nat.testBit ((wrap64 x / 4) ||| 2305843009213693952) 61 = true ∧
    Nat.testBit ((wrap64 x / 4) ||| 2305843009213693952) 62 = false ∧
    Nat.testBit ((wrap64 x / 4) ||| 2305843009213693952) 63 = false := by
  have hx : wrap64 x / 4 < 2 ^ 62 := by
    unfold wrap64
    omega
  have hlt : (wrap64 x / 4) ||| 2305843009213693952 < 2 ^ 62 :=
    Nat.or_lt_two_pow hx (by norm_num)
  have h61 : Nat.testBit ((wrap64 x / 4) ||| 2305843009213693952) 61 = true := by
    rw [Nat.testBit_lor]
    have : Nat.testBit 2305843009213693952 61 = true := by decide
    rw [this, Bool.or_true]
  refine ⟨?_, by simpa using hlt, h61, ?_, ?_⟩
  · have := Nat.testBit_implies_ge h61
    simpa using this
  · exact Nat.testBit_lt_two_pow hlt
  · exact Nat.testBit_lt_two_pow (lt_trans hlt (by norm_num))

/-- C26 as stated fails: at the time 2^41, which is at least 2^30 and below
2^44, the time-based seed is 2^61, which is not below the fallback seed 2^61
obtained at time 0 from the random bytes 0; and a negative `time_t` is not
below `YEAR_2004` in the unsigned comparison, so the time -1 takes the
time-based branch although it is not at least 2^30. -/
theorem init_xid_time_seed_counterexample :
    (ptlrpc_init_xid 0 { now := 2199023255552 }).ptlrpc_last_xid = 2305843009213693952 ∧
    (ptlrpc_init_xid 0 { now := 0 }).ptlrpc_last_xid = 2305843009213693952 ∧
    (ptlrpc_init_xid 0 { now := -1 }).ptlrpc_last_xid = 18446744073708503040 := by
  decide

/-- C26 (amended): `ptlrpc_init_xid` seeds the xid counter with `now * 2^20`
whenever the time is at least 2^30 and below 2^44, and for a time from 0 up to
2^30 with a random value that has bit 61 set and bits 62 and 63 clear, a seed
in `[2^61, 2^62)`; every time-based seed for a time below 2^41 is below every
fallback seed. -/
theorem init_xid_seed (random : Nat) (m : Mem) :
    (1073741824 ≤ m.now → m.now < 17592186044416 →
      ((ptlrpc_init_xid random m).ptlrpc_last_xid : Int) = m.now * 1048576) ∧
    (0 ≤ m.now → m.now < 1073741824 →
      (ptlrpc_init_xid random m).ptlrpc_last_xid = (wrap64 random / 4) ||| 2305843009213693952 ∧
      2305843009213693952 ≤ (ptlrpc_init_xid random m).ptlrpc_last_xid ∧
      (ptlrpc_init_xid random m).ptlrpc_last_xid < 4611686018427387904 ∧
      Nat.testBit (ptlrpc_init_xid random m).ptlrpc_last_xid 61 = true ∧
      Nat.testBit (ptlrpc_init_xid random m).ptlrpc_last_xid 62 = false ∧
      Nat.testBit (ptlrpc_init_xid random m).ptlrpc_last_xid 63 = false) ∧
    (1073741824 ≤ m.now → m.now < 2199023255552 →
      ∀ (random1 : Nat) (m1 : Mem), 0 ≤ m1.now → m1.now < 1073741824 →
        (ptlrpc_init_xid random m).ptlrpc_last_xid <
          (ptlrpc_init_xid random1 m1).ptlrpc_last_xid) := by
  have htime : ∀ (r : Nat) (k : Mem), 1073741824 ≤ k.now → k.now < 17592186044416 →
      ((ptlrpc_init_xid r k).ptlrpc_last_xid : Int) = k.now * 1048576 := by
    intro r k h1 h2
    have ht := time_to_u64_nonneg k.now (by omega) (by omega)
    unfold ptlrpc_init_xid
    rw [ht, if_neg (by unfold YEAR_2004; omega)]
    show ((wrap64 (k.now.toNat * 1048576) : Nat) : Int) = _
    unfold wrap64
    rw [Nat.mod_eq_of_lt (by omega)]
    push_cast
    rw [Int.toNat_of_nonneg (by omega)]
  have hfall : ∀ (r : Nat) (k : Mem), 0 ≤ k.now → k.now < 1073741824 →
      (ptlrpc_init_xid r k).ptlrpc_last_xid = (wrap64 r / 4) ||| 2305843009213693952 := by
    intro r k h1 h2
    have ht := time_to_u64_nonneg k.now h1 (by omega)
    unfold ptlrpc_init_xid
    rw [ht, if_pos (by unfold YEAR_2004; omega)]
  refine ⟨htime random m, ?_, ?_⟩
  · intro h1 h2
    rw [hfall random m h1 h2]
    exact ⟨rfl, init_xid_fallback_range random⟩
  · intro h1 h2 random1 m1 h3 h4
    have ha := htime random m h1 (by omega)
    rw [hfall random1 m1 h3 h4]
    have hb := (init_xid_fallback_range random1).1
    omega

/-- C26 witness: the time 1300000000 (March 2011) gives the seed
1300000000 * 2^20, below the fallback seed of a clock at 0. -/
theorem init_xid_seed_witness :
    ((ptlrpc_init_xid 7 { now := 1300000000 }).ptlrpc_last_xid : Int) = 1300000000 * 1048576 ∧
    (ptlrpc_init_xid 7 { now := 1300000000 }).ptlrpc_last_xid <
      (ptlrpc_init_xid 0 { now := 0 }).ptlrpc_last_xid :=
  ⟨(init_xid_seed 7 { now := 1300000000 }).1 (by decide) (by decide),
   (init_xid_seed 7 { now := 1300000000 }).2.2 (by decide) (by decide) 0 { now := 0 }
      (by decide) (by decide)⟩

/-! ## C28: `ldlm_pool_slv_max` -/

/-- C28: the code multiplies in 32 bits before it widens: for the limit 119305
(the first one whose product with 36000 passes 2^32) `ldlm_pool_slv_max` returns
12704, not 119305 * 36000 = 4294980000; up to 119304 the result is the
product. -/
theorem ldlm_pool_slv_max_truncates :
    ldlm_pool_slv_max 119305 = 12704 ∧
    119305 * LDLM_POOL_MAX_AGE = 4294980000 ∧
    ldlm_pool_slv_max 119304 = 119304 * LDLM_POOL_MAX_AGE := by
  decide

/-! ## C27: `ptlrpc_add_rqs_to_pool` -/

theorem pool_round_size_spec (s : Int) (hs : s ≤ 2 ^ 30) :
    ∀ (fuel i : Nat), i ≤ 30 → 32 ≤ fuel + i → (i = 0 ∨ (2 : Int) ^ (i - 1) < s) →
      ∃ k : Nat, k ≤ 30 ∧ pool_round_size s fuel (2 ^ i) = some (2 ^ k) ∧ s ≤ 2 ^ k ∧
        (k = 0 ∨ (2 : Int) ^ (k - 1) < s) := by
  intro fuel
  induction fuel with
  | zero =>
    intro i h1 h2 _
    omega
  | succ fuel ih =>
    intro i h1 h2 h3
    unfold pool_round_size
    by_cases hlt : (2 : Int) ^ i < s
    · rw [if_pos hlt]
      have hi : i < 30 := by
        by_contra hcon
        have : i = 30 := by omega
        subst this
        omega
      have hpow : (2 : Int) ^ i ≤ 2 ^ 29 := pow_le_pow_right₀ (by norm_num) (by omega)
      have hpos : (0 : Int) < 2 ^ i := by positivity
      have hw : wrap32 ((2 : Int) ^ i * 2) = 2 ^ (i + 1) := by
        rw [pow_succ]
        apply wrap32_id
        · omega
        · norm_num at hpow ⊢
          omega
      rw [hw]
      exact ih (i + 1) (by omega) (by omega) (Or.inr (by simpa using hlt))
    · rw [if_neg hlt]
      exact ⟨i, h1, rfl, by omega, h3⟩

theorem pool_round_size_smallest (s : Int) (k j : Nat) (hk : k = 0 ∨ (2 : Int) ^ (k - 1) < s)
    (hj : s ≤ 2 ^ j) : (2 : Int) ^ k ≤ 2 ^ j := by
  rcases hk with hk | hk
  · subst hk
    exact pow_le_pow_right₀ (by norm_num) (Nat.zero_le _)
  · have hlt : (2 : Int) ^ (k - 1) < 2 ^ j := lt_of_lt_of_le hk hj
    have : k - 1 < j := (pow_lt_pow_iff_right₀ (by norm_num)).mp hlt
    exact pow_le_pow_right₀ (by norm_num) (by omega)

theorem pool_round_size_power (k : Nat) (hk : k ≤ 30) (fuel : Nat) (hfuel : 32 ≤ fuel) :
    pool_round_size (2 ^ k) fuel 1 = some (2 ^ k) := by
  have hs : (2 : Int) ^ k ≤ 2 ^ 30 := pow_le_pow_right₀ (by norm_num) hk
  obtain ⟨k1, h1, h2, h3, h4⟩ := pool_round_size_spec (2 ^ k) hs fuel 0 (by omega) (by omega)
    (Or.inl rfl)
  have hle : (2 : Int) ^ k1 ≤ 2 ^ k := pool_round_size_smallest _ k1 k h4 (le_refl _)
  have heq : (2 : Int) ^ k1 = 2 ^ k := le_antisymm hle h3
  rw [pow_zero] at h2
  rw [h2, heq]

/-- The requests that the `for` loop of `ptlrpc_add_rqs_to_pool` allocates with
`n` iterations left: the addresses up to the first failed allocation. -/
def pool_granted : Nat → List (Option Nat) → List Nat
  | 0, _ => []
  | _ + 1, [] => []
  | _ + 1, none :: _ => []
  | n + 1, some req :: rest => req :: pool_granted n rest

theorem add_tail_rq_list_pool (m : Mem) (a pool : Nat) :
    (add_tail_rq_list m a (.prp_req_list pool)).prp_rq_size = m.prp_rq_size ∧
    (add_tail_rq_list m a (.prp_req_list pool)).prp_req_list pool = m.prp_req_list pool ++ [a] ∧
    (∀ b, ((add_tail_rq_list m a (.prp_req_list pool)).reqs b).rq_reqbuf_len =
        (m.reqs b).rq_reqbuf_len ∧
      ((add_tail_rq_list m a (.prp_req_list pool)).reqs b).rq_pool = (m.reqs b).rq_pool) := by
  refine ⟨rfl, ?_, ?_⟩
  · simp [add_tail_rq_list, Mem.set_list, Mem.list_of, Mem.modReq, upd]
  · intro b
    by_cases hb : b = a
    · subst hb
      simp [add_tail_rq_list, Mem.set_list, Mem.modReq, upd, link_rq_list]
    · simp [add_tail_rq_list, Mem.set_list, Mem.modReq, upd, hb]

theorem add_rqs_loop_spec (pool : Nat) (size : Int) :
    ∀ (n : Nat) (allocs : List (Option Nat)) (m : Mem),
      (∀ a ∈ m.prp_req_list pool,
        (m.reqs a).rq_reqbuf_len = size ∧ (m.reqs a).rq_pool = some pool) →
      (add_rqs_loop pool size n m allocs).prp_rq_size = m.prp_rq_size ∧
      (add_rqs_loop pool size n m allocs).prp_req_list pool =
        m.prp_req_list pool ++ pool_granted n allocs ∧
      (∀ a ∈ (add_rqs_loop pool size n m allocs).prp_req_list pool,
        ((add_rqs_loop pool size n m allocs).reqs a).rq_reqbuf_len = size ∧
        ((add_rqs_loop pool size n m allocs).reqs a).rq_pool = some pool) := by
  intro n
  induction n with
  | zero =>
    intro allocs m h
    simp only [add_rqs_loop, pool_granted, List.append_nil]
    exact ⟨trivial, trivial, h⟩
  | succ n ih =>
    intro allocs m h
    cases allocs with
    | nil =>
      simp only [add_rqs_loop, pool_granted, List.append_nil]
      exact ⟨trivial, trivial, h⟩
    | cons x rest =>
      cases x with
      | none =>
        simp only [add_rqs_loop, pool_granted, List.append_nil]
        exact ⟨trivial, trivial, h⟩
      | some req =>
        simp only [add_rqs_loop, pool_granted]
        obtain ⟨t1, t2, t3⟩ := add_tail_rq_list_pool
          (m.modReq req (fun _ => pool_request pool size)) req pool
        have hinv : ∀ a ∈ (add_tail_rq_list (m.modReq req (fun _ => pool_request pool size)) req
            (.prp_req_list pool)).prp_req_list pool,
            ((add_tail_rq_list (m.modReq req (fun _ => pool_request pool size)) req
              (.prp_req_list pool)).reqs a).rq_reqbuf_len = size ∧
            ((add_tail_rq_list (m.modReq req (fun _ => pool_request pool size)) req
              (.prp_req_list pool)).reqs a).rq_pool = some pool := by
          intro a ha
          rw [(t3 a).1, (t3 a).2]
          rw [t2] at ha
          by_cases hreq : a = req
          · subst hreq
            simp [Mem.modReq, upd, pool_request]
          · have hm : a ∈ m.prp_req_list pool := by
              rcases List.mem_append.mp ha with h1 | h1
              · exact h1
              · exact absurd (List.mem_singleton.mp h1) hreq
            have := h a hm
            simpa [Mem.modReq, upd, hreq] using this
        obtain ⟨i1, i2, i3⟩ := ih rest _ hinv
        refine ⟨by rw [i1, t1]; rfl, ?_, i3⟩
        rw [i2, t2]
        simp [Mem.modReq]

theorem add_rqs_to_pool_at_power (k : Nat) (hk : k ≤ 30) (fuel : Nat) (hfuel : 32 ≤ fuel)
    (allocs : List (Option Nat)) (m : Mem) (pool : Nat) (num_rq : Int)
    (hsize : m.prp_rq_size pool = 2 ^ k)
    (hlen : ∀ a ∈ m.prp_req_list pool,
      (m.reqs a).rq_reqbuf_len = 2 ^ k ∧ (m.reqs a).rq_pool = some pool) :
    ∃ m', ptlrpc_add_rqs_to_pool fuel allocs m pool num_rq = some m' ∧
      m'.prp_rq_size pool = 2 ^ k ∧
      m'.prp_req_list pool = m.prp_req_list pool ++ pool_granted num_rq.toNat allocs ∧
      (∀ a ∈ m'.prp_req_list pool,
        (m'.reqs a).rq_reqbuf_len = 2 ^ k ∧ (m'.reqs a).rq_pool = some pool) := by
  unfold ptlrpc_add_rqs_to_pool
  rw [hsize, pool_round_size_power k hk fuel hfuel]
  simp only [or_true, not_true_eq_false, if_false]
  obtain ⟨i1, i2, i3⟩ := add_rqs_loop_spec pool (2 ^ k) num_rq.toNat allocs
    (m.set_prp_rq_size pool (2 ^ k)) hlen
  refine ⟨_, rfl, ?_, i2, i3⟩
  rw [i1]
  simp [Mem.set_prp_rq_size, upd]

/-- C27: `ptlrpc_add_rqs_to_pool` rounds the buffer size of the pool up to the
next power of two.  For a pool without requests whose `prp_rq_size` is `s` with
`s ≤ 2^30` (so for every `1 ≤ s ≤ 2^30`) the rounding loop ends (32 tests of its condition are enough)
and the function returns; the new `prp_rq_size` is a power of two `2^k ≥ s`
that is below every other power of two `≥ s`; the pool then holds the requests
allocated, each with a request buffer of exactly `2^k` bytes; and a further
call on the resulting pool passes the assertion, keeps the size and again
leaves every request of the pool with a buffer of that size. -/
theorem add_rqs_to_pool_rounds (fuel : Nat) (allocs : List (Option Nat)) (m : Mem)
    (pool : Nat) (num_rq : Int)
    (hs2 : m.prp_rq_size pool ≤ 2 ^ 30)
    (hfuel : 32 ≤ fuel) (hempty : m.prp_req_list pool = []) :
    ∃ (k : Nat) (m' : Mem),
      ptlrpc_add_rqs_to_pool fuel allocs m pool num_rq = some m' ∧
      m'.prp_rq_size pool = 2 ^ k ∧
      m.prp_rq_size pool ≤ 2 ^ k ∧
      (∀ j : Nat, m.prp_rq_size pool ≤ 2 ^ j → (2 : Int) ^ k ≤ 2 ^ j) ∧
      m'.prp_req_list pool = pool_granted num_rq.toNat allocs ∧
      (∀ a ∈ m'.prp_req_list pool,
        (m'.reqs a).rq_reqbuf_len = 2 ^ k ∧ (m'.reqs a).rq_pool = some pool) ∧
      (∀ (fuel2 : Nat) (allocs2 : List (Option Nat)) (num2 : Int), 32 ≤ fuel2 →
        ∃ m2, ptlrpc_add_rqs_to_pool fuel2 allocs2 m' pool num2 = some m2 ∧
          m2.prp_rq_size pool = 2 ^ k ∧
          m2.prp_req_list pool = m'.prp_req_list pool ++ pool_granted num2.toNat allocs2 ∧
          (∀ a ∈ m2.prp_req_list pool,
            (m2.reqs a).rq_reqbuf_len = 2 ^ k ∧ (m2.reqs a).rq_pool = some pool)) := by
  obtain ⟨k, h1, h2, h3, h4⟩ := pool_round_size_spec (m.prp_rq_size pool) hs2 fuel 0
    (by omega) (by omega) (Or.inl rfl)
  rw [pow_zero] at h2
  have hlen0 : ∀ a ∈ (m.set_prp_rq_size pool (2 ^ k)).prp_req_list pool,
      ((m.set_prp_rq_size pool (2 ^ k)).reqs a).rq_reqbuf_len = 2 ^ k ∧
      ((m.set_prp_rq_size pool (2 ^ k)).reqs a).rq_pool = some pool := by
    intro a ha
    have : (m.set_prp_rq_size pool (2 ^ k)).prp_req_list pool = [] := hempty
    rw [this] at ha
    exact absurd ha (List.not_mem_nil _)
  obtain ⟨i1, i2, i3⟩ := add_rqs_loop_spec pool (2 ^ k) num_rq.toNat allocs
    (m.set_prp_rq_size pool (2 ^ k)) hlen0
  have hret : ptlrpc_add_rqs_to_pool fuel allocs m pool num_rq =
      some (add_rqs_loop pool (2 ^ k) num_rq.toNat (m.set_prp_rq_size pool (2 ^ k)) allocs) := by
    unfold ptlrpc_add_rqs_to_pool
    rw [h2]
    simp only [hempty, true_or, not_true_eq_false, if_false]
  have hsz : (add_rqs_loop pool (2 ^ k) num_rq.toNat (m.set_prp_rq_size pool (2 ^ k))
      allocs).prp_rq_size pool = 2 ^ k := by
    rw [i1]
    simp [Mem.set_prp_rq_size, upd]
  refine ⟨k, _, hret, hsz, h3, fun j hj => pool_round_size_smallest _ k j h4 hj, ?_, ?_, ?_⟩
  · rw [i2]
    have : (m.set_prp_rq_size pool (2 ^ k)).prp_req_list pool = [] := hempty
    rw [this, List.nil_append]
  · exact i3
  · intro fuel2 allocs2 num2 hf2
    exact add_rqs_to_pool_at_power k h1 fuel2 hf2 allocs2 _ pool num2 hsz i3

/-- A pool without requests whose buffer size was set to 1000 bytes. -/
def mem_pool_1000 : Mem := { prp_rq_size := fun _ => 1000 }

/-- C27 witness: a request size of 1000 is rounded to 1024, and the two
requests allocated get buffers of 1024 bytes. -/
theorem add_rqs_to_pool_rounds_witness :
    (∃ (k : Nat) (m' : Mem),
      ptlrpc_add_rqs_to_pool 32 [some 1, some 2] mem_pool_1000 0 2 = some m' ∧
      m'.prp_rq_size 0 = 2 ^ k ∧
      mem_pool_1000.prp_rq_size 0 ≤ 2 ^ k ∧
      (∀ j : Nat, mem_pool_1000.prp_rq_size 0 ≤ 2 ^ j → (2 : Int) ^ k ≤ 2 ^ j) ∧
      m'.prp_req_list 0 = pool_granted (2 : Int).toNat [some 1, some 2] ∧
      (∀ a ∈ m'.prp_req_list 0,
        (m'.reqs a).rq_reqbuf_len = 2 ^ k ∧ (m'.reqs a).rq_pool = some 0) ∧
      (∀ (fuel2 : Nat) (allocs2 : List (Option Nat)) (num2 : Int), 32 ≤ fuel2 →
        ∃ m2, ptlrpc_add_rqs_to_pool fuel2 allocs2 m' 0 num2 = some m2 ∧
          m2.prp_rq_size 0 = 2 ^ k ∧
          m2.prp_req_list 0 = m'.prp_req_list 0 ++ pool_granted num2.toNat allocs2 ∧
          (∀ a ∈ m2.prp_req_list 0,
            (m2.reqs a).rq_reqbuf_len = 2 ^ k ∧ (m2.reqs a).rq_pool = some 0))) ∧
    (ptlrpc_add_rqs_to_pool 32 [some 1, some 2] mem_pool_1000 0 2).map
        (fun m' => (m'.prp_rq_size 0, m'.prp_req_list 0, (m'.reqs 1).rq_reqbuf_len,
          (m'.reqs 2).rq_reqbuf_len)) = some (1024, [1, 2], 1024, 1024) :=
  ⟨add_rqs_to_pool_rounds 32 [some 1, some 2] mem_pool_1000 0 2 (by decide) (by decide)
    (by decide), by decide⟩

/-! ## C29: the values of `ptlrpc_set_next_timeout` -/

theorem wrap32_range (x : Int) : -2147483648 ≤ wrap32 x ∧ wrap32 x < 2147483648 := by
  unfold wrap32
  omega

theorem wrap32_le_self (x : Int) (h : -2147483648 ≤ x) : wrap32 x ≤ x := by
  unfold wrap32
  omega

theorem next_timeout_deadline_le (r : ptlrpc_request) (h : -2147483648 ≤ member_deadline r) :
    next_timeout_deadline r ≤ member_deadline r := by
  unfold next_timeout_deadline
  unfold member_deadline at h ⊢
  split
  · rename_i hp
    simp only [hp, if_true] at h
    exact wrap32_le_self _ h
  · rename_i hp
    simp only [hp, if_false] at h
    exact wrap32_le_self _ h

theorem next_timeout_step_values (now t : Int) (r : ptlrpc_request) (hnow : 0 ≤ now)
    (ht : 0 ≤ t) :
    0 ≤ next_timeout_step now t r ∧
    (next_timeout_step now t r = 0 ↔ t = 0 ∧ next_timeout_counts r = false) ∧
    (t = 1 → next_timeout_step now t r = 1) ∧
    (next_timeout_counts r = true → next_timeout_deadline r ≤ now →
      next_timeout_step now t r = 1) := by
  have hr := wrap32_range (next_timeout_deadline r)
  have hd : -2147483648 ≤ next_timeout_deadline r ∧ next_timeout_deadline r < 2147483648 := by
    unfold next_timeout_deadline
    split
    · exact wrap32_range _
    · exact wrap32_range _
  unfold next_timeout_step
  by_cases hc : next_timeout_counts r = true
  · simp only [hc, if_true]
    by_cases hle : next_timeout_deadline r ≤ now
    · simp only [hle, if_true]
      refine ⟨by norm_num, ?_, fun _ => trivial, fun _ _ => trivial⟩
      constructor
      · intro h
        norm_num at h
      · rintro ⟨_, h⟩
        exact absurd h (by simp)
    · simp only [hle, if_false]
      have hw : wrap32 (next_timeout_deadline r - now) = next_timeout_deadline r - now :=
        wrap32_id _ (by omega) (by omega)
      rw [hw]
      by_cases hm : t = 0 ∨ t > next_timeout_deadline r - now
      · simp only [hm, if_true]
        refine ⟨by omega, ?_, ?_, fun _ h => h.elim⟩
        · constructor
          · intro h
            omega
          · rintro ⟨_, h⟩
            exact absurd h (by simp)
        · intro h1
          omega
      · rw [if_neg hm]
        refine ⟨ht, ?_, fun h => h, fun _ h => h.elim⟩
        constructor
        · intro h
          exact absurd (Or.inl h) hm
        · rintro ⟨_, h⟩
          exact absurd h (by simp)
  · have hc' : next_timeout_counts r = false := by simpa using hc
    simp only [hc', Bool.false_eq_true, if_false]
    refine ⟨ht, ?_, fun h => h, fun h => absurd h (by simp)⟩
    constructor
    · intro h
      exact ⟨h, trivial⟩
    · rintro ⟨h, _⟩
      exact h

theorem next_timeout_loop_values (now : Int) (hnow : 0 ≤ now) (l : List ptlrpc_request) :
    ∀ t : Int, 0 ≤ t →
      0 ≤ next_timeout_loop now t l ∧
      (next_timeout_loop now t l = 0 ↔ t = 0 ∧ ∀ r ∈ l, next_timeout_counts r = false) ∧
      (t = 1 → next_timeout_loop now t l = 1) ∧
      ((∃ r ∈ l, next_timeout_counts r = true ∧ next_timeout_deadline r ≤ now) →
        next_timeout_loop now t l = 1) := by
  induction l with
  | nil =>
    intro t ht
    simp only [next_timeout_loop]
    refine ⟨ht, ?_, fun h => h, ?_⟩
    · simp
    · rintro ⟨r, hr, _⟩
      exact absurd hr (List.not_mem_nil _)
  | cons r rest ih =>
    intro t ht
    obtain ⟨s1, s2, s3, s4⟩ := next_timeout_step_values now t r hnow ht
    obtain ⟨i1, i2, i3, i4⟩ := ih (next_timeout_step now t r) s1
    simp only [next_timeout_loop]
    refine ⟨i1, ?_, fun h => i3 (s3 h), ?_⟩
    · rw [i2, s2]
      constructor
      · rintro ⟨⟨h1, h2⟩, h3⟩
        refine ⟨h1, ?_⟩
        intro x hx
        rcases List.mem_cons.mp hx with h | h
        · rw [h]; exact h2
        · exact h3 x h
      · rintro ⟨h1, h2⟩
        exact ⟨⟨h1, h2 r (List.mem_cons_self _ _)⟩,
          fun x hx => h2 x (List.mem_cons_of_mem _ hx)⟩
    · rintro ⟨x, hx, hc, hd⟩
      rcases List.mem_cons.mp hx with h | h
      · subst h
        exact i3 (s4 hc hd)
      · exact i4 ⟨x, h, hc, hd⟩

/-- Set 0 with the single member 1, in phase `NEW` with the send time `sent`,
at the time `now`. -/
def mem_clock (now sent : Int) : Mem :=
  { now := now
    reqs := fun _ => { rq_phase := RQ_PHASE_NEW, rq_sent := sent }
    sets := fun _ => { set_requests := [1], set_remaining := 1 } }

/-- C29 as stated fails outside the range of the `int` the loop computes in.
At the time -10 a member in phase `NEW` to be sent at 2147483647 gives the
negative result -2147483639; at the time -2^32 an eligible member to be sent at
0 gives 0; and at the time 0 an eligible member whose send time -2147483653 is
before now gives 2147483643, not 1, because the `int deadline` wraps. -/
theorem next_timeout_clock_counterexample :
    (next_timeout_counts ((mem_clock (-10) 2147483647).reqs 1) = true ∧
     ptlrpc_set_next_timeout (mem_clock (-10) 2147483647) 0 = -2147483639) ∧
    (next_timeout_counts ((mem_clock (-4294967296) 0).reqs 1) = true ∧
     ptlrpc_set_next_timeout (mem_clock (-4294967296) 0) 0 = 0) ∧
    (next_timeout_counts ((mem_clock 0 (-2147483653)).reqs 1) = true ∧
     member_deadline ((mem_clock 0 (-2147483653)).reqs 1) ≤ (mem_clock 0 (-2147483653)).now ∧
     ptlrpc_set_next_timeout (mem_clock 0 (-2147483653)) 0 = 2147483643) := by
  refine ⟨⟨by decide, by decide⟩, ⟨by decide, by decide⟩, by decide, by decide, by decide⟩

/-- C29 (amended): at a time that is not negative, `ptlrpc_set_next_timeout`
returns 0 if and only if the set has no eligible member (phase `NEW`, phase `RPC` and not
waiting, or phase `BULK`; not timed out; not waiting for a context); it returns
exactly 1 whenever the deadline of at least one eligible member is at or before
now (the `int deadline` of the loop, and so the send time, plus the timeout for
a sent request, when that is not below -2^31), wherever the member stands in
the list and whatever the other members are; and the result is never
negative. -/
theorem next_timeout_zero_one_nonneg (m : Mem) (set : Nat) (hnow : 0 ≤ m.now) :
    (ptlrpc_set_next_timeout m set = 0 ↔
      ∀ a ∈ (m.sets set).set_requests, next_timeout_counts (m.reqs a) = false) ∧
    ((∃ a ∈ (m.sets set).set_requests, next_timeout_counts (m.reqs a) = true ∧
        next_timeout_deadline (m.reqs a) ≤ m.now) →
      ptlrpc_set_next_timeout m set = 1) ∧
    ((∃ a ∈ (m.sets set).set_requests, next_timeout_counts (m.reqs a) = true ∧
        -2147483648 ≤ member_deadline (m.reqs a) ∧ member_deadline (m.reqs a) ≤ m.now) →
      ptlrpc_set_next_timeout m set = 1) ∧
    0 ≤ ptlrpc_set_next_timeout m set ∧
    (∀ r, next_timeout_counts r = true ↔
      (r.rq_phase = RQ_PHASE_NEW ∨ (r.rq_phase = RQ_PHASE_RPC ∧ r.rq_waiting = false) ∨
        r.rq_phase = RQ_PHASE_BULK) ∧ r.rq_timedout = false ∧ r.rq_wait_ctx = false) := by
  obtain ⟨i1, i2, _, i4⟩ := next_timeout_loop_values m.now hnow
    ((m.sets set).set_requests.map m.reqs) 0 (le_refl 0)
  have hone : (∃ a ∈ (m.sets set).set_requests, next_timeout_counts (m.reqs a) = true ∧
      next_timeout_deadline (m.reqs a) ≤ m.now) → ptlrpc_set_next_timeout m set = 1 := by
    rintro ⟨a, ha, hc, hd⟩
    exact i4 ⟨m.reqs a, List.mem_map_of_mem _ ha, hc, hd⟩
  refine ⟨?_, hone, ?_, i1, ?_⟩
  · unfold ptlrpc_set_next_timeout
    rw [i2]
    constructor
    · rintro ⟨_, h⟩ a ha
      exact h (m.reqs a) (List.mem_map_of_mem _ ha)
    · intro h
      refine ⟨rfl, ?_⟩
      intro r hr
      obtain ⟨a, ha, rfl⟩ := List.mem_map.mp hr
      exact h a ha
  · rintro ⟨a, ha, hc, hlo, hd⟩
    exact hone ⟨a, ha, hc, le_trans (next_timeout_deadline_le _ hlo) hd⟩
  · intro r
    unfold next_timeout_counts
    simp only [Bool.and_eq_true, Bool.or_eq_true, Bool.not_eq_true', decide_eq_true_eq]
    constructor
    · rintro ⟨⟨h1, h2⟩, h3⟩
      refine ⟨?_, h2, h3⟩
      rcases h1 with (⟨p, q⟩ | p) | p
      · exact Or.inr (Or.inl ⟨p, q⟩)
      · exact Or.inr (Or.inr p)
      · exact Or.inl p
    · rintro ⟨h1, h2, h3⟩
      refine ⟨⟨?_, h2⟩, h3⟩
      rcases h1 with p | ⟨p, q⟩ | p
      · exact Or.inr p
      · exact Or.inl (Or.inl ⟨p, q⟩)
      · exact Or.inl (Or.inr p)

/-- Set 0 at time 1000: request 1 is due in 7 seconds, request 2 expired 10
seconds ago, request 3 is due in 3 seconds, request 4 is complete. -/
def mem_one_expired : Mem :=
  { now := 1000
    reqs := fun a =>
      if a = 1 then { rq_phase := RQ_PHASE_RPC, rq_sent := 1002, rq_timeout := 5 }
      else if a = 2 then { rq_phase := RQ_PHASE_BULK, rq_sent := 980, rq_timeout := 10 }
      else if a = 3 then { rq_phase := RQ_PHASE_NEW, rq_sent := 1003 }
      else { rq_phase := RQ_PHASE_COMPLETE }
    sets := fun s =>
      if s = 0 then { set_requests := [1, 2, 3, 4], set_remaining := 3 }
      else if s = 1 then { set_requests := [3, 4, 2, 1], set_remaining := 3 }
      else { set_requests := [4, 5], set_remaining := 0 } }

/-- C29 witness: with the expired member in second or in third place the result
is 1, and a set of complete members gives 0. -/
theorem next_timeout_zero_one_nonneg_witness :
    ptlrpc_set_next_timeout mem_one_expired 0 = 1 ∧
    ptlrpc_set_next_timeout mem_one_expired 1 = 1 ∧
    ptlrpc_set_next_timeout mem_one_expired 2 = 0 ∧
    0 ≤ ptlrpc_set_next_timeout mem_one_expired 0 :=
  ⟨(next_timeout_zero_one_nonneg mem_one_expired 0 (by decide)).2.2.1
      ⟨2, by decide, by decide, by decide, by decide⟩,
   (next_timeout_zero_one_nonneg mem_one_expired 1 (by decide)).2.1
      ⟨2, by decide, by decide, by decide⟩,
   (next_timeout_zero_one_nonneg mem_one_expired 2 (by decide)).1.mpr (by decide),
   (next_timeout_zero_one_nonneg mem_one_expired 0 (by decide)).2.2.2.1⟩

set_option linter.unusedTactic false
set_option linter.unreachableTactic false

/-! ## C30: `set_remaining` and the members that are not complete -/

/-- How a member counts for `set_remaining`: `live` when it still has to
complete, `done` once it is in phase `COMPLETE`, and `stray` when it is in phase
`UNREGISTERING` on its way to `COMPLETE`. -/
inductive member_class where
  | live
  | done
  | stray
  deriving DecidableEq, Repr

/-- The class of a request. -/
def member_class_of (r : ptlrpc_request) : member_class :=
  if r.rq_phase = RQ_PHASE_COMPLETE then .done
  else if r.rq_phase = RQ_PHASE_UNREGISTERING ∧ r.rq_next_phase = RQ_PHASE_COMPLETE then .stray
  else .live

/-- A list node that is empty or linked on a list that is not a list of a
set. -/
def off_set_lists : Option list_head → Bool
  | some (.set_requests _) => false
  | some (.set_new_requests _) => false
  | _ => true

/-- The nodes `rq_list` and `rq_replay_list` of a request are not linked on the
lists of a set (which take the node `rq_set_chain`). -/
def nodes_off_sets (r : ptlrpc_request) : Bool :=
  off_set_lists r.rq_list && off_set_lists r.rq_replay_list

/-- What the count of a set depends on in a request. -/
def req_view (r : ptlrpc_request) : member_class × Bool := (member_class_of r, nodes_off_sets r)

/-- What the count of the set `set` depends on in a memory: the members, the
counter `set_remaining`, and the class and nodes of every request. -/
def set_view (set : Nat) (m : Mem) : List Nat × Int × (Nat → member_class × Bool) :=
  ((m.sets set).set_requests, (m.sets set).set_remaining, fun b => req_view (m.reqs b))

/-- The state in which the body of the loop of `ptlrpc_check_set` works on the
request `a`: no `rq_list` or `rq_replay_list` node is linked on a list of a
set, and `a` still has to complete. -/
def ready (a : Nat) (m : Mem) : Prop :=
  (∀ b, nodes_off_sets (m.reqs b) = true) ∧ member_class_of (m.reqs a) = .live

/-- The fields of a request that the collaborators working on one request leave
alone: the phases and the two list nodes. -/
def req_core (r : ptlrpc_request) : rq_phase × rq_phase × Option list_head × Option list_head :=
  (r.rq_phase, r.rq_next_phase, r.rq_list, r.rq_replay_list)

theorem req_view_of_core (r r' : ptlrpc_request) (h : req_core r' = req_core r) : req_view r' = req_view r := by
  unfold req_core at h
  simp only [Prod.mk.injEq] at h
  obtain ⟨h1, h2, h3, h4⟩ := h
  unfold req_view member_class_of nodes_off_sets
  rw [h1, h2, h3, h4]

theorem ready_of_view (set a : Nat) (m m' : Mem) (h : set_view set m' = set_view set m) (hg : ready a m) :
    ready a m' := by
  unfold set_view at h
  simp only [Prod.mk.injEq] at h
  obtain ⟨_, _, h3⟩ := h
  have hb : ∀ b, req_view (m'.reqs b) = req_view (m.reqs b) := fun b => congrFun h3 b
  constructor
  · intro b
    have := hb b
    unfold req_view at this
    simp only [Prod.mk.injEq] at this
    rw [this.2]
    exact hg.1 b
  · have := hb a
    unfold req_view at this
    simp only [Prod.mk.injEq] at this
    rw [this.1]
    exact hg.2

theorem view_modReq (set : Nat) (m : Mem) (a : Nat) (f : ptlrpc_request → ptlrpc_request)
    (h : req_view (f (m.reqs a)) = req_view (m.reqs a)) : set_view set (m.modReq a f) = set_view set m := by
  unfold set_view
  simp only [modReq_sets, Prod.mk.injEq, true_and]
  funext b
  by_cases hb : b = a
  · subst hb
    simp [Mem.modReq, upd, h]
  · simp [Mem.modReq, upd, hb]

theorem view_modReq_core (set : Nat) (m : Mem) (a : Nat) (f : ptlrpc_request → ptlrpc_request)
    (h : req_core (f (m.reqs a)) = req_core (m.reqs a)) : set_view set (m.modReq a f) = set_view set m :=
  view_modReq set m a f (req_view_of_core _ _ h)

@[simp] theorem view_modImp (set : Nat) (m : Mem) (i : Nat) (f : obd_import → obd_import) :
    set_view set (m.modImp i f) = set_view set m := rfl

@[simp] theorem view_log_commit (set : Nat) (m : Mem) (a : Nat) :
    set_view set (m.log_commit a) = set_view set m := rfl

@[simp] theorem view_log_freed (set : Nat) (m : Mem) (a : Nat) :
    set_view set (m.log_freed a) = set_view set m := rfl

@[simp] theorem view_log_replay_unlink (set : Nat) (m : Mem) (a : Nat) :
    set_view set (m.log_replay_unlink a) = set_view set m := rfl

@[simp] theorem view_next_xid (set : Nat) (m : Mem) :
    set_view set (ptlrpc_next_xid m).1 = set_view set m := rfl

theorem view_set_list (set : Nat) (m : Mem) (h : list_head) (l : List Nat)
    (hoff : off_set_lists (some h) = true) : set_view set (m.set_list h l) = set_view set m := by
  cases h <;> first | rfl | (simp [off_set_lists] at hoff)

theorem off_of_typed_list (b : Nat) (m : Mem) (hT : ∀ x, nodes_off_sets (m.reqs x) = true)
    (h : list_head) (hl : (m.reqs b).rq_list = some h) : off_set_lists (some h) = true := by
  have := hT b
  unfold nodes_off_sets at this
  rw [hl] at this
  simp only [Bool.and_eq_true] at this
  exact this.1

theorem off_of_typed_replay (a b : Nat) (m : Mem) (hg : ready a m) (h : list_head)
    (hl : (m.reqs b).rq_replay_list = some h) : off_set_lists (some h) = true := by
  have := hg.1 b
  unfold nodes_off_sets at this
  rw [hl] at this
  simp only [Bool.and_eq_true] at this
  exact this.2

theorem req_view_unlink_rq_list (r : ptlrpc_request) (h : nodes_off_sets r = true) :
    req_view (unlink_rq_list r) = req_view r := by
  unfold nodes_off_sets at h
  simp only [Bool.and_eq_true] at h
  show (member_class_of r, off_set_lists none && off_set_lists r.rq_replay_list) =
    (member_class_of r, off_set_lists r.rq_list && off_set_lists r.rq_replay_list)
  rw [h.1]
  rfl

theorem req_view_unlink_rq_replay_list (r : ptlrpc_request) (h : nodes_off_sets r = true) :
    req_view (unlink_rq_replay_list r) = req_view r := by
  unfold nodes_off_sets at h
  simp only [Bool.and_eq_true] at h
  show (member_class_of r, off_set_lists r.rq_list && off_set_lists none) =
    (member_class_of r, off_set_lists r.rq_list && off_set_lists r.rq_replay_list)
  rw [h.2]
  rfl

theorem req_view_link_rq_list (r : ptlrpc_request) (hd : list_head) (h : nodes_off_sets r = true)
    (hoff : off_set_lists (some hd) = true) : req_view (link_rq_list hd r) = req_view r := by
  unfold nodes_off_sets at h
  simp only [Bool.and_eq_true] at h
  show (member_class_of r, off_set_lists (some hd) && off_set_lists r.rq_replay_list) =
    (member_class_of r, off_set_lists r.rq_list && off_set_lists r.rq_replay_list)
  rw [h.1, hoff]

theorem req_view_link_rq_replay_list (r : ptlrpc_request) (imp : Nat)
    (h : nodes_off_sets r = true) : req_view (link_rq_replay_list imp r) = req_view r := by
  unfold nodes_off_sets at h
  simp only [Bool.and_eq_true] at h
  show (member_class_of r, off_set_lists r.rq_list && off_set_lists (some (.imp_replay_list imp))) =
    (member_class_of r, off_set_lists r.rq_list && off_set_lists r.rq_replay_list)
  rw [h.2]
  rfl

theorem view_del_init_rq_list (set b : Nat) (m : Mem)
    (hT : ∀ x, nodes_off_sets (m.reqs x) = true) :
    set_view set (del_init_rq_list m b) = set_view set m := by
  unfold del_init_rq_list
  split
  · rfl
  · rename_i h hl
    have hoff := off_of_typed_list b m hT h hl
    rw [view_modReq, view_set_list set m h _ hoff]
    have hb := hT b
    have hr : ((m.set_list h ((m.list_of h).erase b)).reqs b) = m.reqs b := by
      rw [set_list_reqs]
    rw [hr]
    exact req_view_unlink_rq_list _ hb

theorem view_del_init_rq_replay_list (set a b : Nat) (m : Mem) (hg : ready a m) :
    set_view set (del_init_rq_replay_list m b) = set_view set m := by
  unfold del_init_rq_replay_list
  split
  · rfl
  · rename_i h hl
    have hoff := off_of_typed_replay a b m hg h hl
    rw [view_log_replay_unlink, view_modReq, view_set_list set m h _ hoff]
    have hb := hg.1 b
    have hr : ((m.set_list h ((m.list_of h).erase b)).reqs b) = m.reqs b := by
      rw [set_list_reqs]
    rw [hr]
    exact req_view_unlink_rq_replay_list _ hb

theorem view_add_tail_rq_list (set a b : Nat) (m : Mem) (h : list_head) (hg : ready a m)
    (hoff : off_set_lists (some h) = true) :
    set_view set (add_tail_rq_list m b h) = set_view set m := by
  unfold add_tail_rq_list
  rw [view_modReq, view_set_list set m h _ hoff]
  have hb := hg.1 b
  have hr : ((m.set_list h (m.list_of h ++ [b])).reqs b) = m.reqs b := by
    rw [set_list_reqs]
  rw [hr]
  exact req_view_link_rq_list _ h hb hoff

theorem view_step_modReq (set : Nat) (m0 m : Mem) (a : Nat) (f : ptlrpc_request → ptlrpc_request)
    (h : req_view (f (m.reqs a)) = req_view (m.reqs a)) (hm : set_view set m = set_view set m0) :
    set_view set (m.modReq a f) = set_view set m0 :=
  (view_modReq set m a f h).trans hm

theorem view_step_core (set : Nat) (m0 m : Mem) (a : Nat) (f : ptlrpc_request → ptlrpc_request)
    (h : req_core (f (m.reqs a)) = req_core (m.reqs a)) (hm : set_view set m = set_view set m0) :
    set_view set (m.modReq a f) = set_view set m0 :=
  (view_modReq_core set m a f h).trans hm

theorem view_step_modImp (set : Nat) (m0 m : Mem) (i : Nat) (f : obd_import → obd_import)
    (hm : set_view set m = set_view set m0) : set_view set (m.modImp i f) = set_view set m0 := hm

theorem view_chain (set a : Nat) (m m1 m2 : Mem) (hg : ready a m) (h1 : set_view set m1 = set_view set m)
    (k : ready a m1 → set_view set m2 = set_view set m1) : set_view set m2 = set_view set m :=
  (k (ready_of_view set a m m1 h1 hg)).trans h1

theorem view_free_req_to_pool (set a b pool : Nat) (m m' : Mem) (hg : ready a m)
    (h : __ptlrpc_free_req_to_pool m b pool = some m') : set_view set m' = set_view set m := by
  unfold __ptlrpc_free_req_to_pool at h
  repeat' split at h
  all_goals try contradiction
  cases h
  exact view_add_tail_rq_list set a b m _ hg rfl

theorem view_free_req_release (set a b : Nat) (m m' : Mem) (hg : ready a m)
    (h : free_req_release m b = some m') : set_view set m' = set_view set m := by
  have h1 : set_view set (m.modReq b release_buffers) = set_view set m := view_modReq set m b _ rfl
  unfold free_req_release at h
  repeat' split at h
  all_goals try contradiction
  · exact view_chain set a m _ m' hg h1 (fun hg1 => view_free_req_to_pool set a b _ _ m' hg1 h)
  · cases h
    exact h1

theorem view_free_req (set a b : Nat) (m m' : Mem) (hg : ready a m)
    (h : __ptlrpc_free_req m b = some m') : set_view set m' = set_view set m := by
  unfold __ptlrpc_free_req at h
  repeat' split at h
  all_goals try contradiction
  · exact view_chain set a m _ m' hg (view_del_init_rq_replay_list set a b m hg)
      (fun hg1 => view_free_req_release set a b _ m' hg1 h)
  · exact view_free_req_release set a b m m' hg h

theorem view_req_finished (set a b : Nat) (m : Mem) (r : Mem × Int) (hg : ready a m)
    (h : __ptlrpc_req_finished m b = some r) : set_view set r.1 = set_view set m := by
  have h1 : set_view set (m.modReq b (add_refcount (-1))) = set_view set m := view_modReq set m b _ rfl
  unfold __ptlrpc_req_finished at h
  simp only [] at h
  split at h
  · cases hf : __ptlrpc_free_req (m.modReq b (add_refcount (-1))) b with
    | none => rw [hf] at h; cases h
    | some m2 =>
      rw [hf] at h
      cases h
      exact view_chain set a m _ m2 hg h1 (fun hg1 => view_free_req set a b _ m2 hg1 hf)
  · cases h
    exact h1

theorem view_retain_replayable (set a b imp : Nat) (m m' : Mem) (hg : ready a m)
    (h : ptlrpc_retain_replayable_request m b imp = some m') : set_view set m' = set_view set m := by
  unfold ptlrpc_retain_replayable_request at h
  simp only [] at h
  repeat' split at h
  all_goals try contradiction
  · cases h
    exact view_modReq set m b _ rfl
  · cases h
    have h3 : set_view set (ptlrpc_request_addref ((m.modReq b clear_MSG_RESENT).modReq b add_MSG_REPLAY) b)
        = set_view set m := by
      unfold ptlrpc_request_addref
      rw [view_modReq set _ b _ rfl, view_modReq set _ b _ rfl, view_modReq set _ b _ rfl]
    rw [view_modReq, view_modImp]
    · exact h3
    · have hg3 := ready_of_view set a m _ h3 hg
      exact req_view_link_rq_replay_list _ imp (hg3.1 b)

theorem view_free_committed_free_req (set a b : Nat) (m m' : Mem) (hg : ready a m)
    (h : free_committed_free_req m b = some m') : set_view set m' = set_view set m := by
  unfold free_committed_free_req at h
  simp only [] at h
  have h1 : set_view set (m.modReq b clear_rq_replay) = set_view set m := view_modReq set m b _ rfl
  have h2 : set_view set (if ((m.modReq b clear_rq_replay).reqs b).rq_commit_cb = true
      then (m.modReq b clear_rq_replay).log_commit b else m.modReq b clear_rq_replay) =
      set_view set m := by
    split
    · rw [view_log_commit, h1]
    · exact h1
  cases hf : __ptlrpc_req_finished (del_init_rq_replay_list
      (if ((m.modReq b clear_rq_replay).reqs b).rq_commit_cb = true
        then (m.modReq b clear_rq_replay).log_commit b else m.modReq b clear_rq_replay) b) b with
  | none => rw [hf] at h; cases h
  | some r =>
    rw [hf] at h
    cases h
    have hg2 := ready_of_view set a m _ h2 hg
    have h3 := view_del_init_rq_replay_list set a b _ hg2
    have hg3 := ready_of_view set a _ _ h3 hg2
    rw [view_req_finished set a b _ r hg3 hf, h3, h2]

theorem view_free_committed_loop (set a imp : Nat) (l : List Nat) :
    ∀ (m : Mem) (last : Option Nat) (m' : Mem), ready a m →
      free_committed_loop imp m last l = some m' → set_view set m' = set_view set m := by
  induction l with
  | nil =>
    intro m last m' _ h
    unfold free_committed_loop at h
    cases h
    rfl
  | cons b rest ih =>
    intro m last m' hg h
    unfold free_committed_loop at h
    repeat' split at h
    all_goals try contradiction
    · rename_i m1 hm1
      have h1 := view_free_committed_free_req set a b m m1 hg hm1
      exact view_chain set a m m1 m' hg h1 (fun hg1 => ih m1 _ m' hg1 h)
    · exact ih m _ m' hg h
    · cases h; rfl
    · rename_i m1 hm1
      have h1 := view_free_committed_free_req set a b m m1 hg hm1
      exact view_chain set a m m1 m' hg h1 (fun hg1 => ih m1 _ m' hg1 h)

theorem view_free_committed (set a imp : Nat) (m m' : Mem) (hg : ready a m)
    (h : ptlrpc_free_committed m imp = some m') : set_view set m' = set_view set m := by
  unfold ptlrpc_free_committed at h
  split at h
  · cases h; rfl
  · exact view_chain set a m (m.modImp imp record_last_checked) m' hg rfl
      (fun hg1 => view_free_committed_loop set a imp _ _ _ m' hg1 h)

/-- The collaborators leave the count of the set `set` alone: those that work
on one request keep its phases and its list nodes, and the recovery functions,
which work on the whole memory, keep the members and the counter of the set and
the class and nodes of every request. -/
structure collab_frame (c : Collab) (set : Nat) : Prop where
  LNetMDUnlink : ∀ r, req_core (c.LNetMDUnlink r) = req_core r
  reply_unlinked : ∀ r, req_core (c.reply_unlinked r) = req_core r
  ptlrpc_unregister_bulk : ∀ now r b, req_core (c.ptlrpc_unregister_bulk now r b).1 = req_core r
  ptlrpc_no_resend : ∀ now r, req_core (c.ptlrpc_no_resend now r).1 = req_core r
  sptlrpc_req_refresh_ctx : ∀ now r, req_core (c.sptlrpc_req_refresh_ctx now r).1 = req_core r
  ptl_send_rpc : ∀ now r, req_core (c.ptl_send_rpc now r).1 = req_core r
  sptlrpc_cli_unwrap_reply : ∀ r, req_core (c.sptlrpc_cli_unwrap_reply r).1 = req_core r
  ptlrpc_unpack_rep_msg : ∀ r, req_core (c.ptlrpc_unpack_rep_msg r).1 = req_core r
  lustre_unpack_rep_ptlrpc_body : ∀ r, req_core (c.lustre_unpack_rep_ptlrpc_body r).1 = req_core r
  req_interpret : ∀ cb r rc, req_core (c.req_interpret cb r rc).1 = req_core r
  ptlrpc_fail_import : ∀ m i cnt, set_view set (c.ptlrpc_fail_import m i cnt) = set_view set m
  ptlrpc_request_handle_notconn : ∀ m a, set_view set (c.ptlrpc_request_handle_notconn m a) = set_view set m

theorem class_of_core (r r' : ptlrpc_request) (h : req_core r' = req_core r) :
    member_class_of r' = member_class_of r := by
  have := req_view_of_core r r' h
  unfold req_view at this
  simp only [Prod.mk.injEq] at this
  exact this.1

theorem phase_of_core (r r' : ptlrpc_request) (h : req_core r' = req_core r) :
    r'.rq_phase = r.rq_phase ∧ r'.rq_next_phase = r.rq_next_phase := by
  unfold req_core at h
  simp only [Prod.mk.injEq] at h
  exact ⟨h.1, h.2.1⟩

theorem rqphase_move_nodes (r : ptlrpc_request) (p : rq_phase) :
    nodes_off_sets (ptlrpc_rqphase_move r p) = nodes_off_sets r := by
  unfold ptlrpc_rqphase_move
  repeat' split
  all_goals rfl

theorem rqphase_move_phase (r : ptlrpc_request) (p : rq_phase) :
    (ptlrpc_rqphase_move r p).rq_phase = p := by
  unfold ptlrpc_rqphase_move
  repeat' split
  · rename_i h; exact h
  · rfl
  · rfl

theorem class_live_of_phase (r : ptlrpc_request) (h1 : r.rq_phase ≠ RQ_PHASE_COMPLETE)
    (h2 : r.rq_phase ≠ RQ_PHASE_UNREGISTERING) : member_class_of r = .live := by
  unfold member_class_of
  rw [if_neg h1, if_neg (fun h => h2 h.1)]

theorem req_view_move_to (r r0 : ptlrpc_request) (p : rq_phase) (h1 : p ≠ RQ_PHASE_COMPLETE)
    (h2 : p ≠ RQ_PHASE_UNREGISTERING) (hl : member_class_of r0 = .live)
    (hn : nodes_off_sets r = nodes_off_sets r0) :
    req_view (ptlrpc_rqphase_move r p) = req_view r0 := by
  unfold req_view
  rw [rqphase_move_nodes, hn, hl,
    class_live_of_phase _ (by rw [rqphase_move_phase]; exact h1)
      (by rw [rqphase_move_phase]; exact h2)]

theorem class_live_iff (r : ptlrpc_request) :
    member_class_of r = .live ↔
      r.rq_phase ≠ RQ_PHASE_COMPLETE ∧
      ¬ (r.rq_phase = RQ_PHASE_UNREGISTERING ∧ r.rq_next_phase = RQ_PHASE_COMPLETE) := by
  unfold member_class_of
  constructor
  · intro h
    repeat' split at h
    all_goals try contradiction
    rename_i h1 h2
    exact ⟨h1, h2⟩
  · rintro ⟨h1, h2⟩
    rw [if_neg h1, if_neg h2]

theorem req_view_move_unregistering (r : ptlrpc_request) (hl : member_class_of r = .live) :
    req_view (ptlrpc_rqphase_move r RQ_PHASE_UNREGISTERING) = req_view r := by
  unfold req_view
  rw [rqphase_move_nodes, hl]
  have h := (class_live_iff r).mp hl
  have : member_class_of (ptlrpc_rqphase_move r RQ_PHASE_UNREGISTERING) = .live := by
    rw [class_live_iff]
    unfold ptlrpc_rqphase_move
    split
    · exact h
    · simp only [if_true]
      exact ⟨by decide, fun hh => h.1 hh.2⟩
  rw [this]

theorem req_view_move_next (r : ptlrpc_request) (hp : r.rq_phase = RQ_PHASE_UNREGISTERING)
    (hl : member_class_of r = .live) :
    req_view (ptlrpc_rqphase_move r r.rq_next_phase) = req_view r := by
  unfold req_view
  rw [rqphase_move_nodes, hl]
  have h := (class_live_iff r).mp hl
  have hnext : r.rq_next_phase ≠ RQ_PHASE_COMPLETE := fun hh => h.2 ⟨hp, hh⟩
  by_cases hu : r.rq_next_phase = RQ_PHASE_UNREGISTERING
  · have : ptlrpc_rqphase_move r r.rq_next_phase = r := by
      unfold ptlrpc_rqphase_move
      rw [if_pos (by rw [hp, hu])]
    rw [this, hl]
  · rw [class_live_of_phase _ (by rw [rqphase_move_phase]; exact hnext)
      (by rw [rqphase_move_phase]; exact hu)]

theorem view_unregister_reply (c : Collab) (set : Nat) (hc : collab_frame c set) (m : Mem)
    (a : Nat) (async : Bool) (hg : ready a m) :
    set_view set (ptlrpc_unregister_reply c m a async).1 = set_view set m := by
  obtain ⟨f, hf, hshape⟩ := unregister_reply_shape c m a async
  rw [hf]
  apply view_modReq
  have hl := hg.2
  rcases hshape (m.reqs a) with h | ⟨r1, hr1, h⟩
  · rw [h]
  · have hcore1 : req_core r1 = req_core (m.reqs a) := by
      rcases hr1 with h1 | h1
      · rw [h1]
      · rw [h1]; rfl
    have hl1 : member_class_of r1 = .live := by rw [class_of_core _ _ hcore1]; exact hl
    have hcore2 : req_core (c.LNetMDUnlink r1) = req_core (m.reqs a) :=
      (hc.LNetMDUnlink r1).trans hcore1
    have hl2 : member_class_of (c.LNetMDUnlink r1) = .live := by
      rw [class_of_core _ _ hcore2]; exact hl
    have hv3 : req_view (ptlrpc_rqphase_move (c.LNetMDUnlink r1) RQ_PHASE_UNREGISTERING) =
        req_view (m.reqs a) :=
      (req_view_move_unregistering _ hl2).trans (req_view_of_core _ _ hcore2)
    rcases h with h | h | h | ⟨_, h⟩
    · rw [h]; exact req_view_of_core _ _ hcore1
    · rw [h]; exact req_view_of_core _ _ hcore2
    · rw [h]; exact hv3
    · rw [h]
      have hcore4 := hc.reply_unlinked
        (ptlrpc_rqphase_move (c.LNetMDUnlink r1) RQ_PHASE_UNREGISTERING)
      have hp4 : (c.reply_unlinked
          (ptlrpc_rqphase_move (c.LNetMDUnlink r1) RQ_PHASE_UNREGISTERING)).rq_phase =
          RQ_PHASE_UNREGISTERING := by
        rw [(phase_of_core _ _ hcore4).1, rqphase_move_phase]
      have hv4 := (req_view_of_core _ _ hcore4).trans hv3
      have hl4 : member_class_of (c.reply_unlinked
          (ptlrpc_rqphase_move (c.LNetMDUnlink r1) RQ_PHASE_UNREGISTERING)) = .live := by
        have := hv4
        unfold req_view at this
        simp only [Prod.mk.injEq] at this
        rw [this.1]; exact hl
      exact (req_view_move_next _ hp4 hl4).trans hv4

theorem view_expire_one_request (c : Collab) (set : Nat) (hc : collab_frame c set) (m : Mem)
    (a : Nat) (async : Bool) (hg : ready a m) :
    set_view set (ptlrpc_expire_one_request c m a async).1 = set_view set m := by
  have h1 : set_view set (m.modReq a (fun r => { r with rq_timedout := true })) = set_view set m :=
    view_modReq set m a _ rfl
  have hg1 := ready_of_view set a m _ h1 hg
  have h2 := (view_unregister_reply c set hc _ a async hg1).trans h1
  have h3 : set_view set ((ptlrpc_unregister_reply c
      (m.modReq a (fun r => { r with rq_timedout := true })) a async).1.modReq a
      (fun r => (c.ptlrpc_unregister_bulk (ptlrpc_unregister_reply c
        (m.modReq a (fun r => { r with rq_timedout := true })) a async).1.now r
        async).1)) = set_view set m := by
    rw [view_modReq_core set _ a _ (hc.ptlrpc_unregister_bulk _ _ _)]
    exact h2
  unfold ptlrpc_expire_one_request
  simp only []
  repeat' split
  all_goals try simp only []
  all_goals
    first
      | exact h3
      | exact view_step_modImp set m _ _ _ h3
      | (refine view_step_modReq set m _ a _ ?_ (view_step_modImp set m _ _ _ h3)
         rfl)
      | (rw [hc.ptlrpc_fail_import]
         exact view_step_core set m _ a _ (hc.ptlrpc_no_resend _ _) (view_step_modImp set m _ _ _ h3))

theorem view_step_move_to (set : Nat) (m0 m : Mem) (a : Nat)
    (g : ptlrpc_request → ptlrpc_request) (p : rq_phase) (hg0 : ready a m0)
    (h1 : p ≠ RQ_PHASE_COMPLETE) (h2 : p ≠ RQ_PHASE_UNREGISTERING)
    (hn : nodes_off_sets (g (m.reqs a)) = nodes_off_sets (m.reqs a))
    (hm : set_view set m = set_view set m0) :
    set_view set (m.modReq a (fun r => ptlrpc_rqphase_move (g r) p)) = set_view set m0 :=
  view_step_modReq set m0 m a _
    (req_view_move_to (g (m.reqs a)) (m.reqs a) p h1 h2 (ready_of_view set a m0 m hm hg0).2 hn) hm

theorem view_at_set_req_timeout (c : Collab) (set : Nat) (m : Mem) (a : Nat) (m' : Mem)
    (h : ptlrpc_at_set_req_timeout c m a = some m') : set_view set m' = set_view set m := by
  unfold ptlrpc_at_set_req_timeout at h
  split at h
  · cases h
  · cases h
    exact view_modReq set m a _ rfl

theorem view_at_adj_service (c : Collab) (set : Nat) (m : Mem) (a : Nat) (v : Int) (m' : Mem)
    (h : ptlrpc_at_adj_service c m a v = some m') : set_view set m' = set_view set m := by
  unfold ptlrpc_at_adj_service at h
  split at h
  · cases h
  · cases h; rfl

theorem view_at_adj_net_latency (c : Collab) (set : Nat) (m : Mem) (a : Nat) (v : Int)
    (m' : Mem) (h : ptlrpc_at_adj_net_latency c m a v = some m') : set_view set m' = set_view set m := by
  unfold ptlrpc_at_adj_net_latency at h
  split at h
  · cases h
  · cases h; rfl

theorem view_save_versions (set : Nat) (m : Mem) (a : Nat) (m' : Mem)
    (h : ptlrpc_save_versions m a = some m') : set_view set m' = set_view set m := by
  unfold ptlrpc_save_versions at h
  repeat' split at h
  all_goals try contradiction
  · cases h; rfl
  · cases h
    exact view_modReq set m a _ rfl

theorem req_core_unpack_reply (c : Collab) (set : Nat) (hc : collab_frame c set)
    (r : ptlrpc_request) : req_core (unpack_reply c r).1 = req_core r := by
  unfold unpack_reply
  by_cases hf : c.flvr_policy_not_null r = true
  · simp only [hf, if_true, true_and]
    repeat' split
    all_goals
      first
        | exact hc.ptlrpc_unpack_rep_msg r
        | exact (hc.lustre_unpack_rep_ptlrpc_body _).trans (hc.ptlrpc_unpack_rep_msg r)
  · have hf' : c.flvr_policy_not_null r = false := by simpa using hf
    simp only [hf', Bool.false_eq_true, if_false, false_and]
    repeat' split
    all_goals exact hc.lustre_unpack_rep_ptlrpc_body r

theorem req_core_store_transno (r : ptlrpc_request) : req_core (store_transno r) = req_core r := by
  unfold store_transno
  split <;> rfl

theorem view_after_reply_retain (set a imp : Nat) (m m' : Mem) (hg : ready a m)
    (h : after_reply_retain m a imp = some m') : set_view set m' = set_view set m := by
  unfold after_reply_retain at h
  repeat' split at h
  all_goals try contradiction
  · rename_i m0 hm0
    have h0 := view_save_versions set m a m0 hm0
    exact view_chain set a m m0 m' hg h0 (fun hg0 => view_retain_replayable set a a imp m0 m' hg0 h)
  · cases h; rfl
  · cases h; rfl

theorem view_after_reply_replayable (set a imp : Nat) (m m' : Mem) (hg : ready a m)
    (h : after_reply_replayable m a imp = some m') : set_view set m' = set_view set m := by
  unfold after_reply_replayable at h
  split at h
  · cases h
  · rename_i m1 hm1
    simp only [] at h
    have h1 := view_after_reply_retain set a imp m m1 hg hm1
    have h2 : set_view set (if ((m1.reqs a).rq_repmsg.lm_last_committed ≠ 0) then
        m1.modImp imp (set_peer_committed (m1.reqs a).rq_repmsg.lm_last_committed)
        else m1) = set_view set m := by
      split
      · exact h1
      · exact h1
    exact view_chain set a m _ m' hg h2 (fun hg2 => view_free_committed set a imp _ m' hg2 h)

theorem view_after_reply_unpacked (c : Collab) (set : Nat) (hc : collab_frame c set) (m : Mem)
    (a imp : Nat) (r : Mem × Int) (hg : ready a m)
    (h : after_reply_unpacked c m a imp = some r) : set_view set r.1 = set_view set m := by
  unfold after_reply_unpacked at h
  split at h
  · cases h
  rename_i m3 hm3
  split at h
  · cases h
  rename_i m4 hm4
  have h4 : set_view set m4 = set_view set m := by
    rw [view_at_adj_net_latency c set m3 a _ m4 hm4, view_at_adj_service c set m a _ m3 hm3]
  simp only [] at h
  split at h
  · split at h
    · cases h
      exact h4
    · cases h
      show set_view set (c.ptlrpc_request_handle_notconn _ _) = _
      rw [hc.ptlrpc_request_handle_notconn]
      exact h4
  · have h6 : set_view set ((m4.modImp imp (set_connect_error (ptlrpc_check_status (m4.reqs a)))).modReq
        a store_transno) = set_view set m :=
      view_step_core set m _ a _ (req_core_store_transno _) h4
    split at h
    · split at h
      · cases h
      · rename_i m7 hm7
        cases h
        exact view_chain set a m _ m7 hg h6
          (fun hg6 => view_after_reply_replayable set a imp _ m7 hg6 hm7)
    · cases h
      exact h6

theorem view_after_reply (c : Collab) (set : Nat) (hc : collab_frame c set) (m : Mem)
    (a : Nat) (r : Mem × Int) (hg : ready a m)
    (h : after_reply c m a = some r) : set_view set r.1 = set_view set m := by
  have h1 : set_view set (m.modReq a (fun r => (c.sptlrpc_cli_unwrap_reply r).1)) = set_view set m :=
    view_modReq_core set m a _ (hc.sptlrpc_cli_unwrap_reply _)
  have h2 : set_view set ((m.modReq a (fun r => (c.sptlrpc_cli_unwrap_reply r).1)).modReq a
      (fun r => (unpack_reply c r).1)) = set_view set m :=
    view_step_core set m _ a _ (req_core_unpack_reply c set hc _) h1
  unfold after_reply at h
  split at h
  · cases h
  simp only [] at h
  repeat' split at h
  all_goals try contradiction
  all_goals
    first
      | (cases h; exact h1)
      | (cases h; exact h2)
      | (cases h
         simp only []
         exact view_modReq_core set m a _ (hc.ptlrpc_no_resend _ _))
      | exact view_chain set a m _ r.1 hg h2
          (fun hg2 => view_after_reply_unpacked c set hc _ a _ r hg2 h)

theorem view_send_new_req_transmit (c : Collab) (set : Nat) (hc : collab_frame c set) (m : Mem)
    (a : Nat) : set_view set (send_new_req_transmit c m a).1 = set_view set m := by
  have h1 : set_view set (m.modReq a (fun r =>
      { r with rq_reqmsg := { r.rq_reqmsg with lm_status := c.cfs_curproc_pid } })) = set_view set m :=
    view_modReq set m a _ rfl
  have h2 := view_step_core set m _ a
    (fun _ => (c.sptlrpc_req_refresh_ctx (m.modReq a (fun r =>
      { r with rq_reqmsg := { r.rq_reqmsg with lm_status := c.cfs_curproc_pid } })).now
      ((m.modReq a (fun r =>
      { r with rq_reqmsg := { r.rq_reqmsg with lm_status := c.cfs_curproc_pid } })).reqs a)).1)
    (hc.sptlrpc_req_refresh_ctx _ _) h1
  unfold send_new_req_transmit
  simp only []
  repeat' split
  all_goals try simp only []
  all_goals
    first
      | exact h2
      | (refine view_step_modReq set m _ a _ ?_ h2
         rfl)
      | exact view_step_core set m _ a _ (hc.ptl_send_rpc _ _) h2
      | (refine view_step_modReq set m _ a _ ?_
           (view_step_core set m _ a _ (hc.ptl_send_rpc _ _) h2)
         rfl)


theorem view_step_add_tail (set : Nat) (m0 m : Mem) (a b : Nat) (h : list_head)
    (hg0 : ready a m0) (hoff : off_set_lists (some h) = true) (hm : set_view set m = set_view set m0) :
    set_view set (add_tail_rq_list m b h) = set_view set m0 :=
  (view_add_tail_rq_list set a b m h (ready_of_view set a m0 m hm hg0) hoff).trans hm

theorem view_step_del_init (set : Nat) (m0 m : Mem) (a b : Nat) (hg0 : ready a m0)
    (hm : set_view set m = set_view set m0) : set_view set (del_init_rq_list m b) = set_view set m0 :=
  (view_del_init_rq_list set b m (ready_of_view set a m0 m hm hg0).1).trans hm

theorem view_step_unregister_reply (c : Collab) (set : Nat) (hc : collab_frame c set)
    (m0 m : Mem) (a : Nat) (async : Bool) (hg0 : ready a m0) (hm : set_view set m = set_view set m0) :
    set_view set (ptlrpc_unregister_reply c m a async).1 = set_view set m0 :=
  (view_unregister_reply c set hc m a async (ready_of_view set a m0 m hm hg0)).trans hm

theorem view_step_expire (c : Collab) (set : Nat) (hc : collab_frame c set)
    (m0 m : Mem) (a : Nat) (async : Bool) (hg0 : ready a m0) (hm : set_view set m = set_view set m0) :
    set_view set (ptlrpc_expire_one_request c m a async).1 = set_view set m0 :=
  (view_expire_one_request c set hc m a async (ready_of_view set a m0 m hm hg0)).trans hm

theorem view_step_transmit (c : Collab) (set : Nat) (hc : collab_frame c set)
    (m0 m : Mem) (a : Nat) (hm : set_view set m = set_view set m0) :
    set_view set (send_new_req_transmit c m a).1 = set_view set m0 :=
  (view_send_new_req_transmit c set hc m a).trans hm

theorem view_send_new_req (c : Collab) (set : Nat) (hc : collab_frame c set) (m : Mem)
    (a : Nat) (r : Mem × Int) (hg : ready a m)
    (h : ptlrpc_send_new_req c m a = some r) : set_view set r.1 = set_view set m := by
  unfold ptlrpc_send_new_req at h
  simp only [] at h
  repeat' split at h
  all_goals try contradiction
  all_goals cases h
  all_goals try simp only []
  all_goals
    repeat
      first
        | rfl
        | refine view_step_transmit c set hc m _ a ?_
        | refine view_step_modImp set m _ _ _ ?_
        | refine view_step_add_tail set m _ a a _ hg (by rfl) ?_
        | refine view_step_del_init set m _ a a hg ?_
        | refine view_step_unregister_reply c set hc m _ a _ hg ?_
        | refine view_step_expire c set hc m _ a _ hg ?_
        | refine view_step_core set m _ a _ (hc.LNetMDUnlink _) ?_
        | refine view_step_core set m _ a _ (hc.ptlrpc_unregister_bulk _ _ _) ?_
        | refine view_step_core set m _ a _ (hc.ptlrpc_no_resend _ _) ?_
        | refine view_step_core set m _ a _ (hc.sptlrpc_req_refresh_ctx _ _) ?_
        | refine view_step_core set m _ a _ (hc.ptl_send_rpc _ _) ?_
        | refine view_step_modReq set m _ a _ (by rfl) ?_
        | refine view_step_move_to set m _ a _ _ hg (by decide) (by decide) (by rfl) ?_

theorem view_at_recv_early_reply (c : Collab) (set : Nat) (m : Mem) (a : Nat) (r : Mem × Int)
    (h : ptlrpc_at_recv_early_reply c m a = some r) : set_view set r.1 = set_view set m := by
  have h1 : set_view set (m.modReq a (fun r => { r with rq_early := false })) = set_view set m :=
    view_modReq set m a _ rfl
  unfold ptlrpc_at_recv_early_reply at h
  simp only [] at h
  repeat' split at h
  all_goals try contradiction
  · cases h; exact h1
  · cases h; exact h1
  · rename_i m2 hm2 _ m3 hm3 _ m4 hm4 _ nl hnl
    cases h
    simp only []
    refine view_step_modReq set m _ a _ (by rfl) ?_
    rw [view_at_set_req_timeout c set m3 a m4 hm4, view_at_adj_net_latency c set m2 a _ m3 hm3,
      view_at_adj_service c set _ a _ m2 hm2]
    exact h1

theorem view_check_set_resend_bulk (c : Collab) (set : Nat) (hc : collab_frame c set) (m : Mem)
    (a : Nat) : set_view set (check_set_resend_bulk c m a).1 = set_view set m := by
  have h1 : set_view set (m.modReq a (fun r => { r with rq_resend := true })) = set_view set m :=
    view_modReq set m a _ rfl
  unfold check_set_resend_bulk
  simp only []
  repeat' split
  all_goals try simp only []
  all_goals
    first
      | rfl
      | exact h1
      | exact view_step_core set m _ a _ (hc.ptlrpc_unregister_bulk _ _ _) h1
      | (refine view_step_modReq set m _ a _ (by rfl) ?_
         rw [view_next_xid]
         exact view_step_core set m _ a _ (hc.ptlrpc_unregister_bulk _ _ _) h1)

theorem view_check_set_resend_send (c : Collab) (set : Nat) (hc : collab_frame c set) (m : Mem)
    (a : Nat) (force : Bool) : set_view set (check_set_resend_send c m a force).mem = set_view set m := by
  have h1 : set_view set (m.modReq a (fun r => (c.sptlrpc_req_refresh_ctx m.now r).1)) = set_view set m :=
    view_modReq_core set m a _ (hc.sptlrpc_req_refresh_ctx _ _)
  have h2 := view_step_modReq set m _ a (fun r => { r with rq_wait_ctx := false }) rfl h1
  have h3 := view_step_core set m _ a
    (fun r => (c.ptl_send_rpc ((m.modReq a (fun r => (c.sptlrpc_req_refresh_ctx m.now r).1)).modReq
      a (fun r => { r with rq_wait_ctx := false })).now r).1) (hc.ptl_send_rpc _ _) h2
  unfold check_set_resend_send
  simp only []
  repeat' split
  all_goals simp only [check_flow_mem_next, check_flow_mem_bulk]
  all_goals
    first
      | exact h3
      | exact view_step_modReq set m _ a _ (by rfl) h1
      | exact view_step_modReq set m _ a _ (by rfl) h3

theorem view_step_resend_bulk (c : Collab) (set : Nat) (hc : collab_frame c set)
    (m0 m : Mem) (a : Nat) (hm : set_view set m = set_view set m0) :
    set_view set (check_set_resend_bulk c m a).1 = set_view set m0 :=
  (view_check_set_resend_bulk c set hc m a).trans hm

theorem view_step_resend_send (c : Collab) (set : Nat) (hc : collab_frame c set)
    (m0 m : Mem) (a : Nat) (force : Bool) (hm : set_view set m = set_view set m0) :
    set_view set (check_set_resend_send c m a force).mem = set_view set m0 :=
  (view_check_set_resend_send c set hc m a force).trans hm

theorem view_step_fail_to_interpret (set : Nat) (m0 m : Mem) (a : Nat) (force : Bool)
    (f : ptlrpc_request → ptlrpc_request) (hg0 : ready a m0)
    (hn : nodes_off_sets (f (m.reqs a)) = nodes_off_sets (m.reqs a))
    (hm : set_view set m = set_view set m0) :
    set_view set (fail_to_interpret m a force f).mem = set_view set m0 :=
  view_step_move_to set m0 m a f RQ_PHASE_INTERPRET hg0 (by decide) (by decide) hn hm

theorem view_check_set_resend (c : Collab) (set : Nat) (hc : collab_frame c set)
    (imp : Option Nat) (m : Mem) (a : Nat) (force : Bool) (fl : check_flow) (hg : ready a m)
    (h : check_set_resend c imp m a force = some fl) : set_view set fl.mem = set_view set m := by
  unfold check_set_resend at h
  simp only [] at h
  repeat' split at h
  all_goals try contradiction
  all_goals cases h
  all_goals try simp only [check_flow_mem_next]
  all_goals
    repeat
      first
        | rfl
        | refine view_step_resend_bulk c set hc m _ a ?_
        | refine view_step_resend_send c set hc m _ a _ ?_
        | refine view_step_fail_to_interpret set m _ a _ _ hg (by rfl) ?_
        | refine view_step_modImp set m _ _ _ ?_
        | refine view_step_add_tail set m _ a a _ hg (by rfl) ?_
        | refine view_step_del_init set m _ a a hg ?_
        | refine view_step_unregister_reply c set hc m _ a _ hg ?_
        | refine view_step_expire c set hc m _ a _ hg ?_
        | refine view_step_core set m _ a _ (hc.LNetMDUnlink _) ?_
        | refine view_step_core set m _ a _ (hc.ptlrpc_unregister_bulk _ _ _) ?_
        | refine view_step_core set m _ a _ (hc.ptlrpc_no_resend _ _) ?_
        | refine view_step_core set m _ a _ (hc.sptlrpc_req_refresh_ctx _ _) ?_
        | refine view_step_core set m _ a _ (hc.ptl_send_rpc _ _) ?_
        | refine view_step_modReq set m _ a _ (by rfl) ?_
        | refine view_step_move_to set m _ a _ _ hg (by decide) (by decide) (by rfl) ?_

theorem view_check_set_reply (c : Collab) (set : Nat) (hc : collab_frame c set) (m : Mem)
    (a : Nat) (force : Bool) (fl : check_flow) (hg : ready a m)
    (h : check_set_reply c m a force = some fl) : set_view set fl.mem = set_view set m := by
  have h1 := view_unregister_reply c set hc m a true hg
  have hg1 := ready_of_view set a m _ h1 hg
  unfold check_set_reply at h
  simp only [] at h
  repeat' split at h
  all_goals try contradiction
  all_goals cases h
  all_goals try simp only [check_flow_mem_next, check_flow_mem_interpret, check_flow_mem_bulk]
  all_goals try exact h1
  · rename_i r hr
    exact view_at_recv_early_reply c set m a r hr
  all_goals
    have h2 := (view_after_reply c set hc _ a _ hg1 (by assumption)).trans h1
    first
      | exact view_step_modReq set m _ a _ (by rfl) h2
      | exact view_step_move_to set m _ a _ _ hg (by decide) (by decide) (by rfl)
          (view_step_modReq set m _ a _ (by rfl) h2)

theorem view_check_set_rpc (c : Collab) (set : Nat) (hc : collab_frame c set)
    (imp : Option Nat) (m : Mem) (a : Nat) (force : Bool) (fl : check_flow) (hg : ready a m)
    (h : check_set_rpc c imp m a force = some fl) : set_view set fl.mem = set_view set m := by
  unfold check_set_rpc at h
  split at h
  · split at h
    · cases h
    · rename_i m1 force1 hm1
      have h1 := view_check_set_resend c set hc imp m a force _ hg hm1
      exact view_chain set a m m1 fl.mem hg h1
        (fun hg1 => view_check_set_reply c set hc m1 a force1 fl hg1 h)
    · rename_i fl0 _ hfl
      cases h
      exact view_check_set_resend c set hc imp m a force _ hg hfl
  · exact view_check_set_reply c set hc m a force fl hg h

theorem nodes_status_eio (r : ptlrpc_request) :
    nodes_off_sets (if r.rq_status = 0 then { r with rq_status := - EIO } else r) =
      nodes_off_sets r := by
  split <;> rfl

theorem nodes_replied_eio (r : ptlrpc_request) :
    nodes_off_sets (if r.rq_status = 0 then { r with rq_replied := false, rq_status := - EIO }
      else { r with rq_replied := false }) = nodes_off_sets r := by
  split <;> rfl

theorem view_check_set_errors (c : Collab) (set : Nat) (hc : collab_frame c set) (m : Mem)
    (a : Nat) (force : Bool) (fl : check_flow) (hg : ready a m)
    (h : check_set_errors c m a force = some fl) : set_view set fl.mem = set_view set m := by
  have h1 := view_expire_one_request c set hc m a true hg
  unfold check_set_errors at h
  simp only [] at h
  repeat' split at h
  all_goals cases h
  all_goals try simp only [check_flow_mem_next, check_flow_mem_bulk]
  all_goals
    first
      | rfl
      | exact h1
      | exact view_step_fail_to_interpret set m _ a _ _ hg (nodes_status_eio _) h1
      | exact view_step_fail_to_interpret set m _ a _ _ hg (nodes_replied_eio _) rfl
      | exact view_step_fail_to_interpret set m _ a _ _ hg (by rfl) rfl

theorem view_check_set_bulk (c : Collab) (set : Nat) (m : Mem) (a : Nat)
    (force unregistered : Bool) (fl : check_flow) (hg : ready a m)
    (h : check_set_bulk c m a force unregistered = some fl) : set_view set fl.mem = set_view set m := by
  unfold check_set_bulk at h
  repeat' split at h
  all_goals try contradiction
  all_goals cases h
  · rfl
  · exact view_step_move_to set m m a (fun r => r) RQ_PHASE_INTERPRET hg (by decide) (by decide)
      rfl rfl

theorem view_check_set_phases (c : Collab) (set : Nat) (m : Mem) (a : Nat) (force : Bool)
    (fl : check_flow) (hg : ready a m)
    (h : check_set_phases c m a force = some fl) : set_view set fl.mem = set_view set m := by
  unfold check_set_phases at h
  repeat' split at h
  all_goals try contradiction
  all_goals cases h
  all_goals try simp only [check_flow_mem_next, check_flow_mem_interpret, check_flow_mem_bulk]
  all_goals
    exact view_modReq set m a _ (req_view_move_next _ (by assumption) hg.2)

theorem view_check_set_body (c : Collab) (set : Nat) (hc : collab_frame c set) (m : Mem)
    (a : Nat) (fl : check_flow) (hg : ready a m)
    (h : check_set_body c m a = some fl) : set_view set fl.mem = set_view set m := by
  unfold check_set_body at h
  simp only [] at h
  split at h
  · cases h
  rename_i m0 force0 hfirst
  have h0 : set_view set m0 = set_view set m := by
    split at hfirst
    · split at hfirst
      · cases hfirst
      · rename_i r hr
        cases hfirst
        exact view_send_new_req c set hc m a r hg hr
    · cases hfirst
      rfl
  have hg0 := ready_of_view set a m m0 h0 hg
  split at h
  · rename_i m1 force1 hph
    have h1 := (view_check_set_phases c set m0 a force0 _ hg0 hph).trans h0
    simp only [check_flow_mem_bulk] at h1
    have hg1 := ready_of_view set a m m1 h1 hg
    split at h
    · rename_i m2 force2 herr
      have h2 := (view_check_set_errors c set hc m1 a force1 _ hg1 herr).trans h1
      simp only [check_flow_mem_bulk] at h2
      have hg2 := ready_of_view set a m m2 h2 hg
      split at h
      · split at h
        · rename_i m3 force3 hrpc
          have h3 := (view_check_set_rpc c set hc _ m2 a force2 _ hg2 hrpc).trans h2
          simp only [check_flow_mem_bulk] at h3
          have hg3 := ready_of_view set a m m3 h3 hg
          exact (view_check_set_bulk c set m3 a force3 true fl hg3 h).trans h3
        · rename_i fl0 _
          exact (view_check_set_rpc c set hc _ m2 a force2 fl hg2 h).trans h2
      · exact (view_check_set_bulk c set m2 a force2 false fl hg2 h).trans h2
    · exact (view_check_set_errors c set hc m1 a force1 fl hg1 h).trans h1
  · exact (view_check_set_phases c set m0 a force0 fl hg0 h).trans h0

/-- The view after the request `a` has completed and the counter has been
decremented. -/
def completed (a : Nat) (g : List Nat × Int × (Nat → member_class × Bool)) :
    List Nat × Int × (Nat → member_class × Bool) :=
  (g.1, g.2.1 - 1, fun b => if b = a then (.done, (g.2.2 b).2) else g.2.2 b)

theorem view_req_interpret (c : Collab) (set : Nat) (hc : collab_frame c set) (m : Mem)
    (a : Nat) (rc : Int) : set_view set (ptlrpc_req_interpret c m a rc) = set_view set m := by
  unfold ptlrpc_req_interpret
  split
  · rfl
  · rename_i cb _
    show set_view set (m.modReq a (fun _ =>
      { (c.req_interpret cb (m.reqs a) rc).1 with
        rq_status := (c.req_interpret cb (m.reqs a) rc).2 })) = set_view set m
    exact view_modReq_core set m a _ (hc.req_interpret cb (m.reqs a) rc)

theorem view_complete_step (set a : Nat) (m0 m m5 : Mem)
    (hg0 : ready a m0) (hm : set_view set m = set_view set m0)
    (h5 : (∀ x, nodes_off_sets
        ((m.modReq a (fun r => ptlrpc_rqphase_move r RQ_PHASE_COMPLETE)).reqs x) = true) →
      set_view set m5 = set_view set (m.modReq a (fun r => ptlrpc_rqphase_move r RQ_PHASE_COMPLETE))) :
    set_view set (m5.modSet set (fun x => { x with set_remaining := x.set_remaining - 1 })) =
      completed a (set_view set m0) := by
  have hgm := ready_of_view set a m0 m hm hg0
  have hT4 : ∀ x, nodes_off_sets
      ((m.modReq a (fun r => ptlrpc_rqphase_move r RQ_PHASE_COMPLETE)).reqs x) = true := by
    intro x
    have hr : (m.modReq a (fun r => ptlrpc_rqphase_move r RQ_PHASE_COMPLETE)).reqs x =
        if x = a then ptlrpc_rqphase_move (m.reqs a) RQ_PHASE_COMPLETE else m.reqs x := rfl
    rw [hr]
    split
    · rw [rqphase_move_nodes]
      exact hgm.1 a
    · exact hgm.1 x
  have h6 : ∀ k : Mem, set_view set (k.modSet set
      (fun x => { x with set_remaining := x.set_remaining - 1 })) =
      ((set_view set k).1, (set_view set k).2.1 - 1, (set_view set k).2.2) := by
    intro k
    unfold set_view
    simp only [modSet_sets, if_true, modSet_reqs]
  rw [h6, h5 hT4, ← hm]
  unfold completed set_view
  simp only [modReq_sets, Prod.mk.injEq, true_and]
  funext b
  have hr : (m.modReq a (fun r => ptlrpc_rqphase_move r RQ_PHASE_COMPLETE)).reqs b =
      if b = a then ptlrpc_rqphase_move (m.reqs a) RQ_PHASE_COMPLETE else m.reqs b := rfl
  rw [hr]
  by_cases hb : b = a
  · subst hb
    simp only [if_true]
    unfold req_view
    rw [rqphase_move_nodes]
    have : member_class_of (ptlrpc_rqphase_move (m.reqs b) RQ_PHASE_COMPLETE) = .done := by
      unfold member_class_of
      rw [if_pos (rqphase_move_phase _ _)]
    rw [this]
  · simp only [if_neg hb]

theorem view_complete_plain (set a : Nat) (m0 m : Mem) (hg0 : ready a m0)
    (hm : set_view set m = set_view set m0) :
    set_view set ((m.modReq a (fun r => ptlrpc_rqphase_move r RQ_PHASE_COMPLETE)).modSet set
      (fun x => { x with set_remaining := x.set_remaining - 1 })) = completed a (set_view set m0) :=
  view_complete_step set a m0 m _ hg0 hm (fun _ => rfl)

theorem view_complete_unlink (set a i : Nat) (g : obd_import → obd_import) (m0 m : Mem)
    (hg0 : ready a m0) (hm : set_view set m = set_view set m0) :
    set_view set (((del_init_rq_list (m.modReq a (fun r => ptlrpc_rqphase_move r RQ_PHASE_COMPLETE))
        a).modImp i g).modSet set
      (fun x => { x with set_remaining := x.set_remaining - 1 })) = completed a (set_view set m0) :=
  view_complete_step set a m0 m _ hg0 hm (fun hT4 => by
    rw [view_modImp]
    exact view_del_init_rq_list set a _ hT4)

theorem view_check_set_interpret (c : Collab) (set : Nat) (hc : collab_frame c set)
    (imp : Option Nat) (m : Mem) (a : Nat) (unregistered : Bool) (m' : Mem) (hg : ready a m)
    (h : check_set_interpret c set imp m a unregistered = some m') :
    set_view set m' = set_view set m ∨ set_view set m' = completed a (set_view set m) := by
  have h1 := view_unregister_reply c set hc m a true hg
  unfold check_set_interpret at h
  cases unregistered
  all_goals simp only [Bool.false_eq_true, if_false, if_true] at h
  all_goals repeat' split at h
  all_goals try contradiction
  all_goals cases h
  all_goals
    first
      | (refine Or.inl ?_
         refine view_step_core set m _ a _ (hc.ptlrpc_unregister_bulk _ _ _) ?_
         first
           | exact h1
           | rfl)
      | (first
           | refine Or.inr (view_complete_plain set a m _ hg ?_)
           | refine Or.inr (view_complete_unlink set a _ _ m _ hg ?_)
         refine (view_req_interpret c set hc _ a _).trans ?_
         refine view_step_core set m _ a _ (hc.ptlrpc_unregister_bulk _ _ _) ?_
         first
           | exact h1
           | rfl)

theorem check_set_body_done (c : Collab) (m : Mem) (a : Nat)
    (hd : (m.reqs a).rq_phase = RQ_PHASE_COMPLETE) :
    check_set_body c m a = some (.next m false) := by
  unfold check_set_body
  simp only [hd]
  simp [check_set_phases, hd]

theorem view_check_set_one (c : Collab) (set : Nat) (hc : collab_frame c set) (m : Mem)
    (a : Nat) (r : Mem × Bool) (hT : ∀ x, nodes_off_sets (m.reqs x) = true)
    (hs : member_class_of (m.reqs a) ≠ .stray)
    (h : check_set_one c set m a = some r) :
    set_view set r.1 = set_view set m ∨
      (member_class_of (m.reqs a) = .live ∧ set_view set r.1 = completed a (set_view set m)) := by
  by_cases hd : (m.reqs a).rq_phase = RQ_PHASE_COMPLETE
  · unfold check_set_one at h
    rw [check_set_body_done c m a hd] at h
    cases h
    exact Or.inl rfl
  · have hl : member_class_of (m.reqs a) = .live := by
      unfold member_class_of at hs ⊢
      rw [if_neg hd] at hs ⊢
      split
      · rename_i h2
        rw [if_pos h2] at hs
        exact absurd rfl hs
      · rfl
    have hg : ready a m := ⟨hT, hl⟩
    unfold check_set_one at h
    split at h
    · cases h
    · rename_i m1 force hb
      cases h
      exact Or.inl (view_check_set_body c set hc m a _ hg hb)
    · rename_i m1 force hb
      cases h
      exact Or.inl (view_check_set_body c set hc m a _ hg hb)
    · rename_i m1 force unregistered hb
      have h1 := view_check_set_body c set hc m a _ hg hb
      simp only [check_flow_mem_interpret] at h1
      have hg1 := ready_of_view set a m m1 h1 hg
      split at h
      · cases h
      · rename_i m2 hm2
        cases h
        rcases view_check_set_interpret c set hc _ m1 a unregistered m2 hg1 hm2 with h2 | h2
        · exact Or.inl (h2.trans h1)
        · exact Or.inr ⟨hl, by rw [h2, h1]⟩

/-- The invariant of a set as a property of its view: the members are
distinct, no `rq_list` or `rq_replay_list` node is on a list of a set, no
member is in phase `UNREGISTERING` on its way to `COMPLETE`, and the counter is
the number of members that are not complete. -/
def view_inv (g : List Nat × Int × (Nat → member_class × Bool)) : Prop :=
  g.1.Nodup ∧ (∀ b, (g.2.2 b).2 = true) ∧ (∀ b ∈ g.1, (g.2.2 b).1 ≠ .stray) ∧
  g.2.1 = ((g.1.filter (fun b => decide ((g.2.2 b).1 ≠ .done))).length : Int)

theorem filter_length_mark (l : List Nat) (a : Nat) (p q : Nat → Bool) (hnd : l.Nodup)
    (ha : a ∈ l) (hp : p a = true) (hq : q a = false) (hpq : ∀ b, b ≠ a → q b = p b) :
    ((l.filter q).length : Int) = (l.filter p).length - 1 := by
  induction l with
  | nil => exact absurd ha (List.not_mem_nil _)
  | cons x rest ih =>
    rw [List.nodup_cons] at hnd
    by_cases hx : x = a
    · subst hx
      have hsame : rest.filter q = rest.filter p := by
        apply List.filter_congr
        intro b hb
        exact hpq b (fun h => hnd.1 (h ▸ hb))
      rw [List.filter_cons_of_neg (by rw [hq]; decide), List.filter_cons_of_pos hp, hsame]
      simp
    · have hain : a ∈ rest := by
        rcases List.mem_cons.mp ha with h | h
        · exact absurd h.symm hx
        · exact h
      have := ih hnd.2 hain
      have hqx : q x = p x := hpq x hx
      by_cases hpx : p x = true
      · rw [List.filter_cons_of_pos (by rw [hqx]; exact hpx), List.filter_cons_of_pos hpx]
        simp only [List.length_cons, Nat.cast_add, Nat.cast_one]
        omega
      · rw [List.filter_cons_of_neg (by rw [hqx]; exact hpx), List.filter_cons_of_neg hpx]
        exact this

theorem view_inv_completed (g : List Nat × Int × (Nat → member_class × Bool)) (a : Nat)
    (ha : a ∈ g.1) (hl : (g.2.2 a).1 = .live) (h : view_inv g) : view_inv (completed a g) := by
  obtain ⟨h1, h2, h3, h4⟩ := h
  refine ⟨h1, ?_, ?_, ?_⟩
  · intro b
    show (if b = a then (member_class.done, (g.2.2 b).2) else g.2.2 b).2 = true
    split
    · exact h2 b
    · exact h2 b
  · intro b hb
    show (if b = a then (member_class.done, (g.2.2 b).2) else g.2.2 b).1 ≠ .stray
    split
    · exact fun hh => member_class.noConfusion hh
    · exact h3 b hb
  · show g.2.1 - 1 = ((g.1.filter (fun b => decide
      ((if b = a then (member_class.done, (g.2.2 b).2) else g.2.2 b).1 ≠ .done))).length : Int)
    rw [h4]
    symm
    apply filter_length_mark g.1 a _ _ h1 ha
    · rw [hl]; decide
    · simp
    · intro b hb
      simp [hb]

theorem loop_members (c : Collab) (set : Nat) (hc : collab_frame c set) (m : Mem) (a : Nat)
    (r : Mem × Bool) (hv : view_inv (set_view set m)) (ha : a ∈ (m.sets set).set_requests)
    (h : check_set_one c set m a = some r) :
    view_inv (set_view set r.1) ∧ (r.1.sets set).set_requests = (m.sets set).set_requests := by
  have hT : ∀ x, nodes_off_sets (m.reqs x) = true := hv.2.1
  have hs : member_class_of (m.reqs a) ≠ .stray := hv.2.2.1 a ha
  rcases view_check_set_one c set hc m a r hT hs h with h1 | ⟨hl, h1⟩
  · rw [h1]
    exact ⟨hv, congrArg Prod.fst h1⟩
  · rw [h1]
    exact ⟨view_inv_completed _ a ha hl hv, congrArg Prod.fst h1⟩

theorem check_set_loop_inv (c : Collab) (set : Nat) (hc : collab_frame c set) (l : List Nat) :
    ∀ (m : Mem) (force : Bool) (r : Mem × Bool),
      (∀ x ∈ l, x ∈ (m.sets set).set_requests) → view_inv (set_view set m) →
      check_set_loop c set m force l = some r → view_inv (set_view set r.1) := by
  induction l with
  | nil =>
    intro m force r _ hv h
    unfold check_set_loop at h
    cases h
    exact hv
  | cons a rest ih =>
    intro m force r hmem hv h
    unfold check_set_loop at h
    split at h
    · cases h
    · rename_i m1 force1 h1
      obtain ⟨hv1, hl1⟩ := loop_members c set hc m a (m1, force1) hv
        (hmem a (List.mem_cons_self _ _)) h1
      refine ih m1 _ r ?_ hv1 h
      intro x hx
      show x ∈ (m1.sets set).set_requests
      have : (m1.sets set).set_requests = (m.sets set).set_requests := hl1
      rw [this]
      exact hmem x (List.mem_cons_of_mem _ hx)

theorem check_set_inv (c : Collab) (set : Nat) (hc : collab_frame c set) (m : Mem)
    (r : Mem × Int) (hv : view_inv (set_view set m)) (h : ptlrpc_check_set c m set = some r) :
    view_inv (set_view set r.1) := by
  unfold ptlrpc_check_set at h
  split at h
  · cases h
    exact hv
  · split at h
    · cases h
    · rename_i m1 force h1
      cases h
      exact check_set_loop_inv c set hc _ m false (m1, force) (fun _ hx => hx) hv h1

/-- The counter of the set is the number of its members that are not in
phase `COMPLETE`. -/
def set_count_invariant (m : Mem) (set : Nat) : Prop :=
  (m.sets set).set_remaining =
    (((m.sets set).set_requests.filter
      (fun b => decide ((m.reqs b).rq_phase ≠ RQ_PHASE_COMPLETE))).length : Int)

/-- The lists are well formed for the set: its members are distinct, no request
is linked through its `rq_list` or `rq_replay_list` node on a list of a set,
and no member is in phase `UNREGISTERING` with `COMPLETE` as the phase to
continue with. -/
def set_well_formed (m : Mem) (set : Nat) : Prop :=
  (m.sets set).set_requests.Nodup ∧ (∀ b, nodes_off_sets (m.reqs b) = true) ∧
  ∀ b ∈ (m.sets set).set_requests,
    ¬ ((m.reqs b).rq_phase = RQ_PHASE_UNREGISTERING ∧
       (m.reqs b).rq_next_phase = RQ_PHASE_COMPLETE)

theorem class_done_iff (r : ptlrpc_request) :
    member_class_of r = .done ↔ r.rq_phase = RQ_PHASE_COMPLETE := by
  unfold member_class_of
  constructor
  · intro h
    repeat' split at h
    all_goals try contradiction
    assumption
  · intro h
    rw [if_pos h]

theorem class_stray_iff (r : ptlrpc_request) :
    member_class_of r = .stray ↔
      (r.rq_phase = RQ_PHASE_UNREGISTERING ∧ r.rq_next_phase = RQ_PHASE_COMPLETE) := by
  unfold member_class_of
  constructor
  · intro h
    repeat' split at h
    all_goals try contradiction
    assumption
  · intro h
    rw [if_neg (by rw [h.1]; decide), if_pos h]

theorem view_inv_iff (m : Mem) (set : Nat) :
    view_inv (set_view set m) ↔ set_well_formed m set ∧ set_count_invariant m set := by
  have hf : (fun b => decide ((req_view (m.reqs b)).1 ≠ member_class.done)) =
      (fun b => decide ((m.reqs b).rq_phase ≠ RQ_PHASE_COMPLETE)) := by
    funext b
    show decide (member_class_of (m.reqs b) ≠ .done) = _
    rw [decide_eq_decide, not_iff_not]
    exact class_done_iff _
  unfold view_inv set_well_formed set_count_invariant set_view
  simp only []
  rw [hf]
  constructor
  · rintro ⟨h1, h2, h3, h4⟩
    exact ⟨⟨h1, h2, fun b hb hh => h3 b hb ((class_stray_iff _).mpr hh)⟩, h4⟩
  · rintro ⟨⟨h1, h2, h3⟩, h4⟩
    exact ⟨h1, h2, fun b hb hh => h3 b hb ((class_stray_iff _).mp hh), h4⟩

theorem prep_set_inv (m : Mem) (set : Nat) :
    set_count_invariant (ptlrpc_prep_set (some set) m).1 set ∧
    ((∀ b, nodes_off_sets (m.reqs b) = true) →
      set_well_formed (ptlrpc_prep_set (some set) m).1 set) := by
  unfold ptlrpc_prep_set set_count_invariant set_well_formed
  simp only [modSet_sets, if_true, modSet_reqs, List.filter_nil, List.length_nil,
    Nat.cast_zero, List.nodup_nil, List.not_mem_nil, true_and]
  exact fun h => ⟨h, fun _ hb => hb.elim⟩

theorem set_add_req_fields (m : Mem) (set a : Nat) :
    ((ptlrpc_set_add_req m set a).sets set).set_requests = (m.sets set).set_requests ++ [a] ∧
    ((ptlrpc_set_add_req m set a).sets set).set_remaining = (m.sets set).set_remaining + 1 ∧
    (∀ b, ((ptlrpc_set_add_req m set a).reqs b).rq_phase = (m.reqs b).rq_phase ∧
      ((ptlrpc_set_add_req m set a).reqs b).rq_next_phase = (m.reqs b).rq_next_phase ∧
      nodes_off_sets ((ptlrpc_set_add_req m set a).reqs b) = nodes_off_sets (m.reqs b)) := by
  refine ⟨?_, ?_, ?_⟩
  · simp [ptlrpc_set_add_req, add_tail_rq_set_chain, Mem.set_list, Mem.list_of,
      inc_set_remaining]
  · simp [ptlrpc_set_add_req, add_tail_rq_set_chain, Mem.set_list, Mem.list_of,
      inc_set_remaining]
  · intro b
    have hr : (ptlrpc_set_add_req m set a).reqs b =
        if b = a then set_rq_set set (link_rq_set_chain (.set_requests set) (m.reqs a))
        else m.reqs b := by
      by_cases hb : b = a
      · subst hb
        simp [ptlrpc_set_add_req, add_tail_rq_set_chain, Mem.set_list, Mem.modReq, upd]
      · simp [ptlrpc_set_add_req, add_tail_rq_set_chain, Mem.set_list, Mem.modReq, upd, hb]
    rw [hr]
    split
    · rename_i hb
      subst hb
      exact ⟨rfl, rfl, rfl⟩
    · exact ⟨rfl, rfl, rfl⟩

theorem set_add_req_inv (m : Mem) (set a : Nat) (hwf : set_well_formed m set)
    (hinv : set_count_invariant m set) (ha : a ∉ (m.sets set).set_requests)
    (hph : (m.reqs a).rq_phase ≠ RQ_PHASE_COMPLETE)
    (hst : ¬ ((m.reqs a).rq_phase = RQ_PHASE_UNREGISTERING ∧
      (m.reqs a).rq_next_phase = RQ_PHASE_COMPLETE)) :
    set_well_formed (ptlrpc_set_add_req m set a) set ∧
    set_count_invariant (ptlrpc_set_add_req m set a) set := by
  obtain ⟨f1, f2, f3⟩ := set_add_req_fields m set a
  obtain ⟨w1, w2, w3⟩ := hwf
  unfold set_well_formed set_count_invariant
  rw [f1, f2]
  refine ⟨⟨?_, ?_, ?_⟩, ?_⟩
  · rw [List.nodup_append]
    refine ⟨w1, List.nodup_singleton a, ?_⟩
    intro x hx hx2
    rw [List.mem_singleton] at hx2
    subst hx2
    exact ha hx
  · intro b
    rw [(f3 b).2.2]
    exact w2 b
  · intro b hb
    rw [(f3 b).1, (f3 b).2.1]
    rcases List.mem_append.mp hb with h | h
    · exact w3 b h
    · rw [List.mem_singleton] at h
      subst h
      exact hst
  · have hf : (fun b => decide (((ptlrpc_set_add_req m set a).reqs b).rq_phase ≠
        RQ_PHASE_COMPLETE)) = (fun b => decide ((m.reqs b).rq_phase ≠ RQ_PHASE_COMPLETE)) := by
      funext b
      rw [(f3 b).1]
    rw [hf, List.filter_append, List.length_append, hinv]
    have : [a].filter (fun b => decide ((m.reqs b).rq_phase ≠ RQ_PHASE_COMPLETE)) = [a] := by
      simp [hph]
    rw [this]
    simp

theorem view_fakereq_rpc (m : Mem) (set a : Nat) (hT : ∀ b, nodes_off_sets (m.reqs b) = true)
    (hset : (m.reqs a).rq_set = some set) (hph : (m.reqs a).rq_phase = RQ_PHASE_RPC) :
    set_view set (ptlrpc_fakereq_finished m a) = completed a (set_view set m) := by
  have hg : ready a m := ⟨hT, class_live_of_phase _ (by rw [hph]; decide) (by rw [hph]; decide)⟩
  unfold ptlrpc_fakereq_finished
  rw [if_pos hph]
  simp only [hset]
  have hX : set_view set ((m.modSet set dec_set_remaining).modReq a
      (fun r => ptlrpc_rqphase_move r RQ_PHASE_COMPLETE)) = completed a (set_view set m) := by
    have := view_complete_plain set a m m hg rfl
    rw [← this]
    rfl
  have hTX : ∀ x, nodes_off_sets (((m.modSet set dec_set_remaining).modReq a
      (fun r => ptlrpc_rqphase_move r RQ_PHASE_COMPLETE)).reqs x) = true := by
    intro x
    have hr : ((m.modSet set dec_set_remaining).modReq a
        (fun r => ptlrpc_rqphase_move r RQ_PHASE_COMPLETE)).reqs x =
        if x = a then ptlrpc_rqphase_move (m.reqs a) RQ_PHASE_COMPLETE else m.reqs x := rfl
    rw [hr]
    split
    · rw [rqphase_move_nodes]
      exact hT a
    · exact hT x
  rw [view_del_init_rq_list set a _ hTX, hX]

theorem view_fakereq_done (m : Mem) (set a : Nat) (hT : ∀ b, nodes_off_sets (m.reqs b) = true)
    (hph : (m.reqs a).rq_phase = RQ_PHASE_COMPLETE) :
    set_view set (ptlrpc_fakereq_finished m a) = set_view set m := by
  unfold ptlrpc_fakereq_finished
  rw [if_neg (by rw [hph]; decide)]
  simp only []
  have hmove : ptlrpc_rqphase_move (m.reqs a) RQ_PHASE_COMPLETE = m.reqs a := by
    unfold ptlrpc_rqphase_move
    rw [if_pos hph]
  have hX : set_view set (m.modReq a (fun r => ptlrpc_rqphase_move r RQ_PHASE_COMPLETE)) = set_view set m :=
    view_modReq set m a _ (by rw [hmove])
  have hTX : ∀ x, nodes_off_sets ((m.modReq a
      (fun r => ptlrpc_rqphase_move r RQ_PHASE_COMPLETE)).reqs x) = true := by
    intro x
    have hr : (m.modReq a (fun r => ptlrpc_rqphase_move r RQ_PHASE_COMPLETE)).reqs x =
        if x = a then ptlrpc_rqphase_move (m.reqs a) RQ_PHASE_COMPLETE else m.reqs x := rfl
    rw [hr]
    split
    · rw [rqphase_move_nodes]
      exact hT a
    · exact hT x
  rw [view_del_init_rq_list set a _ hTX, hX]

theorem fakereq_finished_inv (m : Mem) (set a : Nat) (hwf : set_well_formed m set)
    (hinv : set_count_invariant m set) (ha : a ∈ (m.sets set).set_requests)
    (hset : (m.reqs a).rq_set = some set)
    (hph : (m.reqs a).rq_phase = RQ_PHASE_RPC ∨ (m.reqs a).rq_phase = RQ_PHASE_COMPLETE) :
    set_well_formed (ptlrpc_fakereq_finished m a) set ∧
    set_count_invariant (ptlrpc_fakereq_finished m a) set := by
  have hv := (view_inv_iff m set).mpr ⟨hwf, hinv⟩
  rw [← view_inv_iff]
  rcases hph with hph | hph
  · rw [view_fakereq_rpc m set a hwf.2.1 hset hph]
    exact view_inv_completed _ a ha
      (class_live_of_phase _ (by rw [hph]; decide) (by rw [hph]; decide)) hv
  · rw [view_fakereq_done m set a hwf.2.1 hph]
    exact hv

theorem collab_plain_frame (set : Nat) : collab_frame collab_plain set :=
  { LNetMDUnlink := fun _ => rfl
    reply_unlinked := fun _ => rfl
    ptlrpc_unregister_bulk := fun _ _ _ => rfl
    ptlrpc_no_resend := fun _ _ => rfl
    sptlrpc_req_refresh_ctx := fun _ _ => rfl
    ptl_send_rpc := fun _ _ => rfl
    sptlrpc_cli_unwrap_reply := fun _ => rfl
    ptlrpc_unpack_rep_msg := fun _ => rfl
    lustre_unpack_rep_ptlrpc_body := fun _ => rfl
    req_interpret := fun _ _ _ => rfl
    ptlrpc_fail_import := fun _ _ _ => rfl
    ptlrpc_request_handle_notconn := fun _ _ => rfl }

/-- A new set 0 to which the request 1, in phase `NEW`, has been added. -/
def mem_new_member : Mem := ptlrpc_set_add_req (ptlrpc_prep_set (some 0) {}).1 0 1

/-- Set 0 with the single member 1, which is in phase `UNREGISTERING` with
`COMPLETE` as the phase to continue with; its buffers are unlinked. -/
def mem_stray_member : Mem :=
  { now := 100
    reqs := fun _ =>
      { rq_phase := RQ_PHASE_UNREGISTERING, rq_next_phase := RQ_PHASE_COMPLETE,
        rq_import := some 0, rq_set := some 0, rq_set_chain := some (.set_requests 0) }
    sets := fun _ => { set_requests := [1], set_remaining := 1 } }

/-- C30 as stated fails.  For the set made by `ptlrpc_prep_set` to which
`ptlrpc_set_add_req` has added the request 1 in phase `NEW`, the counter is 1
and equals the number of members that are not complete; `ptlrpc_fakereq_finished`
on that member moves it to `COMPLETE` without touching the counter (it
decrements only in phase `RPC`), so that the counter is 1 with no member left to
complete.  And a pass of `ptlrpc_check_set` over a set whose only member is in
phase `UNREGISTERING` with `COMPLETE` as the next phase moves the member to
`COMPLETE` and leaves the counter at 1. -/
theorem set_remaining_counterexample :
    ((mem_new_member.reqs 1).rq_phase = RQ_PHASE_NEW ∧
     (mem_new_member.sets 0).set_requests = [1] ∧
     set_count_invariant mem_new_member 0 ∧
     ((ptlrpc_fakereq_finished mem_new_member 1).sets 0).set_requests = [1] ∧
     ((ptlrpc_fakereq_finished mem_new_member 1).sets 0).set_remaining = 1 ∧
     ((ptlrpc_fakereq_finished mem_new_member 1).reqs 1).rq_phase = RQ_PHASE_COMPLETE ∧
     ¬ set_count_invariant (ptlrpc_fakereq_finished mem_new_member 1) 0) ∧
    (set_count_invariant mem_stray_member 0 ∧
     (ptlrpc_check_set collab_plain mem_stray_member 0).map
        (fun r => ((r.1.sets 0).set_requests, (r.1.sets 0).set_remaining,
          (r.1.reqs 1).rq_phase)) = some ([1], 1, RQ_PHASE_COMPLETE)) := by
  unfold set_count_invariant
  refine ⟨⟨by decide, by decide, by decide, by decide, by decide, by decide, by decide⟩,
    by decide, by decide⟩

/-- C30 (amended): for a set whose lists are well formed (distinct members, no
`rq_list` or `rq_replay_list` node on a list of a set, no member in phase
`UNREGISTERING` with `COMPLETE` as the next phase), `set_remaining` equals the
number of members on `set_requests` whose phase is not `COMPLETE`: the equality
is established by `ptlrpc_prep_set`; it is preserved by `ptlrpc_set_add_req` of
a request that is not yet a member, not `COMPLETE` and not on its way there, by
every pass of `ptlrpc_check_set` that returns (with collaborators that leave
the phases, the list nodes and the set alone), which therefore decrements the
counter exactly once for each member it moves to `COMPLETE`, and by
`ptlrpc_fakereq_finished` on a member that is in phase `RPC` (or is already
`COMPLETE`) and points to the set. -/
theorem set_remaining_counts (c : Collab) (set : Nat) (hc : collab_frame c set) :
    (∀ m : Mem, set_count_invariant (ptlrpc_prep_set (some set) m).1 set ∧
      ((∀ b, nodes_off_sets (m.reqs b) = true) →
        set_well_formed (ptlrpc_prep_set (some set) m).1 set)) ∧
    (∀ (m : Mem) (a : Nat), set_well_formed m set → set_count_invariant m set →
      a ∉ (m.sets set).set_requests → (m.reqs a).rq_phase ≠ RQ_PHASE_COMPLETE →
      ¬ ((m.reqs a).rq_phase = RQ_PHASE_UNREGISTERING ∧
         (m.reqs a).rq_next_phase = RQ_PHASE_COMPLETE) →
      set_well_formed (ptlrpc_set_add_req m set a) set ∧
      set_count_invariant (ptlrpc_set_add_req m set a) set) ∧
    (∀ (m m' : Mem) (rc : Int), set_well_formed m set → set_count_invariant m set →
      ptlrpc_check_set c m set = some (m', rc) →
      set_well_formed m' set ∧ set_count_invariant m' set) ∧
    (∀ (m : Mem) (a : Nat), set_well_formed m set → set_count_invariant m set →
      a ∈ (m.sets set).set_requests → (m.reqs a).rq_set = some set →
      ((m.reqs a).rq_phase = RQ_PHASE_RPC ∨ (m.reqs a).rq_phase = RQ_PHASE_COMPLETE) →
      set_well_formed (ptlrpc_fakereq_finished m a) set ∧
      set_count_invariant (ptlrpc_fakereq_finished m a) set) := by
  refine ⟨fun m => prep_set_inv m set, fun m a => set_add_req_inv m set a, ?_,
    fun m a => fakereq_finished_inv m set a⟩
  intro m m' rc hwf hinv h
  have hv := (view_inv_iff m set).mpr ⟨hwf, hinv⟩
  exact (view_inv_iff m' set).mp (check_set_inv c set hc m (m', rc) hv h)

/-- Set 0 at time 100 with two members: request 1 in phase `INTERPRET` with its
buffers unlinked, request 2 in phase `RPC` waiting for its reply. -/
def mem_counted : Mem :=
  { now := 100
    reqs := fun a =>
      if a = 1 then
        { rq_phase := RQ_PHASE_INTERPRET, rq_import := some 0, rq_set := some 0,
          rq_set_chain := some (.set_requests 0), rq_refcount := 1 }
      else
        { rq_phase := RQ_PHASE_RPC, rq_import := some 0, rq_set := some 0,
          rq_set_chain := some (.set_requests 0), rq_refcount := 1, rq_sent := 100,
          rq_timeout := 100, rq_deadline := 200, rq_receiving_reply := true }
    imps := fun _ => { imp_state := LUSTRE_IMP_FULL }
    sets := fun _ => { set_requests := [1, 2], set_remaining := 2 } }

theorem mem_counted_well_formed : set_well_formed mem_counted 0 := by
  refine ⟨by decide, ?_, by decide⟩
  intro b
  unfold mem_counted
  simp only []
  split <;> rfl

/-- C30 witness: a pass of `ptlrpc_check_set` over `mem_counted` completes
request 1 and leaves request 2 in flight; the counter goes from 2 to 1, the
number of members that are not complete. -/
theorem set_remaining_counts_witness :
    set_count_invariant mem_counted 0 ∧
    set_count_invariant ((ptlrpc_check_set collab_plain mem_counted 0).getD ({}, 0)).1 0 ∧
    (ptlrpc_check_set collab_plain mem_counted 0).map
        (fun r => ((r.1.sets 0).set_remaining, (r.1.reqs 1).rq_phase, (r.1.reqs 2).rq_phase)) =
      some (1, RQ_PHASE_COMPLETE, RQ_PHASE_RPC) :=
  ⟨by unfold set_count_invariant; decide,
   ((set_remaining_counts collab_plain 0 (collab_plain_frame 0)).2.2.1 mem_counted
      ((ptlrpc_check_set collab_plain mem_counted 0).getD ({}, 0)).1
      ((ptlrpc_check_set collab_plain mem_counted 0).getD ({}, 0)).2
      mem_counted_well_formed (by unfold set_count_invariant; decide)
      (eq_some_getD _ ({}, 0) (by decide))).2,
   by decide⟩

end Lustre
